import Mathlib

/-!
# VeilVM: a shallow embedding of the action set and its storage schema

The Go sources under `actions/`, `storage/` and `consts/` are embedded as pure
Lean functions.

* Go `uint8`, `uint16`, `uint32`, `uint64` are `Fin 2^w`; `+`, `-`, `*` on `Fin`
  wrap exactly like the Go operators.
* Go `int64` is `I64`, the two's-complement bit pattern, read through `I64.toInt`.
* Go `[]byte` and `string` are `List Byte`; a nil slice and an empty slice are
  both `[]`.
* `state.Mutable` is a finite map `Store`; `GetValue` fails with
  `database.ErrNotFound` exactly on absent keys, `Insert` and `Remove` never
  fail. An action that returns an error leaves the store untouched (the host
  runtime rolls the transaction back), so `Execute` returns the new store only
  on success.
* The process-wide verifier handle is passed explicitly as `Env`.
* The metrics collector is not on the consensus path and is not modelled.
-/

namespace VeilVM

/-! ## Machine integers and byte strings -/

abbrev Byte := Fin 256
abbrev Bytes := List Byte
abbrev U16 := Fin 65536
abbrev U32 := Fin 4294967296
abbrev U64 := Fin 18446744073709551616

/-- Conversion `uint8(n)`. -/
def byteOf (n : Nat) : Byte := ⟨n % 256, Nat.mod_lt _ (by decide)⟩

/-- Conversion `uint16(n)`. -/
def toU16 (n : Nat) : U16 := ⟨n % 65536, Nat.mod_lt _ (by decide)⟩

/-- Conversion `uint32(n)`. -/
def toU32 (n : Nat) : U32 := ⟨n % 4294967296, Nat.mod_lt _ (by decide)⟩

/-- Conversion `uint64(n)`. -/
def toU64 (n : Nat) : U64 := ⟨n % 18446744073709551616, Nat.mod_lt _ (by decide)⟩

/-- Go `int64`, kept as its two's-complement bit pattern. -/
structure I64 where
  bits : U64
deriving DecidableEq

/-- The integer denoted by an `int64`. -/
def I64.toInt (x : I64) : Int :=
  if x.bits.val < 9223372036854775808 then (x.bits.val : Int)
  else (x.bits.val : Int) - 18446744073709551616

/-- Conversion `int64(z)` of an integer, wrapping modulo `2^64`. -/
def I64.ofInt (z : Int) : I64 := ⟨toU64 (z % 18446744073709551616).toNat⟩

/-- Go `a + b` on `int64` (wraps on overflow). -/
def I64.add (a b : I64) : I64 := ⟨a.bits + b.bits⟩

/-- Go `a * b` on `int64` (wraps on overflow). -/
def I64.mul (a b : I64) : I64 := ⟨a.bits * b.bits⟩

/-- Go `a % b` on `int64` for `b ≠ 0`: the remainder of truncated division. -/
def I64.rem (a b : I64) : I64 := I64.ofInt (Int.tmod a.toInt b.toInt)

/-- The ASCII bytes of a string constant. -/
def ascii (s : String) : Bytes := s.toList.map (fun c => byteOf c.toNat)

/-- Go slice expression `v[a:b]`. -/
def slice (v : Bytes) (a b : Nat) : Bytes := (v.drop a).take (b - a)

/-- Big-endian value of a byte string. -/
def beNat (b : Bytes) : Nat := b.foldl (fun acc x => acc * 256 + x.val) 0

/-- Encoding `binary.BigEndian.AppendUint16(nil, x)`. -/
def be16 (x : U16) : Bytes := [byteOf (x.val / 256), byteOf x.val]

/-- Encoding `binary.BigEndian.AppendUint32(nil, x)`. -/
def be32 (x : U32) : Bytes :=
  [byteOf (x.val / 16777216), byteOf (x.val / 65536), byteOf (x.val / 256), byteOf x.val]

/-- Encoding `binary.BigEndian.AppendUint64(nil, x)`. -/
def be64 (x : U64) : Bytes :=
  [byteOf (x.val / 72057594037927936), byteOf (x.val / 281474976710656),
   byteOf (x.val / 1099511627776), byteOf (x.val / 4294967296),
   byteOf (x.val / 16777216), byteOf (x.val / 65536), byteOf (x.val / 256), byteOf x.val]

/-- Decoding `binary.BigEndian.Uint16(v)`; callers pass at least two bytes. -/
def u16be (v : Bytes) : U16 := toU16 (beNat (v.take 2))

/-- Decoding `binary.BigEndian.Uint32(v)`; callers pass at least four bytes. -/
def u32be (v : Bytes) : U32 := toU32 (beNat (v.take 4))

/-- Decoding `binary.BigEndian.Uint64(v)`; callers pass at least eight bytes. -/
def u64be (v : Bytes) : U64 := toU64 (beNat (v.take 8))

/-- A Go array `[n]byte`. -/
abbrev FixedBytes (n : Nat) := { b : Bytes // b.length = n }

/-- Identifier `ids.ID`, a `[32]byte`. -/
abbrev ID := FixedBytes 32

/-- Account `codec.Address`, a `[33]byte`. -/
abbrev Address := FixedBytes 33

/-- Go `copy(dst[:], src)` into a fresh zeroed `[n]byte`. -/
def copyInto (n : Nat) (src : Bytes) : FixedBytes n :=
  ⟨src.take n ++ List.replicate (n - src.length) 0, by
    simp only [List.length_append, List.length_take, List.length_replicate]; omega⟩

/-- The zero value of `[n]byte`. -/
def zeroBytes (n : Nat) : FixedBytes n := ⟨List.replicate n 0, List.length_replicate _ _⟩

/-! ## Errors -/

/-- Go `error` values. A sentinel is a package-level `errors.New` variable,
identified by its name; `wrapf` is `fmt.Errorf("%w: ...", target, ...)` with a
formatted text; `wrapv` is `fmt.Errorf("%w: %v", target, cause)`; `text` is an
error built in place without `%w`; `goPanic` is a run-time panic that aborts
the action. -/
inductive Err where
  | sentinel (name : String)
  | text (msg : String)
  | wrapf (target : Err) (detail : String)
  | wrapv (target : Err) (cause : Err)
  | goPanic (msg : String)
deriving DecidableEq, Repr

deriving instance DecidableEq for Except

/-- Go `errors.Is(err, target)` for a sentinel target: follow the `%w` chain. -/
def errorsIs : Err → Err → Bool
  | .wrapf inner _, t => errorsIs inner t
  | .wrapv inner _, t => errorsIs inner t
  | e, t => decide (e = t)

/-! ## SHA-256 (`crypto/sha256`, FIPS 180-4) -/

namespace SHA256

/-- Round constants. -/
def K : List Nat := [
  0x428a2f98, 0x71374491, 0xb5c0fbcf, 0xe9b5dba5, 0x3956c25b, 0x59f111f1, 0x923f82a4, 0xab1c5ed5,
  0xd807aa98, 0x12835b01, 0x243185be, 0x550c7dc3, 0x72be5d74, 0x80deb1fe, 0x9bdc06a7, 0xc19bf174,
  0xe49b69c1, 0xefbe4786, 0x0fc19dc6, 0x240ca1cc, 0x2de92c6f, 0x4a7484aa, 0x5cb0a9dc, 0x76f988da,
  0x983e5152, 0xa831c66d, 0xb00327c8, 0xbf597fc7, 0xc6e00bf3, 0xd5a79147, 0x06ca6351, 0x14292967,
  0x27b70a85, 0x2e1b2138, 0x4d2c6dfc, 0x53380d13, 0x650a7354, 0x766a0abb, 0x81c2c92e, 0x92722c85,
  0xa2bfe8a1, 0xa81a664b, 0xc24b8b70, 0xc76c51a3, 0xd192e819, 0xd6990624, 0xf40e3585, 0x106aa070,
  0x19a4c116, 0x1e376c08, 0x2748774c, 0x34b0bcb5, 0x391c0cb3, 0x4ed8aa4a, 0x5b9cca4f, 0x682e6ff3,
  0x748f82ee, 0x78a5636f, 0x84c87814, 0x8cc70208, 0x90befffa, 0xa4506ceb, 0xbef9a3f7, 0xc67178f2]

/-- Truncation to a 32-bit word. -/
def w32 (x : Nat) : Nat := x % 4294967296

/-- Rotate a 32-bit word right by `n` bits. -/
def rotr (x n : Nat) : Nat := w32 ((x >>> n) ||| (x <<< (32 - n)))

def bigSigma0 (x : Nat) : Nat := rotr x 2 ^^^ rotr x 13 ^^^ rotr x 22
def bigSigma1 (x : Nat) : Nat := rotr x 6 ^^^ rotr x 11 ^^^ rotr x 25
def smallSigma0 (x : Nat) : Nat := rotr x 7 ^^^ rotr x 18 ^^^ (x >>> 3)
def smallSigma1 (x : Nat) : Nat := rotr x 17 ^^^ rotr x 19 ^^^ (x >>> 10)
def ch (x y z : Nat) : Nat := (x &&& y) ^^^ ((x ^^^ 4294967295) &&& z)
def maj (x y z : Nat) : Nat := (x &&& y) ^^^ (x &&& z) ^^^ (y &&& z)

/-- The eight working words. -/
structure Digest where
  a : Nat
  b : Nat
  c : Nat
  d : Nat
  e : Nat
  f : Nat
  g : Nat
  h : Nat

/-- Initial hash value. -/
def init : Digest :=
  ⟨0x6a09e667, 0xbb67ae85, 0x3c6ef372, 0xa54ff53a, 0x510e527f, 0x9b05688c, 0x1f83d9ab, 0x5be0cd19⟩

/-- One compression round with constant `k` and schedule word `w`. -/
def round (s : Digest) (k w : Nat) : Digest :=
  let t1 := w32 (s.h + bigSigma1 s.e + ch s.e s.f s.g + k + w)
  let t2 := w32 (bigSigma0 s.a + maj s.a s.b s.c)
  ⟨w32 (t1 + t2), s.a, s.b, s.c, w32 (s.d + t1), s.e, s.f, s.g⟩

/-- Next message-schedule word from the sliding window of the last sixteen. -/
def nextWord (win : List Nat) : Nat :=
  w32 (smallSigma1 (win.getD 14 0) + win.getD 9 0 + smallSigma0 (win.getD 1 0) + win.getD 0 0)

/-- The first `n` big-endian 32-bit words of a block. -/
def blockWords : Nat → Bytes → List Nat
  | 0, _ => []
  | n + 1, b => beNat (b.take 4) :: blockWords n (b.drop 4)

/-- Compression of one 64-byte block. -/
def compress (hs : Digest) (block : Bytes) : Digest :=
  let r := K.foldl (fun (p : Digest × List Nat) k =>
      (round p.1 k (p.2.getD 0 0), p.2.drop 1 ++ [nextWord p.2])) (hs, blockWords 16 block)
  let s := r.1
  ⟨w32 (hs.a + s.a), w32 (hs.b + s.b), w32 (hs.c + s.c), w32 (hs.d + s.d),
   w32 (hs.e + s.e), w32 (hs.f + s.f), w32 (hs.g + s.g), w32 (hs.h + s.h)⟩

/-- Message padding: `0x80`, zeros, and the bit length as a 64-bit integer. -/
def pad (msg : Bytes) : Bytes :=
  msg ++ [128] ++ List.replicate ((119 - msg.length % 64) % 64) 0
    ++ be64 (toU64 (msg.length * 8))

/-- Fold `compress` over the first `n` blocks. -/
def blocks : Nat → Digest → Bytes → Digest
  | 0, hs, _ => hs
  | n + 1, hs, m => blocks n (compress hs (m.take 64)) (m.drop 64)

/-- The digest bytes. -/
def digestBytes (s : Digest) : Bytes :=
  be32 (toU32 s.a) ++ be32 (toU32 s.b) ++ be32 (toU32 s.c) ++ be32 (toU32 s.d)
    ++ be32 (toU32 s.e) ++ be32 (toU32 s.f) ++ be32 (toU32 s.g) ++ be32 (toU32 s.h)

/-- Function `sha256.Sum256`. -/
def Sum256 (msg : Bytes) : FixedBytes 32 :=
  ⟨digestBytes (blocks ((pad msg).length / 64) init (pad msg)), rfl⟩

end SHA256

/-! ## The key/value store (`state.Mutable`) -/

/-- The state seen by an action: a finite map from keys to values. -/
abbrev Store := Bytes → Option Bytes

/-- The store with no rows. -/
def Store.empty : Store := fun _ => none

/-- Method `mu.Insert(ctx, k, v)`. -/
def Store.insert (mu : Store) (k v : Bytes) : Store :=
  fun q => if q = k then some v else mu q

/-- Method `mu.Remove(ctx, k)`. -/
def Store.remove (mu : Store) (k : Bytes) : Store :=
  fun q => if q = k then none else mu q

/-! ## Checked arithmetic (`avalanchego/utils/math`) and `database` helpers -/

def ErrOverflow : Err := .sentinel "math.ErrOverflow"
def ErrUnderflow : Err := .sentinel "math.ErrUnderflow"
def ErrWrongSize : Err := .sentinel "database.errWrongSize"

/-- Function `smath.Add`: fails on overflow. -/
def smathAdd (a b : U64) : Except Err U64 :=
  if a.val + b.val < 18446744073709551616 then .ok (a + b) else .error ErrOverflow

/-- Function `smath.Sub`: fails on underflow. -/
def smathSub (a b : U64) : Except Err U64 :=
  if b.val ≤ a.val then .ok (a - b) else .error ErrUnderflow

/-- Function `smath.Mul`: fails on overflow. -/
def smathMul (a b : U64) : Except Err U64 :=
  if a.val * b.val < 18446744073709551616 then .ok (a * b) else .error ErrOverflow

/-- Function `database.ParseUInt64`: exactly eight bytes, big-endian. -/
def parseUInt64 (v : Bytes) : Except Err U64 :=
  if v.length = 8 then .ok (u64be v) else .error ErrWrongSize

/-! ## Storage schema (`storage/storage.go`) -/

/-- Modelled from the spec: the package-level error variables of `storage`
(their declaring file is not part of the sources); each is a distinct
sentinel. -/
def storageErr (name : String) : Err := .sentinel ("storage." ++ name)

def ErrInvalidBalance : Err := storageErr "ErrInvalidBalance"
def ErrMarketNotFound : Err := storageErr "ErrMarketNotFound"
def ErrMarketExists : Err := storageErr "ErrMarketExists"
def ErrMarketNotActive : Err := storageErr "ErrMarketNotActive"
def ErrMarketNotResolved : Err := storageErr "ErrMarketNotResolved"
def ErrInvalidOutcome : Err := storageErr "ErrInvalidOutcome"
def ErrUnauthorized : Err := storageErr "ErrUnauthorized"
def ErrPoolNotFound : Err := storageErr "ErrPoolNotFound"
def ErrPoolExists : Err := storageErr "ErrPoolExists"
def ErrInvalidPoolFee : Err := storageErr "ErrInvalidPoolFee"
def ErrUnsupportedAsset : Err := storageErr "ErrUnsupportedAsset"
def ErrInvalidAssetPair : Err := storageErr "ErrInvalidAssetPair"
def ErrInvalidLiquidityAmount : Err := storageErr "ErrInvalidLiquidityAmount"
def ErrInsufficientLiquidity : Err := storageErr "ErrInsufficientLiquidity"
def ErrInsufficientLPBalance : Err := storageErr "ErrInsufficientLPBalance"
def ErrSlippageExceeded : Err := storageErr "ErrSlippageExceeded"
def ErrInvalidSwapAmount : Err := storageErr "ErrInvalidSwapAmount"
def ErrInvalidTokenomicsConfig : Err := storageErr "ErrInvalidTokenomicsConfig"
def ErrInvalidFeeRouterConfig : Err := storageErr "ErrInvalidFeeRouterConfig"
def ErrInvalidFeeAmount : Err := storageErr "ErrInvalidFeeAmount"
def ErrInvalidReleaseAmount : Err := storageErr "ErrInvalidReleaseAmount"
def ErrReleaseTooEarly : Err := storageErr "ErrReleaseTooEarly"
def ErrReleaseCapExceeded : Err := storageErr "ErrReleaseCapExceeded"
def ErrInsufficientLockedCOL : Err := storageErr "ErrInsufficientLockedCOL"
def ErrInvalidVAIAmount : Err := storageErr "ErrInvalidVAIAmount"
def ErrVAIEpochMintLimitExceeded : Err := storageErr "ErrVAIEpochMintLimitExceeded"
def ErrVAIDebtCeilingExceeded : Err := storageErr "ErrVAIDebtCeilingExceeded"
def ErrVAIDebtInvariant : Err := storageErr "ErrVAIDebtInvariant"
def ErrBackingRatioViolation : Err := storageErr "ErrBackingRatioViolation"
def ErrInvalidRiskConfig : Err := storageErr "ErrInvalidRiskConfig"
def ErrInvalidReserveState : Err := storageErr "ErrInvalidReserveState"
def ErrInvalidProofConfig : Err := storageErr "ErrInvalidProofConfig"
def ErrInvalidProofEnvelope : Err := storageErr "ErrInvalidProofEnvelope"
def ErrProofNotFound : Err := storageErr "ErrProofNotFound"
def ErrProofAlreadySubmitted : Err := storageErr "ErrProofAlreadySubmitted"
def ErrProofTypeMismatch : Err := storageErr "ErrProofTypeMismatch"
def ErrProofCircuitMismatch : Err := storageErr "ErrProofCircuitMismatch"
def ErrUnsupportedProofCircuit : Err := storageErr "ErrUnsupportedProofCircuit"
def ErrProofDeadlineMissed : Err := storageErr "ErrProofDeadlineMissed"
def ErrProofCommitmentMismatch : Err := storageErr "ErrProofCommitmentMismatch"
def ErrProofFillsMismatch : Err := storageErr "ErrProofFillsMismatch"
def ErrProofPublicInputsMismatch : Err := storageErr "ErrProofPublicInputsMismatch"
def ErrProofVerificationFailed : Err := storageErr "ErrProofVerificationFailed"
def ErrProofVerifierUnavailable : Err := storageErr "ErrProofVerifierUnavailable"
def ErrInvalidVellumProof : Err := storageErr "ErrInvalidVellumProof"
def ErrVellumProofNotFound : Err := storageErr "ErrVellumProofNotFound"
def ErrInvalidBloodsworn : Err := storageErr "ErrInvalidBloodsworn"
def ErrInvalidGlyph : Err := storageErr "ErrInvalidGlyph"
def ErrGlyphNotFound : Err := storageErr "ErrGlyphNotFound"

/-- Modelled from the spec: `metadata.DefaultMinimumPrefix`, the base constant
from which the prefix bytes are drawn contiguously (declared by the host
runtime, outside the sources). -/
def DefaultMinimumPrefix : Byte := 3

def balancePrefix : Byte := DefaultMinimumPrefix
def marketPrefix : Byte := DefaultMinimumPrefix + 1
def commitmentPrefix : Byte := DefaultMinimumPrefix + 2
def batchPrefix : Byte := DefaultMinimumPrefix + 3
def oraclePrefix : Byte := DefaultMinimumPrefix + 4
def treasuryConfigPrefix : Byte := DefaultMinimumPrefix + 5
def treasuryStatePrefix : Byte := DefaultMinimumPrefix + 6
def feeRouterConfigPrefix : Byte := DefaultMinimumPrefix + 7
def feeRouterStatePrefix : Byte := DefaultMinimumPrefix + 8
def vaiConfigPrefix : Byte := DefaultMinimumPrefix + 9
def vaiStatePrefix : Byte := DefaultMinimumPrefix + 10
def vaiBalancePrefix : Byte := DefaultMinimumPrefix + 11
def poolPrefix : Byte := DefaultMinimumPrefix + 12
def lpBalancePrefix : Byte := DefaultMinimumPrefix + 13
def riskConfigPrefix : Byte := DefaultMinimumPrefix + 14
def reserveStatePrefix : Byte := DefaultMinimumPrefix + 15
def proofConfigPrefix : Byte := DefaultMinimumPrefix + 16
def batchProofPrefix : Byte := DefaultMinimumPrefix + 17
def vellumProofPrefix : Byte := DefaultMinimumPrefix + 18
def bloodswornPrefix : Byte := DefaultMinimumPrefix + 19
def glyphPrefix : Byte := DefaultMinimumPrefix + 20

def BalanceChunks : U16 := 1
def MarketChunks : U16 := 8
def CommitmentChunks : U16 := 16
def BatchChunks : U16 := 4
def OracleChunks : U16 := 8
def TreasuryConfigChunks : U16 := 4
def TreasuryStateChunks : U16 := 4
def FeeRouterConfigChunks : U16 := 2
def FeeRouterStateChunks : U16 := 4
def VAIConfigChunks : U16 := 4
def VAIStateChunks : U16 := 4
def VAIBalanceChunks : U16 := 1
def PoolChunks : U16 := 4
def LPBalanceChunks : U16 := 1
def RiskConfigChunks : U16 := 4
def ReserveStateChunks : U16 := 4
def ProofConfigChunks : U16 := 4
def BatchProofChunks : U16 := 8
def VellumProofChunks : U16 := 128
def BloodswornChunks : U16 := 4
def GlyphChunks : U16 := 16

def bipsDenominator : U64 := 10000
def maxVellumProofBytes : Nat := 131072

def MarketStatusActive : Byte := 0
def MarketStatusResolved : Byte := 1
def MarketStatusDisputed : Byte := 2

/-! ### Balance -/

def BalanceKey (addr : Address) : Bytes :=
  [ balancePrefix] ++ addr.val ++ be16 BalanceChunks

/-- Function `innerGetBalance(v, err)` applied to the outcome of `GetValue`:
the balance, whether the row exists, and the error. -/
def innerGetBalance (r : Option Bytes) : U64 × Bool × Option Err :=
  match r with
  | none => (0, false, none)
  | some v =>
    match parseUInt64 v with
    | .error e => (0, false, some e)
    | .ok val => (val, true, none)

def getBalance (mu : Store) (addr : Address) : Bytes × U64 × Bool × Option Err :=
  let k := BalanceKey addr
  (k, innerGetBalance (mu k))

def GetBalance (mu : Store) (addr : Address) : Except Err U64 :=
  match getBalance mu addr with
  | (_, bal, _, none) => .ok bal
  | (_, _, _, some e) => .error e

def setBalance (mu : Store) (key : Bytes) (balance : U64) : Store :=
  Store.insert mu key (be64 balance)

def SetBalance (mu : Store) (addr : Address) (balance : U64) : Store :=
  setBalance mu (BalanceKey addr) balance

def AddBalance (mu : Store) (addr : Address) (amount : U64) : Except Err (U64 × Store) :=
  match getBalance mu addr with
  | (_, _, _, some e) => .error e
  | (key, bal, _, none) =>
    match smathAdd bal amount with
    | .error _ => .error (.wrapf ErrInvalidBalance "could not add balance")
    | .ok nbal => .ok (nbal, setBalance mu key nbal)

def SubBalance (mu : Store) (addr : Address) (amount : U64) : Except Err (U64 × Store) :=
  match getBalance mu addr with
  | (_, _, false, _) => .error (.wrapf ErrInvalidBalance "could not subtract")
  | (_, _, true, some e) => .error e
  | (key, bal, true, none) =>
    match smathSub bal amount with
    | .error _ => .error (.wrapf ErrInvalidBalance "could not subtract balance")
    | .ok nbal =>
      if nbal = 0 then .ok (0, Store.remove mu key)
      else .ok (nbal, setBalance mu key nbal)

/-! ### Market -/

def MarketKey (marketID : ID) : Bytes :=
  [ marketPrefix] ++ marketID.val ++ be16 MarketChunks

def PutMarket (mu : Store) (marketID : ID) (status outcomes : Byte) (resolutionTime : I64)
    (resolvedOutcome : Byte) (question : Bytes) : Store :=
  Store.insert mu (MarketKey marketID)
    ([status, outcomes] ++ be64 resolutionTime.bits ++ [resolvedOutcome] ++ question)

/-- The five values returned by `GetMarket`. -/
structure Market where
  status : Byte
  outcomes : Byte
  resolutionTime : I64
  resolvedOutcome : Byte
  question : Bytes
deriving DecidableEq

def GetMarket (mu : Store) (marketID : ID) : Except Err Market :=
  match mu (MarketKey marketID) with
  | none => .error ErrMarketNotFound
  | some v =>
    if v.length < 11 then .error (.text "invalid market data length")
    else .ok ⟨v.getD 0 0, v.getD 1 0, ⟨u64be (slice v 2 10)⟩, v.getD 10 0, v.drop 11⟩

/-! ### Commitment, batch, oracle -/

def CommitmentKey (marketID : ID) (windowID : U64) (actor : Address) : Bytes :=
  [ commitmentPrefix] ++ marketID.val ++ be64 windowID ++ actor.val ++ be16 CommitmentChunks

def PutCommitment (mu : Store) (marketID : ID) (windowID : U64) (actor : Address)
    (envelope commitment : Bytes) : Store :=
  Store.insert mu (CommitmentKey marketID windowID actor) (commitment ++ envelope)

def BatchKey (marketID : ID) (windowID : U64) : Bytes :=
  [ batchPrefix] ++ marketID.val ++ be64 windowID ++ be16 BatchChunks

def PutBatchResult (mu : Store) (marketID : ID) (windowID clearPrice totalVolume : U64)
    (fillsHash : Bytes) : Store :=
  Store.insert mu (BatchKey marketID windowID) (be64 clearPrice ++ be64 totalVolume ++ fillsHash)

def OracleKey (marketID : ID) (validatorIndex : U32) : Bytes :=
  [ oraclePrefix] ++ marketID.val ++ be32 validatorIndex ++ be16 OracleChunks

def DisputeKey (marketID : ID) : Bytes := OracleKey marketID 4294967295

def PutDispute (mu : Store) (marketID : ID) (bond : U64) (evidence : Bytes) : Store :=
  Store.insert mu (DisputeKey marketID) (be64 bond ++ evidence)

/-! ### AMM pools and LP balances -/

structure Pool where
  Asset0 : Byte
  Asset1 : Byte
  FeeBips : U16
  Reserve0 : U64
  Reserve1 : U64
  TotalLP : U64
deriving DecidableEq

def sortedAssetPair (asset0 asset1 : Byte) : Byte × Byte :=
  if asset0 ≤ asset1 then (asset0, asset1) else (asset1, asset0)

def PoolKey (asset0 asset1 : Byte) : Bytes :=
  let p := sortedAssetPair asset0 asset1
  [ poolPrefix, p.1, p.2] ++ be16 PoolChunks

def LPBalanceKey (asset0 asset1 : Byte) (addr : Address) : Bytes :=
  let p := sortedAssetPair asset0 asset1
  [ lpBalancePrefix, p.1, p.2] ++ addr.val ++ be16 LPBalanceChunks

def PutPool (mu : Store) (pool : Pool) : Store :=
  let p := sortedAssetPair pool.Asset0 pool.Asset1
  Store.insert mu (PoolKey pool.Asset0 pool.Asset1)
    ([p.1, p.2] ++ be16 pool.FeeBips ++ be64 pool.Reserve0 ++ be64 pool.Reserve1
      ++ be64 pool.TotalLP)

def parsePool (v : Bytes) : Except Err Pool :=
  if v.length < 28 then .error (.text "invalid pool data length")
  else .ok ⟨v.getD 0 0, v.getD 1 0, u16be (slice v 2 4), u64be (slice v 4 12),
    u64be (slice v 12 20), u64be (slice v 20 28)⟩

def GetPool (mu : Store) (asset0 asset1 : Byte) : Except Err Pool :=
  match mu (PoolKey asset0 asset1) with
  | none => .error ErrPoolNotFound
  | some v => parsePool v

def getLPBalance (mu : Store) (asset0 asset1 : Byte) (addr : Address) :
    Bytes × U64 × Bool × Option Err :=
  let k := LPBalanceKey asset0 asset1 addr
  (k, innerGetBalance (mu k))

def GetLPBalance (mu : Store) (asset0 asset1 : Byte) (addr : Address) : Except Err U64 :=
  match getLPBalance mu asset0 asset1 addr with
  | (_, bal, _, none) => .ok bal
  | (_, _, _, some e) => .error e

def setLPBalance (mu : Store) (key : Bytes) (balance : U64) : Store :=
  Store.insert mu key (be64 balance)

def AddLPBalance (mu : Store) (asset0 asset1 : Byte) (addr : Address) (amount : U64) :
    Except Err (U64 × Store) :=
  match getLPBalance mu asset0 asset1 addr with
  | (_, _, _, some e) => .error e
  | (key, bal, _, none) =>
    match smathAdd bal amount with
    | .error _ => .error (.wrapf ErrInvalidBalance "could not add LP balance")
    | .ok nbal => .ok (nbal, setLPBalance mu key nbal)

def SubLPBalance (mu : Store) (asset0 asset1 : Byte) (addr : Address) (amount : U64) :
    Except Err (U64 × Store) :=
  match getLPBalance mu asset0 asset1 addr with
  | (_, _, false, _) => .error ErrInsufficientLPBalance
  | (_, _, true, some e) => .error e
  | (key, bal, true, none) =>
    match smathSub bal amount with
    | .error _ => .error ErrInsufficientLPBalance
    | .ok nbal =>
      if nbal = 0 then .ok (0, Store.remove mu key)
      else .ok (nbal, setLPBalance mu key nbal)

/-! ### Singleton records -/

structure TreasuryConfig where
  Governance : Address
  Operations : Address
  MaxReleaseBips : U16
  ReleaseEpochSeconds : I64
deriving DecidableEq

structure TreasuryState where
  Locked : U64
  Live : U64
  Released : U64
  LastReleaseUnix : I64
deriving DecidableEq

structure FeeRouterConfig where
  MSRBBips : U16
  COLBips : U16
  OpsBips : U16
deriving DecidableEq

structure FeeRouterState where
  MSRBBudget : U64
  COLBudget : U64
  OpsBudget : U64
deriving DecidableEq

structure VAIConfig where
  MintAuthority : Address
  DebtCeiling : U64
  EpochMintLimit : U64
  MintEpochSeconds : I64
deriving DecidableEq

structure VAIState where
  TotalDebt : U64
  EpochStartUnix : I64
  EpochMinted : U64
deriving DecidableEq

structure RiskConfig where
  BackingFloorBips : U32
  VEILLtvBips : U16
  WVEILLtvBips : U16
  WSVEILLtvBips : U16
  VEILHaircutBips : U16
  WVEILHaircutBips : U16
  WSVEILHaircutBips : U16
deriving DecidableEq

structure ReserveState where
  ExogenousReserve : U64
  VAIBuffer : U64
deriving DecidableEq

structure ProofConfig where
  RequireProof : Bool
  RequiredProofType : Byte
  BatchWindowMs : I64
  ProofDeadlineMs : I64
  ProverAuthority : Address
deriving DecidableEq

def singletonKey (pfx : Byte) (chunks : U16) : Bytes := [pfx] ++ be16 chunks

def TreasuryConfigKey : Bytes := singletonKey treasuryConfigPrefix TreasuryConfigChunks
def TreasuryStateKey : Bytes := singletonKey treasuryStatePrefix TreasuryStateChunks
def FeeRouterConfigKey : Bytes := singletonKey feeRouterConfigPrefix FeeRouterConfigChunks
def FeeRouterStateKey : Bytes := singletonKey feeRouterStatePrefix FeeRouterStateChunks
def VAIConfigKey : Bytes := singletonKey vaiConfigPrefix VAIConfigChunks
def VAIStateKey : Bytes := singletonKey vaiStatePrefix VAIStateChunks
def RiskConfigKey : Bytes := singletonKey riskConfigPrefix RiskConfigChunks
def ReserveStateKey : Bytes := singletonKey reserveStatePrefix ReserveStateChunks
def ProofConfigKey : Bytes := singletonKey proofConfigPrefix ProofConfigChunks

def PutTreasuryConfig (mu : Store) (cfg : TreasuryConfig) : Store :=
  Store.insert mu TreasuryConfigKey
    (cfg.Governance.val ++ cfg.Operations.val ++ be16 cfg.MaxReleaseBips
      ++ be64 cfg.ReleaseEpochSeconds.bits)

def GetTreasuryConfig (mu : Store) : Except Err TreasuryConfig :=
  match mu TreasuryConfigKey with
  | none => .error ErrInvalidTokenomicsConfig
  | some v =>
    if v.length < 76 then .error (.wrapf ErrInvalidTokenomicsConfig "treasury config length")
    else .ok ⟨copyInto 33 (slice v 0 33), copyInto 33 (slice v 33 66), u16be (slice v 66 68),
      ⟨u64be (slice v 68 76)⟩⟩

def PutTreasuryState (mu : Store) (s : TreasuryState) : Store :=
  Store.insert mu TreasuryStateKey
    (be64 s.Locked ++ be64 s.Live ++ be64 s.Released ++ be64 s.LastReleaseUnix.bits)

def GetTreasuryState (mu : Store) : Except Err TreasuryState :=
  match mu TreasuryStateKey with
  | none => .error ErrInvalidTokenomicsConfig
  | some v =>
    if v.length < 32 then .error (.wrapf ErrInvalidTokenomicsConfig "treasury state length")
    else .ok ⟨u64be (slice v 0 8), u64be (slice v 8 16), u64be (slice v 16 24),
      ⟨u64be (slice v 24 32)⟩⟩

def PutFeeRouterConfig (mu : Store) (cfg : FeeRouterConfig) : Store :=
  Store.insert mu FeeRouterConfigKey (be16 cfg.MSRBBips ++ be16 cfg.COLBips ++ be16 cfg.OpsBips)

def GetFeeRouterConfig (mu : Store) : Except Err FeeRouterConfig :=
  match mu FeeRouterConfigKey with
  | none => .error ErrInvalidFeeRouterConfig
  | some v =>
    if v.length < 6 then .error (.wrapf ErrInvalidFeeRouterConfig "fee router config length")
    else
      let cfg : FeeRouterConfig := ⟨u16be (slice v 0 2), u16be (slice v 2 4), u16be (slice v 4 6)⟩
      if cfg.MSRBBips.val + cfg.COLBips.val + cfg.OpsBips.val ≠ bipsDenominator.val then
        .error (.wrapf ErrInvalidFeeRouterConfig "sum")
      else .ok cfg

def PutFeeRouterState (mu : Store) (s : FeeRouterState) : Store :=
  Store.insert mu FeeRouterStateKey (be64 s.MSRBBudget ++ be64 s.COLBudget ++ be64 s.OpsBudget)

def GetFeeRouterState (mu : Store) : Except Err FeeRouterState :=
  match mu FeeRouterStateKey with
  | none => .error ErrInvalidFeeRouterConfig
  | some v =>
    if v.length < 24 then .error (.wrapf ErrInvalidFeeRouterConfig "fee router state length")
    else .ok ⟨u64be (slice v 0 8), u64be (slice v 8 16), u64be (slice v 16 24)⟩

def PutVAIConfig (mu : Store) (cfg : VAIConfig) : Store :=
  Store.insert mu VAIConfigKey
    (cfg.MintAuthority.val ++ be64 cfg.DebtCeiling ++ be64 cfg.EpochMintLimit
      ++ be64 cfg.MintEpochSeconds.bits)

def GetVAIConfig (mu : Store) : Except Err VAIConfig :=
  match mu VAIConfigKey with
  | none => .error ErrInvalidTokenomicsConfig
  | some v =>
    if v.length < 57 then .error (.wrapf ErrInvalidTokenomicsConfig "VAI config length")
    else .ok ⟨copyInto 33 (slice v 0 33), u64be (slice v 33 41), u64be (slice v 41 49),
      ⟨u64be (slice v 49 57)⟩⟩

def PutVAIState (mu : Store) (s : VAIState) : Store :=
  Store.insert mu VAIStateKey (be64 s.TotalDebt ++ be64 s.EpochStartUnix.bits ++ be64 s.EpochMinted)

def GetVAIState (mu : Store) : Except Err VAIState :=
  match mu VAIStateKey with
  | none => .error ErrInvalidTokenomicsConfig
  | some v =>
    if v.length < 24 then .error (.wrapf ErrInvalidTokenomicsConfig "VAI state length")
    else .ok ⟨u64be (slice v 0 8), ⟨u64be (slice v 8 16)⟩, u64be (slice v 16 24)⟩

def validateRiskConfig (cfg : RiskConfig) : Option Err :=
  if cfg.BackingFloorBips = 0 then some ErrInvalidRiskConfig
  else if cfg.VEILLtvBips.val > bipsDenominator.val ∨ cfg.WVEILLtvBips.val > bipsDenominator.val
      ∨ cfg.WSVEILLtvBips.val > bipsDenominator.val then some ErrInvalidRiskConfig
  else if cfg.VEILHaircutBips.val > bipsDenominator.val
      ∨ cfg.WVEILHaircutBips.val > bipsDenominator.val
      ∨ cfg.WSVEILHaircutBips.val > bipsDenominator.val then some ErrInvalidRiskConfig
  else if cfg.WSVEILLtvBips ≠ 0 then some ErrInvalidRiskConfig
  else none

def PutRiskConfig (mu : Store) (cfg : RiskConfig) : Except Err Store :=
  match validateRiskConfig cfg with
  | some e => .error e
  | none => .ok (Store.insert mu RiskConfigKey
      (be32 cfg.BackingFloorBips ++ be16 cfg.VEILLtvBips ++ be16 cfg.WVEILLtvBips
        ++ be16 cfg.WSVEILLtvBips ++ be16 cfg.VEILHaircutBips ++ be16 cfg.WVEILHaircutBips
        ++ be16 cfg.WSVEILHaircutBips))

def GetRiskConfig (mu : Store) : Except Err RiskConfig :=
  match mu RiskConfigKey with
  | none => .error ErrInvalidRiskConfig
  | some v =>
    if v.length < 16 then .error ErrInvalidRiskConfig
    else
      let cfg : RiskConfig := ⟨u32be (slice v 0 4), u16be (slice v 4 6), u16be (slice v 6 8),
        u16be (slice v 8 10), u16be (slice v 10 12), u16be (slice v 12 14), u16be (slice v 14 16)⟩
      match validateRiskConfig cfg with
      | some e => .error e
      | none => .ok cfg

def PutReserveState (mu : Store) (s : ReserveState) : Store :=
  Store.insert mu ReserveStateKey (be64 s.ExogenousReserve ++ be64 s.VAIBuffer)

def GetReserveState (mu : Store) : Except Err ReserveState :=
  match mu ReserveStateKey with
  | none => .error ErrInvalidReserveState
  | some v =>
    if v.length < 16 then .error ErrInvalidReserveState
    else .ok ⟨u64be (slice v 0 8), u64be (slice v 8 16)⟩

def ProofTypeGroth16 : Byte := 1
def ProofTypePlonk : Byte := 2
def ProofCircuitClearHashV1 : Bytes := ascii "clearhash-v1"
def ProofCircuitShieldedLedgerV1 : Bytes := ascii "shielded-ledger-v1"

def validateProofConfig (cfg : ProofConfig) : Option Err :=
  if cfg.RequiredProofType ≠ ProofTypeGroth16 ∧ cfg.RequiredProofType ≠ ProofTypePlonk then
    some ErrInvalidProofConfig
  else if cfg.BatchWindowMs.toInt ≤ 0 ∨ cfg.ProofDeadlineMs.toInt ≤ 0 then
    some ErrInvalidProofConfig
  else if cfg.ProverAuthority = zeroBytes 33 then some ErrInvalidProofConfig
  else none

def PutProofConfig (mu : Store) (cfg : ProofConfig) : Except Err Store :=
  match validateProofConfig cfg with
  | some e => .error e
  | none => .ok (Store.insert mu ProofConfigKey
      ([if cfg.RequireProof then 1 else 0] ++ [cfg.RequiredProofType]
        ++ be64 cfg.BatchWindowMs.bits ++ be64 cfg.ProofDeadlineMs.bits
        ++ cfg.ProverAuthority.val))

def GetProofConfig (mu : Store) : Except Err ProofConfig :=
  match mu ProofConfigKey with
  | none => .error ErrInvalidProofConfig
  | some v =>
    if v.length < 51 then .error ErrInvalidProofConfig
    else
      let cfg : ProofConfig := ⟨decide (v.getD 0 0 = 1), v.getD 1 0, ⟨u64be (slice v 2 10)⟩,
        ⟨u64be (slice v 10 18)⟩, copyInto 33 (v.drop 18)⟩
      match validateProofConfig cfg with
      | some e => .error e
      | none => .ok cfg

/-! ### Batch proofs, stored envelopes, prover identity -/

structure BatchProofRecord where
  ProofType : Byte
  SubmittedAtMs : I64
  WindowCloseAtMs : I64
  Prover : Address
  ProofCommitment : FixedBytes 32
  PublicInputsHash : Bytes
  FillsHash : Bytes
deriving DecidableEq

structure Bloodsworn where
  TotalAcceptedProofs : U64
  ActiveStreak : U64
  LastProofAtMs : I64
  ScarCount : U32
deriving DecidableEq

structure Glyph where
  Class : Byte
  Rarity : Byte
  CreatedAtMs : I64
  Prover : Address
  ProofCommitment : FixedBytes 32
  PublicInputsHash : FixedBytes 32
  Entropy : FixedBytes 32
deriving DecidableEq

def BatchProofKey (marketID : ID) (windowID : U64) : Bytes :=
  [ batchProofPrefix] ++ marketID.val ++ be64 windowID ++ be16 BatchProofChunks

def VellumProofKey (marketID : ID) (windowID : U64) : Bytes :=
  [ vellumProofPrefix] ++ marketID.val ++ be64 windowID ++ be16 VellumProofChunks

def BloodswornKey (addr : Address) : Bytes :=
  [ bloodswornPrefix] ++ addr.val ++ be16 BloodswornChunks

def GlyphKey (marketID : ID) (windowID : U64) : Bytes :=
  [ glyphPrefix] ++ marketID.val ++ be64 windowID ++ be16 GlyphChunks

def VAIBalanceKey (addr : Address) : Bytes :=
  [ vaiBalancePrefix] ++ addr.val ++ be16 VAIBalanceChunks

/-- The value bytes written by `PutBatchProofRecord`. -/
def encodeBatchProofRecord (record : BatchProofRecord) : Bytes :=
  [record.ProofType] ++ be64 record.SubmittedAtMs.bits ++ be64 record.WindowCloseAtMs.bits
    ++ record.Prover.val ++ record.ProofCommitment.val
    ++ be16 (toU16 record.PublicInputsHash.length) ++ record.PublicInputsHash
    ++ be16 (toU16 record.FillsHash.length) ++ record.FillsHash

def PutBatchProofRecord (mu : Store) (marketID : ID) (windowID : U64)
    (record : BatchProofRecord) : Except Err Store :=
  if record.PublicInputsHash.length = 0 ∨ record.PublicInputsHash.length > 32 then
    .error ErrInvalidProofEnvelope
  else if record.FillsHash.length = 0 ∨ record.FillsHash.length > 64 then
    .error ErrInvalidProofEnvelope
  else .ok (Store.insert mu (BatchProofKey marketID windowID) (encodeBatchProofRecord record))

/-- The decoding steps of `GetBatchProofRecord` on the value bytes. -/
def decodeBatchProofRecord (v : Bytes) : Except Err BatchProofRecord :=
  if v.length < 86 then .error ErrInvalidProofEnvelope
  else if (v.drop 82).length < 2 then .error ErrInvalidProofEnvelope
  else
    let pihLen := (u16be (slice v 82 84)).val
    if pihLen ≤ 0 ∨ pihLen > 32 ∨ (v.drop 84).length < pihLen + 2 then
      .error ErrInvalidProofEnvelope
    else
      let offset := 84 + pihLen
      let fillsLen := (u16be (slice v offset (offset + 2))).val
      if fillsLen ≤ 0 ∨ fillsLen > 64 ∨ (v.drop (offset + 2)).length < fillsLen then
        .error ErrInvalidProofEnvelope
      else .ok {
        ProofType := v.getD 0 0
        SubmittedAtMs := ⟨u64be (slice v 1 9)⟩
        WindowCloseAtMs := ⟨u64be (slice v 9 17)⟩
        Prover := copyInto 33 (slice v 17 50)
        ProofCommitment := copyInto 32 (slice v 50 82)
        PublicInputsHash := slice v 84 offset
        FillsHash := slice v (offset + 2) (offset + 2 + fillsLen) }

def GetBatchProofRecord (mu : Store) (marketID : ID) (windowID : U64) :
    Except Err BatchProofRecord :=
  match mu (BatchProofKey marketID windowID) with
  | none => .error ErrProofNotFound
  | some v => decodeBatchProofRecord v

def PutVellumProof (mu : Store) (marketID : ID) (windowID : U64) (proof : Bytes) :
    Except Err Store :=
  if proof.length = 0 ∨ proof.length > maxVellumProofBytes then .error ErrInvalidVellumProof
  else .ok (Store.insert mu (VellumProofKey marketID windowID)
    (be32 (toU32 proof.length) ++ proof))

def GetVellumProof (mu : Store) (marketID : ID) (windowID : U64) : Except Err Bytes :=
  match mu (VellumProofKey marketID windowID) with
  | none => .error ErrVellumProofNotFound
  | some v =>
    if v.length < 4 then .error ErrInvalidVellumProof
    else
      let proofLen := (u32be (slice v 0 4)).val
      if proofLen ≤ 0 ∨ proofLen > maxVellumProofBytes ∨ v.length ≠ 4 + proofLen then
        .error ErrInvalidVellumProof
      else .ok (v.drop 4)

def PutBloodsworn (mu : Store) (addr : Address) (bloodsworn : Bloodsworn) : Store :=
  Store.insert mu (BloodswornKey addr)
    (be64 bloodsworn.TotalAcceptedProofs ++ be64 bloodsworn.ActiveStreak
      ++ be64 bloodsworn.LastProofAtMs.bits ++ be32 bloodsworn.ScarCount)

def GetBloodsworn (mu : Store) (addr : Address) : Except Err Bloodsworn :=
  match mu (BloodswornKey addr) with
  | none => .ok ⟨0, 0, ⟨0⟩, 0⟩
  | some v =>
    if v.length < 28 then .error ErrInvalidBloodsworn
    else .ok ⟨u64be (slice v 0 8), u64be (slice v 8 16), ⟨u64be (slice v 16 24)⟩,
      u32be (slice v 24 28)⟩

def PutGlyph (mu : Store) (marketID : ID) (windowID : U64) (glyph : Glyph) : Except Err Store :=
  if glyph.Class = 0 ∨ glyph.Rarity = 0 ∨ glyph.CreatedAtMs.toInt ≤ 0 then .error ErrInvalidGlyph
  else .ok (Store.insert mu (GlyphKey marketID windowID)
    ([glyph.Class, glyph.Rarity] ++ be64 glyph.CreatedAtMs.bits ++ glyph.Prover.val
      ++ glyph.ProofCommitment.val ++ glyph.PublicInputsHash.val ++ glyph.Entropy.val))

def GetGlyph (mu : Store) (marketID : ID) (windowID : U64) : Except Err Glyph :=
  match mu (GlyphKey marketID windowID) with
  | none => .error ErrGlyphNotFound
  | some v =>
    if v.length < 139 then .error ErrInvalidGlyph
    else .ok ⟨v.getD 0 0, v.getD 1 0, ⟨u64be (slice v 2 10)⟩, copyInto 33 (slice v 10 43),
      copyInto 32 (slice v 43 75), copyInto 32 (slice v 75 107), copyInto 32 (slice v 107 139)⟩

/-! ### VAI balance -/

def getVAIBalance (mu : Store) (addr : Address) : Bytes × U64 × Bool × Option Err :=
  let k := VAIBalanceKey addr
  (k, innerGetBalance (mu k))

def GetVAIBalance (mu : Store) (addr : Address) : Except Err U64 :=
  match getVAIBalance mu addr with
  | (_, bal, _, none) => .ok bal
  | (_, _, _, some e) => .error e

def setVAIBalance (mu : Store) (key : Bytes) (balance : U64) : Store :=
  Store.insert mu key (be64 balance)

def AddVAIBalance (mu : Store) (addr : Address) (amount : U64) : Except Err (U64 × Store) :=
  match getVAIBalance mu addr with
  | (_, _, _, some e) => .error e
  | (key, bal, _, none) =>
    match smathAdd bal amount with
    | .error _ => .error (.wrapf ErrInvalidBalance "could not add VAI balance")
    | .ok nbal => .ok (nbal, setVAIBalance mu key nbal)

def SubVAIBalance (mu : Store) (addr : Address) (amount : U64) : Except Err (U64 × Store) :=
  match getVAIBalance mu addr with
  | (_, _, false, _) => .error (.wrapf ErrInvalidBalance "could not subtract VAI")
  | (_, _, true, some e) => .error e
  | (key, bal, true, none) =>
    match smathSub bal amount with
    | .error _ => .error (.wrapf ErrInvalidBalance "could not subtract VAI balance")
    | .ok nbal =>
      if nbal = 0 then .ok (0, Store.remove mu key)
      else .ok (nbal, setVAIBalance mu key nbal)

/-! ## `strings.TrimSpace` -/

/-- ASCII white space: tab, line feed, vertical tab, form feed, carriage return, space. -/
def isAsciiSpace (b : Byte) : Bool :=
  decide (b = 9 ∨ b = 10 ∨ b = 11 ∨ b = 12 ∨ b = 13 ∨ b = 32)

/-- Whether three bytes are the UTF-8 encoding of a white-space rune:
U+1680, U+2000..U+200A, U+2028, U+2029, U+202F, U+205F, U+3000. -/
def isSpaceRune3 (b0 b1 b2 : Byte) : Bool :=
  decide ((b0 = 0xE1 ∧ b1 = 0x9A ∧ b2 = 0x80)
    ∨ (b0 = 0xE2 ∧ b1 = 0x80 ∧ (0x80 ≤ b2.val ∧ b2.val ≤ 0x8A ∨ b2 = 0xA8 ∨ b2 = 0xA9 ∨ b2 = 0xAF))
    ∨ (b0 = 0xE2 ∧ b1 = 0x81 ∧ b2 = 0x9F)
    ∨ (b0 = 0xE3 ∧ b1 = 0x80 ∧ b2 = 0x80))

/-- Whether two bytes are the UTF-8 encoding of U+0085 or U+00A0. -/
def isSpaceRune2 (b0 b1 : Byte) : Bool :=
  decide (b0 = 0xC2 ∧ (b1 = 0x85 ∨ b1 = 0xA0))

/-- Width of the white-space rune at the start of `s`, or `0`. -/
def leadingSpaceLen : Bytes → Nat
  | [] => 0
  | b0 :: rest =>
    if isAsciiSpace b0 then 1
    else match rest with
      | [] => 0
      | b1 :: rest2 =>
        if isSpaceRune2 b0 b1 then 2
        else match rest2 with
          | [] => 0
          | b2 :: _ => if isSpaceRune3 b0 b1 b2 then 3 else 0

/-- Width of the white-space rune at the end of the string whose reversal is `r`, or `0`. -/
def trailingSpaceLen : Bytes → Nat
  | [] => 0
  | b2 :: rest =>
    if isAsciiSpace b2 then 1
    else match rest with
      | [] => 0
      | b1 :: rest2 =>
        if isSpaceRune2 b1 b2 then 2
        else match rest2 with
          | [] => 0
          | b0 :: _ => if isSpaceRune3 b0 b1 b2 then 3 else 0

/-- Drop white-space runes from the front, at most `fuel` of them. -/
def trimLeftLoop : Nat → Bytes → Bytes
  | 0, s => s
  | fuel + 1, s =>
    if leadingSpaceLen s = 0 then s else trimLeftLoop fuel (s.drop (leadingSpaceLen s))

/-- Drop white-space runes from the front of a reversed string, at most `fuel` of them. -/
def trimRightLoop : Nat → Bytes → Bytes
  | 0, r => r
  | fuel + 1, r =>
    if trailingSpaceLen r = 0 then r else trimRightLoop fuel (r.drop (trailingSpaceLen r))

/-- Function `strings.TrimSpace` on the bytes of a Go string: all leading and
trailing white space, as defined by Unicode, removed (a byte that does not
start a valid white-space encoding stops the trimming). Every iteration drops
at least one byte, so `length` iterations always suffice. -/
def trimSpace (s : Bytes) : Bytes :=
  let l := trimLeftLoop s.length s
  (trimRightLoop l.length l.reverse).reverse

/-! ## Proof envelopes and the verifier (`actions/proof_verifier.go`) -/

def proofEnvelopeMagicV1 : Bytes := ascii "VZK1"
def proofEnvelopeMagicV2 : Bytes := ascii "VZK2"
def proofEnvelopeV1HeaderLen : Nat := 13
def proofEnvelopeV2HeaderLen : Nat := 14
def maxProofCircuitIDLen : Nat := 63
def MaxProofBytesSize : Nat := 131072
def ExpectedProofHashSize : Nat := 32
def ExpectedFillsHashSize : Nat := 32

/-- Interface `BatchProofVerifier`: `Verify(proofType, circuitID, proof,
publicInputsHash, publicWitness)`, `none` for a nil error. -/
abbrev BatchProofVerifier := Byte → Bytes → Bytes → Bytes → Bytes → Option Err

/-- The process-wide handle installed by `ConfigureBatchProofVerifier`. -/
structure Env where
  proofVerifier : Option BatchProofVerifier
  strictProofVerifier : Bool

/-- One character test of `isValidProofCircuitID`: `a-z`, `0-9`, `-`, `_`, `.`. -/
def isCircuitIDChar (r : Byte) : Bool :=
  decide (r.val ≤ 127 ∧ ((97 ≤ r.val ∧ r.val ≤ 122) ∨ (48 ≤ r.val ∧ r.val ≤ 57)
    ∨ r.val = 45 ∨ r.val = 95 ∨ r.val = 46))

/-- Function `isValidProofCircuitID`. Ranging over a Go string yields a rune
above 127 for every byte above 127, so the loop accepts exactly the strings
all of whose bytes pass the character test. -/
def isValidProofCircuitID (circuitID : Bytes) : Bool :=
  if circuitID.length = 0 ∨ circuitID.length > maxProofCircuitIDLen then false
  else circuitID.all isCircuitIDChar

def BuildProofEnvelope (proofType : Byte) (proof publicWitness : Bytes) : Except Err Bytes :=
  if proofType = 0 ∨ proof.length = 0 ∨ proof.length > MaxProofBytesSize then
    .error ErrInvalidProofEnvelope
  else if publicWitness.length = 0 then .error ErrInvalidProofEnvelope
  else if proofEnvelopeV1HeaderLen + proof.length + publicWitness.length > MaxProofBytesSize then
    .error ErrInvalidProofEnvelope
  else .ok (proofEnvelopeMagicV1 ++ [proofType] ++ be32 (toU32 proof.length)
    ++ be32 (toU32 publicWitness.length) ++ proof ++ publicWitness)

def BuildProofEnvelopeWithCircuit (proofType : Byte) (circuitID0 proof publicWitness : Bytes) :
    Except Err Bytes :=
  let circuitID := trimSpace circuitID0
  if proofType = 0 ∨ proof.length = 0 ∨ proof.length > MaxProofBytesSize then
    .error ErrInvalidProofEnvelope
  else if publicWitness.length = 0 then .error ErrInvalidProofEnvelope
  else if ¬ isValidProofCircuitID circuitID then .error ErrInvalidProofEnvelope
  else
    let totalLen := proofEnvelopeV2HeaderLen + circuitID.length + proof.length
      + publicWitness.length
    if totalLen > MaxProofBytesSize then .error ErrInvalidProofEnvelope
    else .ok (proofEnvelopeMagicV2 ++ [proofType] ++ [byteOf circuitID.length]
      ++ be32 (toU32 proof.length) ++ be32 (toU32 publicWitness.length)
      ++ circuitID ++ proof ++ publicWitness)

/-- The non-error results of `parseProofEnvelope`. -/
structure ParsedEnvelope where
  proofType : Byte
  circuitID : Bytes
  proof : Bytes
  witness : Bytes
  hasEnvelope : Bool
deriving DecidableEq

def parseProofEnvelopeV1 (blob : Bytes) : Except Err ParsedEnvelope :=
  if blob.length < proofEnvelopeV1HeaderLen then .error ErrInvalidProofEnvelope
  else
    let proofType := blob.getD 4 0
    let proofLen := (u32be (slice blob 5 9)).val
    let witnessLen := (u32be (slice blob 9 13)).val
    if proofLen ≤ 0 ∨ witnessLen ≤ 0 then .error ErrInvalidProofEnvelope
    else
      let totalLen := proofEnvelopeV1HeaderLen + proofLen + witnessLen
      if blob.length ≠ totalLen then .error ErrInvalidProofEnvelope
      else
        let proofStart := proofEnvelopeV1HeaderLen
        let proofEnd := proofStart + proofLen
        let witnessEnd := proofEnd + witnessLen
        .ok ⟨proofType, [], slice blob proofStart proofEnd, slice blob proofEnd witnessEnd, true⟩

def parseProofEnvelopeV2 (blob : Bytes) : Except Err ParsedEnvelope :=
  if blob.length < proofEnvelopeV2HeaderLen then .error ErrInvalidProofEnvelope
  else
    let proofType := blob.getD 4 0
    let circuitLen := (blob.getD 5 0).val
    let proofLen := (u32be (slice blob 6 10)).val
    let witnessLen := (u32be (slice blob 10 14)).val
    if circuitLen ≤ 0 ∨ circuitLen > maxProofCircuitIDLen ∨ proofLen ≤ 0 ∨ witnessLen ≤ 0 then
      .error ErrInvalidProofEnvelope
    else
      let totalLen := proofEnvelopeV2HeaderLen + circuitLen + proofLen + witnessLen
      if blob.length ≠ totalLen then .error ErrInvalidProofEnvelope
      else
        let circuitStart := proofEnvelopeV2HeaderLen
        let circuitEnd := circuitStart + circuitLen
        let circuitID := slice blob circuitStart circuitEnd
        if ¬ isValidProofCircuitID circuitID then .error ErrInvalidProofEnvelope
        else
          let proofStart := circuitEnd
          let proofEnd := proofStart + proofLen
          let witnessEnd := proofEnd + witnessLen
          .ok ⟨proofType, circuitID, slice blob proofStart proofEnd,
            slice blob proofEnd witnessEnd, true⟩

def parseProofEnvelope (blob : Bytes) : Except Err ParsedEnvelope :=
  if blob.length < proofEnvelopeMagicV1.length then .ok ⟨0, [], blob, [], false⟩
  else if slice blob 0 proofEnvelopeMagicV1.length = proofEnvelopeMagicV1 then
    parseProofEnvelopeV1 blob
  else if slice blob 0 proofEnvelopeMagicV2.length = proofEnvelopeMagicV2 then
    parseProofEnvelopeV2 blob
  else .ok ⟨0, [], blob, [], false⟩

def verifyBatchProofInConsensus (env : Env) (requiredProofType : Byte)
    (proofBlob publicInputsHash : Bytes) : Option Err :=
  match parseProofEnvelope proofBlob with
  | .error e => some e
  | .ok p =>
    if p.hasEnvelope ∧ p.proofType ≠ requiredProofType then some ErrProofTypeMismatch
    else
      match env.proofVerifier with
      | none => if env.strictProofVerifier then some ErrProofVerifierUnavailable else none
      | some verifier =>
        match verifier requiredProofType p.circuitID p.proof publicInputsHash p.witness with
        | some e =>
          if errorsIs e ErrProofVerifierUnavailable then some e
          else some (.wrapv ErrProofVerificationFailed e)
        | none => none

/-! ## Public-input binding (`actions/proof_hash.go`) -/

def ClearInputsDomainTag : Bytes := ascii "VEIL_CLEAR_V1"
def ShieldedLedgerInputsDomainTag : Bytes := ascii "VEIL_SHIELDED_LEDGER_V1"

def BuildClearPublicInputsPreimage (marketID : ID) (windowID clearPrice totalVolume : U64)
    (fillsHash : Bytes) : Bytes :=
  ClearInputsDomainTag ++ marketID.val ++ be64 windowID ++ be64 clearPrice ++ be64 totalVolume
    ++ be16 (toU16 fillsHash.length) ++ fillsHash

def ComputeClearPublicInputsHash (marketID : ID) (windowID clearPrice totalVolume : U64)
    (fillsHash : Bytes) : FixedBytes 32 :=
  SHA256.Sum256 (BuildClearPublicInputsPreimage marketID windowID clearPrice totalVolume fillsHash)

def BuildShieldedLedgerPublicInputsPreimage (marketID : ID)
    (windowID clearPrice totalVolume : U64) (fillsHash : Bytes) : Bytes :=
  ShieldedLedgerInputsDomainTag ++ marketID.val ++ be64 windowID ++ be64 clearPrice
    ++ be64 totalVolume ++ be16 (toU16 fillsHash.length) ++ fillsHash

def ComputeShieldedLedgerPublicInputsHash (marketID : ID)
    (windowID clearPrice totalVolume : U64) (fillsHash : Bytes) : FixedBytes 32 :=
  SHA256.Sum256
    (BuildShieldedLedgerPublicInputsPreimage marketID windowID clearPrice totalVolume fillsHash)

/-- Function `computeExpectedPublicInputsHash` of `actions/clear_batch.go`. -/
def computeExpectedPublicInputsHash (circuitID0 : Bytes) (marketID : ID)
    (windowID clearPrice totalVolume : U64) (fillsHash : Bytes) : Except Err (FixedBytes 32) :=
  let circuitID := trimSpace circuitID0
  if circuitID = [] ∨ circuitID = ProofCircuitClearHashV1 then
    .ok (ComputeClearPublicInputsHash marketID windowID clearPrice totalVolume fillsHash)
  else if circuitID = ProofCircuitShieldedLedgerV1 then
    .ok (ComputeShieldedLedgerPublicInputsHash marketID windowID clearPrice totalVolume fillsHash)
  else .error ErrUnsupportedProofCircuit

/-! ## Glyph derivation (`actions/glyph.go`) -/

def glyphDomainTag : Bytes := ascii "VEIL_GLYPH_V1"

def GlyphRarityCommon : Byte := 1
def GlyphRarityRare : Byte := 2
def GlyphRarityEpic : Byte := 3
def GlyphRarityLegendary : Byte := 4
def GlyphRarityMythic : Byte := 5

def GlyphClassAsh : Byte := 1
def GlyphClassCrown : Byte := 2
def GlyphClassCipher : Byte := 3
def GlyphClassEclipse : Byte := 4
def GlyphClassAegis : Byte := 5
def GlyphClassRelic : Byte := 6

def deriveGlyphEntropy (txID marketID : ID) (windowID : U64) (prover : Address)
    (commitment : FixedBytes 32) (publicInputsHash : Bytes) : FixedBytes 32 :=
  SHA256.Sum256 (glyphDomainTag ++ txID.val ++ marketID.val ++ be64 windowID ++ prover.val
    ++ commitment.val ++ publicInputsHash)

def deriveGlyphClass (entropy : FixedBytes 32) : Byte :=
  let r := (entropy.val.getD 2 0) % 6
  if r = 0 then GlyphClassAsh
  else if r = 1 then GlyphClassCrown
  else if r = 2 then GlyphClassCipher
  else if r = 3 then GlyphClassEclipse
  else if r = 4 then GlyphClassAegis
  else GlyphClassRelic

def deriveGlyphRarity (entropy : FixedBytes 32) : Byte :=
  let roll : U32 := toU32 (u16be (slice entropy.val 0 2)).val * 10000 / 65536
  if roll.val < 2 then GlyphRarityMythic
  else if roll.val < 20 then GlyphRarityLegendary
  else if roll.val < 150 then GlyphRarityEpic
  else if roll.val < 800 then GlyphRarityRare
  else GlyphRarityCommon

def deriveGlyph (txID marketID : ID) (windowID : U64) (prover : Address)
    (commitment : FixedBytes 32) (publicInputsHash : Bytes) (timestamp : I64) : Glyph :=
  let entropy := deriveGlyphEntropy txID marketID windowID prover commitment publicInputsHash
  { Class := deriveGlyphClass entropy
    Rarity := deriveGlyphRarity entropy
    CreatedAtMs := timestamp
    Prover := prover
    ProofCommitment := commitment
    PublicInputsHash := copyInto 32 publicInputsHash
    Entropy := entropy }

/-! ## Batch-market actions -/

def actionsErr (name : String) : Err := .sentinel ("actions." ++ name)

def ErrFillsHashEmpty : Err := actionsErr "ErrFillsHashEmpty"
def ErrFillsHashTooLarge : Err := actionsErr "ErrFillsHashTooLarge"
def ErrFillsHashWrongSize : Err := actionsErr "ErrFillsHashWrongSize"
def ErrClearPriceZero : Err := actionsErr "ErrClearPriceZero"
def MaxFillsHashSize : Nat := 64

structure ClearBatch where
  MarketID : ID
  WindowID : U64
  ClearPrice : U64
  TotalVolume : U64
  FillsHash : Bytes
deriving DecidableEq

structure ClearBatchResult where
  ClearPrice : U64
  TotalVolume : U64
deriving DecidableEq

/-- The proof-gated branch of `ClearBatch.Execute` (the body of
`if proofCfg.RequireProof`): `none` when every check passes. -/
def ClearBatch.checkProof (env : Env) (t : ClearBatch) (mu : Store) (actor : Address)
    (proofCfg : ProofConfig) : Option Err :=
  if actor ≠ proofCfg.ProverAuthority then some ErrUnauthorized
  else
    match GetBatchProofRecord mu t.MarketID t.WindowID with
    | .error e => some e
    | .ok record =>
      if record.ProofType ≠ proofCfg.RequiredProofType then some ErrProofTypeMismatch
      else if record.SubmittedAtMs.toInt
          > (I64.add record.WindowCloseAtMs proofCfg.ProofDeadlineMs).toInt then
        some ErrProofDeadlineMissed
      else if record.FillsHash ≠ t.FillsHash then some ErrProofFillsMismatch
      else
        match GetVellumProof mu t.MarketID t.WindowID with
        | .error e => some e
        | .ok proofBytes =>
          if (SHA256.Sum256 proofBytes).val ≠ record.ProofCommitment.val then
            some ErrProofCommitmentMismatch
          else
            match parseProofEnvelope proofBytes with
            | .error e => some e
            | .ok parsed =>
              match computeExpectedPublicInputsHash parsed.circuitID t.MarketID t.WindowID
                  t.ClearPrice t.TotalVolume t.FillsHash with
              | .error e => some e
              | .ok expectedInputsHash =>
                if record.PublicInputsHash ≠ expectedInputsHash.val then
                  some ErrProofPublicInputsMismatch
                else
                  verifyBatchProofInConsensus env record.ProofType proofBytes
                    expectedInputsHash.val

def ClearBatch.Execute (env : Env) (t : ClearBatch) (mu : Store) (_timestamp : I64)
    (actor : Address) (_txID : ID) : Except Err (Store × ClearBatchResult) :=
  if t.ClearPrice = 0 then .error ErrClearPriceZero
  else if t.FillsHash.length = 0 then .error ErrFillsHashEmpty
  else if t.FillsHash.length > MaxFillsHashSize then .error ErrFillsHashTooLarge
  else if t.FillsHash.length ≠ ExpectedFillsHashSize then .error ErrFillsHashWrongSize
  else
    match GetMarket mu t.MarketID with
    | .error e => .error e
    | .ok market =>
      if market.status ≠ MarketStatusActive then .error ErrMarketNotActive
      else
        match GetProofConfig mu with
        | .error e => .error e
        | .ok proofCfg =>
          match (if proofCfg.RequireProof then ClearBatch.checkProof env t mu actor proofCfg
                 else none) with
          | some e => .error e
          | none =>
            .ok (PutBatchResult mu t.MarketID t.WindowID t.ClearPrice t.TotalVolume t.FillsHash,
              ⟨t.ClearPrice, t.TotalVolume⟩)

structure SubmitBatchProof where
  MarketID : ID
  WindowID : U64
  WindowCloseAtMs : I64
  ProofType : Byte
  PublicInputsHash : Bytes
  FillsHash : Bytes
  Proof : Bytes
deriving DecidableEq

structure SubmitBatchProofResult where
  SubmittedAtMs : I64
  ProofCommitment : Bytes
  StoredProofBytes : U32
  GlyphClass : Byte
  GlyphRarity : Byte
deriving DecidableEq

/-- The writes of `SubmitBatchProof.Execute` after the verifier has accepted. -/
def SubmitBatchProof.store (a : SubmitBatchProof) (mu : Store) (timestamp : I64)
    (actor : Address) (txID : ID) : Except Err (Store × SubmitBatchProofResult) :=
  let commitment := SHA256.Sum256 a.Proof
  let record : BatchProofRecord := {
    ProofType := a.ProofType
    SubmittedAtMs := timestamp
    WindowCloseAtMs := a.WindowCloseAtMs
    Prover := actor
    ProofCommitment := commitment
    PublicInputsHash := a.PublicInputsHash
    FillsHash := a.FillsHash }
  match PutBatchProofRecord mu a.MarketID a.WindowID record with
  | .error e => .error e
  | .ok mu1 =>
    match PutVellumProof mu1 a.MarketID a.WindowID a.Proof with
    | .error e => .error e
    | .ok mu2 =>
      match GetBloodsworn mu2 actor with
      | .error e => .error e
      | .ok bloodsworn =>
        let bloodsworn1 : Bloodsworn := {
          TotalAcceptedProofs := bloodsworn.TotalAcceptedProofs + 1
          ActiveStreak := bloodsworn.ActiveStreak + 1
          LastProofAtMs := timestamp
          ScarCount := bloodsworn.ScarCount }
        let mu3 := PutBloodsworn mu2 actor bloodsworn1
        let glyph := deriveGlyph txID a.MarketID a.WindowID actor commitment
          a.PublicInputsHash timestamp
        match PutGlyph mu3 a.MarketID a.WindowID glyph with
        | .error e => .error e
        | .ok mu4 =>
          .ok (mu4, ⟨record.SubmittedAtMs, record.ProofCommitment.val, toU32 a.Proof.length,
            glyph.Class, glyph.Rarity⟩)

def SubmitBatchProof.Execute (env : Env) (a : SubmitBatchProof) (mu : Store) (timestamp : I64)
    (actor : Address) (txID : ID) : Except Err (Store × SubmitBatchProofResult) :=
  if a.WindowCloseAtMs.toInt ≤ 0 then .error ErrInvalidProofEnvelope
  else if a.ProofType = 0 then .error ErrInvalidProofEnvelope
  else if a.PublicInputsHash.length ≠ ExpectedProofHashSize then .error ErrInvalidProofEnvelope
  else if a.FillsHash.length ≠ ExpectedFillsHashSize then .error ErrInvalidProofEnvelope
  else if a.Proof.length = 0 ∨ a.Proof.length > MaxProofBytesSize then
    .error ErrInvalidProofEnvelope
  else
    match GetMarket mu a.MarketID with
    | .error e => .error e
    | .ok market =>
      if market.status ≠ MarketStatusActive then .error ErrMarketNotActive
      else
        match GetProofConfig mu with
        | .error e => .error e
        | .ok cfg =>
          if ¬ cfg.RequireProof then .error ErrInvalidProofConfig
          else if actor ≠ cfg.ProverAuthority then .error ErrUnauthorized
          else if a.ProofType ≠ cfg.RequiredProofType then .error ErrProofTypeMismatch
          else if (I64.rem a.WindowCloseAtMs cfg.BatchWindowMs).toInt ≠ 0 then
            .error ErrInvalidProofEnvelope
          else if timestamp.toInt < a.WindowCloseAtMs.toInt then .error ErrProofDeadlineMissed
          else if timestamp.toInt > (I64.add a.WindowCloseAtMs cfg.ProofDeadlineMs).toInt then
            .error ErrProofDeadlineMissed
          else
            match GetBatchProofRecord mu a.MarketID a.WindowID with
            | .ok _ => .error ErrProofAlreadySubmitted
            | .error e =>
              if ¬ errorsIs e ErrProofNotFound then .error e
              else
                match verifyBatchProofInConsensus env cfg.RequiredProofType a.Proof
                    a.PublicInputsHash with
                | some e => .error e
                | none => SubmitBatchProof.store a mu timestamp actor txID

/-! ## Transfers and the market lifecycle -/

def ErrOutputValueZero : Err := actionsErr "ErrOutputValueZero"
def ErrOutputMemoTooLarge : Err := actionsErr "ErrOutputMemoTooLarge"
def ErrInvalidOutcomes : Err := actionsErr "ErrInvalidOutcomes"
def ErrInvalidResolutionTime : Err := actionsErr "ErrInvalidResolutionTime"
def ErrCreatorBondZero : Err := actionsErr "ErrCreatorBondZero"
def ErrQuestionTooLarge : Err := actionsErr "ErrQuestionTooLarge"
def ErrEnvelopeEmpty : Err := actionsErr "ErrEnvelopeEmpty"
def ErrEnvelopeTooLarge : Err := actionsErr "ErrEnvelopeTooLarge"
def ErrCommitmentEmpty : Err := actionsErr "ErrCommitmentEmpty"
def ErrCommitmentTooLarge : Err := actionsErr "ErrCommitmentTooLarge"
def ErrDecryptionShareEmpty : Err := actionsErr "ErrDecryptionShareEmpty"
def ErrDecryptionShareTooLarge : Err := actionsErr "ErrDecryptionShareTooLarge"
def ErrSignatureEmpty : Err := actionsErr "ErrSignatureEmpty"
def ErrSignatureTooLarge : Err := actionsErr "ErrSignatureTooLarge"
def ErrBondZero : Err := actionsErr "ErrBondZero"
def ErrEvidenceEmpty : Err := actionsErr "ErrEvidenceEmpty"
def ErrEvidenceTooLarge : Err := actionsErr "ErrEvidenceTooLarge"

def MaxMemoSize : Nat := 256
def MaxQuestionSize : Nat := 1024
def MaxEnvelopeSize : Nat := 4096
def MaxCommitmentSize : Nat := 64
def MaxDecryptionShareSize : Nat := 512
def MaxSignatureSize : Nat := 256
def MaxEvidenceSize : Nat := 4096

structure Transfer where
  To : Address
  Value : U64
  Memo : Bytes
deriving DecidableEq

structure TransferResult where
  SenderBalance : U64
  ReceiverBalance : U64
deriving DecidableEq

def Transfer.Execute (t : Transfer) (mu : Store) (_timestamp : I64) (actor : Address)
    (_txID : ID) : Except Err (Store × TransferResult) :=
  if t.Value = 0 then .error ErrOutputValueZero
  else if t.Memo.length > MaxMemoSize then .error ErrOutputMemoTooLarge
  else
    match SubBalance mu actor t.Value with
    | .error e => .error e
    | .ok (senderBalance, mu1) =>
      match AddBalance mu1 t.To t.Value with
      | .error e => .error e
      | .ok (receiverBalance, mu2) => .ok (mu2, ⟨senderBalance, receiverBalance⟩)

structure CreateMarket where
  MarketID : ID
  Question : Bytes
  Outcomes : Byte
  ResolutionTime : I64
  CreatorBond : U64
deriving DecidableEq

structure CreateMarketResult where
  SenderBalance : U64
deriving DecidableEq

def CreateMarket.Execute (a : CreateMarket) (mu : Store) (_timestamp : I64) (actor : Address)
    (_txID : ID) : Except Err (Store × CreateMarketResult) :=
  if a.Outcomes.val < 2 then .error ErrInvalidOutcomes
  else if a.ResolutionTime.toInt ≤ 0 then .error ErrInvalidResolutionTime
  else if a.CreatorBond = 0 then .error ErrCreatorBondZero
  else if a.Question.length > MaxQuestionSize then .error ErrQuestionTooLarge
  else
    match GetMarket mu a.MarketID with
    | .ok _ => .error ErrMarketExists
    | .error e =>
      if ¬ errorsIs e ErrMarketNotFound then .error e
      else
        match SubBalance mu actor a.CreatorBond with
        | .error e1 => .error e1
        | .ok (senderBalance, mu1) =>
          .ok (PutMarket mu1 a.MarketID MarketStatusActive a.Outcomes a.ResolutionTime 0
            a.Question, ⟨senderBalance⟩)

structure CommitOrder where
  MarketID : ID
  WindowID : U64
  Envelope : Bytes
  Commitment : Bytes
deriving DecidableEq

structure CommitOrderResult where
  WindowID : U64
deriving DecidableEq

def CommitOrder.Execute (t : CommitOrder) (mu : Store) (_timestamp : I64) (actor : Address)
    (_txID : ID) : Except Err (Store × CommitOrderResult) :=
  if t.Envelope.length = 0 then .error ErrEnvelopeEmpty
  else if t.Envelope.length > MaxEnvelopeSize then .error ErrEnvelopeTooLarge
  else if t.Commitment.length = 0 then .error ErrCommitmentEmpty
  else if t.Commitment.length > MaxCommitmentSize then .error ErrCommitmentTooLarge
  else
    match GetMarket mu t.MarketID with
    | .error e => .error e
    | .ok market =>
      if market.status ≠ MarketStatusActive then .error ErrMarketNotActive
      else
        .ok (PutCommitment mu t.MarketID t.WindowID actor t.Envelope t.Commitment,
          ⟨t.WindowID⟩)

structure RevealBatch where
  MarketID : ID
  WindowID : U64
  DecryptionShare : Bytes
  ValidatorIndex : U32
deriving DecidableEq

structure RevealBatchResult where
  ValidatorIndex : U32
deriving DecidableEq

def RevealBatch.Execute (t : RevealBatch) (mu : Store) (_timestamp : I64) (_actor : Address)
    (_txID : ID) : Except Err (Store × RevealBatchResult) :=
  if t.DecryptionShare.length = 0 then .error ErrDecryptionShareEmpty
  else if t.DecryptionShare.length > MaxDecryptionShareSize then
    .error ErrDecryptionShareTooLarge
  else
    match GetMarket mu t.MarketID with
    | .error e => .error e
    | .ok market =>
      if market.status ≠ MarketStatusActive then .error ErrMarketNotActive
      else
        .ok (Store.insert mu (OracleKey t.MarketID t.ValidatorIndex)
          (be64 t.WindowID ++ t.DecryptionShare), ⟨t.ValidatorIndex⟩)

structure ResolveMarket where
  MarketID : ID
  Outcome : Byte
  Signature : Bytes
deriving DecidableEq

structure ResolveMarketResult where
  Outcome : Byte
deriving DecidableEq

def ResolveMarket.Execute (t : ResolveMarket) (mu : Store) (_timestamp : I64)
    (_actor : Address) (_txID : ID) : Except Err (Store × ResolveMarketResult) :=
  if t.Signature.length = 0 then .error ErrSignatureEmpty
  else if t.Signature.length > MaxSignatureSize then .error ErrSignatureTooLarge
  else
    match GetMarket mu t.MarketID with
    | .error e => .error e
    | .ok market =>
      if market.status ≠ MarketStatusActive then .error ErrMarketNotActive
      else if t.Outcome.val ≥ market.outcomes.val then .error ErrInvalidOutcome
      else
        .ok (PutMarket mu t.MarketID MarketStatusResolved market.outcomes
          market.resolutionTime t.Outcome market.question, ⟨t.Outcome⟩)

structure Dispute where
  MarketID : ID
  Bond : U64
  Evidence : Bytes
deriving DecidableEq

structure DisputeResult where
  DisputerBalance : U64
deriving DecidableEq

def Dispute.Execute (t : Dispute) (mu : Store) (_timestamp : I64) (actor : Address)
    (_txID : ID) : Except Err (Store × DisputeResult) :=
  if t.Bond = 0 then .error ErrBondZero
  else if t.Evidence.length = 0 then .error ErrEvidenceEmpty
  else if t.Evidence.length > MaxEvidenceSize then .error ErrEvidenceTooLarge
  else
    match GetMarket mu t.MarketID with
    | .error e => .error e
    | .ok market =>
      if market.status ≠ MarketStatusResolved then .error ErrMarketNotResolved
      else
        match SubBalance mu actor t.Bond with
        | .error e => .error e
        | .ok (newBalance, mu1) =>
          let mu2 := PutMarket mu1 t.MarketID MarketStatusDisputed market.outcomes
            market.resolutionTime market.resolvedOutcome market.question
          .ok (PutDispute mu2 t.MarketID t.Bond t.Evidence, ⟨newBalance⟩)

/-! ## Fee router, treasury, VAI, governance singletons -/

structure RouteFees where
  Amount : U64
deriving DecidableEq

structure RouteFeesResult where
  SenderBalance : U64
  MSRBBudget : U64
  COLBudget : U64
  OpsBudget : U64
deriving DecidableEq

def RouteFees.Execute (t : RouteFees) (mu : Store) (_timestamp : I64) (actor : Address)
    (_txID : ID) : Except Err (Store × RouteFeesResult) :=
  if t.Amount = 0 then .error ErrInvalidFeeAmount
  else
    match GetFeeRouterConfig mu with
    | .error e => .error e
    | .ok cfg =>
      match GetFeeRouterState mu with
      | .error e => .error e
      | .ok stateVal =>
        match SubBalance mu actor t.Amount with
        | .error e => .error e
        | .ok (senderBalance, mu1) =>
          let msrbShare : U64 := toU64 cfg.MSRBBips.val * t.Amount / 10000
          let colShare : U64 := toU64 cfg.COLBips.val * t.Amount / 10000
          let opsShare : U64 := t.Amount - msrbShare - colShare
          match smathAdd stateVal.MSRBBudget msrbShare with
          | .error e => .error e
          | .ok nextMSRB =>
            match smathAdd stateVal.COLBudget colShare with
            | .error e => .error e
            | .ok nextCOL =>
              match smathAdd stateVal.OpsBudget opsShare with
              | .error e => .error e
              | .ok nextOps =>
                .ok (PutFeeRouterState mu1 ⟨nextMSRB, nextCOL, nextOps⟩,
                  ⟨senderBalance, nextMSRB, nextCOL, nextOps⟩)

structure ReleaseCOLTranche where
  Amount : U64
deriving DecidableEq

structure ReleaseCOLTrancheResult where
  Locked : U64
  Live : U64
  Released : U64
deriving DecidableEq

def ReleaseCOLTranche.Execute (t : ReleaseCOLTranche) (mu : Store) (timestamp : I64)
    (actor : Address) (_txID : ID) : Except Err (Store × ReleaseCOLTrancheResult) :=
  if t.Amount = 0 then .error ErrInvalidReleaseAmount
  else
    match GetTreasuryConfig mu with
    | .error e => .error e
    | .ok cfg =>
      if actor ≠ cfg.Governance then .error ErrUnauthorized
      else
        match GetTreasuryState mu with
        | .error e => .error e
        | .ok stateVal =>
          let nextAllowed := I64.add stateVal.LastReleaseUnix
            (I64.mul cfg.ReleaseEpochSeconds (I64.ofInt 1000))
          if stateVal.LastReleaseUnix.toInt > 0 ∧ timestamp.toInt < nextAllowed.toInt then
            .error ErrReleaseTooEarly
          else if t.Amount.val > stateVal.Locked.val then .error ErrInsufficientLockedCOL
          else
            let maxRelease : U64 := stateVal.Locked * toU64 cfg.MaxReleaseBips.val / 10000
            if maxRelease = 0 ∨ t.Amount.val > maxRelease.val then .error ErrReleaseCapExceeded
            else
              let locked := stateVal.Locked - t.Amount
              match smathAdd stateVal.Live t.Amount with
              | .error e => .error e
              | .ok nextLive =>
                match smathAdd stateVal.Released t.Amount with
                | .error e => .error e
                | .ok nextReleased =>
                  .ok (PutTreasuryState mu ⟨locked, nextLive, nextReleased, timestamp⟩,
                    ⟨locked, nextLive, nextReleased⟩)

structure MintVAI where
  To : Address
  Amount : U64
deriving DecidableEq

structure MintVAIResult where
  ToBalance : U64
  TotalDebt : U64
deriving DecidableEq

def MintVAI.Execute (t : MintVAI) (mu : Store) (timestamp : I64) (actor : Address)
    (_txID : ID) : Except Err (Store × MintVAIResult) :=
  if t.Amount = 0 then .error ErrInvalidVAIAmount
  else
    match GetVAIConfig mu with
    | .error e => .error e
    | .ok cfg =>
      if actor ≠ cfg.MintAuthority then .error ErrUnauthorized
      else
        match GetVAIState mu with
        | .error e => .error e
        | .ok stateVal0 =>
          let stateVal1 : VAIState :=
            if stateVal0.EpochStartUnix = I64.ofInt 0 then
              { stateVal0 with EpochStartUnix := timestamp }
            else stateVal0
          let stateVal : VAIState :=
            if timestamp.toInt ≥ (I64.add stateVal1.EpochStartUnix
                (I64.mul cfg.MintEpochSeconds (I64.ofInt 1000))).toInt then
              { stateVal1 with EpochStartUnix := timestamp, EpochMinted := 0 }
            else stateVal1
          match smathAdd stateVal.EpochMinted t.Amount with
          | .error e => .error e
          | .ok nextEpochMinted =>
            if nextEpochMinted.val > cfg.EpochMintLimit.val then
              .error ErrVAIEpochMintLimitExceeded
            else
              match smathAdd stateVal.TotalDebt t.Amount with
              | .error e => .error e
              | .ok nextDebt =>
                if nextDebt.val > cfg.DebtCeiling.val then .error ErrVAIDebtCeilingExceeded
                else
                  match GetRiskConfig mu with
                  | .error e => .error e
                  | .ok riskCfg =>
                    match GetReserveState mu with
                    | .error e => .error e
                    | .ok reserveState =>
                      if nextDebt.val > 0 ∧ reserveState.ExogenousReserve.val * 10000
                          < nextDebt.val * riskCfg.BackingFloorBips.val then
                        .error ErrBackingRatioViolation
                      else
                        match AddVAIBalance mu t.To t.Amount with
                        | .error e => .error e
                        | .ok (toBalance, mu1) =>
                          .ok (PutVAIState mu1 { stateVal with
                              EpochMinted := nextEpochMinted, TotalDebt := nextDebt },
                            ⟨toBalance, nextDebt⟩)

structure BurnVAI where
  Amount : U64
deriving DecidableEq

structure BurnVAIResult where
  ActorBalance : U64
  TotalDebt : U64
deriving DecidableEq

def BurnVAI.Execute (t : BurnVAI) (mu : Store) (_timestamp : I64) (actor : Address)
    (_txID : ID) : Except Err (Store × BurnVAIResult) :=
  if t.Amount = 0 then .error ErrInvalidVAIAmount
  else
    match SubVAIBalance mu actor t.Amount with
    | .error e => .error e
    | .ok (actorBalance, mu1) =>
      match GetVAIState mu1 with
      | .error e => .error e
      | .ok stateVal =>
        if t.Amount.val > stateVal.TotalDebt.val then .error ErrVAIDebtInvariant
        else
          let totalDebt := stateVal.TotalDebt - t.Amount
          .ok (PutVAIState mu1 { stateVal with TotalDebt := totalDebt },
            ⟨actorBalance, totalDebt⟩)

structure UpdateReserveState where
  ExogenousReserve : U64
  VAIBuffer : U64
deriving DecidableEq

def UpdateReserveState.Execute (t : UpdateReserveState) (mu : Store) (_timestamp : I64)
    (actor : Address) (_txID : ID) : Except Err (Store × ReserveState) :=
  match GetTreasuryConfig mu with
  | .error e => .error e
  | .ok treasuryCfg =>
    if actor ≠ treasuryCfg.Governance then .error ErrUnauthorized
    else
      let next : ReserveState := ⟨t.ExogenousReserve, t.VAIBuffer⟩
      .ok (PutReserveState mu next, next)

structure SetRiskParams where
  BackingFloorBips : U32
  VEILLtvBips : U16
  WVEILLtvBips : U16
  WSVEILLtvBips : U16
  VEILHaircutBips : U16
  WVEILHaircutBips : U16
  WSVEILHaircutBips : U16
deriving DecidableEq

def SetRiskParams.Execute (t : SetRiskParams) (mu : Store) (_timestamp : I64)
    (actor : Address) (_txID : ID) : Except Err (Store × RiskConfig) :=
  match GetTreasuryConfig mu with
  | .error e => .error e
  | .ok treasuryCfg =>
    if actor ≠ treasuryCfg.Governance then .error ErrUnauthorized
    else
      let cfg : RiskConfig := ⟨t.BackingFloorBips, t.VEILLtvBips, t.WVEILLtvBips,
        t.WSVEILLtvBips, t.VEILHaircutBips, t.WVEILHaircutBips, t.WSVEILHaircutBips⟩
      match PutRiskConfig mu cfg with
      | .error e => .error e
      | .ok mu1 => .ok (mu1, cfg)

structure SetProofConfig where
  RequireProof : Bool
  RequiredProofType : Byte
  BatchWindowMs : I64
  ProofDeadlineMs : I64
  ProverAuthority : Address
deriving DecidableEq

def SetProofConfig.Execute (t : SetProofConfig) (mu : Store) (_timestamp : I64)
    (actor : Address) (_txID : ID) : Except Err (Store × ProofConfig) :=
  match GetTreasuryConfig mu with
  | .error e => .error e
  | .ok treasuryCfg =>
    if actor ≠ treasuryCfg.Governance then .error ErrUnauthorized
    else
      let cfg : ProofConfig := ⟨t.RequireProof, t.RequiredProofType, t.BatchWindowMs,
        t.ProofDeadlineMs, t.ProverAuthority⟩
      match PutProofConfig mu cfg with
      | .error e => .error e
      | .ok mu1 => .ok (mu1, cfg)

/-! ## AMM (`actions/amm_common.go` and the pool actions) -/

def AssetVEIL : Byte := 0
def AssetVAI : Byte := 1
def MinPoolFeeBips : U16 := 1
def MaxPoolFeeBips : U16 := 1000

def isSupportedAsset (asset : Byte) : Bool := decide (asset = AssetVEIL ∨ asset = AssetVAI)

def validateAssetPair (asset0 asset1 : Byte) : Option Err :=
  if ¬ isSupportedAsset asset0 ∨ ¬ isSupportedAsset asset1 then some ErrUnsupportedAsset
  else if asset0 = asset1 then some ErrInvalidAssetPair
  else none

def sortedPair (asset0 asset1 : Byte) : Byte × Byte :=
  if asset0 ≤ asset1 then (asset0, asset1) else (asset1, asset0)

def mapPairAmounts (assetA assetB : Byte) (amountA amountB : U64) (pool : Pool) :
    Except Err (U64 × U64) :=
  if assetA = pool.Asset0 ∧ assetB = pool.Asset1 then .ok (amountA, amountB)
  else if assetA = pool.Asset1 ∧ assetB = pool.Asset0 then .ok (amountB, amountA)
  else .error ErrInvalidAssetPair

def mapPoolAmountsToPair (pool : Pool) (assetA assetB : Byte) (amount0 amount1 : U64) :
    Except Err (U64 × U64) :=
  if assetA = pool.Asset0 ∧ assetB = pool.Asset1 then .ok (amount0, amount1)
  else if assetA = pool.Asset1 ∧ assetB = pool.Asset0 then .ok (amount1, amount0)
  else .error ErrInvalidAssetPair

def subAssetBalance (mu : Store) (actor : Address) (asset : Byte) (amount : U64) :
    Except Err (U64 × Store) :=
  if asset = AssetVEIL then SubBalance mu actor amount
  else if asset = AssetVAI then SubVAIBalance mu actor amount
  else .error ErrUnsupportedAsset

def addAssetBalance (mu : Store) (actor : Address) (asset : Byte) (amount : U64) :
    Except Err (U64 × Store) :=
  if asset = AssetVEIL then AddBalance mu actor amount
  else if asset = AssetVAI then AddVAIBalance mu actor amount
  else .error ErrUnsupportedAsset

/-- Function `mulDiv`: the product is taken in `math/big` integers. -/
def mulDiv (a b den : U64) : Except Err U64 :=
  if den = 0 then .error (.text "division by zero")
  else
    let q := a.val * b.val / den.val
    if q < 18446744073709551616 then .ok (toU64 q) else .error (.text "overflow")

def minU64 (a b : U64) : U64 := if a < b then a else b

/-- The `for y < x` loop of `intSqrt`; `none` is the run-time panic of an
integer division by zero. `x` decreases strictly, so `fuel` above the first `x`
is never used up. -/
def intSqrtLoop : Nat → U64 → U64 → U64 → Option U64
  | 0, _, x, _ => some x
  | fuel + 1, n, x, y =>
    if y < x then
      if y = 0 then none else intSqrtLoop fuel n y ((y + n / y) / 2)
    else some x

def intSqrt (n : U64) : Option U64 :=
  if n = 0 then some 0 else intSqrtLoop (n.val + 1) n n ((n + 1) / 2)

structure CreatePool where
  Asset0 : Byte
  Asset1 : Byte
  FeeBips : U16
deriving DecidableEq

structure CreatePoolResult where
  Asset0 : Byte
  Asset1 : Byte
  FeeBips : U16
deriving DecidableEq

def CreatePool.Execute (a : CreatePool) (mu : Store) (_timestamp : I64) (actor : Address)
    (_txID : ID) : Except Err (Store × CreatePoolResult) :=
  match validateAssetPair a.Asset0 a.Asset1 with
  | some e => .error e
  | none =>
    if a.FeeBips < MinPoolFeeBips ∨ a.FeeBips > MaxPoolFeeBips then .error ErrInvalidPoolFee
    else
      match GetTreasuryConfig mu with
      | .error e => .error e
      | .ok cfg =>
        if actor ≠ cfg.Governance then .error ErrUnauthorized
        else
          match GetPool mu a.Asset0 a.Asset1 with
          | .ok _ => .error ErrPoolExists
          | .error e =>
            if ¬ errorsIs e ErrPoolNotFound then .error e
            else
              let p := sortedPair a.Asset0 a.Asset1
              let pool : Pool := ⟨p.1, p.2, a.FeeBips, 0, 0, 0⟩
              .ok (PutPool mu pool, ⟨pool.Asset0, pool.Asset1, pool.FeeBips⟩)

structure AddLiquidity where
  Asset0 : Byte
  Asset1 : Byte
  Amount0 : U64
  Amount1 : U64
  MinLP : U64
deriving DecidableEq

structure AddLiquidityResult where
  MintedLP : U64
  LPBalance : U64
  Reserve0 : U64
  Reserve1 : U64
  TotalLP : U64
deriving DecidableEq

/-- The `minted` computation of `AddLiquidity.Execute`. -/
def AddLiquidity.minted (pool : Pool) (amount0Pool amount1Pool : U64) : Except Err U64 :=
  if pool.TotalLP = 0 then
    match smathMul amount0Pool amount1Pool with
    | .error e => .error e
    | .ok product =>
      match intSqrt product with
      | none => .error (.goPanic "integer divide by zero")
      | some r => .ok r
  else if pool.Reserve0 = 0 ∨ pool.Reserve1 = 0 then .error ErrInsufficientLiquidity
  else
    match mulDiv amount0Pool pool.TotalLP pool.Reserve0 with
    | .error e => .error e
    | .ok lp0 =>
      match mulDiv amount1Pool pool.TotalLP pool.Reserve1 with
      | .error e => .error e
      | .ok lp1 => .ok (minU64 lp0 lp1)

def AddLiquidity.Execute (a : AddLiquidity) (mu : Store) (_timestamp : I64) (actor : Address)
    (_txID : ID) : Except Err (Store × AddLiquidityResult) :=
  match validateAssetPair a.Asset0 a.Asset1 with
  | some e => .error e
  | none =>
    if a.Amount0 = 0 ∨ a.Amount1 = 0 then .error ErrInvalidLiquidityAmount
    else
      match GetPool mu a.Asset0 a.Asset1 with
      | .error e => .error e
      | .ok pool =>
        match mapPairAmounts a.Asset0 a.Asset1 a.Amount0 a.Amount1 pool with
        | .error e => .error e
        | .ok (amount0Pool, amount1Pool) =>
          match subAssetBalance mu actor a.Asset0 a.Amount0 with
          | .error e => .error e
          | .ok (_, mu1) =>
            match subAssetBalance mu1 actor a.Asset1 a.Amount1 with
            | .error e => .error e
            | .ok (_, mu2) =>
              match AddLiquidity.minted pool amount0Pool amount1Pool with
              | .error e => .error e
              | .ok minted =>
                if minted = 0 ∨ minted < a.MinLP then .error ErrSlippageExceeded
                else
                  match smathAdd pool.Reserve0 amount0Pool with
                  | .error e => .error e
                  | .ok nextReserve0 =>
                    match smathAdd pool.Reserve1 amount1Pool with
                    | .error e => .error e
                    | .ok nextReserve1 =>
                      match smathAdd pool.TotalLP minted with
                      | .error e => .error e
                      | .ok nextTotalLP =>
                        let pool1 : Pool := { pool with
                          Reserve0 := nextReserve0, Reserve1 := nextReserve1,
                          TotalLP := nextTotalLP }
                        let mu3 := PutPool mu2 pool1
                        match AddLPBalance mu3 pool1.Asset0 pool1.Asset1 actor minted with
                        | .error e => .error e
                        | .ok (lpBalance, mu4) =>
                          .ok (mu4, ⟨minted, lpBalance, pool1.Reserve0, pool1.Reserve1,
                            pool1.TotalLP⟩)

structure RemoveLiquidity where
  Asset0 : Byte
  Asset1 : Byte
  LPAmount : U64
  MinAmount0 : U64
  MinAmount1 : U64
deriving DecidableEq

structure RemoveLiquidityResult where
  Amount0Out : U64
  Amount1Out : U64
  LPBalance : U64
  Reserve0 : U64
  Reserve1 : U64
  TotalLP : U64
deriving DecidableEq

/-- The writes of `RemoveLiquidity.Execute` once the outputs are accepted. -/
def RemoveLiquidity.settle (a : RemoveLiquidity) (mu : Store) (actor : Address) (pool : Pool)
    (out0Pool out1Pool : U64) : Except Err (Store × RemoveLiquidityResult) :=
  match smathSub pool.Reserve0 out0Pool with
  | .error e => .error e
  | .ok nextReserve0 =>
    match smathSub pool.Reserve1 out1Pool with
    | .error e => .error e
    | .ok nextReserve1 =>
      match smathSub pool.TotalLP a.LPAmount with
      | .error e => .error e
      | .ok nextTotalLP =>
        let pool1 : Pool := { pool with
          Reserve0 := nextReserve0, Reserve1 := nextReserve1, TotalLP := nextTotalLP }
        let mu1 := PutPool mu pool1
        match SubLPBalance mu1 pool1.Asset0 pool1.Asset1 actor a.LPAmount with
        | .error e => .error e
        | .ok (nextLPBalance, mu2) =>
          match addAssetBalance mu2 actor pool1.Asset0 out0Pool with
          | .error e => .error e
          | .ok (_, mu3) =>
            match addAssetBalance mu3 actor pool1.Asset1 out1Pool with
            | .error e => .error e
            | .ok (_, mu4) =>
              match mapPoolAmountsToPair pool1 a.Asset0 a.Asset1 out0Pool out1Pool with
              | .error e => .error e
              | .ok (out0, out1) =>
                .ok (mu4, ⟨out0, out1, nextLPBalance, pool1.Reserve0, pool1.Reserve1,
                  pool1.TotalLP⟩)

def RemoveLiquidity.Execute (a : RemoveLiquidity) (mu : Store) (_timestamp : I64)
    (actor : Address) (_txID : ID) : Except Err (Store × RemoveLiquidityResult) :=
  match validateAssetPair a.Asset0 a.Asset1 with
  | some e => .error e
  | none =>
    if a.LPAmount = 0 then .error ErrInvalidLiquidityAmount
    else
      match GetPool mu a.Asset0 a.Asset1 with
      | .error e => .error e
      | .ok pool =>
        if pool.TotalLP = 0 ∨ pool.Reserve0 = 0 ∨ pool.Reserve1 = 0 then
          .error ErrInsufficientLiquidity
        else
          match GetLPBalance mu pool.Asset0 pool.Asset1 actor with
          | .error e => .error e
          | .ok lpBalance =>
            if lpBalance < a.LPAmount then .error ErrInsufficientLPBalance
            else
              match mulDiv a.LPAmount pool.Reserve0 pool.TotalLP with
              | .error e => .error e
              | .ok out0Pool =>
                match mulDiv a.LPAmount pool.Reserve1 pool.TotalLP with
                | .error e => .error e
                | .ok out1Pool =>
                  if out0Pool = 0 ∨ out1Pool = 0 then .error ErrInsufficientLiquidity
                  else
                    match mapPairAmounts a.Asset0 a.Asset1 a.MinAmount0 a.MinAmount1 pool with
                    | .error e => .error e
                    | .ok (min0Pool, min1Pool) =>
                      if out0Pool < min0Pool ∨ out1Pool < min1Pool then
                        .error ErrSlippageExceeded
                      else RemoveLiquidity.settle a mu actor pool out0Pool out1Pool

structure SwapExactIn where
  AssetIn : Byte
  AssetOut : Byte
  AmountIn : U64
  MinAmountOut : U64
deriving DecidableEq

structure SwapExactInResult where
  AmountOut : U64
  ReceiverBalance : U64
  Reserve0 : U64
  Reserve1 : U64
deriving DecidableEq

/-- The reserve update of `SwapExactIn.Execute` (`if inIs0 { ... } else { ... }`). -/
def SwapExactIn.nextPool (pool : Pool) (inIs0 : Bool) (amountIn amountOut : U64) :
    Except Err Pool :=
  if inIs0 then
    match smathAdd pool.Reserve0 amountIn with
    | .error e => .error e
    | .ok r0 =>
      match smathSub pool.Reserve1 amountOut with
      | .error e => .error e
      | .ok r1 => .ok { pool with Reserve0 := r0, Reserve1 := r1 }
  else
    match smathAdd pool.Reserve1 amountIn with
    | .error e => .error e
    | .ok r1 =>
      match smathSub pool.Reserve0 amountOut with
      | .error e => .error e
      | .ok r0 => .ok { pool with Reserve1 := r1, Reserve0 := r0 }

/-- The part of `SwapExactIn.Execute` after the orientation `switch`. -/
def SwapExactIn.swap (a : SwapExactIn) (mu : Store) (actor : Address) (pool : Pool)
    (inIs0 : Bool) (reserveIn reserveOut : U64) : Except Err (Store × SwapExactInResult) :=
  if reserveIn = 0 ∨ reserveOut = 0 then .error ErrInsufficientLiquidity
  else
    match subAssetBalance mu actor a.AssetIn a.AmountIn with
    | .error e => .error e
    | .ok (_, mu1) =>
      match mulDiv a.AmountIn (toU64 ((10000 : U16) - pool.FeeBips).val) 10000 with
      | .error e => .error e
      | .ok amountInWithFee =>
        if amountInWithFee = 0 then .error ErrInvalidSwapAmount
        else
          match smathAdd reserveIn amountInWithFee with
          | .error e => .error e
          | .ok den =>
            match mulDiv reserveOut amountInWithFee den with
            | .error e => .error e
            | .ok amountOut =>
              if amountOut = 0 ∨ amountOut < a.MinAmountOut then .error ErrSlippageExceeded
              else if amountOut > reserveOut then .error ErrInsufficientLiquidity
              else
                match SwapExactIn.nextPool pool inIs0 a.AmountIn amountOut with
                | .error e => .error e
                | .ok pool1 =>
                  let mu2 := PutPool mu1 pool1
                  match addAssetBalance mu2 actor a.AssetOut amountOut with
                  | .error e => .error e
                  | .ok (receiverBalance, mu3) =>
                    .ok (mu3, ⟨amountOut, receiverBalance, pool1.Reserve0, pool1.Reserve1⟩)

def SwapExactIn.Execute (a : SwapExactIn) (mu : Store) (_timestamp : I64) (actor : Address)
    (_txID : ID) : Except Err (Store × SwapExactInResult) :=
  match validateAssetPair a.AssetIn a.AssetOut with
  | some e => .error e
  | none =>
    if a.AmountIn = 0 then .error ErrInvalidSwapAmount
    else
      match GetPool mu a.AssetIn a.AssetOut with
      | .error e => .error e
      | .ok pool =>
        if pool.Asset0 = a.AssetIn ∧ pool.Asset1 = a.AssetOut then
          SwapExactIn.swap a mu actor pool true pool.Reserve0 pool.Reserve1
        else if pool.Asset0 = a.AssetOut ∧ pool.Asset1 = a.AssetIn then
          SwapExactIn.swap a mu actor pool false pool.Reserve1 pool.Reserve0
        else .error ErrInvalidAssetPair

/-! ## The action set -/

/-- The nineteen registered actions (`consts/types.go`). -/
inductive Action where
  | transfer (a : Transfer)
  | createMarket (a : CreateMarket)
  | commitOrder (a : CommitOrder)
  | revealBatch (a : RevealBatch)
  | clearBatch (a : ClearBatch)
  | resolveMarket (a : ResolveMarket)
  | dispute (a : Dispute)
  | routeFees (a : RouteFees)
  | releaseCOLTranche (a : ReleaseCOLTranche)
  | mintVAI (a : MintVAI)
  | burnVAI (a : BurnVAI)
  | createPool (a : CreatePool)
  | addLiquidity (a : AddLiquidity)
  | removeLiquidity (a : RemoveLiquidity)
  | swapExactIn (a : SwapExactIn)
  | updateReserveState (a : UpdateReserveState)
  | setRiskParams (a : SetRiskParams)
  | submitBatchProof (a : SubmitBatchProof)
  | setProofConfig (a : SetProofConfig)

/-- One transaction: run the action; on success the store is the one it
returns, on error the store is unchanged (all-or-nothing). -/
def Action.execute (env : Env) (act : Action) (mu : Store) (timestamp : I64) (actor : Address)
    (txID : ID) : Except Err Store :=
  match act with
  | .transfer a => (a.Execute mu timestamp actor txID).map Prod.fst
  | .createMarket a => (a.Execute mu timestamp actor txID).map Prod.fst
  | .commitOrder a => (a.Execute mu timestamp actor txID).map Prod.fst
  | .revealBatch a => (a.Execute mu timestamp actor txID).map Prod.fst
  | .clearBatch a => (a.Execute env mu timestamp actor txID).map Prod.fst
  | .resolveMarket a => (a.Execute mu timestamp actor txID).map Prod.fst
  | .dispute a => (a.Execute mu timestamp actor txID).map Prod.fst
  | .routeFees a => (a.Execute mu timestamp actor txID).map Prod.fst
  | .releaseCOLTranche a => (a.Execute mu timestamp actor txID).map Prod.fst
  | .mintVAI a => (a.Execute mu timestamp actor txID).map Prod.fst
  | .burnVAI a => (a.Execute mu timestamp actor txID).map Prod.fst
  | .createPool a => (a.Execute mu timestamp actor txID).map Prod.fst
  | .addLiquidity a => (a.Execute mu timestamp actor txID).map Prod.fst
  | .removeLiquidity a => (a.Execute mu timestamp actor txID).map Prod.fst
  | .swapExactIn a => (a.Execute mu timestamp actor txID).map Prod.fst
  | .updateReserveState a => (a.Execute mu timestamp actor txID).map Prod.fst
  | .setRiskParams a => (a.Execute mu timestamp actor txID).map Prod.fst
  | .submitBatchProof a => (a.Execute env mu timestamp actor txID).map Prod.fst
  | .setProofConfig a => (a.Execute mu timestamp actor txID).map Prod.fst

/-! ## Transactions, traces and write sets -/

/-- One transaction as the runtime hands it to `Execute`, together with the
verifier handle installed at that moment. -/
structure Step where
  env : Env
  act : Action
  timestamp : I64
  actor : Address
  txID : ID

/-- The store after a transaction: the action's store on success, the
unchanged store on failure. -/
def Step.apply (st : Step) (mu : Store) : Store :=
  match st.act.execute st.env mu st.timestamp st.actor st.txID with
  | .ok s => s
  | .error _ => mu

/-- The store after a sequence of transactions. -/
def run (steps : List Step) (mu : Store) : Store :=
  steps.foldl (fun s st => st.apply s) mu

/-- The key prefixes of the rows an action may insert or remove (the writable
entries of its `StateKeys`). -/
def Action.writePrefixes : Action → List Byte
  | .transfer _ => [ balancePrefix]
  | .createMarket _ => [ balancePrefix, marketPrefix]
  | .commitOrder _ => [ commitmentPrefix]
  | .revealBatch _ => [ oraclePrefix]
  | .clearBatch _ => [ batchPrefix]
  | .resolveMarket _ => [ marketPrefix]
  | .dispute _ => [ balancePrefix, marketPrefix, oraclePrefix]
  | .routeFees _ => [ balancePrefix, feeRouterStatePrefix]
  | .releaseCOLTranche _ => [ treasuryStatePrefix]
  | .mintVAI _ => [ vaiBalancePrefix, vaiStatePrefix]
  | .burnVAI _ => [ vaiBalancePrefix, vaiStatePrefix]
  | .createPool _ => [ poolPrefix]
  | .addLiquidity _ => [ balancePrefix, vaiBalancePrefix, poolPrefix, lpBalancePrefix]
  | .removeLiquidity _ => [ balancePrefix, vaiBalancePrefix, poolPrefix, lpBalancePrefix]
  | .swapExactIn _ => [ balancePrefix, vaiBalancePrefix, poolPrefix]
  | .updateReserveState _ => [ reserveStatePrefix]
  | .setRiskParams _ => [ riskConfigPrefix]
  | .submitBatchProof _ => [ batchProofPrefix, vellumProofPrefix, bloodswornPrefix, glyphPrefix]
  | .setProofConfig _ => [ proofConfigPrefix]

/-- Two stores agree on every key whose first byte is not in `L`. -/
def agreeOutside (L : List Byte) (mu s : Store) : Prop :=
  ∀ q : Bytes, (∀ p ∈ L, q.head? ≠ some p) → s q = mu q

/-- Whether a call returned no error. -/
def succeeded {α : Type} (e : Except Err α) : Bool :=
  match e with
  | .ok _ => true
  | .error _ => false

/-- The value returned by a call, or `d` when it failed. -/
def okValue {α : Type} (e : Except Err α) (d : α) : α :=
  match e with
  | .ok a => a
  | .error _ => d

/-- The error returned by a call, if any. -/
def errorOf {α : Type} (e : Except Err α) : Option Err :=
  match e with
  | .ok _ => none
  | .error err => some err

/-! ## A concrete batch window (scenario 2 of the specification)

`set_proof_config(require = true, type = Groth16, window = 5000, deadline =
10000, authority = G)`; for `(market, window 1)` with `window_close = 5000`,
`clear_price = 1025`, `total_volume = 3200`, fills hash `H`. -/

namespace Scenario

def market : ID := ⟨List.replicate 32 7, rfl⟩
def prover : Address := ⟨List.replicate 33 9, rfl⟩
def outsider : Address := ⟨List.replicate 33 4, rfl⟩
def txID : ID := ⟨List.replicate 32 1, rfl⟩
def fillsHash : Bytes := List.replicate 32 5

def proofConfig : ProofConfig := ⟨true, ProofTypeGroth16, ⟨5000⟩, ⟨10000⟩, prover⟩

/-- The store at the start: the market is Active and the proof config is installed. -/
def genesis : Store :=
  okValue (PutProofConfig
    (PutMarket Store.empty market MarketStatusActive 2 ⟨100000⟩ 0 (ascii "rain?")) proofConfig)
    Store.empty

def envelope : Bytes :=
  okValue (BuildProofEnvelopeWithCircuit ProofTypeGroth16 ProofCircuitClearHashV1 [1, 2, 3, 4]
    [9, 8, 7]) []

/-- A deterministic verifier: accepts Groth16 proofs `01 02 03 04` of circuit
`clearhash-v1` over a 32-byte digest and rejects everything else. -/
def verifier : BatchProofVerifier := fun proofType circuitID proof publicInputsHash _ =>
  if proofType = ProofTypeGroth16 ∧ circuitID = ProofCircuitClearHashV1 ∧ proof = [1, 2, 3, 4]
      ∧ publicInputsHash.length = 32 then none
  else some (.text "invalid proof")

def env : Env := ⟨some verifier, true⟩

def submit : SubmitBatchProof :=
  { MarketID := market
    WindowID := 1
    WindowCloseAtMs := ⟨5000⟩
    ProofType := ProofTypeGroth16
    PublicInputsHash := (ComputeClearPublicInputsHash market 1 1025 3200 fillsHash).val
    FillsHash := fillsHash
    Proof := envelope }

def noSubmitResult : SubmitBatchProofResult := ⟨⟨0⟩, [], 0, 0, 0⟩

/-- The store after the prover has submitted at `t = 5000`. -/
def afterSubmit : Store :=
  (okValue (submit.Execute env genesis ⟨5000⟩ prover txID) (Store.empty, noSubmitResult)).1

def clear : ClearBatch := ⟨market, 1, 1025, 3200, fillsHash⟩

/-- The same market with proof gating switched off. -/
def openGenesis : Store :=
  okValue (PutProofConfig
    (PutMarket Store.empty market MarketStatusActive 2 ⟨100000⟩ 0 (ascii "rain?"))
    { proofConfig with RequireProof := false }) Store.empty

/-- The same market with the proof deadline set to the largest `int64`. -/
def noDeadlineGenesis : Store :=
  okValue (PutProofConfig
    (PutMarket Store.empty market MarketStatusActive 2 ⟨100000⟩ 0 (ascii "rain?"))
    { proofConfig with ProofDeadlineMs := ⟨9223372036854775807⟩ }) Store.empty

/-- The start store with a prover record whose proof counter is `2^64 - 1`. -/
def saturatedGenesis : Store :=
  PutBloodsworn genesis prover ⟨18446744073709551615, 5, ⟨1000⟩, 2⟩

end Scenario

namespace Scenario

/-- Transactions after the submission: the clear, a second submission for the
same window, and an oracle reveal by another account. -/
def laterSteps : List Step :=
  [⟨env, .clearBatch clear, ⟨6000⟩, prover, txID⟩,
   ⟨env, .submitBatchProof submit, ⟨7000⟩, prover, txID⟩,
   ⟨env, .revealBatch ⟨market, 1, [1, 2], 0⟩, ⟨7500⟩, outsider, txID⟩]

/-- A second clear of the same window at another price. -/
def reclear : ClearBatch := ⟨market, 1, 1026, 3200, fillsHash⟩

/-- The ungated store after `clear` has run. -/
def afterOpenClear : Store :=
  (okValue (clear.Execute env openGenesis ⟨6000⟩ outsider txID) (Store.empty, ⟨0, 0⟩)).1

/-- The ungated store after `clear` and then `reclear` have run. -/
def afterOpenReclear : Store :=
  (okValue (reclear.Execute env afterOpenClear ⟨7000⟩ outsider txID) (Store.empty, ⟨0, 0⟩)).1

end Scenario

/-! ## Digest binding of the public witness (`zk/verifier.go`) -/

/-- The modulus `ecc.BN254.ScalarField()`. -/
def bn254ScalarField : Nat :=
  21888242871839275222246405745257275088548364400416034343698204186575808495617

/-- Type `bn254fr.Element`: a residue of the scalar field, held by its canonical value. -/
abbrev Element := Fin bn254ScalarField

/-- The zero value of `bn254fr.Element`. -/
def Element.zero : Element := ⟨0, by decide⟩

/-- Method `z.IsUint64()`: the canonical value fits in 64 bits. -/
def Element.IsUint64 (z : Element) : Bool := decide (z.val < 18446744073709551616)

/-- Method `z.Uint64()`: the low 64 bits of the canonical value. -/
def Element.Uint64 (z : Element) : U64 := toU64 z.val

def ClearHashDigestLen : Nat := 32

/-- Function `hashToFieldElement`: `big.Int.SetBytes` reads the hash big-endian,
`Mod` reduces it, `SetBigInt` stores the residue. -/
def hashToFieldElement (publicInputsHash : Bytes) : Except Err Element :=
  if publicInputsHash.length = 0 then .error ErrInvalidProofEnvelope
  else .ok ⟨beNat publicInputsHash % bn254ScalarField, Nat.mod_lt _ (by decide)⟩

/-- The loop `for i := 0; i < ClearHashDigestLen; i++` of `validateDigestVector`,
entered at index `i` with `k` iterations left. -/
def validateDigestLoop (publicInputsHash : Bytes) (vec : List Element) : Nat → Nat → Option Err
  | _, 0 => none
  | i, k + 1 =>
    if ¬ (vec.getD i Element.zero).IsUint64
        ∨ (vec.getD i Element.zero).Uint64 ≠ toU64 (publicInputsHash.getD i 0).val then
      some ErrProofPublicInputsMismatch
    else validateDigestLoop publicInputsHash vec (i + 1) k

/-- Function `validateDigestVector`; `none` is a nil error. -/
def validateDigestVector (publicInputsHash : Bytes) (vec : List Element) : Option Err :=
  if vec.length = 1 then
    match hashToFieldElement publicInputsHash with
    | .error e => some e
    | .ok expected =>
      if vec.getD 0 Element.zero ≠ expected then some ErrProofPublicInputsMismatch else none
  else if vec.length = ClearHashDigestLen then
    if publicInputsHash.length ≠ ClearHashDigestLen then some ErrInvalidProofEnvelope
    else validateDigestLoop publicInputsHash vec 0 ClearHashDigestLen
  else some (.text ("unsupported digest witness length: " ++ toString vec.length))

/-! ## A concrete pool (scenario 1 of the specification)

Pool `(VEIL, VAI)` with fee 30; the trader holds `10^10` of each asset. -/

namespace Scenario

def trader : Address := ⟨List.replicate 33 6, rfl⟩

/-- The pool has been created, nothing deposited yet. -/
def ammGenesis : Store :=
  setVAIBalance (SetBalance (PutPool Store.empty ⟨AssetVEIL, AssetVAI, 30, 0, 0, 0⟩) trader
    10000000000) (VAIBalanceKey trader) 10000000000

def noAddResult : AddLiquidityResult := ⟨0, 0, 0, 0, 0⟩

/-- First deposit `add_liquidity(0, 1, 10000, 10000, min = 1)`. -/
def firstDeposit : AddLiquidity := ⟨AssetVEIL, AssetVAI, 10000, 10000, 1⟩

def afterDeposit : Store :=
  (okValue (firstDeposit.Execute ammGenesis ⟨0⟩ trader txID) (Store.empty, noAddResult)).1

/-- Swap `swap_exact_in(in = 0, out = 1, amount = 100, min = 1)`. -/
def swap : SwapExactIn := ⟨AssetVEIL, AssetVAI, 100, 1⟩

def afterSwap : Store :=
  (okValue (swap.Execute afterDeposit ⟨0⟩ trader txID) (Store.empty, ⟨0, 0, 0, 0⟩)).1

/-- A first deposit whose product is `2^64 - 1 = (2^32 - 1) * (2^32 + 1)`. -/
def maxProductDeposit : AddLiquidity := ⟨AssetVEIL, AssetVAI, 4294967295, 4294967297, 1⟩

end Scenario

/-! ## Reading the rows the pool actions update -/

/-- The row that `subAssetBalance` and `addAssetBalance` update for a supported asset. -/
def assetBalanceKey (actor : Address) (asset : Byte) : Bytes :=
  if asset = AssetVEIL then BalanceKey actor else VAIBalanceKey actor

/-- The balance of a supported asset, read by `GetBalance` or `GetVAIBalance`. -/
def assetBalance (mu : Store) (actor : Address) (asset : Byte) : Except Err U64 :=
  if asset = AssetVEIL then GetBalance mu actor else GetVAIBalance mu actor

/-- The write that ends `SubBalance`, `SubVAIBalance` and `SubLPBalance`: the
row is removed when the new balance is zero and set otherwise. -/
def writeSub (mu : Store) (k : Bytes) (nbal : U64) : Store :=
  if nbal = 0 then Store.remove mu k else Store.insert mu k (be64 nbal)

namespace Scenario

/-- A later deposit `add_liquidity(0, 1, 500, 600, min = 1)` into the funded pool. -/
def secondDeposit : AddLiquidity := ⟨AssetVEIL, AssetVAI, 500, 600, 1⟩

/-- A deposit with `amount0 = 0`. -/
def zeroAmountDeposit : AddLiquidity := ⟨AssetVEIL, AssetVAI, 0, 500, 0⟩

end Scenario

namespace Scenario

/-- Removal `remove_liquidity(0, 1, lp = 1000, min0 = 1, min1 = 1)` from the funded pool. -/
def removal : RemoveLiquidity := ⟨AssetVEIL, AssetVAI, 1000, 1, 1⟩

def afterRemoval : Store :=
  (okValue (removal.Execute afterDeposit ⟨0⟩ trader txID) (Store.empty, ⟨0, 0, 0, 0, 0, 0⟩)).1

/-- A pool drained on the VEIL side: reserves `(5, 20000000)`, `total_lp = 10000`,
all LP held by the trader. -/
def thinPool : Store :=
  setLPBalance (PutPool ammGenesis ⟨AssetVEIL, AssetVAI, 30, 5, 20000000, 10000⟩)
    (LPBalanceKey AssetVEIL AssetVAI trader) 10000

/-- Removal of one LP unit asking for at least one VEIL. -/
def dustRemoval : RemoveLiquidity := ⟨AssetVEIL, AssetVAI, 1, 1, 0⟩

end Scenario

/-! ## Sealed orders (the order commitment of the specification) -/

namespace Scenario

/-- A sealed order `commit_order(market, window 1, envelope = 01 02 03, commitment = AA BB)`. -/
def order : CommitOrder := ⟨market, 1, [1, 2, 3], [170, 187]⟩

/-- The store after the trader has committed the order. -/
def afterOrder : Store :=
  (okValue (order.Execute genesis ⟨1000⟩ trader txID) (Store.empty, ⟨0⟩)).1

end Scenario

/-! ## A concrete treasury (scenario 4 of the specification)

COL vault with `locked = 900000000`, `max_release_bips = 15`, release epoch
86400 s, no release so far. -/

namespace Scenario

def governance : Address := ⟨List.replicate 33 8, rfl⟩
def operations : Address := ⟨List.replicate 33 3, rfl⟩

def treasuryConfig : TreasuryConfig := ⟨governance, operations, 15, ⟨86400⟩⟩

def treasuryGenesis : Store :=
  PutTreasuryState (PutTreasuryConfig Store.empty treasuryConfig) ⟨900000000, 0, 0, ⟨0⟩⟩

/-- The store after `release_col_tranche(1000000)` at `t = 1700000000000`. -/
def afterRelease : Store :=
  (okValue ((⟨1000000⟩ : ReleaseCOLTranche).Execute treasuryGenesis ⟨1700000000000⟩ governance
    txID) (Store.empty, ⟨0, 0, 0⟩)).1

/-- The same vault with the release epoch set to the largest `int64`. -/
def longEpochGenesis : Store :=
  PutTreasuryState
    (PutTreasuryConfig Store.empty { treasuryConfig with
      ReleaseEpochSeconds := ⟨9223372036854775807⟩ }) ⟨900000000, 0, 0, ⟨0⟩⟩

/-- The long-epoch vault after `release_col_tranche(1000000)` at `t = 1000`. -/
def afterLongEpochRelease : Store :=
  (okValue ((⟨1000000⟩ : ReleaseCOLTranche).Execute longEpochGenesis ⟨1000⟩ governance txID)
    (Store.empty, ⟨0, 0, 0⟩)).1

end Scenario

/-! ## Fee routing along a trace -/

/-- The amount a transaction routes: `amount` for a successful
`route_fees(amount)`, zero for every other transaction. -/
def Step.routed (st : Step) (mu : Store) : Nat :=
  match st.act with
  | .routeFees a =>
    if succeeded (a.Execute mu st.timestamp st.actor st.txID) then a.Amount.val else 0
  | _ => 0

/-- The sum of all amounts routed along a sequence of transactions. -/
def totalRouted : List Step → Store → Nat
  | [], _ => 0
  | st :: rest, mu => st.routed mu + totalRouted rest (st.apply mu)

/-- The sum `msrb_budget + col_budget + ops_budget` of the stored fee-router state. -/
def budgetSum (mu : Store) : Nat :=
  match GetFeeRouterState mu with
  | .ok st => st.MSRBBudget.val + st.COLBudget.val + st.OpsBudget.val
  | .error _ => 0

namespace Scenario

/-- The default fee router `(7000, 2000, 1000)` with empty budgets; the trader
holds `10^16` native units. -/
def feeGenesis : Store :=
  PutFeeRouterState (PutFeeRouterConfig (SetBalance Store.empty trader 10000000000000000)
    ⟨7000, 2000, 1000⟩) ⟨0, 0, 0⟩

/-- The store after `route_fees(1001)` by the trader. -/
def afterRoute : Store :=
  (okValue ((⟨1001⟩ : RouteFees).Execute feeGenesis ⟨0⟩ trader txID)
    (Store.empty, ⟨0, 0, 0, 0⟩)).1

/-- The store after `route_fees(3000000000000000)` by the trader. -/
def afterLargeRoute : Store :=
  (okValue ((⟨3000000000000000⟩ : RouteFees).Execute feeGenesis ⟨0⟩ trader txID)
    (Store.empty, ⟨0, 0, 0, 0⟩)).1

end Scenario

/-! ## The VAI epoch rule and the reserve floor -/

/-- The epoch rule of `MintVAI.Execute` (the two `if`s that follow the read of
the VAI state): a zero epoch start becomes `timestamp`; then, when
`timestamp` is not before `epoch_start + mint_epoch_seconds * 1000` (in
`int64`), the epoch restarts at `timestamp` with nothing minted. -/
def MintVAI.epochState (cfg : VAIConfig) (stateVal0 : VAIState) (timestamp : I64) : VAIState :=
  let stateVal1 : VAIState :=
    if stateVal0.EpochStartUnix = I64.ofInt 0 then
      { stateVal0 with EpochStartUnix := timestamp }
    else stateVal0
  if timestamp.toInt ≥ (I64.add stateVal1.EpochStartUnix
      (I64.mul cfg.MintEpochSeconds (I64.ofInt 1000))).toInt then
    { stateVal1 with EpochStartUnix := timestamp, EpochMinted := 0 }
  else stateVal1

/-- The reserve invariant of the specification, read off the stored rows:
whenever `total_debt > 0`,
`exogenous_reserve * 10000 ≥ total_debt * backing_floor_bips` over the integers. -/
def ReserveFloor (mu : Store) : Prop :=
  ∀ st risk res, GetVAIState mu = .ok st → GetRiskConfig mu = .ok risk
    → GetReserveState mu = .ok res → 0 < st.TotalDebt.val
    → st.TotalDebt.val * risk.BackingFloorBips.val ≤ res.ExogenousReserve.val * 10000

/-! ## A concrete VAI vault (scenario 5 of the specification)

`debt_ceiling = 2000000`, `backing_floor_bips = 10000`, `exogenous_reserve = 1000000`. -/

namespace Scenario

def minter : Address := ⟨List.replicate 33 2, rfl⟩

def vaiConfig : VAIConfig := ⟨minter, 2000000, 2000000, ⟨3600⟩⟩

def riskConfig : RiskConfig := ⟨10000, 5000, 5000, 0, 1000, 1000, 1000⟩

def vaiGenesis : Store :=
  PutReserveState
    (okValue (PutRiskConfig
      (PutVAIState (PutVAIConfig (PutTreasuryConfig Store.empty treasuryConfig) vaiConfig)
        ⟨0, ⟨0⟩, 0⟩) riskConfig) Store.empty)
    ⟨1000000, 0⟩

/-- The store after `mint_vai(trader, 1000000)` at `t = 1700000000000`. -/
def afterMint : Store :=
  (okValue ((⟨trader, 1000000⟩ : MintVAI).Execute vaiGenesis ⟨1700000000000⟩ minter txID)
    (Store.empty, ⟨0, 0⟩)).1

/-- Governance then reports an empty reserve: `update_reserve_state(0, 0)`. -/
def afterReserveUpdate : Store :=
  (okValue ((⟨0, 0⟩ : UpdateReserveState).Execute afterMint ⟨1700000001000⟩ governance txID)
    (Store.empty, ⟨0, 0⟩)).1

/-- Governance instead doubles the floor: `set_risk_params(backing_floor_bips = 20000, ...)`. -/
def afterRiskUpdate : Store :=
  (okValue ((⟨20000, 5000, 5000, 0, 1000, 1000, 1000⟩ : SetRiskParams).Execute afterMint
    ⟨1700000001000⟩ governance txID) (Store.empty, riskConfig)).1

end Scenario

/-- The pool invariant of the specification, read off the stored rows: every
pool that `GetPool` returns has `fee_bips ∈ [1, 1000]` and `asset0 ≤ asset1`. -/
def PoolsWellFormed (mu : Store) : Prop :=
  ∀ a b pool, GetPool mu a b = .ok pool →
    (1 ≤ pool.FeeBips.val ∧ pool.FeeBips.val ≤ 1000) ∧ pool.Asset0 ≤ pool.Asset1

namespace Scenario

/-- A store with the treasury config only: no pool yet. -/
def poolGenesis : Store := PutTreasuryConfig Store.empty treasuryConfig

/-- Governance creates the pool, naming the assets in descending order:
`create_pool(asset0 = 1, asset1 = 0, fee_bips = 30)`. -/
def poolCreation : CreatePool := ⟨AssetVAI, AssetVEIL, 30⟩

def afterPoolCreation : Store :=
  (okValue (poolCreation.Execute poolGenesis ⟨0⟩ governance txID) (Store.empty, ⟨0, 0, 0⟩)).1

end Scenario

/-! ## A market through its lifecycle -/

namespace Scenario

/-- The Active market of the batch scenario; the trader holds 1000 native units. -/
def lifecycleGenesis : Store := SetBalance genesis trader 1000

/-- Resolution with outcome 1, then a dispute by the trader with bond 10. -/
def lifecycleSteps : List Step :=
  [⟨env, .resolveMarket ⟨market, 1, [1]⟩, ⟨200000⟩, outsider, txID⟩,
   ⟨env, .dispute ⟨market, 10, [1]⟩, ⟨300000⟩, trader, txID⟩]

/-- A second `create_market` on the id of the existing market, with a single outcome. -/
def recreation : CreateMarket := ⟨market, ascii "snow?", 1, ⟨100000⟩, 10⟩

/-- A second `create_market` on the id of the existing market, with valid parameters. -/
def validRecreation : CreateMarket := ⟨market, ascii "snow?", 2, ⟨100000⟩, 10⟩

end Scenario

/-- Whether a key is a native, VAI or LP balance key (by its prefix byte). -/
def isBalanceKey (q : Bytes) : Prop :=
  q.head? = some balancePrefix ∨ q.head? = some vaiBalancePrefix
    ∨ q.head? = some lpBalancePrefix

/-- The balance invariant of the specification, read off the stored rows: no
native, VAI or LP balance row holds the value zero. -/
def NoZeroBalances (mu : Store) : Prop :=
  ∀ q v, isBalanceKey q → mu q = some v → parseUInt64 v ≠ .ok 0

namespace Scenario

/-- A store in which the trader holds 1000 native units and nothing else exists. -/
def walletGenesis : Store := SetBalance Store.empty trader 1000

/-- The trader sends the whole balance to the outsider. -/
def fullTransfer : Step := ⟨env, .transfer ⟨outsider, 1000, []⟩, ⟨0⟩, trader, txID⟩

end Scenario

/-! ## The dispute slot -/

namespace Scenario

/-- An oracle reveal that names the sentinel validator index `0xFFFFFFFF`. -/
def sentinelReveal : RevealBatch := ⟨market, 1, [1, 2], 4294967295⟩

/-- The store after the sentinel reveal on the Active market. -/
def afterSentinelReveal : Store :=
  (okValue (sentinelReveal.Execute genesis ⟨1000⟩ outsider txID) (Store.empty, ⟨0⟩)).1

/-- The market of the lifecycle scenario after its resolution with outcome 1. -/
def afterResolve : Store :=
  (okValue ((⟨market, 1, [1]⟩ : ResolveMarket).Execute lifecycleGenesis ⟨200000⟩ outsider txID)
    (Store.empty, ⟨0⟩)).1

/-- The trader's dispute: bond 10, evidence `01`. -/
def traderDispute : Dispute := ⟨market, 10, [1]⟩

/-- The store after the trader's dispute. -/
def afterDispute : Store :=
  (okValue (traderDispute.Execute afterResolve ⟨300000⟩ trader txID) (Store.empty, ⟨0⟩)).1

/-- Later transactions: a sentinel reveal, a second dispute, a transfer. -/
def afterDisputeSteps : List Step :=
  [⟨env, .revealBatch sentinelReveal, ⟨400000⟩, outsider, txID⟩,
   ⟨env, .dispute ⟨market, 20, [9]⟩, ⟨500000⟩, trader, txID⟩,
   ⟨env, .transfer ⟨outsider, 5, []⟩, ⟨600000⟩, trader, txID⟩]

end Scenario

/-! ## Bounds-checked decoding of batch-proof records -/

/-- Go slice expression `v[a:b]` with its run-time check: it panics unless
`a ≤ b ≤ len(v)`. -/
def sliceChecked (v : Bytes) (a b : Nat) : Except Err Bytes :=
  if a ≤ b ∧ b ≤ v.length then .ok (slice v a b)
  else .error (.goPanic "slice bounds out of range")

/-- Go index expression `v[i]` with its run-time check. -/
def indexChecked (v : Bytes) (i : Nat) : Except Err Byte :=
  if i < v.length then .ok (v.getD i 0) else .error (.goPanic "index out of range")

/-- The decoding steps of `GetBatchProofRecord` on the value bytes, in source
order, with every index and slice expression bounds-checked as the Go
run time does. -/
def decodeBatchProofRecordChecked (v : Bytes) : Except Err BatchProofRecord :=
  if v.length < 86 then .error ErrInvalidProofEnvelope
  else do
    let proofType ← indexChecked v 0
    let submitted ← sliceChecked v 1 9
    let windowClose ← sliceChecked v 9 17
    let prover ← sliceChecked v 17 50
    let commitment ← sliceChecked v 50 82
    let rest0 ← sliceChecked v 82 v.length
    if rest0.length < 2 then .error ErrInvalidProofEnvelope
    else do
      let pihLenBytes ← sliceChecked v 82 84
      let pihLen := (u16be pihLenBytes).val
      let rest1 ← sliceChecked v 84 v.length
      if pihLen ≤ 0 ∨ pihLen > 32 ∨ rest1.length < pihLen + 2 then .error ErrInvalidProofEnvelope
      else do
        let pih ← sliceChecked v 84 (84 + pihLen)
        let offset := 84 + pihLen
        let fillsLenBytes ← sliceChecked v offset (offset + 2)
        let fillsLen := (u16be fillsLenBytes).val
        let rest2 ← sliceChecked v (offset + 2) v.length
        if fillsLen ≤ 0 ∨ fillsLen > 64 ∨ rest2.length < fillsLen then
          .error ErrInvalidProofEnvelope
        else do
          let fills ← sliceChecked v (offset + 2) (offset + 2 + fillsLen)
          return {
            ProofType := proofType
            SubmittedAtMs := ⟨u64be submitted⟩
            WindowCloseAtMs := ⟨u64be windowClose⟩
            Prover := copyInto 33 prover
            ProofCommitment := copyInto 32 commitment
            PublicInputsHash := pih
            FillsHash := fills }

namespace Scenario

/-- A batch-proof record with a 32-byte public-inputs hash and a 32-byte fills hash. -/
def proofRecord : BatchProofRecord :=
  ⟨ProofTypeGroth16, ⟨5000⟩, ⟨5000⟩, prover, ⟨List.replicate 32 3, rfl⟩, List.replicate 32 4,
    fillsHash⟩

end Scenario

/-! ## Genesis validation (`genesis/genesis.go`) -/

/-- Type `hgenesis.CustomAllocation`: one initial balance. -/
structure CustomAllocation where
  Address : Address
  Balance : U64

/-- Type `Tokenomics` of `genesis/genesis.go`, fields in source order. -/
structure Tokenomics where
  TotalSupply : U64
  Governance : Address
  Operations : Address
  MintAuthority : Address
  COLVaultLocked : U64
  COLVaultLive : U64
  MaxReleaseBips : U16
  ReleaseEpochSeconds : I64
  FeeRouterMSRBBips : U16
  FeeRouterCOLBips : U16
  FeeRouterOpsBips : U16
  VAIDebtCeiling : U64
  VAIEpochMintLimit : U64
  VAIMintEpochSeconds : I64
  BackingFloorBips : U32
  VEILLtvBips : U16
  WVEILLtvBips : U16
  WSVEILLtvBips : U16
  VEILHaircutBips : U16
  WVEILHaircutBips : U16
  WSVEILHaircutBips : U16
  ExogenousReserveInit : U64
  VAIBufferInit : U64
  RequireBatchProof : Bool
  RequiredProofType : Byte
  BatchWindowMs : I64
  ProofDeadlineMs : I64
  ProverAuthority : Address

/-- The loop `for _, alloc := range allocs { next, err := smath.Add(allocSum,
alloc.Balance); ...; allocSum = next }` of `validateTokenomics`, started at
`allocSum`. -/
def sumAllocations : List CustomAllocation → U64 → Except Err U64
  | [], allocSum => .ok allocSum
  | alloc :: rest, allocSum =>
    match smathAdd allocSum alloc.Balance with
    | .error e => .error e
    | .ok next => sumAllocations rest next

/-- Function `validateTokenomics` of `genesis/genesis.go`; the result is the Go
`error`, `none` for `nil`. The tokenomics block is a pointer, `none` for
`nil`. -/
def validateTokenomics (allocs : List CustomAllocation) : Option Tokenomics → Option Err
  | none => none
  | some t =>
    if t.ReleaseEpochSeconds.toInt ≤ 0 then
      some (.wrapf ErrInvalidTokenomicsConfig "releaseEpochSeconds must be > 0")
    else if t.MaxReleaseBips = 0 ∨ t.MaxReleaseBips.val > bipsDenominator.val then
      some (.wrapf ErrInvalidTokenomicsConfig "maxReleaseBips must be in [1,10000]")
    else if t.VAIMintEpochSeconds.toInt ≤ 0 then
      some (.wrapf ErrInvalidTokenomicsConfig "vaiMintEpochSeconds must be > 0")
    else if t.VAIDebtCeiling = 0 then
      some (.wrapf ErrInvalidTokenomicsConfig "vaiDebtCeiling must be > 0")
    else if t.VAIEpochMintLimit = 0 ∨ t.VAIEpochMintLimit.val > t.VAIDebtCeiling.val then
      some (.wrapf ErrInvalidTokenomicsConfig "vaiEpochMintLimit must be in [1, vaiDebtCeiling]")
    else if t.BackingFloorBips = 0 then
      some (.wrapf ErrInvalidRiskConfig "backingFloorBips must be > 0")
    else if t.WSVEILLtvBips ≠ 0 then
      some (.wrapf ErrInvalidRiskConfig "wsVeilLtvBips must be 0 in v1")
    else if t.VEILLtvBips.val > bipsDenominator.val ∨ t.WVEILLtvBips.val > bipsDenominator.val
        ∨ t.WSVEILLtvBips.val > bipsDenominator.val then
      some (.wrapf ErrInvalidRiskConfig "collateral LTV bips out of range")
    else if t.VEILHaircutBips.val > bipsDenominator.val
        ∨ t.WVEILHaircutBips.val > bipsDenominator.val
        ∨ t.WSVEILHaircutBips.val > bipsDenominator.val then
      some (.wrapf ErrInvalidRiskConfig "collateral haircut bips out of range")
    else if t.RequiredProofType ≠ ProofTypeGroth16 ∧ t.RequiredProofType ≠ ProofTypePlonk then
      some (.wrapf ErrInvalidProofConfig "requiredProofType must be groth16 or plonk")
    else if t.BatchWindowMs.toInt ≤ 0 ∨ t.ProofDeadlineMs.toInt ≤ 0 then
      some (.wrapf ErrInvalidProofConfig "batchWindowMs and proofDeadlineMs must be > 0")
    else if t.ProverAuthority = zeroBytes 33 then
      some (.wrapf ErrInvalidProofConfig "proverAuthority must be set")
    else
      let feeSum : Nat := t.FeeRouterMSRBBips.val + t.FeeRouterCOLBips.val + t.FeeRouterOpsBips.val
      if feeSum ≠ bipsDenominator.val then
        some (.wrapf ErrInvalidFeeRouterConfig ("fee router bips sum=" ++ toString feeSum))
      else
        match sumAllocations allocs 0 with
        | .error e => some e
        | .ok allocSum =>
          match smathAdd allocSum t.COLVaultLocked with
          | .error e => some e
          | .ok total0 =>
            match smathAdd total0 t.COLVaultLive with
            | .error e => some e
            | .ok total =>
              if t.TotalSupply ≠ 0 ∧ total ≠ t.TotalSupply then
                some (.wrapf ErrInvalidTokenomicsConfig
                  ("totalSupply=" ++ toString t.TotalSupply.val ++ ", computed="
                    ++ toString total.val))
              else none

/-- The checks of `validateTokenomics` that come before the supply check,
collected as one condition on the block. -/
def Tokenomics.fieldsValid (t : Tokenomics) : Prop :=
  0 < t.ReleaseEpochSeconds.toInt
    ∧ (t.MaxReleaseBips ≠ 0 ∧ t.MaxReleaseBips.val ≤ 10000)
    ∧ 0 < t.VAIMintEpochSeconds.toInt
    ∧ t.VAIDebtCeiling ≠ 0
    ∧ (t.VAIEpochMintLimit ≠ 0 ∧ t.VAIEpochMintLimit.val ≤ t.VAIDebtCeiling.val)
    ∧ t.BackingFloorBips ≠ 0
    ∧ t.WSVEILLtvBips = 0
    ∧ (t.VEILLtvBips.val ≤ 10000 ∧ t.WVEILLtvBips.val ≤ 10000)
    ∧ (t.VEILHaircutBips.val ≤ 10000 ∧ t.WVEILHaircutBips.val ≤ 10000
        ∧ t.WSVEILHaircutBips.val ≤ 10000)
    ∧ (t.RequiredProofType = ProofTypeGroth16 ∨ t.RequiredProofType = ProofTypePlonk)
    ∧ (0 < t.BatchWindowMs.toInt ∧ 0 < t.ProofDeadlineMs.toInt)
    ∧ t.ProverAuthority ≠ zeroBytes 33
    ∧ t.FeeRouterMSRBBips.val + t.FeeRouterCOLBips.val + t.FeeRouterOpsBips.val = 10000

/-- The sum of the allocation balances plus `colVaultLocked` plus
`colVaultLive`, over the naturals. -/
def supplySum (allocs : List CustomAllocation) (t : Tokenomics) : Nat :=
  (allocs.map (fun alloc => alloc.Balance.val)).sum + t.COLVaultLocked.val + t.COLVaultLive.val

/-- A tokenomics block as `applyTokenomicsDefaults` leaves it when the genesis
file gives only the debt ceiling and the vault amounts: `totalSupply` is
absent, hence zero. -/
def Scenario.tokenomics : Tokenomics :=
  { TotalSupply := 0
    Governance := Scenario.governance
    Operations := Scenario.governance
    MintAuthority := Scenario.governance
    COLVaultLocked := 1000
    COLVaultLive := 10
    MaxReleaseBips := 15
    ReleaseEpochSeconds := I64.ofInt 86400
    FeeRouterMSRBBips := 7000
    FeeRouterCOLBips := 2000
    FeeRouterOpsBips := 1000
    VAIDebtCeiling := 500
    VAIEpochMintLimit := 500
    VAIMintEpochSeconds := I64.ofInt 3600
    BackingFloorBips := 10000
    VEILLtvBips := 3000
    WVEILLtvBips := 3500
    WSVEILLtvBips := 0
    VEILHaircutBips := 6000
    WVEILHaircutBips := 5500
    WSVEILHaircutBips := 10000
    ExogenousReserveInit := 500
    VAIBufferInit := 0
    RequireBatchProof := true
    RequiredProofType := ProofTypeGroth16
    BatchWindowMs := I64.ofInt 5000
    ProofDeadlineMs := I64.ofInt 10000
    ProverAuthority := Scenario.governance }

/-- One genesis allocation of 5 units to the governance account. -/
def Scenario.allocations : List CustomAllocation := [⟨Scenario.governance, 5⟩]

/-- The same block with a declared total supply of 1015, which is the sum. -/
def Scenario.tokenomicsDeclared : Tokenomics :=
  { Scenario.tokenomics with TotalSupply := 1015 }

namespace Scenario

/-- The store after the later deposit `(500, 600)`, which mints 500 LP. -/
def afterSecondDeposit : Store :=
  (okValue (secondDeposit.Execute afterDeposit ⟨0⟩ trader txID) (Store.empty, noAddResult)).1

/-- Removal of the 500 LP that the later deposit minted. -/
def roundTripRemoval : RemoveLiquidity := ⟨AssetVEIL, AssetVAI, 500, 1, 1⟩

end Scenario

/-! ## LP supply accounting -/

/-- The finitely many values of `[33]byte`, enumerated as vectors of bytes. -/
@[irreducible] def addressFintype : Fintype Address :=
  (inferInstance : Fintype (Mathlib.Vector Byte 33))

/-- Accounts form a finite type. -/
instance instFintypeAddress : Fintype Address := addressFintype

/-- The LP balance `LPBalance[pair, addr]` as `getLPBalance` reads it from the
row: the stored amount, and zero when the row is absent or malformed. -/
def lpOf (mu : Store) (asset0 asset1 : Byte) (addr : Address) : Nat :=
  (getLPBalance mu asset0 asset1 addr).2.1.val

/-- The sum of `LPBalance[pair, addr]` over all addresses. -/
def lpSupply (mu : Store) (asset0 asset1 : Byte) : Nat :=
  Finset.sum Finset.univ (fun addr : Address => lpOf mu asset0 asset1 addr)

/-- The LP accounting property of a store: for every asset pair, a stored pool
has `total_lp` equal to the sum of the LP balances of the pair over all
addresses, and a pair without a pool row has no LP balances. -/
def LPAccounting (mu : Store) : Prop :=
  ∀ a0 a1 : Byte,
    (mu (PoolKey a0 a1) = none → lpSupply mu a0 a1 = 0)
      ∧ (∀ pool, GetPool mu a0 a1 = .ok pool → pool.TotalLP.val = lpSupply mu a0 a1)

namespace Scenario

/-- The treasury store with the trader funded in both assets: no pool row and
no LP row yet. -/
def ammFunded : Store :=
  setVAIBalance (SetBalance poolGenesis trader 10000000000) (VAIBalanceKey trader) 10000000000

/-- Governance creates the pool; the trader deposits `(10000, 10000)`, removes
1000 LP and swaps 100 VEIL. -/
def ammSteps : List Step :=
  [⟨env, .createPool poolCreation, ⟨0⟩, governance, txID⟩,
   ⟨env, .addLiquidity firstDeposit, ⟨0⟩, trader, txID⟩,
   ⟨env, .removeLiquidity removal, ⟨0⟩, trader, txID⟩,
   ⟨env, .swapExactIn swap, ⟨0⟩, trader, txID⟩]

end Scenario

namespace Scenario

/-- A tokenomics block with the mint epoch set to the largest `int64`, an
epoch mint limit of 500 and a debt ceiling of 2000000. -/
def longMintEpochTokenomics : Tokenomics :=
  { tokenomics with
    MintAuthority := minter
    VAIDebtCeiling := 2000000
    VAIEpochMintLimit := 500
    VAIMintEpochSeconds := ⟨9223372036854775807⟩
    ExogenousReserveInit := 1000000 }

/-- The VAI rows that genesis writes for that block: no debt, no epoch yet,
reserve 1000000 and the risk configuration of the scenario. -/
def longMintEpochGenesis : Store :=
  PutReserveState
    (okValue (PutRiskConfig
      (PutVAIState
        (PutVAIConfig (PutTreasuryConfig Store.empty treasuryConfig)
          ⟨minter, 2000000, 500, ⟨9223372036854775807⟩⟩)
        ⟨0, ⟨0⟩, 0⟩) riskConfig) Store.empty)
    ⟨1000000, 0⟩

/-- The long-epoch store after `mint_vai(trader, 500)` at `t = 1000`. -/
def afterLongEpochMint : Store :=
  (okValue ((⟨trader, 500⟩ : MintVAI).Execute longMintEpochGenesis ⟨1000⟩ minter txID)
    (Store.empty, ⟨0, 0⟩)).1

/-- The long-epoch store after a second `mint_vai(trader, 500)` at `t = 1001`. -/
def afterSecondLongEpochMint : Store :=
  (okValue ((⟨trader, 500⟩ : MintVAI).Execute afterLongEpochMint ⟨1001⟩ minter txID)
    (Store.empty, ⟨0, 0⟩)).1

/-- The same rows with a mint epoch of 3600 seconds. -/
def hourMintEpochGenesis : Store :=
  PutReserveState
    (okValue (PutRiskConfig
      (PutVAIState
        (PutVAIConfig (PutTreasuryConfig Store.empty treasuryConfig)
          ⟨minter, 2000000, 500, ⟨3600⟩⟩)
        ⟨0, ⟨0⟩, 0⟩) riskConfig) Store.empty)
    ⟨1000000, 0⟩

/-- The one-hour-epoch store after `mint_vai(trader, 500)` at `t = 1000`. -/
def afterHourEpochMint : Store :=
  (okValue ((⟨trader, 500⟩ : MintVAI).Execute hourMintEpochGenesis ⟨1000⟩ minter txID)
    (Store.empty, ⟨0, 0⟩)).1

end Scenario

/-! # Theorems -/

/-! ## Encoders and slices -/

theorem u16be_be16 (x : U16) : u16be (be16 x) = x := by
  apply Fin.ext
  have := x.isLt
  simp [u16be, be16, beNat, byteOf, toU16]
  omega

theorem u32be_be32 (x : U32) : u32be (be32 x) = x := by
  apply Fin.ext
  have := x.isLt
  simp [u32be, be32, beNat, byteOf, toU32]
  omega

theorem u64be_be64 (x : U64) : u64be (be64 x) = x := by
  apply Fin.ext
  have := x.isLt
  simp [u64be, be64, beNat, byteOf, toU64]
  omega

theorem be16_length (x : U16) : (be16 x).length = 2 := rfl

theorem be32_length (x : U32) : (be32 x).length = 4 := rfl

theorem be64_length (x : U64) : (be64 x).length = 8 := rfl

theorem magicV1_eq : proofEnvelopeMagicV1 = [86, 90, 75, 49] := by decide

theorem magicV2_eq : proofEnvelopeMagicV2 = [86, 90, 75, 50] := by decide

/-- The slice of `a ++ b ++ c` that starts after `a` and has the length of `b` is `b`. -/
theorem slice_eq_of (blob a b c : Bytes) (h : blob = a ++ b ++ c) (i j : Nat)
    (hi : i = a.length) (hj : j = a.length + b.length) : slice blob i j = b := by
  subst h hi hj
  simp [slice, List.append_assoc]

/-- The byte of `a ++ [t] ++ c` at index `a.length` is `t`. -/
theorem getD_eq_of (blob a : Bytes) (t : Byte) (c : Bytes) (h : blob = a ++ [t] ++ c) (i : Nat)
    (hi : i = a.length) : blob.getD i 0 = t := by
  subst h hi
  rw [List.append_assoc, List.getD_eq_getElem?_getD, List.getElem?_append_right (Nat.le_refl _)]
  simp

/-! ## Proof envelopes -/

/-- C10. V1 envelope round trip: whenever `BuildProofEnvelope(t, p, w)` succeeds,
`parseProofEnvelope` of the built bytes returns `(t, "", p, w, hasEnvelope = true)`
with no error. -/
theorem BuildProofEnvelope_roundtrip (t : Byte) (p w blob : Bytes)
    (h : BuildProofEnvelope t p w = .ok blob) :
    parseProofEnvelope blob = .ok ⟨t, [], p, w, true⟩ := by
  unfold BuildProofEnvelope at h
  split at h
  · cases h
  split at h
  · cases h
  split at h
  · cases h
  rename_i h1 h2 h3
  simp only [Except.ok.injEq] at h
  simp only [MaxProofBytesSize, proofEnvelopeV1HeaderLen] at h1 h3
  have hp : (toU32 p.length).val = p.length := by simp [toU32]; omega
  have hw : (toU32 w.length).val = w.length := by simp [toU32]; omega
  have hp0 : p ≠ [] := by intro hn; simp [hn] at h1
  have hw0 : w ≠ [] := by intro hn; simp [hn] at h2
  have hlen : blob.length = 13 + p.length + w.length := by
    subst h; simp [magicV1_eq, be32_length]; omega
  have hm : slice blob 0 4 = proofEnvelopeMagicV1 :=
    slice_eq_of blob [] proofEnvelopeMagicV1
      ([t] ++ be32 (toU32 p.length) ++ be32 (toU32 w.length) ++ p ++ w)
      (by rw [← h]; simp [List.append_assoc]) 0 4 rfl rfl
  have ht : blob.getD 4 0 = t :=
    getD_eq_of blob proofEnvelopeMagicV1 t
      (be32 (toU32 p.length) ++ be32 (toU32 w.length) ++ p ++ w)
      (by rw [← h]; simp [List.append_assoc]) 4 rfl
  have hpl : slice blob 5 9 = be32 (toU32 p.length) :=
    slice_eq_of blob (proofEnvelopeMagicV1 ++ [t]) _ (be32 (toU32 w.length) ++ p ++ w)
      (by rw [← h]; simp [List.append_assoc]) 5 9 rfl rfl
  have hwl : slice blob 9 13 = be32 (toU32 w.length) :=
    slice_eq_of blob (proofEnvelopeMagicV1 ++ [t] ++ be32 (toU32 p.length)) _ (p ++ w)
      (by rw [← h]; simp [List.append_assoc]) 9 13 rfl rfl
  have hpp : slice blob 13 (13 + p.length) = p :=
    slice_eq_of blob (proofEnvelopeMagicV1 ++ [t] ++ be32 (toU32 p.length)
      ++ be32 (toU32 w.length)) _ w (by rw [← h]) 13 _ rfl (by simp [magicV1_eq, be32_length])
  have hww : slice blob (13 + p.length) (13 + p.length + w.length) = w :=
    slice_eq_of blob (proofEnvelopeMagicV1 ++ [t] ++ be32 (toU32 p.length)
      ++ be32 (toU32 w.length) ++ p) _ [] (by rw [← h]; simp) _ _
      (by simp [magicV1_eq, be32_length]; omega) (by simp [magicV1_eq, be32_length]; omega)
  have hml : proofEnvelopeMagicV1.length = 4 := rfl
  unfold parseProofEnvelope
  rw [hml, hm]
  have h4 : ¬ blob.length < 4 := by omega
  simp only [h4, if_false, if_true]
  unfold parseProofEnvelopeV1
  simp only [proofEnvelopeV1HeaderLen, hpl, hwl, u32be_be32, hp, hw, ht, hpp, hww]
  have h13 : ¬ blob.length < 13 := by omega
  have hz : ¬ (p.length ≤ 0 ∨ w.length ≤ 0) := by omega
  simp [hlen, hp0, hw0]
  omega

/-- Witness for C10: the Groth16 envelope of proof `01 02 03 04` and witness `09 08 07`. -/
theorem BuildProofEnvelope_roundtrip_witness :
    BuildProofEnvelope 1 [1, 2, 3, 4] [9, 8, 7]
        = .ok [86, 90, 75, 49, 1, 0, 0, 0, 4, 0, 0, 0, 3, 1, 2, 3, 4, 9, 8, 7]
      ∧ parseProofEnvelope [86, 90, 75, 49, 1, 0, 0, 0, 4, 0, 0, 0, 3, 1, 2, 3, 4, 9, 8, 7]
        = .ok ⟨1, [], [1, 2, 3, 4], [9, 8, 7], true⟩ :=
  ⟨by decide!, BuildProofEnvelope_roundtrip 1 [1, 2, 3, 4] [9, 8, 7] _ (by decide!)⟩

/-- C9 (as amended). V2 envelope round trip: whenever
`BuildProofEnvelopeWithCircuit(t, c, p, w)` succeeds, `parseProofEnvelope` of the
built bytes returns `(t, strings.TrimSpace(c), p, w, hasEnvelope = true)` with no
error; the circuit id is `c` itself when `c` carries no surrounding white space. -/
theorem BuildProofEnvelopeWithCircuit_roundtrip (t : Byte) (c p w blob : Bytes)
    (h : BuildProofEnvelopeWithCircuit t c p w = .ok blob) :
    parseProofEnvelope blob = .ok ⟨t, trimSpace c, p, w, true⟩
      ∧ (trimSpace c = c → parseProofEnvelope blob = .ok ⟨t, c, p, w, true⟩) := by
  have key : parseProofEnvelope blob = .ok ⟨t, trimSpace c, p, w, true⟩ := by
    unfold BuildProofEnvelopeWithCircuit at h
    simp only at h
    generalize trimSpace c = cid at h ⊢
    split at h
    · cases h
    split at h
    · cases h
    split at h
    · cases h
    split at h
    · cases h
    rename_i h1 h2 h3 h4
    simp only [Except.ok.injEq] at h
    simp only [MaxProofBytesSize, proofEnvelopeV2HeaderLen] at h1 h4
    have hv : isValidProofCircuitID cid = true := by simpa using h3
    have hcl : 1 ≤ cid.length ∧ cid.length ≤ 63 := by
      unfold isValidProofCircuitID at hv
      split at hv
      · cases hv
      · rename_i hc; simp only [maxProofCircuitIDLen] at hc; omega
    have hc : (byteOf cid.length).val = cid.length := by simp [byteOf]; omega
    have hp : (toU32 p.length).val = p.length := by simp [toU32]; omega
    have hw : (toU32 w.length).val = w.length := by simp [toU32]; omega
    have hp0 : p ≠ [] := by intro hn; simp [hn] at h1
    have hw0 : w ≠ [] := by intro hn; simp [hn] at h2
    have hlen : blob.length = 14 + cid.length + p.length + w.length := by
      subst h; simp [magicV2_eq, be32_length]; omega
    have hm : slice blob 0 4 = proofEnvelopeMagicV2 :=
      slice_eq_of blob [] proofEnvelopeMagicV2
        ([t] ++ [byteOf cid.length] ++ be32 (toU32 p.length) ++ be32 (toU32 w.length)
          ++ cid ++ p ++ w)
        (by rw [← h]; simp [List.append_assoc]) 0 4 rfl rfl
    have ht : blob.getD 4 0 = t :=
      getD_eq_of blob proofEnvelopeMagicV2 t
        ([byteOf cid.length] ++ be32 (toU32 p.length) ++ be32 (toU32 w.length) ++ cid ++ p ++ w)
        (by rw [← h]; simp [List.append_assoc]) 4 rfl
    have hcb : blob.getD 5 0 = byteOf cid.length :=
      getD_eq_of blob (proofEnvelopeMagicV2 ++ [t]) _
        (be32 (toU32 p.length) ++ be32 (toU32 w.length) ++ cid ++ p ++ w)
        (by rw [← h]; simp [List.append_assoc]) 5 rfl
    have hpl : slice blob 6 10 = be32 (toU32 p.length) :=
      slice_eq_of blob (proofEnvelopeMagicV2 ++ [t] ++ [byteOf cid.length]) _
        (be32 (toU32 w.length) ++ cid ++ p ++ w)
        (by rw [← h]; simp [List.append_assoc]) 6 10 rfl rfl
    have hwl : slice blob 10 14 = be32 (toU32 w.length) :=
      slice_eq_of blob (proofEnvelopeMagicV2 ++ [t] ++ [byteOf cid.length]
        ++ be32 (toU32 p.length)) _ (cid ++ p ++ w)
        (by rw [← h]; simp [List.append_assoc]) 10 14 rfl rfl
    have hcc : slice blob 14 (14 + cid.length) = cid :=
      slice_eq_of blob (proofEnvelopeMagicV2 ++ [t] ++ [byteOf cid.length]
        ++ be32 (toU32 p.length) ++ be32 (toU32 w.length)) _ (p ++ w)
        (by rw [← h]; simp [List.append_assoc]) 14 _ rfl (by simp [magicV2_eq, be32_length])
    have hpp : slice blob (14 + cid.length) (14 + cid.length + p.length) = p :=
      slice_eq_of blob (proofEnvelopeMagicV2 ++ [t] ++ [byteOf cid.length]
        ++ be32 (toU32 p.length) ++ be32 (toU32 w.length) ++ cid) _ w (by rw [← h]) _ _
        (by simp [magicV2_eq, be32_length]; omega) (by simp [magicV2_eq, be32_length]; omega)
    have hww : slice blob (14 + cid.length + p.length) (14 + cid.length + p.length + w.length)
        = w :=
      slice_eq_of blob (proofEnvelopeMagicV2 ++ [t] ++ [byteOf cid.length]
        ++ be32 (toU32 p.length) ++ be32 (toU32 w.length) ++ cid ++ p) _ []
        (by rw [← h]; simp) _ _
        (by simp [magicV2_eq, be32_length]; omega) (by simp [magicV2_eq, be32_length]; omega)
    have hml1 : proofEnvelopeMagicV1.length = 4 := rfl
    have hml2 : proofEnvelopeMagicV2.length = 4 := rfl
    have hne : proofEnvelopeMagicV2 ≠ proofEnvelopeMagicV1 := by decide
    unfold parseProofEnvelope
    rw [hml1, hml2, hm]
    have h4 : ¬ blob.length < 4 := by omega
    simp only [h4, if_false, if_true, hne]
    unfold parseProofEnvelopeV2
    simp only [proofEnvelopeV2HeaderLen, maxProofCircuitIDLen, hpl, hwl, u32be_be32, hp, hw, ht,
      hcb, hc, hcc, hpp, hww, hv]
    simp only [hlen, hp0, hw0, List.length_eq_zero, Nat.le_zero_eq, or_self, or_false,
      not_true_eq_false, if_false, ne_eq, not_false_eq_true, if_true, gt_iff_lt]
    have hcn : ¬ (cid = [] ∨ 63 < cid.length) := by
      rintro (hx | hx)
      · simp [hx] at hcl
      · omega
    rw [if_neg (by omega), if_neg hcn]
  exact ⟨key, fun htc => by rw [key, htc]⟩

/-- Witness for C9: the Groth16 envelope for circuit `clearhash-v1`. -/
theorem BuildProofEnvelopeWithCircuit_roundtrip_witness :
    BuildProofEnvelopeWithCircuit 1 (ascii "clearhash-v1") [1, 2, 3, 4] [9, 8, 7]
        = .ok [86, 90, 75, 50, 1, 12, 0, 0, 0, 4, 0, 0, 0, 3, 99, 108, 101, 97, 114, 104, 97,
          115, 104, 45, 118, 49, 1, 2, 3, 4, 9, 8, 7]
      ∧ (parseProofEnvelope [86, 90, 75, 50, 1, 12, 0, 0, 0, 4, 0, 0, 0, 3, 99, 108, 101, 97,
          114, 104, 97, 115, 104, 45, 118, 49, 1, 2, 3, 4, 9, 8, 7]
            = .ok ⟨1, trimSpace (ascii "clearhash-v1"), [1, 2, 3, 4], [9, 8, 7], true⟩
        ∧ (trimSpace (ascii "clearhash-v1") = ascii "clearhash-v1" →
          parseProofEnvelope [86, 90, 75, 50, 1, 12, 0, 0, 0, 4, 0, 0, 0, 3, 99, 108, 101, 97,
            114, 104, 97, 115, 104, 45, 118, 49, 1, 2, 3, 4, 9, 8, 7]
            = .ok ⟨1, ascii "clearhash-v1", [1, 2, 3, 4], [9, 8, 7], true⟩)) :=
  ⟨by decide!, BuildProofEnvelopeWithCircuit_roundtrip 1 (ascii "clearhash-v1") [1, 2, 3, 4]
    [9, 8, 7] _ (by decide!)⟩

/-- Counterexample to C9 as stated: the builder accepts the circuit id
`" clearhash-v1"` (leading space), and parsing the built bytes returns the
trimmed id `"clearhash-v1"`, not the id that was passed in. -/
theorem BuildProofEnvelopeWithCircuit_untrimmed_counterexample :
    BuildProofEnvelopeWithCircuit 1 (ascii " clearhash-v1") [1, 2, 3, 4] [9, 8, 7]
        = .ok [86, 90, 75, 50, 1, 12, 0, 0, 0, 4, 0, 0, 0, 3, 99, 108, 101, 97, 114, 104, 97,
          115, 104, 45, 118, 49, 1, 2, 3, 4, 9, 8, 7]
      ∧ parseProofEnvelope [86, 90, 75, 50, 1, 12, 0, 0, 0, 4, 0, 0, 0, 3, 99, 108, 101, 97,
          114, 104, 97, 115, 104, 45, 118, 49, 1, 2, 3, 4, 9, 8, 7]
        = .ok ⟨1, ascii "clearhash-v1", [1, 2, 3, 4], [9, 8, 7], true⟩
      ∧ parseProofEnvelope [86, 90, 75, 50, 1, 12, 0, 0, 0, 4, 0, 0, 0, 3, 99, 108, 101, 97,
          114, 104, 97, 115, 104, 45, 118, 49, 1, 2, 3, 4, 9, 8, 7]
        ≠ .ok ⟨1, ascii " clearhash-v1", [1, 2, 3, 4], [9, 8, 7], true⟩ := by
  decide!

/-! ## The consensus verifier policy -/

/-- A V1 parse that succeeds reports an envelope. -/
theorem parseProofEnvelopeV1_hasEnvelope (blob : Bytes) (p : ParsedEnvelope)
    (h : parseProofEnvelopeV1 blob = .ok p) : p.hasEnvelope = true := by
  unfold parseProofEnvelopeV1 at h
  split at h
  · cases h
  simp only at h
  split at h
  · cases h
  split at h
  · cases h
  cases h
  rfl

/-- A V2 parse that succeeds reports an envelope. -/
theorem parseProofEnvelopeV2_hasEnvelope (blob : Bytes) (p : ParsedEnvelope)
    (h : parseProofEnvelopeV2 blob = .ok p) : p.hasEnvelope = true := by
  unfold parseProofEnvelopeV2 at h
  split at h
  · cases h
  simp only at h
  split at h
  · cases h
  split at h
  · cases h
  split at h
  · cases h
  cases h
  rfl

/-- A parse without envelope is the legacy raw result, and the blob carries no
recognised magic. -/
theorem parseProofEnvelope_raw (blob : Bytes) (p : ParsedEnvelope)
    (h : parseProofEnvelope blob = .ok p) (he : p.hasEnvelope = false) :
    p = ⟨0, [], blob, [], false⟩
      ∧ (blob.length < 4 ∨ (slice blob 0 4 ≠ proofEnvelopeMagicV1
          ∧ slice blob 0 4 ≠ proofEnvelopeMagicV2)) := by
  unfold parseProofEnvelope at h
  have hml1 : proofEnvelopeMagicV1.length = 4 := rfl
  have hml2 : proofEnvelopeMagicV2.length = 4 := rfl
  rw [hml1, hml2] at h
  split at h
  · rename_i hlt
    cases h
    exact ⟨rfl, Or.inl hlt⟩
  split at h
  · have := parseProofEnvelopeV1_hasEnvelope blob p h
    rw [this] at he
    cases he
  split at h
  · have := parseProofEnvelopeV2_hasEnvelope blob p h
    rw [this] at he
    cases he
  rename_i h1 h2
  cases h
  exact ⟨rfl, Or.inr ⟨h1, h2⟩⟩

/-- C7. For a blob that parses as a VZK1 or VZK2 envelope whose proof type byte
differs from `required`, `verifyBatchProofInConsensus` returns
`ErrProofTypeMismatch` for every installed verifier and strict flag (the
verifier's answer is never consulted). For a legacy raw blob (no recognised
magic) no proof-type comparison is made: the outcome is the strict-flag answer
when no verifier is installed and otherwise the answer of the verifier called
with `required`, an empty circuit id, the whole blob and no witness. -/
theorem verifyBatchProofInConsensus_proof_type_check (env : Env) (required : Byte)
    (blob hash : Bytes) (p : ParsedEnvelope) (hp : parseProofEnvelope blob = .ok p) :
    (p.hasEnvelope = true → p.proofType ≠ required →
        verifyBatchProofInConsensus env required blob hash = some ErrProofTypeMismatch)
      ∧ (p.hasEnvelope = false →
        (blob.length < 4 ∨ (slice blob 0 4 ≠ proofEnvelopeMagicV1
          ∧ slice blob 0 4 ≠ proofEnvelopeMagicV2))
        ∧ verifyBatchProofInConsensus env required blob hash =
          match env.proofVerifier with
          | none => if env.strictProofVerifier then some ErrProofVerifierUnavailable else none
          | some verifier =>
            match verifier required [] blob hash [] with
            | some e =>
              if errorsIs e ErrProofVerifierUnavailable then some e
              else some (.wrapv ErrProofVerificationFailed e)
            | none => none) := by
  constructor
  · intro he hne
    unfold verifyBatchProofInConsensus
    rw [hp]
    simp [he, hne]
  · intro he
    obtain ⟨hraw, hmagic⟩ := parseProofEnvelope_raw blob p hp he
    refine ⟨hmagic, ?_⟩
    unfold verifyBatchProofInConsensus
    rw [hp, hraw]
    simp

/-- Witness for C7: a Groth16 (type 1) V1 envelope checked against required type 2, with a
verifier installed that would accept everything. -/
theorem verifyBatchProofInConsensus_proof_type_check_witness :
    verifyBatchProofInConsensus ⟨some (fun _ _ _ _ _ => none), true⟩ 2
      [86, 90, 75, 49, 1, 0, 0, 0, 4, 0, 0, 0, 3, 1, 2, 3, 4, 9, 8, 7] [5, 6]
      = some ErrProofTypeMismatch :=
  (verifyBatchProofInConsensus_proof_type_check ⟨some (fun _ _ _ _ _ => none), true⟩ 2
    [86, 90, 75, 49, 1, 0, 0, 0, 4, 0, 0, 0, 3, 1, 2, 3, 4, 9, 8, 7] [5, 6]
    ⟨1, [], [1, 2, 3, 4], [9, 8, 7], true⟩ (by decide!)).1 rfl (by decide)

/-- C8. Fail-closed policy. On a blob that parses and passes the proof-type
check: with no verifier installed the result is `ErrProofVerifierUnavailable`
when strict and success otherwise; with a verifier installed the call succeeds
exactly when `Verify` returns nil, an error that is not
`ErrProofVerifierUnavailable` (by `errors.Is`) comes back wrapped as
`ErrProofVerificationFailed`, and `ErrProofVerifierUnavailable` comes back
unchanged. -/
theorem verifyBatchProofInConsensus_fail_closed (env : Env) (required : Byte)
    (blob hash : Bytes) (p : ParsedEnvelope) (hp : parseProofEnvelope blob = .ok p)
    (ht : ¬ (p.hasEnvelope = true ∧ p.proofType ≠ required)) :
    (env.proofVerifier = none →
        verifyBatchProofInConsensus env required blob hash
          = if env.strictProofVerifier then some ErrProofVerifierUnavailable else none)
      ∧ (∀ verifier, env.proofVerifier = some verifier →
        (verifyBatchProofInConsensus env required blob hash = none
            ↔ verifier required p.circuitID p.proof hash p.witness = none)
          ∧ (∀ e, verifier required p.circuitID p.proof hash p.witness = some e →
              errorsIs e ErrProofVerifierUnavailable = false →
              verifyBatchProofInConsensus env required blob hash
                = some (.wrapv ErrProofVerificationFailed e))
          ∧ (∀ e, verifier required p.circuitID p.proof hash p.witness = some e →
              errorsIs e ErrProofVerifierUnavailable = true →
              verifyBatchProofInConsensus env required blob hash = some e)) := by
  have hstep : verifyBatchProofInConsensus env required blob hash =
      match env.proofVerifier with
      | none => if env.strictProofVerifier then some ErrProofVerifierUnavailable else none
      | some verifier =>
        match verifier required p.circuitID p.proof hash p.witness with
        | some e =>
          if errorsIs e ErrProofVerifierUnavailable then some e
          else some (.wrapv ErrProofVerificationFailed e)
        | none => none := by
    unfold verifyBatchProofInConsensus
    rw [hp]
    simp only
    rw [if_neg ht]
  constructor
  · intro hn
    rw [hstep, hn]
  · intro verifier hv
    rw [hstep, hv]
    simp only
    refine ⟨?_, ?_, ?_⟩
    · cases hr : verifier required p.circuitID p.proof hash p.witness with
      | none => simp
      | some e =>
        simp only
        split <;> simp
    · intro e he hf
      rw [he]
      simp [hf]
    · intro e he hf
      rw [he]
      simp [hf]

/-- Witness for C8: a legacy raw blob and an installed verifier that rejects with an error
of its own. -/
theorem verifyBatchProofInConsensus_fail_closed_witness :
    verifyBatchProofInConsensus ⟨some (fun _ _ _ _ _ => some (Err.text "bad proof")), true⟩ 1
      [170, 187, 204] [5, 6]
      = some (.wrapv ErrProofVerificationFailed (Err.text "bad proof")) :=
  ((verifyBatchProofInConsensus_fail_closed
    ⟨some (fun _ _ _ _ _ => some (Err.text "bad proof")), true⟩ 1 [170, 187, 204] [5, 6]
    ⟨0, [], [170, 187, 204], [], false⟩ (by decide!) (by decide)).2 _ rfl).2.1 _ rfl
    (by decide)

/-! ## Proof-gated clearing -/

/-- Inversion of the proof-gated branch: when every check passes, the stored
record and envelope satisfy all of them. -/
theorem ClearBatch_checkProof_none (env : Env) (t : ClearBatch) (mu : Store) (actor : Address)
    (cfg : ProofConfig) (h : ClearBatch.checkProof env t mu actor cfg = none) :
    actor = cfg.ProverAuthority
      ∧ ∃ record proofBytes parsed expected,
        GetBatchProofRecord mu t.MarketID t.WindowID = .ok record
        ∧ record.ProofType = cfg.RequiredProofType
        ∧ record.SubmittedAtMs.toInt
            ≤ (I64.add record.WindowCloseAtMs cfg.ProofDeadlineMs).toInt
        ∧ record.FillsHash = t.FillsHash
        ∧ GetVellumProof mu t.MarketID t.WindowID = .ok proofBytes
        ∧ SHA256.Sum256 proofBytes = record.ProofCommitment
        ∧ parseProofEnvelope proofBytes = .ok parsed
        ∧ computeExpectedPublicInputsHash parsed.circuitID t.MarketID t.WindowID t.ClearPrice
            t.TotalVolume t.FillsHash = .ok expected
        ∧ record.PublicInputsHash = expected.val
        ∧ verifyBatchProofInConsensus env cfg.RequiredProofType proofBytes expected.val
            = none := by
  unfold ClearBatch.checkProof at h
  split at h
  · cases h
  rename_i hactor
  split at h
  · cases h
  rename_i record hrec
  split at h
  · cases h
  rename_i htype
  split at h
  · cases h
  rename_i hdeadline
  split at h
  · cases h
  rename_i hfills
  split at h
  · cases h
  rename_i proofBytes hvellum
  split at h
  · cases h
  rename_i hcommit
  split at h
  · cases h
  rename_i parsed hparse
  split at h
  · cases h
  rename_i expected hexp
  split at h
  · cases h
  rename_i hpih
  have htype1 : record.ProofType = cfg.RequiredProofType := by simpa using htype
  refine ⟨by simpa using hactor, record, proofBytes, parsed, expected, hrec, htype1,
    by omega, by simpa using hfills, hvellum, ?_, hparse, hexp, by simpa using hpih, ?_⟩
  · apply Subtype.ext
    simpa using hcommit
  · rw [← htype1]
    exact h

/-- C1. Whenever `clear_batch` returns success, the proof config of the pre-state
is readable, and if it has `require_proof` set then in the pre-state: the actor
is `prover_authority`; a `BatchProof` record exists for `(market, window)` with
`proof_type = required_proof_type` and `fills_hash` equal to the action's; the
SHA-256 of the stored `VellumProof` bytes is the record's `proof_commitment`; the
record's `public_inputs_hash` is `computeExpectedPublicInputsHash` of the circuit
id parsed from the stored envelope and the action's tuple; and
`verifyBatchProofInConsensus` on the stored proof with that hash returned no
error. -/
theorem ClearBatch_success_has_verified_proof (env : Env) (t : ClearBatch) (mu : Store)
    (timestamp : I64) (actor : Address) (txID : ID) (r : Store × ClearBatchResult)
    (h : t.Execute env mu timestamp actor txID = .ok r) :
    ∃ cfg, GetProofConfig mu = .ok cfg ∧ (cfg.RequireProof = true →
      actor = cfg.ProverAuthority
      ∧ ∃ record proofBytes parsed expected,
        GetBatchProofRecord mu t.MarketID t.WindowID = .ok record
        ∧ record.ProofType = cfg.RequiredProofType
        ∧ record.FillsHash = t.FillsHash
        ∧ GetVellumProof mu t.MarketID t.WindowID = .ok proofBytes
        ∧ SHA256.Sum256 proofBytes = record.ProofCommitment
        ∧ parseProofEnvelope proofBytes = .ok parsed
        ∧ computeExpectedPublicInputsHash parsed.circuitID t.MarketID t.WindowID t.ClearPrice
            t.TotalVolume t.FillsHash = .ok expected
        ∧ record.PublicInputsHash = expected.val
        ∧ verifyBatchProofInConsensus env cfg.RequiredProofType proofBytes expected.val
            = none) := by
  unfold ClearBatch.Execute at h
  split at h
  · cases h
  split at h
  · cases h
  split at h
  · cases h
  split at h
  · cases h
  split at h
  · cases h
  split at h
  · cases h
  split at h
  · cases h
  rename_i cfg hcfg
  split at h
  · cases h
  rename_i hgate
  refine ⟨cfg, hcfg, fun hreq => ?_⟩
  rw [if_pos hreq] at hgate
  obtain ⟨ha, record, proofBytes, parsed, expected, h1, h2, _, h4, h5, h6, h7, h8, h9, h10⟩ :=
    ClearBatch_checkProof_none env t mu actor cfg hgate
  exact ⟨ha, record, proofBytes, parsed, expected, h1, h2, h4, h5, h6, h7, h8, h9, h10⟩

/-! ## Frame reasoning: which rows an action can touch -/

theorem agreeOutside_refl (L : List Byte) (mu : Store) : agreeOutside L mu mu :=
  fun _ _ => rfl

theorem agreeOutside_trans {L : List Byte} {mu s1 s2 : Store} (h1 : agreeOutside L mu s1)
    (h2 : agreeOutside L s1 s2) : agreeOutside L mu s2 :=
  fun q hq => (h2 q hq).trans (h1 q hq)

theorem agreeOutside_mono {L M : List Byte} {mu s : Store} (hsub : ∀ p ∈ L, p ∈ M)
    (h : agreeOutside L mu s) : agreeOutside M mu s :=
  fun q hq => h q (fun p hp => hq p (hsub p hp))

theorem agreeOutside_insert {L : List Byte} {mu s : Store} (k v : Bytes) (p : Byte)
    (hk : k.head? = some p) (hp : p ∈ L) (h : agreeOutside L mu s) :
    agreeOutside L mu (Store.insert s k v) := by
  intro q hq
  have hne : q ≠ k := by
    intro e
    subst e
    exact hq p hp hk
  simp [Store.insert, hne, h q hq]

theorem agreeOutside_remove {L : List Byte} {mu s : Store} (k : Bytes) (p : Byte)
    (hk : k.head? = some p) (hp : p ∈ L) (h : agreeOutside L mu s) :
    agreeOutside L mu (Store.remove s k) := by
  intro q hq
  have hne : q ≠ k := by
    intro e
    subst e
    exact hq p hp hk
  simp [Store.remove, hne, h q hq]

theorem BalanceKey_head (a : Address) : (BalanceKey a).head? = some balancePrefix := rfl
theorem VAIBalanceKey_head (a : Address) : (VAIBalanceKey a).head? = some vaiBalancePrefix := rfl
theorem MarketKey_head (m : ID) : (MarketKey m).head? = some marketPrefix := rfl
theorem CommitmentKey_head (m : ID) (w : U64) (a : Address) :
    (CommitmentKey m w a).head? = some commitmentPrefix := rfl
theorem BatchKey_head (m : ID) (w : U64) : (BatchKey m w).head? = some batchPrefix := rfl
theorem OracleKey_head (m : ID) (i : U32) : (OracleKey m i).head? = some oraclePrefix := rfl
theorem PoolKey_head (a b : Byte) : (PoolKey a b).head? = some poolPrefix := rfl
theorem LPBalanceKey_head (a b : Byte) (x : Address) :
    (LPBalanceKey a b x).head? = some lpBalancePrefix := rfl
theorem BatchProofKey_head (m : ID) (w : U64) :
    (BatchProofKey m w).head? = some batchProofPrefix := rfl
theorem VellumProofKey_head (m : ID) (w : U64) :
    (VellumProofKey m w).head? = some vellumProofPrefix := rfl
theorem BloodswornKey_head (a : Address) : (BloodswornKey a).head? = some bloodswornPrefix := rfl
theorem GlyphKey_head (m : ID) (w : U64) : (GlyphKey m w).head? = some glyphPrefix := rfl

theorem innerGetBalance_key {mu : Store} {k key : Bytes} {bal : U64} {ok : Bool}
    {e : Option Err} (h : (k, innerGetBalance (mu k)) = (key, bal, ok, e)) : key = k := by
  simp only [Prod.mk.injEq] at h
  exact h.1.symm

theorem SubBalance_frame {L : List Byte} (hL : balancePrefix ∈ L) {mu0 mu s : Store}
    {a : Address} {x b : U64} (h0 : agreeOutside L mu0 mu)
    (h : SubBalance mu a x = .ok (b, s)) : agreeOutside L mu0 s := by
  unfold SubBalance getBalance at h
  split at h
  · cases h
  · cases h
  · rename_i key bal heq
    have hk := innerGetBalance_key heq
    subst hk
    split at h
    · cases h
    · split at h
      · cases h
        exact agreeOutside_remove _ _ (BalanceKey_head a) hL h0
      · cases h
        exact agreeOutside_insert _ _ _ (BalanceKey_head a) hL h0

theorem AddBalance_frame {L : List Byte} (hL : balancePrefix ∈ L) {mu0 mu s : Store}
    {a : Address} {x b : U64} (h0 : agreeOutside L mu0 mu)
    (h : AddBalance mu a x = .ok (b, s)) : agreeOutside L mu0 s := by
  unfold AddBalance getBalance at h
  split at h
  · cases h
  · rename_i key bal _ heq
    have hk := innerGetBalance_key heq
    subst hk
    split at h
    · cases h
    · cases h
      exact agreeOutside_insert _ _ _ (BalanceKey_head a) hL h0

theorem SubVAIBalance_frame {L : List Byte} (hL : vaiBalancePrefix ∈ L) {mu0 mu s : Store}
    {a : Address} {x b : U64} (h0 : agreeOutside L mu0 mu)
    (h : SubVAIBalance mu a x = .ok (b, s)) : agreeOutside L mu0 s := by
  unfold SubVAIBalance getVAIBalance at h
  split at h
  · cases h
  · cases h
  · rename_i key bal heq
    have hk := innerGetBalance_key heq
    subst hk
    split at h
    · cases h
    · split at h
      · cases h
        exact agreeOutside_remove _ _ (VAIBalanceKey_head a) hL h0
      · cases h
        exact agreeOutside_insert _ _ _ (VAIBalanceKey_head a) hL h0

theorem AddVAIBalance_frame {L : List Byte} (hL : vaiBalancePrefix ∈ L) {mu0 mu s : Store}
    {a : Address} {x b : U64} (h0 : agreeOutside L mu0 mu)
    (h : AddVAIBalance mu a x = .ok (b, s)) : agreeOutside L mu0 s := by
  unfold AddVAIBalance getVAIBalance at h
  split at h
  · cases h
  · rename_i key bal _ heq
    have hk := innerGetBalance_key heq
    subst hk
    split at h
    · cases h
    · cases h
      exact agreeOutside_insert _ _ _ (VAIBalanceKey_head a) hL h0

theorem SubLPBalance_frame {L : List Byte} (hL : lpBalancePrefix ∈ L) {mu0 mu s : Store}
    {a0 a1 : Byte} {a : Address} {x b : U64} (h0 : agreeOutside L mu0 mu)
    (h : SubLPBalance mu a0 a1 a x = .ok (b, s)) : agreeOutside L mu0 s := by
  unfold SubLPBalance getLPBalance at h
  split at h
  · cases h
  · cases h
  · rename_i key bal heq
    have hk := innerGetBalance_key heq
    subst hk
    split at h
    · cases h
    · split at h
      · cases h
        exact agreeOutside_remove _ _ (LPBalanceKey_head a0 a1 a) hL h0
      · cases h
        exact agreeOutside_insert _ _ _ (LPBalanceKey_head a0 a1 a) hL h0

theorem AddLPBalance_frame {L : List Byte} (hL : lpBalancePrefix ∈ L) {mu0 mu s : Store}
    {a0 a1 : Byte} {a : Address} {x b : U64} (h0 : agreeOutside L mu0 mu)
    (h : AddLPBalance mu a0 a1 a x = .ok (b, s)) : agreeOutside L mu0 s := by
  unfold AddLPBalance getLPBalance at h
  split at h
  · cases h
  · rename_i key bal _ heq
    have hk := innerGetBalance_key heq
    subst hk
    split at h
    · cases h
    · cases h
      exact agreeOutside_insert _ _ _ (LPBalanceKey_head a0 a1 a) hL h0

theorem subAssetBalance_frame {L : List Byte} (hL1 : balancePrefix ∈ L)
    (hL2 : vaiBalancePrefix ∈ L) {mu0 mu s : Store} {a : Address} {asset : Byte} {x b : U64}
    (h0 : agreeOutside L mu0 mu) (h : subAssetBalance mu a asset x = .ok (b, s)) :
    agreeOutside L mu0 s := by
  unfold subAssetBalance at h
  split at h
  · exact SubBalance_frame hL1 h0 h
  split at h
  · exact SubVAIBalance_frame hL2 h0 h
  · cases h

theorem addAssetBalance_frame {L : List Byte} (hL1 : balancePrefix ∈ L)
    (hL2 : vaiBalancePrefix ∈ L) {mu0 mu s : Store} {a : Address} {asset : Byte} {x b : U64}
    (h0 : agreeOutside L mu0 mu) (h : addAssetBalance mu a asset x = .ok (b, s)) :
    agreeOutside L mu0 s := by
  unfold addAssetBalance at h
  split at h
  · exact AddBalance_frame hL1 h0 h
  split at h
  · exact AddVAIBalance_frame hL2 h0 h
  · cases h

theorem PutMarket_frame {L : List Byte} (hL : marketPrefix ∈ L) {mu0 s : Store} (m : ID)
    (st oc : Byte) (rt : I64) (ro : Byte) (q : Bytes) (h0 : agreeOutside L mu0 s) :
    agreeOutside L mu0 (PutMarket s m st oc rt ro q) :=
  agreeOutside_insert _ _ _ (MarketKey_head m) hL h0

theorem PutPool_frame {L : List Byte} (hL : poolPrefix ∈ L) {mu0 s : Store} (pool : Pool)
    (h0 : agreeOutside L mu0 s) : agreeOutside L mu0 (PutPool s pool) :=
  agreeOutside_insert _ _ _ (PoolKey_head _ _) hL h0

theorem PutFeeRouterState_frame {L : List Byte} (hL : feeRouterStatePrefix ∈ L) {mu0 s : Store}
    (x : FeeRouterState) (h0 : agreeOutside L mu0 s) :
    agreeOutside L mu0 (PutFeeRouterState s x) :=
  agreeOutside_insert FeeRouterStateKey _ feeRouterStatePrefix rfl hL h0

theorem PutTreasuryState_frame {L : List Byte} (hL : treasuryStatePrefix ∈ L) {mu0 s : Store}
    (x : TreasuryState) (h0 : agreeOutside L mu0 s) :
    agreeOutside L mu0 (PutTreasuryState s x) :=
  agreeOutside_insert TreasuryStateKey _ treasuryStatePrefix rfl hL h0

theorem PutVAIState_frame {L : List Byte} (hL : vaiStatePrefix ∈ L) {mu0 s : Store}
    (x : VAIState) (h0 : agreeOutside L mu0 s) : agreeOutside L mu0 (PutVAIState s x) :=
  agreeOutside_insert VAIStateKey _ vaiStatePrefix rfl hL h0

theorem PutReserveState_frame {L : List Byte} (hL : reserveStatePrefix ∈ L) {mu0 s : Store}
    (x : ReserveState) (h0 : agreeOutside L mu0 s) :
    agreeOutside L mu0 (PutReserveState s x) :=
  agreeOutside_insert ReserveStateKey _ reserveStatePrefix rfl hL h0

theorem Transfer_frame {t : Transfer} {mu s : Store} {ts : I64} {actor : Address} {tx : ID}
    {r : TransferResult} (h : t.Execute mu ts actor tx = .ok (s, r)) :
    agreeOutside [ balancePrefix] mu s := by
  unfold Transfer.Execute at h
  repeat' (split at h <;> try cases h)
  refine AddBalance_frame (by simp) ?_ (by assumption)
  refine SubBalance_frame (by simp) ?_ (by assumption)
  exact agreeOutside_refl _ _

theorem CreateMarket_frame {t : CreateMarket} {mu s : Store} {ts : I64} {actor : Address}
    {tx : ID} {r : CreateMarketResult} (h : t.Execute mu ts actor tx = .ok (s, r)) :
    agreeOutside [ balancePrefix, marketPrefix] mu s := by
  unfold CreateMarket.Execute at h
  repeat' (split at h <;> try cases h)
  refine PutMarket_frame (by simp) _ _ _ _ _ _ ?_
  refine SubBalance_frame (by simp) ?_ (by assumption)
  exact agreeOutside_refl _ _

theorem CommitOrder_frame {t : CommitOrder} {mu s : Store} {ts : I64} {actor : Address}
    {tx : ID} {r : CommitOrderResult} (h : t.Execute mu ts actor tx = .ok (s, r)) :
    agreeOutside [ commitmentPrefix] mu s := by
  unfold CommitOrder.Execute at h
  repeat' (split at h <;> try cases h)
  exact agreeOutside_insert _ _ _ (CommitmentKey_head _ _ _) (by simp) (agreeOutside_refl _ _)

theorem RevealBatch_frame {t : RevealBatch} {mu s : Store} {ts : I64} {actor : Address}
    {tx : ID} {r : RevealBatchResult} (h : t.Execute mu ts actor tx = .ok (s, r)) :
    agreeOutside [ oraclePrefix] mu s := by
  unfold RevealBatch.Execute at h
  repeat' (split at h <;> try cases h)
  exact agreeOutside_insert _ _ _ (OracleKey_head _ _) (by simp) (agreeOutside_refl _ _)

theorem ClearBatch_frame {env : Env} {t : ClearBatch} {mu s : Store} {ts : I64}
    {actor : Address} {tx : ID} {r : ClearBatchResult}
    (h : t.Execute env mu ts actor tx = .ok (s, r)) : agreeOutside [ batchPrefix] mu s := by
  unfold ClearBatch.Execute at h
  repeat' (split at h <;> try cases h)
  exact agreeOutside_insert _ _ _ (BatchKey_head _ _) (by simp) (agreeOutside_refl _ _)

theorem ResolveMarket_frame {t : ResolveMarket} {mu s : Store} {ts : I64} {actor : Address}
    {tx : ID} {r : ResolveMarketResult} (h : t.Execute mu ts actor tx = .ok (s, r)) :
    agreeOutside [ marketPrefix] mu s := by
  unfold ResolveMarket.Execute at h
  repeat' (split at h <;> try cases h)
  exact PutMarket_frame (by simp) _ _ _ _ _ _ (agreeOutside_refl _ _)

theorem Dispute_frame {t : Dispute} {mu s : Store} {ts : I64} {actor : Address}
    {tx : ID} {r : DisputeResult} (h : t.Execute mu ts actor tx = .ok (s, r)) :
    agreeOutside [ balancePrefix, marketPrefix, oraclePrefix] mu s := by
  unfold Dispute.Execute at h
  repeat' (split at h <;> try cases h)
  refine agreeOutside_insert _ _ _ (OracleKey_head _ _) (by simp) ?_
  refine PutMarket_frame (by simp) _ _ _ _ _ _ ?_
  refine SubBalance_frame (by simp) ?_ (by assumption)
  exact agreeOutside_refl _ _

theorem RouteFees_frame {t : RouteFees} {mu s : Store} {ts : I64} {actor : Address}
    {tx : ID} {r : RouteFeesResult} (h : t.Execute mu ts actor tx = .ok (s, r)) :
    agreeOutside [ balancePrefix, feeRouterStatePrefix] mu s := by
  unfold RouteFees.Execute at h
  simp only at h
  repeat' (split at h <;> try cases h)
  refine PutFeeRouterState_frame (by simp) _ ?_
  refine SubBalance_frame (by simp) ?_ (by assumption)
  exact agreeOutside_refl _ _

theorem ReleaseCOLTranche_frame {t : ReleaseCOLTranche} {mu s : Store} {ts : I64}
    {actor : Address} {tx : ID} {r : ReleaseCOLTrancheResult}
    (h : t.Execute mu ts actor tx = .ok (s, r)) :
    agreeOutside [ treasuryStatePrefix] mu s := by
  unfold ReleaseCOLTranche.Execute at h
  simp only at h
  repeat' (split at h <;> try cases h)
  exact PutTreasuryState_frame (by simp) _ (agreeOutside_refl _ _)

theorem MintVAI_frame {t : MintVAI} {mu s : Store} {ts : I64} {actor : Address}
    {tx : ID} {r : MintVAIResult} (h : t.Execute mu ts actor tx = .ok (s, r)) :
    agreeOutside [ vaiBalancePrefix, vaiStatePrefix] mu s := by
  unfold MintVAI.Execute at h
  simp only at h
  repeat' (split at h <;> try cases h)
  all_goals
    refine PutVAIState_frame (by simp) _ ?_
    refine AddVAIBalance_frame (by simp) ?_ (by assumption)
    exact agreeOutside_refl _ _

theorem BurnVAI_frame {t : BurnVAI} {mu s : Store} {ts : I64} {actor : Address}
    {tx : ID} {r : BurnVAIResult} (h : t.Execute mu ts actor tx = .ok (s, r)) :
    agreeOutside [ vaiBalancePrefix, vaiStatePrefix] mu s := by
  unfold BurnVAI.Execute at h
  simp only at h
  repeat' (split at h <;> try cases h)
  refine PutVAIState_frame (by simp) _ ?_
  refine SubVAIBalance_frame (by simp) ?_ (by assumption)
  exact agreeOutside_refl _ _

theorem CreatePool_frame {t : CreatePool} {mu s : Store} {ts : I64} {actor : Address}
    {tx : ID} {r : CreatePoolResult} (h : t.Execute mu ts actor tx = .ok (s, r)) :
    agreeOutside [ poolPrefix] mu s := by
  unfold CreatePool.Execute at h
  simp only at h
  repeat' (split at h <;> try cases h)
  exact PutPool_frame (by simp) _ (agreeOutside_refl _ _)

theorem AddLiquidity_frame {t : AddLiquidity} {mu s : Store} {ts : I64} {actor : Address}
    {tx : ID} {r : AddLiquidityResult} (h : t.Execute mu ts actor tx = .ok (s, r)) :
    agreeOutside [ balancePrefix, vaiBalancePrefix, poolPrefix, lpBalancePrefix] mu s := by
  unfold AddLiquidity.Execute at h
  simp only at h
  repeat' (split at h <;> try cases h)
  refine AddLPBalance_frame (by simp) ?_ (by assumption)
  refine PutPool_frame (by simp) _ ?_
  refine subAssetBalance_frame (by simp) (by simp) ?_ (by assumption)
  refine subAssetBalance_frame (by simp) (by simp) ?_ (by assumption)
  exact agreeOutside_refl _ _

theorem RemoveLiquidity_settle_frame {t : RemoveLiquidity} {mu s : Store} {actor : Address}
    {pool : Pool} {o0 o1 : U64} {r : RemoveLiquidityResult}
    (h : RemoveLiquidity.settle t mu actor pool o0 o1 = .ok (s, r)) :
    agreeOutside [ balancePrefix, vaiBalancePrefix, poolPrefix, lpBalancePrefix] mu s := by
  unfold RemoveLiquidity.settle at h
  simp only at h
  repeat' (split at h <;> try cases h)
  refine addAssetBalance_frame (by simp) (by simp) ?_ (by assumption)
  refine addAssetBalance_frame (by simp) (by simp) ?_ (by assumption)
  refine SubLPBalance_frame (by simp) ?_ (by assumption)
  refine PutPool_frame (by simp) _ ?_
  exact agreeOutside_refl _ _

theorem RemoveLiquidity_frame {t : RemoveLiquidity} {mu s : Store} {ts : I64}
    {actor : Address} {tx : ID} {r : RemoveLiquidityResult}
    (h : t.Execute mu ts actor tx = .ok (s, r)) :
    agreeOutside [ balancePrefix, vaiBalancePrefix, poolPrefix, lpBalancePrefix] mu s := by
  unfold RemoveLiquidity.Execute at h
  repeat' (split at h <;> try cases h)
  exact RemoveLiquidity_settle_frame h

theorem SwapExactIn_swap_frame {t : SwapExactIn} {mu s : Store} {actor : Address}
    {pool : Pool} {inIs0 : Bool} {rin rout : U64} {r : SwapExactInResult}
    (h : SwapExactIn.swap t mu actor pool inIs0 rin rout = .ok (s, r)) :
    agreeOutside [ balancePrefix, vaiBalancePrefix, poolPrefix] mu s := by
  unfold SwapExactIn.swap at h
  simp only at h
  repeat' (split at h <;> try cases h)
  refine addAssetBalance_frame (by simp) (by simp) ?_ (by assumption)
  refine PutPool_frame (by simp) _ ?_
  refine subAssetBalance_frame (by simp) (by simp) ?_ (by assumption)
  exact agreeOutside_refl _ _

theorem SwapExactIn_frame {t : SwapExactIn} {mu s : Store} {ts : I64} {actor : Address}
    {tx : ID} {r : SwapExactInResult} (h : t.Execute mu ts actor tx = .ok (s, r)) :
    agreeOutside [ balancePrefix, vaiBalancePrefix, poolPrefix] mu s := by
  unfold SwapExactIn.Execute at h
  repeat' (split at h <;> try cases h)
  all_goals exact SwapExactIn_swap_frame h

theorem UpdateReserveState_frame {t : UpdateReserveState} {mu s : Store} {ts : I64}
    {actor : Address} {tx : ID} {r : ReserveState} (h : t.Execute mu ts actor tx = .ok (s, r)) :
    agreeOutside [ reserveStatePrefix] mu s := by
  unfold UpdateReserveState.Execute at h
  simp only at h
  repeat' (split at h <;> try cases h)
  exact PutReserveState_frame (by simp) _ (agreeOutside_refl _ _)

theorem SetRiskParams_frame {t : SetRiskParams} {mu s : Store} {ts : I64}
    {actor : Address} {tx : ID} {r : RiskConfig} (h : t.Execute mu ts actor tx = .ok (s, r)) :
    agreeOutside [ riskConfigPrefix] mu s := by
  unfold SetRiskParams.Execute PutRiskConfig at h
  simp only at h
  repeat' (split at h <;> try cases h)
  rename_i heq
  split at heq
  · cases heq
  cases heq
  exact agreeOutside_insert RiskConfigKey _ riskConfigPrefix rfl (by simp)
    (agreeOutside_refl _ _)

theorem SetProofConfig_frame {t : SetProofConfig} {mu s : Store} {ts : I64}
    {actor : Address} {tx : ID} {r : ProofConfig} (h : t.Execute mu ts actor tx = .ok (s, r)) :
    agreeOutside [ proofConfigPrefix] mu s := by
  unfold SetProofConfig.Execute PutProofConfig at h
  simp only at h
  repeat' (split at h <;> try cases h)
  rename_i heq
  split at heq
  · cases heq
  cases heq
  exact agreeOutside_insert ProofConfigKey _ proofConfigPrefix rfl (by simp)
    (agreeOutside_refl _ _)

/-! ## Reading rows back -/

theorem Store.insert_same (mu : Store) (k v : Bytes) : Store.insert mu k v k = some v := by
  simp [Store.insert]

theorem Store.insert_other (mu : Store) (k v q : Bytes) (h : q ≠ k) :
    Store.insert mu k v q = mu q := by
  simp [Store.insert, h]

theorem ne_of_head {k q : Bytes} {p1 p2 : Byte} (hk : k.head? = some p1)
    (hq : q.head? = some p2) (hne : p2 ≠ p1) : q ≠ k := by
  intro e
  subst e
  rw [hk] at hq
  exact hne (Option.some.inj hq).symm

theorem copyInto_val (n : Nat) (x : FixedBytes n) : copyInto n x.val = x := by
  apply Subtype.ext
  have := x.property
  simp [copyInto, this]

/-- Decoding the bytes written for a record returns the record. -/
theorem decode_encodeBatchProofRecord (rec : BatchProofRecord)
    (h1 : 1 ≤ rec.PublicInputsHash.length ∧ rec.PublicInputsHash.length ≤ 32)
    (h2 : 1 ≤ rec.FillsHash.length ∧ rec.FillsHash.length ≤ 64) :
    decodeBatchProofRecord (encodeBatchProofRecord rec) = .ok rec := by
  obtain ⟨ty, sub, wc, prover, commit, pih, fills⟩ := rec
  simp only at h1 h2
  have hpl := prover.property
  have hcl := commit.property
  have hpn : (toU16 pih.length).val = pih.length := by simp [toU16]; omega
  have hfn : (toU16 fills.length).val = fills.length := by simp [toU16]; omega
  generalize hv : encodeBatchProofRecord ⟨ty, sub, wc, prover, commit, pih, fills⟩ = v
  unfold encodeBatchProofRecord at hv
  simp only at hv
  have hlen : v.length = 86 + pih.length + fills.length := by
    subst hv; simp [be64_length, be16_length, hpl, hcl]; omega
  have e0 : v.getD 0 0 = ty :=
    getD_eq_of v [] ty (be64 sub.bits ++ be64 wc.bits ++ prover.val ++ commit.val
      ++ be16 (toU16 pih.length) ++ pih ++ be16 (toU16 fills.length) ++ fills)
      (by rw [← hv]; simp [List.append_assoc]) 0 rfl
  have e1 : slice v 1 9 = be64 sub.bits :=
    slice_eq_of v [ty] _ (be64 wc.bits ++ prover.val ++ commit.val
      ++ be16 (toU16 pih.length) ++ pih ++ be16 (toU16 fills.length) ++ fills)
      (by rw [← hv]; simp [List.append_assoc]) 1 9 rfl rfl
  have e2 : slice v 9 17 = be64 wc.bits :=
    slice_eq_of v ([ty] ++ be64 sub.bits) _ (prover.val ++ commit.val
      ++ be16 (toU16 pih.length) ++ pih ++ be16 (toU16 fills.length) ++ fills)
      (by rw [← hv]; simp [List.append_assoc]) 9 17 rfl rfl
  have e3 : slice v 17 50 = prover.val :=
    slice_eq_of v ([ty] ++ be64 sub.bits ++ be64 wc.bits) _ (commit.val
      ++ be16 (toU16 pih.length) ++ pih ++ be16 (toU16 fills.length) ++ fills)
      (by rw [← hv]; simp [List.append_assoc]) 17 50 rfl (by simp [be64_length, hpl])
  have e4 : slice v 50 82 = commit.val :=
    slice_eq_of v ([ty] ++ be64 sub.bits ++ be64 wc.bits ++ prover.val) _
      (be16 (toU16 pih.length) ++ pih ++ be16 (toU16 fills.length) ++ fills)
      (by rw [← hv]; simp [List.append_assoc]) 50 82 (by simp [be64_length, hpl])
      (by simp [be64_length, hpl, hcl])
  have e5 : slice v 82 84 = be16 (toU16 pih.length) :=
    slice_eq_of v ([ty] ++ be64 sub.bits ++ be64 wc.bits ++ prover.val ++ commit.val) _
      (pih ++ be16 (toU16 fills.length) ++ fills)
      (by rw [← hv]; simp [List.append_assoc]) 82 84 (by simp [be64_length, hpl, hcl])
      (by simp [be64_length, be16_length, hpl, hcl])
  have e6 : slice v 84 (84 + pih.length) = pih :=
    slice_eq_of v ([ty] ++ be64 sub.bits ++ be64 wc.bits ++ prover.val ++ commit.val
      ++ be16 (toU16 pih.length)) _ (be16 (toU16 fills.length) ++ fills)
      (by rw [← hv]; simp [List.append_assoc]) 84 _ (by simp [be64_length, be16_length, hpl, hcl])
      (by simp [be64_length, be16_length, hpl, hcl])
  have e7 : slice v (84 + pih.length) (84 + pih.length + 2) = be16 (toU16 fills.length) :=
    slice_eq_of v ([ty] ++ be64 sub.bits ++ be64 wc.bits ++ prover.val ++ commit.val
      ++ be16 (toU16 pih.length) ++ pih) _ fills
      (by rw [← hv]) _ _ (by simp [be64_length, be16_length, hpl, hcl]; omega)
      (by simp [be64_length, be16_length, hpl, hcl]; omega)
  have e8 : slice v (84 + pih.length + 2) (84 + pih.length + 2 + fills.length) = fills :=
    slice_eq_of v ([ty] ++ be64 sub.bits ++ be64 wc.bits ++ prover.val ++ commit.val
      ++ be16 (toU16 pih.length) ++ pih ++ be16 (toU16 fills.length)) _ []
      (by rw [← hv]; simp) _ _ (by simp [be64_length, be16_length, hpl, hcl]; omega)
      (by simp [be64_length, be16_length, hpl, hcl]; omega)
  unfold decodeBatchProofRecord
  rw [if_neg (by omega), if_neg (by simp only [List.length_drop]; omega)]
  simp only [e5, u16be_be16, hpn]
  rw [if_neg (by simp only [List.length_drop]; omega)]
  simp only [e7, u16be_be16, hfn]
  rw [if_neg (by simp only [List.length_drop]; omega)]
  simp only [e0, e1, e2, e3, e4, e6, e8, u64be_be64, copyInto_val]

theorem GetVellumProof_after_put (m : ID) (w : U64) (proof : Bytes)
    (h : 1 ≤ proof.length ∧ proof.length ≤ 131072) (s : Store)
    (hs : s (VellumProofKey m w) = some (be32 (toU32 proof.length) ++ proof)) :
    GetVellumProof s m w = .ok proof := by
  have hn : (toU32 proof.length).val = proof.length := by simp [toU32]; omega
  unfold GetVellumProof
  rw [hs]
  simp only
  have e1 : slice (be32 (toU32 proof.length) ++ proof) 0 4 = be32 (toU32 proof.length) :=
    slice_eq_of _ [] _ proof (by simp) 0 4 rfl rfl
  rw [e1, u32be_be32, hn]
  simp only [List.length_append, be32_length, maxVellumProofBytes]
  rw [if_neg (by omega), if_neg (by omega)]
  simp [be32]

theorem GetBloodsworn_after_put (b : Bloodsworn) (a : Address) (s : Store)
    (hs : s (BloodswornKey a) = some (be64 b.TotalAcceptedProofs ++ be64 b.ActiveStreak
      ++ be64 b.LastProofAtMs.bits ++ be32 b.ScarCount)) :
    GetBloodsworn s a = .ok b := by
  obtain ⟨t, st, l, sc⟩ := b
  unfold GetBloodsworn
  rw [hs]
  simp only
  generalize hv : be64 t ++ be64 st ++ be64 l.bits ++ be32 sc = v
  have hlen : v.length = 28 := by subst hv; simp [be64_length, be32_length]
  have e1 : slice v 0 8 = be64 t :=
    slice_eq_of v [] _ (be64 st ++ be64 l.bits ++ be32 sc)
      (by rw [← hv]; simp [List.append_assoc]) 0 8 rfl rfl
  have e2 : slice v 8 16 = be64 st :=
    slice_eq_of v (be64 t) _ (be64 l.bits ++ be32 sc)
      (by rw [← hv]; simp [List.append_assoc]) 8 16 rfl rfl
  have e3 : slice v 16 24 = be64 l.bits :=
    slice_eq_of v (be64 t ++ be64 st) _ (be32 sc)
      (by rw [← hv]) 16 24 rfl rfl
  have e4 : slice v 24 28 = be32 sc :=
    slice_eq_of v (be64 t ++ be64 st ++ be64 l.bits) _ []
      (by rw [← hv]; simp) 24 28 rfl rfl
  rw [if_neg (by omega)]
  simp only [e1, e2, e3, e4, u64be_be64, u32be_be32]

/-! ## Proof submission -/

/-- The record written by a submission. -/
theorem SubmitBatchProof_store_inv {a : SubmitBatchProof} {mu s : Store} {ts : I64}
    {actor : Address} {tx : ID} {r : SubmitBatchProofResult}
    (h : SubmitBatchProof.store a mu ts actor tx = .ok (s, r)) :
    s (BatchProofKey a.MarketID a.WindowID) = some (encodeBatchProofRecord
        ⟨a.ProofType, ts, a.WindowCloseAtMs, actor, SHA256.Sum256 a.Proof, a.PublicInputsHash,
          a.FillsHash⟩)
      ∧ s (VellumProofKey a.MarketID a.WindowID) = some (be32 (toU32 a.Proof.length) ++ a.Proof)
      ∧ (∃ b0, GetBloodsworn mu actor = .ok b0
        ∧ s (BloodswornKey actor) = some (be64 (b0.TotalAcceptedProofs + 1)
            ++ be64 (b0.ActiveStreak + 1) ++ be64 ts.bits ++ be32 b0.ScarCount))
      ∧ agreeOutside [ batchProofPrefix, vellumProofPrefix, bloodswornPrefix, glyphPrefix]
          mu s := by
  unfold SubmitBatchProof.store PutBatchProofRecord PutVellumProof PutGlyph PutBloodsworn at h
  simp only at h
  split at h
  · cases h
  rename_i mu1 h1
  split at h1
  · cases h1
  split at h1
  · cases h1
  cases h1
  split at h
  · cases h
  rename_i mu2 h2
  split at h2
  · cases h2
  cases h2
  split at h
  · cases h
  rename_i b0 hb
  split at h
  · cases h
  rename_i mu4 h4
  split at h4
  · cases h4
  cases h4
  cases h
  have hbv : (BatchProofKey a.MarketID a.WindowID) ≠ VellumProofKey a.MarketID a.WindowID :=
    ne_of_head (VellumProofKey_head _ _) (BatchProofKey_head _ _) (by decide)
  have hbb : (BatchProofKey a.MarketID a.WindowID) ≠ BloodswornKey actor :=
    ne_of_head (BloodswornKey_head _) (BatchProofKey_head _ _) (by decide)
  have hbg : (BatchProofKey a.MarketID a.WindowID) ≠ GlyphKey a.MarketID a.WindowID :=
    ne_of_head (GlyphKey_head _ _) (BatchProofKey_head _ _) (by decide)
  have hvb : (VellumProofKey a.MarketID a.WindowID) ≠ BloodswornKey actor :=
    ne_of_head (BloodswornKey_head _) (VellumProofKey_head _ _) (by decide)
  have hvg : (VellumProofKey a.MarketID a.WindowID) ≠ GlyphKey a.MarketID a.WindowID :=
    ne_of_head (GlyphKey_head _ _) (VellumProofKey_head _ _) (by decide)
  have hsg : (BloodswornKey actor) ≠ GlyphKey a.MarketID a.WindowID :=
    ne_of_head (GlyphKey_head _ _) (BloodswornKey_head _) (by decide)
  have hsb : (BloodswornKey actor) ≠ BatchProofKey a.MarketID a.WindowID :=
    ne_of_head (BatchProofKey_head _ _) (BloodswornKey_head _) (by decide)
  have hsv : (BloodswornKey actor) ≠ VellumProofKey a.MarketID a.WindowID :=
    ne_of_head (VellumProofKey_head _ _) (BloodswornKey_head _) (by decide)
  refine ⟨?_, ?_, ⟨b0, ?_, ?_⟩, ?_⟩
  · simp [Store.insert, hbv, hbb, hbg]
  · simp [Store.insert, hvb, hvg]
  · rw [← hb]
    unfold GetBloodsworn
    simp [Store.insert, hsb, hsv]
  · simp [Store.insert, hsg]
  · refine agreeOutside_insert _ _ _ (GlyphKey_head _ _) (by simp) ?_
    refine agreeOutside_insert _ _ _ (BloodswornKey_head _) (by simp) ?_
    refine agreeOutside_insert _ _ _ (VellumProofKey_head _ _) (by simp) ?_
    refine agreeOutside_insert _ _ _ (BatchProofKey_head _ _) (by simp) ?_
    exact agreeOutside_refl _ _

/-- Every check that a successful submission has passed. -/
theorem SubmitBatchProof_Execute_inv {env : Env} {a : SubmitBatchProof} {mu s : Store}
    {ts : I64} {actor : Address} {tx : ID} {r : SubmitBatchProofResult}
    (h : a.Execute env mu ts actor tx = .ok (s, r)) :
    0 < a.WindowCloseAtMs.toInt ∧ a.ProofType ≠ 0
      ∧ a.PublicInputsHash.length = 32 ∧ a.FillsHash.length = 32
      ∧ 1 ≤ a.Proof.length ∧ a.Proof.length ≤ 131072
      ∧ (∃ market, GetMarket mu a.MarketID = .ok market ∧ market.status = MarketStatusActive)
      ∧ (∃ cfg, GetProofConfig mu = .ok cfg ∧ cfg.RequireProof = true
        ∧ actor = cfg.ProverAuthority ∧ a.ProofType = cfg.RequiredProofType
        ∧ (I64.rem a.WindowCloseAtMs cfg.BatchWindowMs).toInt = 0
        ∧ a.WindowCloseAtMs.toInt ≤ ts.toInt
        ∧ ts.toInt ≤ (I64.add a.WindowCloseAtMs cfg.ProofDeadlineMs).toInt
        ∧ verifyBatchProofInConsensus env cfg.RequiredProofType a.Proof a.PublicInputsHash
            = none)
      ∧ (∃ e, GetBatchProofRecord mu a.MarketID a.WindowID = .error e)
      ∧ SubmitBatchProof.store a mu ts actor tx = .ok (s, r) := by
  unfold SubmitBatchProof.Execute at h
  by_cases c1 : a.WindowCloseAtMs.toInt ≤ 0
  · rw [if_pos c1] at h; cases h
  rw [if_neg c1] at h
  by_cases c2 : a.ProofType = 0
  · rw [if_pos c2] at h; cases h
  rw [if_neg c2] at h
  by_cases c3 : a.PublicInputsHash.length ≠ ExpectedProofHashSize
  · rw [if_pos c3] at h; cases h
  rw [if_neg c3] at h
  by_cases c4 : a.FillsHash.length ≠ ExpectedFillsHashSize
  · rw [if_pos c4] at h; cases h
  rw [if_neg c4] at h
  by_cases c5 : a.Proof.length = 0 ∨ a.Proof.length > MaxProofBytesSize
  · rw [if_pos c5] at h; cases h
  rw [if_neg c5] at h
  split at h
  · cases h
  rename_i market hm
  split at h
  · cases h
  rename_i c6
  split at h
  · cases h
  rename_i cfg hcfg
  split at h
  · cases h
  rename_i c7
  split at h
  · cases h
  rename_i c8
  split at h
  · cases h
  rename_i c9
  split at h
  · cases h
  rename_i c10
  split at h
  · cases h
  rename_i c11
  split at h
  · cases h
  rename_i c12
  split at h
  · cases h
  rename_i e he
  split at h
  · cases h
  split at h
  · cases h
  rename_i hv
  simp only [MaxProofBytesSize] at c5
  refine ⟨by omega, c2, by simpa [ExpectedProofHashSize] using c3,
    by simpa [ExpectedFillsHashSize] using c4, by omega, by omega,
    ⟨market, hm, by simpa using c6⟩,
    ⟨cfg, hcfg, by simpa using c7, by simpa using c8, by simpa using c9, by simpa using c10,
      by omega, by omega, hv⟩, ⟨e, he⟩, h⟩

theorem SubmitBatchProof_frame {env : Env} {a : SubmitBatchProof} {mu s : Store} {ts : I64}
    {actor : Address} {tx : ID} {r : SubmitBatchProofResult}
    (h : a.Execute env mu ts actor tx = .ok (s, r)) :
    agreeOutside [ batchProofPrefix, vellumProofPrefix, bloodswornPrefix, glyphPrefix] mu s :=
  (SubmitBatchProof_store_inv (SubmitBatchProof_Execute_inv h).2.2.2.2.2.2.2.2.2).2.2.2

/-- Frame property of the action set: a successful action changes rows only
under the key prefixes of its write set. -/
theorem Action_execute_frame {env : Env} {act : Action} {mu s : Store} {ts : I64}
    {actor : Address} {tx : ID} (h : act.execute env mu ts actor tx = .ok s) :
    agreeOutside act.writePrefixes mu s := by
  cases act <;> simp only [Action.execute, Action.writePrefixes] at h ⊢
  case transfer a =>
    cases hr : a.Execute mu ts actor tx with
    | error e => rw [hr] at h; cases h
    | ok p => rw [hr] at h; cases h; exact Transfer_frame hr
  case createMarket a =>
    cases hr : a.Execute mu ts actor tx with
    | error e => rw [hr] at h; cases h
    | ok p => rw [hr] at h; cases h; exact CreateMarket_frame hr
  case commitOrder a =>
    cases hr : a.Execute mu ts actor tx with
    | error e => rw [hr] at h; cases h
    | ok p => rw [hr] at h; cases h; exact CommitOrder_frame hr
  case revealBatch a =>
    cases hr : a.Execute mu ts actor tx with
    | error e => rw [hr] at h; cases h
    | ok p => rw [hr] at h; cases h; exact RevealBatch_frame hr
  case clearBatch a =>
    cases hr : a.Execute env mu ts actor tx with
    | error e => rw [hr] at h; cases h
    | ok p => rw [hr] at h; cases h; exact ClearBatch_frame hr
  case resolveMarket a =>
    cases hr : a.Execute mu ts actor tx with
    | error e => rw [hr] at h; cases h
    | ok p => rw [hr] at h; cases h; exact ResolveMarket_frame hr
  case dispute a =>
    cases hr : a.Execute mu ts actor tx with
    | error e => rw [hr] at h; cases h
    | ok p => rw [hr] at h; cases h; exact Dispute_frame hr
  case routeFees a =>
    cases hr : a.Execute mu ts actor tx with
    | error e => rw [hr] at h; cases h
    | ok p => rw [hr] at h; cases h; exact RouteFees_frame hr
  case releaseCOLTranche a =>
    cases hr : a.Execute mu ts actor tx with
    | error e => rw [hr] at h; cases h
    | ok p => rw [hr] at h; cases h; exact ReleaseCOLTranche_frame hr
  case mintVAI a =>
    cases hr : a.Execute mu ts actor tx with
    | error e => rw [hr] at h; cases h
    | ok p => rw [hr] at h; cases h; exact MintVAI_frame hr
  case burnVAI a =>
    cases hr : a.Execute mu ts actor tx with
    | error e => rw [hr] at h; cases h
    | ok p => rw [hr] at h; cases h; exact BurnVAI_frame hr
  case createPool a =>
    cases hr : a.Execute mu ts actor tx with
    | error e => rw [hr] at h; cases h
    | ok p => rw [hr] at h; cases h; exact CreatePool_frame hr
  case addLiquidity a =>
    cases hr : a.Execute mu ts actor tx with
    | error e => rw [hr] at h; cases h
    | ok p => rw [hr] at h; cases h; exact AddLiquidity_frame hr
  case removeLiquidity a =>
    cases hr : a.Execute mu ts actor tx with
    | error e => rw [hr] at h; cases h
    | ok p => rw [hr] at h; cases h; exact RemoveLiquidity_frame hr
  case swapExactIn a =>
    cases hr : a.Execute mu ts actor tx with
    | error e => rw [hr] at h; cases h
    | ok p => rw [hr] at h; cases h; exact SwapExactIn_frame hr
  case updateReserveState a =>
    cases hr : a.Execute mu ts actor tx with
    | error e => rw [hr] at h; cases h
    | ok p => rw [hr] at h; cases h; exact UpdateReserveState_frame hr
  case setRiskParams a =>
    cases hr : a.Execute mu ts actor tx with
    | error e => rw [hr] at h; cases h
    | ok p => rw [hr] at h; cases h; exact SetRiskParams_frame hr
  case submitBatchProof a =>
    cases hr : a.Execute env mu ts actor tx with
    | error e => rw [hr] at h; cases h
    | ok p => rw [hr] at h; cases h; exact SubmitBatchProof_frame hr
  case setProofConfig a =>
    cases hr : a.Execute mu ts actor tx with
    | error e => rw [hr] at h; cases h
    | ok p => rw [hr] at h; cases h; exact SetProofConfig_frame hr

theorem eq_ok_of_succeeded {α : Type} (e : Except Err α) (d : α) (h : succeeded e = true) :
    e = .ok (okValue e d) := by
  cases e with
  | error x => cases h
  | ok a => rfl

theorem eq_ok_pair_of_succeeded {α β : Type} (e : Except Err (α × β)) (d : α × β)
    (h : succeeded e = true) : e = .ok ((okValue e d).1, (okValue e d).2) := by
  cases e with
  | error x => cases h
  | ok a => rfl

/-- Witness for C1: the proof-gated clear of the scenario, after the prover's submission. -/
theorem ClearBatch_success_has_verified_proof_witness :
    succeeded (Scenario.clear.Execute Scenario.env Scenario.afterSubmit ⟨6000⟩ Scenario.prover
        Scenario.txID) = true
      ∧ ∃ cfg, GetProofConfig Scenario.afterSubmit = .ok cfg ∧ (cfg.RequireProof = true →
        Scenario.prover = cfg.ProverAuthority
        ∧ ∃ record proofBytes parsed expected,
          GetBatchProofRecord Scenario.afterSubmit Scenario.clear.MarketID
              Scenario.clear.WindowID = .ok record
          ∧ record.ProofType = cfg.RequiredProofType
          ∧ record.FillsHash = Scenario.clear.FillsHash
          ∧ GetVellumProof Scenario.afterSubmit Scenario.clear.MarketID
              Scenario.clear.WindowID = .ok proofBytes
          ∧ SHA256.Sum256 proofBytes = record.ProofCommitment
          ∧ parseProofEnvelope proofBytes = .ok parsed
          ∧ computeExpectedPublicInputsHash parsed.circuitID Scenario.clear.MarketID
              Scenario.clear.WindowID Scenario.clear.ClearPrice Scenario.clear.TotalVolume
              Scenario.clear.FillsHash = .ok expected
          ∧ record.PublicInputsHash = expected.val
          ∧ verifyBatchProofInConsensus Scenario.env cfg.RequiredProofType proofBytes
              expected.val = none) :=
  ⟨by decide!,
    ClearBatch_success_has_verified_proof Scenario.env Scenario.clear Scenario.afterSubmit
      ⟨6000⟩ Scenario.prover Scenario.txID _
      (eq_ok_of_succeeded _ (Store.empty, ⟨0, 0⟩) (by decide!))⟩

/-- After a successful submission the record and the stored envelope read back. -/
theorem SubmitBatchProof_rows_readable {env : Env} {a : SubmitBatchProof} {mu s : Store}
    {timestamp : I64} {actor : Address} {txID : ID} {r : SubmitBatchProofResult}
    (h : a.Execute env mu timestamp actor txID = .ok (s, r)) :
    GetBatchProofRecord s a.MarketID a.WindowID
        = .ok ⟨a.ProofType, timestamp, a.WindowCloseAtMs, actor, SHA256.Sum256 a.Proof,
            a.PublicInputsHash, a.FillsHash⟩
      ∧ GetVellumProof s a.MarketID a.WindowID = .ok a.Proof := by
  obtain ⟨-, -, hpih, hfh, hp1, hp2, -, -, -, hstore⟩ := SubmitBatchProof_Execute_inv h
  obtain ⟨hrec, hvel, -, -⟩ := SubmitBatchProof_store_inv hstore
  refine ⟨?_, GetVellumProof_after_put _ _ _ ⟨hp1, hp2⟩ s hvel⟩
  unfold GetBatchProofRecord
  rw [hrec]
  exact decode_encodeBatchProofRecord _ (by simp only; omega) (by simp only; omega)

/-- C6 (as amended). On every successful `submit_batch_proof` at `timestamp` by
`actor`: the stored `BatchProof` record reads back with `proof_type`,
`window_close_at_ms`, `public_inputs_hash` and `fills_hash` equal to the action's
fields, `submitted_at_ms = timestamp`, `prover = actor` and `proof_commitment =
SHA-256(proof bytes)`; `VellumProof[market, window]` reads back as exactly the
submitted proof bytes; and `Bloodsworn[actor]` has `total_accepted_proofs` and
`active_streak` each incremented by one modulo `2^64`, `last_proof_at_ms =
timestamp` and `scar_count` unchanged. -/
theorem SubmitBatchProof_success_effects (env : Env) (a : SubmitBatchProof) (mu s : Store)
    (timestamp : I64) (actor : Address) (txID : ID) (r : SubmitBatchProofResult)
    (h : a.Execute env mu timestamp actor txID = .ok (s, r)) :
    GetBatchProofRecord s a.MarketID a.WindowID
        = .ok ⟨a.ProofType, timestamp, a.WindowCloseAtMs, actor, SHA256.Sum256 a.Proof,
            a.PublicInputsHash, a.FillsHash⟩
      ∧ GetVellumProof s a.MarketID a.WindowID = .ok a.Proof
      ∧ ∃ b0 b1, GetBloodsworn mu actor = .ok b0 ∧ GetBloodsworn s actor = .ok b1
        ∧ b1.TotalAcceptedProofs.val = (b0.TotalAcceptedProofs.val + 1) % 18446744073709551616
        ∧ b1.ActiveStreak.val = (b0.ActiveStreak.val + 1) % 18446744073709551616
        ∧ b1.LastProofAtMs = timestamp
        ∧ b1.ScarCount = b0.ScarCount := by
  obtain ⟨hrec, hvel⟩ := SubmitBatchProof_rows_readable h
  obtain ⟨-, -, -, -, -, -, -, -, -, hstore⟩ := SubmitBatchProof_Execute_inv h
  obtain ⟨-, -, ⟨b0, hb0, hb1⟩, -⟩ := SubmitBatchProof_store_inv hstore
  refine ⟨hrec, hvel, b0,
    ⟨b0.TotalAcceptedProofs + 1, b0.ActiveStreak + 1, timestamp, b0.ScarCount⟩, hb0,
    GetBloodsworn_after_put _ _ s hb1, ?_, ?_, rfl, rfl⟩
  · rw [Fin.val_add]; rfl
  · rw [Fin.val_add]; rfl

/-- Witness for C6: the prover's submission of the scenario at `t = 5000`. -/
theorem SubmitBatchProof_success_effects_witness :
    succeeded (Scenario.submit.Execute Scenario.env Scenario.genesis ⟨5000⟩ Scenario.prover
        Scenario.txID) = true
      ∧ GetVellumProof Scenario.afterSubmit Scenario.market 1 = .ok Scenario.envelope :=
  ⟨by decide!,
    (SubmitBatchProof_success_effects Scenario.env Scenario.submit Scenario.genesis
      Scenario.afterSubmit ⟨5000⟩ Scenario.prover Scenario.txID _
      (eq_ok_pair_of_succeeded _ (Store.empty, Scenario.noSubmitResult) (by decide!))).2.1⟩

/-- Counterexample to C6 as stated: when the prover's `total_accepted_proofs`
is `2^64 - 1`, a successful submission stores `0`, which is not the old value
increased by one. -/
theorem SubmitBatchProof_counter_wraps_counterexample :
    succeeded (Scenario.submit.Execute Scenario.env Scenario.saturatedGenesis ⟨5000⟩
        Scenario.prover Scenario.txID) = true
      ∧ GetBloodsworn Scenario.saturatedGenesis Scenario.prover
        = .ok ⟨18446744073709551615, 5, ⟨1000⟩, 2⟩
      ∧ GetBloodsworn (okValue (Scenario.submit.Execute Scenario.env Scenario.saturatedGenesis
          ⟨5000⟩ Scenario.prover Scenario.txID) (Store.empty, Scenario.noSubmitResult)).1
          Scenario.prover
        = .ok ⟨0, 6, ⟨5000⟩, 2⟩
      ∧ (0 : Nat) ≠ 18446744073709551615 + 1 := by
  decide!

/-- C3. Proof-gated happy path. If `submit_batch_proof` succeeds for actor `G`
producing `s1`, and its `public_inputs_hash` is the canonical expected hash of
`(market, window, clear_price, total_volume, fills_hash)` for the circuit id
carried by the proof envelope, with `clear_price > 0`, then `clear_batch(market,
window, clear_price, total_volume, fills_hash)` executed by `G` with the same
verifier succeeds and stores `Batch[market, window] = BE64(clear_price) ‖
BE64(total_volume) ‖ fills_hash`. The clear may run on any store `s2` in which
the market is still Active, the proof config is the one of the submission and
the two submitted rows are those of `s1`; `s2 = s1` is such a store. -/
theorem submit_then_clear_succeeds (env : Env) (a : SubmitBatchProof) (mu s1 : Store)
    (ts : I64) (G : Address) (tx : ID) (r1 : SubmitBatchProofResult)
    (hsub : a.Execute env mu ts G tx = .ok (s1, r1))
    (clearPrice totalVolume : U64) (parsed : ParsedEnvelope) (expected : FixedBytes 32)
    (hparse : parseProofEnvelope a.Proof = .ok parsed)
    (hexp : computeExpectedPublicInputsHash parsed.circuitID a.MarketID a.WindowID clearPrice
      totalVolume a.FillsHash = .ok expected)
    (hpih : a.PublicInputsHash = expected.val) (hprice : clearPrice ≠ 0)
    (s2 : Store)
    (hmarket : ∃ market, GetMarket s2 a.MarketID = .ok market
      ∧ market.status = MarketStatusActive)
    (hcfg : GetProofConfig s2 = GetProofConfig mu)
    (hrow : s2 (BatchProofKey a.MarketID a.WindowID) = s1 (BatchProofKey a.MarketID a.WindowID))
    (hvel : s2 (VellumProofKey a.MarketID a.WindowID)
      = s1 (VellumProofKey a.MarketID a.WindowID))
    (ts2 : I64) (tx2 : ID) :
    ClearBatch.Execute env ⟨a.MarketID, a.WindowID, clearPrice, totalVolume, a.FillsHash⟩ s2 ts2
        G tx2
        = .ok (PutBatchResult s2 a.MarketID a.WindowID clearPrice totalVolume a.FillsHash,
            ⟨clearPrice, totalVolume⟩)
      ∧ PutBatchResult s2 a.MarketID a.WindowID clearPrice totalVolume a.FillsHash
          (BatchKey a.MarketID a.WindowID)
        = some (be64 clearPrice ++ be64 totalVolume ++ a.FillsHash) := by
  obtain ⟨-, -, -, hfl, -, -, -, ⟨cfg, hc, hreq, hG, hty, -, -, hdl, hver⟩, -, -⟩ :=
    SubmitBatchProof_Execute_inv hsub
  obtain ⟨hrec1, hvel1⟩ := SubmitBatchProof_rows_readable hsub
  obtain ⟨market, hm, hact⟩ := hmarket
  have hrec2 : GetBatchProofRecord s2 a.MarketID a.WindowID
      = .ok ⟨a.ProofType, ts, a.WindowCloseAtMs, G, SHA256.Sum256 a.Proof,
          a.PublicInputsHash, a.FillsHash⟩ := by
    rw [← hrec1]; unfold GetBatchProofRecord; rw [hrow]
  have hvel2 : GetVellumProof s2 a.MarketID a.WindowID = .ok a.Proof := by
    rw [← hvel1]; unfold GetVellumProof; rw [hvel]
  have hcheck : ClearBatch.checkProof env
      ⟨a.MarketID, a.WindowID, clearPrice, totalVolume, a.FillsHash⟩ s2 G cfg = none := by
    unfold ClearBatch.checkProof
    simp only [hrec2, hvel2, hparse, hexp]
    rw [if_neg (by simp [hG]), if_neg (by simp [hty]), if_neg (by omega), if_neg (by simp),
      if_neg (by simp), if_neg (by simp [hpih]), hty, ← hpih]
    exact hver
  refine ⟨?_, by simp [PutBatchResult, Store.insert]⟩
  unfold ClearBatch.Execute
  simp only [hm, hcfg, hc, hreq, hcheck, if_true]
  rw [if_neg hprice, if_neg (by simp [hfl]), if_neg (by simp [hfl, MaxFillsHashSize]),
    if_neg (by simp [hfl, ExpectedFillsHashSize]), if_neg (by simp [hact])]

/-! ## Key injectivity and row-level frames -/

theorem be64_injective {x y : U64} (h : be64 x = be64 y) : x = y := by
  rw [← u64be_be64 x, ← u64be_be64 y, h]

theorem windowKey_injective (p : Byte) (c : U16) {m1 m2 : ID} {w1 w2 : U64}
    (h : [p] ++ m1.val ++ be64 w1 ++ be16 c = [p] ++ m2.val ++ be64 w2 ++ be16 c) :
    m1 = m2 ∧ w1 = w2 := by
  have hl1 := m1.property
  have hl2 := m2.property
  have h1 := List.append_inj_left h (by simp [hl1, hl2, be64_length])
  have h2 := List.append_inj h1 (by simp [hl1, hl2])
  have h3 := List.append_inj_right h2.1 rfl
  exact ⟨Subtype.ext h3, be64_injective h2.2⟩

theorem BatchKey_injective {m1 m2 : ID} {w1 w2 : U64} (h : BatchKey m1 w1 = BatchKey m2 w2) :
    m1 = m2 ∧ w1 = w2 :=
  windowKey_injective batchPrefix BatchChunks h

theorem BatchProofKey_injective {m1 m2 : ID} {w1 w2 : U64}
    (h : BatchProofKey m1 w1 = BatchProofKey m2 w2) : m1 = m2 ∧ w1 = w2 :=
  windowKey_injective batchProofPrefix BatchProofChunks h

theorem VellumProofKey_injective {m1 m2 : ID} {w1 w2 : U64}
    (h : VellumProofKey m1 w1 = VellumProofKey m2 w2) : m1 = m2 ∧ w1 = w2 :=
  windowKey_injective vellumProofPrefix VellumProofChunks h

/-- A successful action leaves every row alone whose key prefix is outside its write set. -/
theorem row_unchanged_of_not_written {env : Env} {act : Action} {mu s : Store} {ts : I64}
    {actor : Address} {tx : ID} (h : act.execute env mu ts actor tx = .ok s) (q : Bytes)
    (p : Byte) (hq : q.head? = some p) (hp : p ∉ act.writePrefixes) : s q = mu q := by
  apply Action_execute_frame h q
  intro p1 hp1 hq1
  rw [hq] at hq1
  cases hq1
  exact hp hp1

/-- A successful submission for another `(market, window)` leaves the two proof rows of
`(m, w)` alone. -/
theorem SubmitBatchProof_other_rows {env : Env} {b : SubmitBatchProof} {mu s : Store}
    {ts : I64} {actor : Address} {tx : ID} {r : SubmitBatchProofResult}
    (h : b.Execute env mu ts actor tx = .ok (s, r)) (m : ID) (w : U64)
    (hne : ¬ (b.MarketID = m ∧ b.WindowID = w)) :
    s (BatchProofKey m w) = mu (BatchProofKey m w)
      ∧ s (VellumProofKey m w) = mu (VellumProofKey m w) := by
  have hstore := (SubmitBatchProof_Execute_inv h).2.2.2.2.2.2.2.2.2
  unfold SubmitBatchProof.store PutBatchProofRecord PutVellumProof PutGlyph PutBloodsworn
    at hstore
  simp only at hstore
  split at hstore
  · cases hstore
  rename_i mu1 h1
  split at h1
  · cases h1
  split at h1
  · cases h1
  cases h1
  split at hstore
  · cases hstore
  rename_i mu2 h2
  split at h2
  · cases h2
  cases h2
  split at hstore
  · cases hstore
  split at hstore
  · cases hstore
  rename_i mu4 h4
  split at h4
  · cases h4
  cases h4
  cases hstore
  have k1 : BatchProofKey m w ≠ BatchProofKey b.MarketID b.WindowID := by
    intro e
    have := BatchProofKey_injective e
    exact hne ⟨this.1.symm, this.2.symm⟩
  have k2 : VellumProofKey m w ≠ VellumProofKey b.MarketID b.WindowID := by
    intro e
    have := VellumProofKey_injective e
    exact hne ⟨this.1.symm, this.2.symm⟩
  have k3 : BatchProofKey m w ≠ VellumProofKey b.MarketID b.WindowID :=
    ne_of_head (VellumProofKey_head _ _) (BatchProofKey_head _ _) (by decide)
  have k4 : BatchProofKey m w ≠ BloodswornKey actor :=
    ne_of_head (BloodswornKey_head _) (BatchProofKey_head _ _) (by decide)
  have k5 : BatchProofKey m w ≠ GlyphKey b.MarketID b.WindowID :=
    ne_of_head (GlyphKey_head _ _) (BatchProofKey_head _ _) (by decide)
  have k6 : VellumProofKey m w ≠ BatchProofKey b.MarketID b.WindowID :=
    ne_of_head (BatchProofKey_head _ _) (VellumProofKey_head _ _) (by decide)
  have k7 : VellumProofKey m w ≠ BloodswornKey actor :=
    ne_of_head (BloodswornKey_head _) (VellumProofKey_head _ _) (by decide)
  have k8 : VellumProofKey m w ≠ GlyphKey b.MarketID b.WindowID :=
    ne_of_head (GlyphKey_head _ _) (VellumProofKey_head _ _) (by decide)
  constructor
  · simp [Store.insert, k1, k3, k4, k5]
  · simp [Store.insert, k2, k6, k7, k8]

/-- With a readable record stored for `(m, w)`, no successful action changes
the `BatchProof` or `VellumProof` row of `(m, w)`. -/
theorem proof_rows_unchanged {env : Env} {act : Action} {mu s : Store} {ts : I64}
    {actor : Address} {tx : ID} (h : act.execute env mu ts actor tx = .ok s) (m : ID) (w : U64)
    (rec : BatchProofRecord) (hrec : GetBatchProofRecord mu m w = .ok rec) :
    s (BatchProofKey m w) = mu (BatchProofKey m w)
      ∧ s (VellumProofKey m w) = mu (VellumProofKey m w) := by
  by_cases hsub : ∃ b, act = .submitBatchProof b
  · obtain ⟨b, rfl⟩ := hsub
    simp only [Action.execute] at h
    cases hr : b.Execute env mu ts actor tx with
    | error e => rw [hr] at h; cases h
    | ok p =>
      rw [hr] at h
      cases h
      by_cases hsame : b.MarketID = m ∧ b.WindowID = w
      · obtain ⟨e, he⟩ := (SubmitBatchProof_Execute_inv hr).2.2.2.2.2.2.2.2.1
        rw [hsame.1, hsame.2, hrec] at he
        cases he
      · exact SubmitBatchProof_other_rows hr m w hsame
  · have hb : batchProofPrefix ∉ act.writePrefixes := by
      cases act <;> simp only [Action.writePrefixes] <;> first
        | decide
        | exact absurd ⟨_, rfl⟩ hsub
    have hv : vellumProofPrefix ∉ act.writePrefixes := by
      cases act <;> simp only [Action.writePrefixes] <;> first
        | decide
        | exact absurd ⟨_, rfl⟩ hsub
    exact ⟨row_unchanged_of_not_written h _ _ (BatchProofKey_head m w) hb,
      row_unchanged_of_not_written h _ _ (VellumProofKey_head m w) hv⟩

/-- The two proof rows of `(m, w)` are the same after any sequence of transactions. -/
theorem proof_rows_unchanged_run (steps : List Step) (mu : Store) (m : ID) (w : U64)
    (rec : BatchProofRecord) (hrec : GetBatchProofRecord mu m w = .ok rec) :
    run steps mu (BatchProofKey m w) = mu (BatchProofKey m w)
      ∧ run steps mu (VellumProofKey m w) = mu (VellumProofKey m w) := by
  induction steps generalizing mu with
  | nil => exact ⟨rfl, rfl⟩
  | cons st rest ih =>
    have hstep : st.apply mu (BatchProofKey m w) = mu (BatchProofKey m w)
        ∧ st.apply mu (VellumProofKey m w) = mu (VellumProofKey m w) := by
      unfold Step.apply
      cases hx : st.act.execute st.env mu st.timestamp st.actor st.txID with
      | error e => exact ⟨rfl, rfl⟩
      | ok s => exact proof_rows_unchanged hx m w rec hrec
    have hrec1 : GetBatchProofRecord (st.apply mu) m w = .ok rec := by
      rw [← hrec]; unfold GetBatchProofRecord; rw [hstep.1]
    have := ih (st.apply mu) hrec1
    simp only [run, List.foldl_cons] at this ⊢
    exact ⟨this.1.trans hstep.1, this.2.trans hstep.2⟩

/-- Witness for C3: the scenario's submission followed by the clear at the same tuple,
run directly on the store the submission produced. -/
theorem submit_then_clear_succeeds_witness :
    succeeded (Scenario.submit.Execute Scenario.env Scenario.genesis ⟨5000⟩ Scenario.prover
        Scenario.txID) = true
      ∧ PutBatchResult Scenario.afterSubmit Scenario.market 1 1025 3200 Scenario.fillsHash
          (BatchKey Scenario.market 1)
        = some (be64 1025 ++ be64 3200 ++ Scenario.fillsHash) :=
  ⟨by decide!,
    (submit_then_clear_succeeds Scenario.env Scenario.submit Scenario.genesis
      Scenario.afterSubmit ⟨5000⟩ Scenario.prover Scenario.txID _
      (eq_ok_pair_of_succeeded _ (Store.empty, Scenario.noSubmitResult) (by decide!))
      1025 3200 ⟨1, ProofCircuitClearHashV1, [1, 2, 3, 4], [9, 8, 7], true⟩
      (ComputeClearPublicInputsHash Scenario.market 1 1025 3200 Scenario.fillsHash)
      (by decide!) (by decide!) (by decide!) (by decide) Scenario.afterSubmit
      ⟨⟨MarketStatusActive, 2, ⟨100000⟩, 0, ascii "rain?"⟩, by decide!, rfl⟩
      (by decide!) rfl rfl ⟨6000⟩ Scenario.txID).2⟩

/-- C5. Exactly-once proof submission. After a successful `submit_batch_proof`
for `(market, window)` and any sequence of later transactions, the stored
`BatchProof[market, window]` and `VellumProof[market, window]` rows are those the
submission wrote; every later `submit_batch_proof` for the same `(market,
window)` fails, and one that passes checks 1-5 (well-formed inputs, market
Active, proof config accepted, window close aligned, inside the deadline
window) fails with `ErrProofAlreadySubmitted`. -/
theorem submit_exactly_once (env : Env) (a : SubmitBatchProof) (mu s1 : Store) (ts : I64)
    (G : Address) (tx : ID) (r1 : SubmitBatchProofResult)
    (hsub : a.Execute env mu ts G tx = .ok (s1, r1)) (steps : List Step) :
    run steps s1 (BatchProofKey a.MarketID a.WindowID)
        = s1 (BatchProofKey a.MarketID a.WindowID)
      ∧ run steps s1 (VellumProofKey a.MarketID a.WindowID)
        = s1 (VellumProofKey a.MarketID a.WindowID)
      ∧ ∀ (env2 : Env) (b : SubmitBatchProof) (ts2 : I64) (actor2 : Address) (tx2 : ID),
        b.MarketID = a.MarketID → b.WindowID = a.WindowID →
        (∃ e, b.Execute env2 (run steps s1) ts2 actor2 tx2 = .error e)
        ∧ (0 < b.WindowCloseAtMs.toInt → b.ProofType ≠ 0 → b.PublicInputsHash.length = 32 →
            b.FillsHash.length = 32 → 1 ≤ b.Proof.length → b.Proof.length ≤ 131072 →
            (∃ market, GetMarket (run steps s1) b.MarketID = .ok market
              ∧ market.status = MarketStatusActive) →
            (∃ cfg, GetProofConfig (run steps s1) = .ok cfg ∧ cfg.RequireProof = true
              ∧ actor2 = cfg.ProverAuthority ∧ b.ProofType = cfg.RequiredProofType
              ∧ (I64.rem b.WindowCloseAtMs cfg.BatchWindowMs).toInt = 0
              ∧ b.WindowCloseAtMs.toInt ≤ ts2.toInt
              ∧ ts2.toInt ≤ (I64.add b.WindowCloseAtMs cfg.ProofDeadlineMs).toInt) →
            b.Execute env2 (run steps s1) ts2 actor2 tx2 = .error ErrProofAlreadySubmitted) := by
  obtain ⟨hrec1, -⟩ := SubmitBatchProof_rows_readable hsub
  obtain ⟨hrow, hvel⟩ := proof_rows_unchanged_run steps s1 a.MarketID a.WindowID _ hrec1
  refine ⟨hrow, hvel, ?_⟩
  intro env2 b ts2 actor2 tx2 hm hw
  have hrec2 : GetBatchProofRecord (run steps s1) b.MarketID b.WindowID
      = .ok ⟨a.ProofType, ts, a.WindowCloseAtMs, G, SHA256.Sum256 a.Proof,
          a.PublicInputsHash, a.FillsHash⟩ := by
    rw [hm, hw, ← hrec1]; unfold GetBatchProofRecord; rw [hrow]
  constructor
  · cases hx : b.Execute env2 (run steps s1) ts2 actor2 tx2 with
    | error e => exact ⟨e, rfl⟩
    | ok p =>
      obtain ⟨e, he⟩ := (SubmitBatchProof_Execute_inv hx).2.2.2.2.2.2.2.2.1
      rw [hrec2] at he
      cases he
  · intro c1 c2 c3 c4 c5 c6 ⟨market, hmk, hact⟩ ⟨cfg, hc, q1, q2, q3, q4, q5, q6⟩
    unfold SubmitBatchProof.Execute
    rw [if_neg (by omega), if_neg c2, if_neg (by simp [c3, ExpectedProofHashSize]),
      if_neg (by simp [c4, ExpectedFillsHashSize]),
      if_neg (by simp only [MaxProofBytesSize]; omega)]
    simp only [hmk, hc, hrec2]
    rw [if_neg (by simp [hact]), if_neg (by simp [q1]), if_neg (by simp [q2]),
      if_neg (by simp [q3]), if_neg (by simp [q4]), if_neg (by omega), if_neg (by omega)]

/-- Witness for C5: after the scenario's submission, a clear, a second submission and a
reveal leave the record in place, and a further submission by the prover for the same
window is refused as already submitted. -/
theorem submit_exactly_once_witness :
    succeeded (Scenario.submit.Execute Scenario.env Scenario.genesis ⟨5000⟩ Scenario.prover
        Scenario.txID) = true
      ∧ run Scenario.laterSteps Scenario.afterSubmit (BatchProofKey Scenario.market 1)
        = Scenario.afterSubmit (BatchProofKey Scenario.market 1)
      ∧ Scenario.submit.Execute Scenario.env (run Scenario.laterSteps Scenario.afterSubmit)
          ⟨8000⟩ Scenario.prover Scenario.txID = .error ErrProofAlreadySubmitted :=
  ⟨by decide!,
    (submit_exactly_once Scenario.env Scenario.submit Scenario.genesis Scenario.afterSubmit
      ⟨5000⟩ Scenario.prover Scenario.txID _
      (eq_ok_pair_of_succeeded _ (Store.empty, Scenario.noSubmitResult) (by decide!))
      Scenario.laterSteps).1,
    ((submit_exactly_once Scenario.env Scenario.submit Scenario.genesis Scenario.afterSubmit
      ⟨5000⟩ Scenario.prover Scenario.txID _
      (eq_ok_pair_of_succeeded _ (Store.empty, Scenario.noSubmitResult) (by decide!))
      Scenario.laterSteps).2.2 Scenario.env Scenario.submit ⟨8000⟩ Scenario.prover
      Scenario.txID rfl rfl).2 (by decide) (by decide) (by decide!) (by decide) (by decide!)
      (by decide!)
      ⟨⟨MarketStatusActive, 2, ⟨100000⟩, 0, ascii "rain?"⟩, by decide!, rfl⟩
      ⟨Scenario.proofConfig, by decide!, rfl, rfl, rfl, by decide, by decide, by decide⟩⟩

/-- C2 (as amended). The `Batch[market, window]` row is changed by no action
other than a successful `clear_batch` for that same `(market, window)`; such a
`clear_batch` sets the row to `BE64(clear_price) ‖ BE64(total_volume) ‖
fills_hash` of the action, whether or not a row was stored before, for every
value of `require_proof`. -/
theorem Batch_row_written_only_by_clear (env : Env) (act : Action) (mu s : Store) (ts : I64)
    (actor : Address) (tx : ID) (h : act.execute env mu ts actor tx = .ok s) (m : ID)
    (w : U64) :
    (∀ t, act = .clearBatch t → t.MarketID = m → t.WindowID = w →
        s (BatchKey m w) = some (be64 t.ClearPrice ++ be64 t.TotalVolume ++ t.FillsHash))
      ∧ ((∀ t, act = .clearBatch t → ¬ (t.MarketID = m ∧ t.WindowID = w)) →
        s (BatchKey m w) = mu (BatchKey m w)) := by
  constructor
  · intro t ht hm hw
    subst ht hm hw
    simp only [Action.execute] at h
    cases hr : t.Execute env mu ts actor tx with
    | error e => rw [hr] at h; cases h
    | ok p =>
      rw [hr] at h
      cases h
      unfold ClearBatch.Execute at hr
      repeat' (split at hr <;> try cases hr)
      simp [PutBatchResult, Store.insert]
  · intro hother
    by_cases hc : ∃ t, act = .clearBatch t
    · obtain ⟨t, rfl⟩ := hc
      have hne := hother t rfl
      simp only [Action.execute] at h
      cases hr : t.Execute env mu ts actor tx with
      | error e => rw [hr] at h; cases h
      | ok p =>
        rw [hr] at h
        cases h
        unfold ClearBatch.Execute at hr
        repeat' (split at hr <;> try cases hr)
        have hk : BatchKey m w ≠ BatchKey t.MarketID t.WindowID := by
          intro e
          have := BatchKey_injective e
          exact hne ⟨this.1.symm, this.2.symm⟩
        simp [PutBatchResult, Store.insert, hk]
    · have hb : batchPrefix ∉ act.writePrefixes := by
        cases act <;> simp only [Action.writePrefixes] <;> first
          | decide
          | exact absurd ⟨_, rfl⟩ hc
      exact row_unchanged_of_not_written h _ _ (BatchKey_head m w) hb

/-- Witness for C2: the scenario's proof-gated clear writes the row of window 1. -/
theorem Batch_row_written_only_by_clear_witness :
    succeeded (Action.execute Scenario.env (.clearBatch Scenario.clear) Scenario.afterSubmit
        ⟨6000⟩ Scenario.prover Scenario.txID) = true
      ∧ okValue (Action.execute Scenario.env (.clearBatch Scenario.clear) Scenario.afterSubmit
          ⟨6000⟩ Scenario.prover Scenario.txID) Store.empty (BatchKey Scenario.market 1)
        = some (be64 1025 ++ be64 3200 ++ Scenario.fillsHash) :=
  ⟨by decide!,
    (Batch_row_written_only_by_clear Scenario.env (.clearBatch Scenario.clear)
      Scenario.afterSubmit _ ⟨6000⟩ Scenario.prover Scenario.txID
      (eq_ok_of_succeeded _ Store.empty (by decide!)) Scenario.market 1).1 Scenario.clear rfl
      rfl rfl⟩

/-- Counterexample to C2 as stated: with `require_proof = false`, `clear_batch`
for `(market, 1)` succeeds at price 1025 and stores the row; a later
`clear_batch` for the same `(market, 1)` at price 1026 succeeds as well and
replaces the stored row. -/
theorem clear_batch_overwrites_counterexample :
    succeeded (Scenario.clear.Execute Scenario.env Scenario.openGenesis ⟨6000⟩
        Scenario.outsider Scenario.txID) = true
      ∧ Scenario.afterOpenClear (BatchKey Scenario.market 1)
        = some (be64 1025 ++ be64 3200 ++ Scenario.fillsHash)
      ∧ succeeded (Scenario.reclear.Execute Scenario.env Scenario.afterOpenClear ⟨7000⟩
        Scenario.outsider Scenario.txID) = true
      ∧ Scenario.afterOpenReclear (BatchKey Scenario.market 1)
        = some (be64 1026 ++ be64 3200 ++ Scenario.fillsHash)
      ∧ Scenario.afterOpenReclear (BatchKey Scenario.market 1)
        ≠ Scenario.afterOpenClear (BatchKey Scenario.market 1) := by
  decide!

/-- C4, the code at the failing input. With `proof_deadline_ms = 2^63 - 1` the
`int64` sum `window_close_at_ms + proof_deadline_ms` wraps to a negative
number: a submission that passes every earlier check, made at `timestamp =
window_close_at_ms = 5000`, is rejected with `ErrProofDeadlineMissed`, although
over the integers `window_close ≤ timestamp ≤ window_close + proof_deadline`. -/
theorem submit_deadline_sum_wraps :
    GetProofConfig Scenario.noDeadlineGenesis
        = .ok { Scenario.proofConfig with ProofDeadlineMs := ⟨9223372036854775807⟩ }
      ∧ Scenario.submit.WindowCloseAtMs.toInt = 5000
      ∧ errorOf (Scenario.submit.Execute Scenario.env Scenario.noDeadlineGenesis ⟨5000⟩
          Scenario.prover Scenario.txID) = some ErrProofDeadlineMissed
      ∧ ¬ ((5000 : Int) < 5000 ∨ (5000 : Int) > 5000 + 9223372036854775807)
      ∧ (I64.add ⟨5000⟩ ⟨9223372036854775807⟩).toInt = -9223372036854770809 := by
  decide!

/-! ## Legacy raw blobs and strict envelope validation -/

/-- C11. A byte string shorter than four bytes, or one whose first four bytes
are neither `VZK1` nor `VZK2`, parses without error as a legacy raw proof:
`hasEnvelope = false`, proof type 0, empty circuit id, the whole input as the
proof, and no witness. -/
theorem parseProofEnvelope_legacy_raw (blob : Bytes)
    (h : blob.length < 4 ∨ (slice blob 0 4 ≠ proofEnvelopeMagicV1
      ∧ slice blob 0 4 ≠ proofEnvelopeMagicV2)) :
    parseProofEnvelope blob = .ok ⟨0, [], blob, [], false⟩ := by
  unfold parseProofEnvelope
  have hml1 : proofEnvelopeMagicV1.length = 4 := rfl
  have hml2 : proofEnvelopeMagicV2.length = 4 := rfl
  rw [hml1, hml2]
  by_cases hlt : blob.length < 4
  · rw [if_pos hlt]
  · rw [if_neg hlt]
    rcases h with h | ⟨h1, h2⟩
    · exact absurd h hlt
    · rw [if_neg h1, if_neg h2]

/-- Witness for C11: the three-byte buffer `56 5A 4B` (a truncated magic). -/
theorem parseProofEnvelope_legacy_raw_witness :
    parseProofEnvelope [86, 90, 75] = .ok ⟨0, [], [86, 90, 75], [], false⟩ :=
  parseProofEnvelope_legacy_raw [86, 90, 75] (Or.inl (by decide))

/-- C12. Strict envelope validation. A blob whose first four bytes are `VZK1`
is accepted exactly when it has at least 13 bytes, both length fields are
positive and its length is `13 + proof_len + witness_len`; a blob whose first
four bytes are `VZK2` is accepted exactly when it has at least 14 bytes, the
circuit length is in `[1, 63]`, both length fields are positive, its length is
`14 + circuit_len + proof_len + witness_len` and every circuit-id byte is one
of `a-z`, `0-9`, `.`, `_`, `-`. Every magic-prefixed blob that is not accepted
yields `ErrInvalidProofEnvelope`. -/
theorem parseProofEnvelope_strict (blob : Bytes)
    (hmagic : slice blob 0 4 = proofEnvelopeMagicV1 ∨ slice blob 0 4 = proofEnvelopeMagicV2) :
    (slice blob 0 4 = proofEnvelopeMagicV1 →
      ((∃ p, parseProofEnvelope blob = .ok p) ↔
        (13 ≤ blob.length ∧ 0 < (u32be (slice blob 5 9)).val
          ∧ 0 < (u32be (slice blob 9 13)).val
          ∧ blob.length = 13 + (u32be (slice blob 5 9)).val + (u32be (slice blob 9 13)).val)))
    ∧ (slice blob 0 4 = proofEnvelopeMagicV2 →
      ((∃ p, parseProofEnvelope blob = .ok p) ↔
        (14 ≤ blob.length ∧ 1 ≤ (blob.getD 5 0).val ∧ (blob.getD 5 0).val ≤ 63
          ∧ 0 < (u32be (slice blob 6 10)).val ∧ 0 < (u32be (slice blob 10 14)).val
          ∧ blob.length = 14 + (blob.getD 5 0).val + (u32be (slice blob 6 10)).val
              + (u32be (slice blob 10 14)).val
          ∧ ∀ b ∈ slice blob 14 (14 + (blob.getD 5 0).val),
              (97 ≤ b.val ∧ b.val ≤ 122) ∨ (48 ≤ b.val ∧ b.val ≤ 57)
                ∨ b.val = 46 ∨ b.val = 95 ∨ b.val = 45)))
    ∧ ((∀ p, parseProofEnvelope blob ≠ .ok p) →
      parseProofEnvelope blob = .error ErrInvalidProofEnvelope) := by
  have hml1 : proofEnvelopeMagicV1.length = 4 := rfl
  have hml2 : proofEnvelopeMagicV2.length = 4 := rfl
  have hne12 : proofEnvelopeMagicV1 ≠ proofEnvelopeMagicV2 := by decide
  have hlen : ¬ blob.length < 4 := by
    intro hlt
    have h4 : (slice blob 0 4).length = 4 := by
      rcases hmagic with h | h <;> rw [h] <;> rfl
    simp only [slice, List.drop_zero, List.length_take] at h4
    omega
  have hV1 : slice blob 0 4 = proofEnvelopeMagicV1 →
      parseProofEnvelope blob = parseProofEnvelopeV1 blob := by
    intro h
    unfold parseProofEnvelope
    rw [hml1, if_neg hlen, if_pos h]
  have hV2 : slice blob 0 4 = proofEnvelopeMagicV2 →
      parseProofEnvelope blob = parseProofEnvelopeV2 blob := by
    intro h
    unfold parseProofEnvelope
    rw [hml1, hml2, if_neg hlen, if_neg (by rw [h]; exact fun e => hne12 e.symm), if_pos h]
  refine ⟨?_, ?_, ?_⟩
  · intro h
    rw [hV1 h]
    unfold parseProofEnvelopeV1 proofEnvelopeV1HeaderLen
    simp only
    constructor
    · rintro ⟨p, hp⟩
      split at hp
      · cases hp
      split at hp
      · cases hp
      split at hp
      · cases hp
      rename_i h1 h2 h3
      refine ⟨by omega, by omega, by omega, ?_⟩
      exact not_not.mp h3
    · rintro ⟨h1, h2, h3, h4⟩
      rw [if_neg (by omega), if_neg (by omega), if_neg (by simpa using h4)]
      exact ⟨_, rfl⟩
  · intro h
    rw [hV2 h]
    unfold parseProofEnvelopeV2 proofEnvelopeV2HeaderLen maxProofCircuitIDLen
    simp only
    have hvalid : ∀ c : Bytes, 1 ≤ c.length → c.length ≤ 63 →
        (isValidProofCircuitID c = true ↔ ∀ b ∈ c,
          (97 ≤ b.val ∧ b.val ≤ 122) ∨ (48 ≤ b.val ∧ b.val ≤ 57)
            ∨ b.val = 46 ∨ b.val = 95 ∨ b.val = 45) := by
      intro c hc1 hc2
      unfold isValidProofCircuitID maxProofCircuitIDLen
      rw [if_neg (by omega)]
      simp only [List.all_eq_true, isCircuitIDChar, decide_eq_true_eq]
      constructor
      · intro hall b hb
        have := hall b hb
        omega
      · intro hall b hb
        have := hall b hb
        have hb256 := b.isLt
        omega
    have hclen : ∀ n : Nat, 14 + n ≤ blob.length → (slice blob 14 (14 + n)).length = n := by
      intro n hn
      simp only [slice, List.length_take, List.length_drop]
      omega
    constructor
    · rintro ⟨p, hp⟩
      split at hp
      · cases hp
      split at hp
      · cases hp
      split at hp
      · cases hp
      split at hp
      · cases hp
      rename_i h1 h2 h3 h4
      have h3 := not_not.mp h3
      have h4 : isValidProofCircuitID (slice blob 14 (14 + (blob.getD 5 0).val)) = true := by
        simpa using h4
      refine ⟨by omega, by omega, by omega, by omega, by omega, h3, ?_⟩
      exact (hvalid _ (by rw [hclen _ (by omega)]; omega)
        (by rw [hclen _ (by omega)]; omega)).mp h4
    · rintro ⟨h1, h2, h3, h4, h5, h6, h7⟩
      have h8 := (hvalid _ (by rw [hclen _ (by omega)]; omega)
        (by rw [hclen _ (by omega)]; omega)).mpr h7
      rw [if_neg (by omega), if_neg (by omega), if_neg (by simpa using h6),
        if_neg (by simpa using h8)]
      exact ⟨_, rfl⟩
  · intro hno
    rcases hmagic with h | h
    · rw [hV1 h] at hno ⊢
      unfold parseProofEnvelopeV1 at hno ⊢
      simp only at hno ⊢
      split
      · rfl
      split
      · rfl
      split
      · rfl
      rename_i h1 h2 h3
      rw [if_neg h1, if_neg h2, if_neg h3] at hno
      exact absurd rfl (hno _)
    · rw [hV2 h] at hno ⊢
      unfold parseProofEnvelopeV2 at hno ⊢
      simp only at hno ⊢
      split
      · rfl
      split
      · rfl
      split
      · rfl
      split
      · rfl
      rename_i h1 h2 h3 h4
      rw [if_neg h1, if_neg h2, if_neg h3, if_neg h4] at hno
      exact absurd rfl (hno _)

/-- Witness for C12: a well-formed V1 envelope with a four-byte proof and a
three-byte witness is accepted. -/
theorem parseProofEnvelope_strict_witness :
    ∃ p, parseProofEnvelope
      [86, 90, 75, 49, 1, 0, 0, 0, 4, 0, 0, 0, 3, 1, 2, 3, 4, 9, 8, 7] = .ok p :=
  ((parseProofEnvelope_strict
      [86, 90, 75, 49, 1, 0, 0, 0, 4, 0, 0, 0, 3, 1, 2, 3, 4, 9, 8, 7]
      (Or.inl (by decide))).1 (by decide)).mpr
    ⟨by decide, by decide, by decide, by decide⟩

/-! ## Public-input preimages and the expected hash -/

/-- The fields of a tagged preimage sit at fixed offsets after the tag. -/
theorem tagged_preimage_fields (tag : Bytes) (m : ID) (w p v : U64) (x : U16) (f pre : Bytes)
    (h : pre = tag ++ m.val ++ be64 w ++ be64 p ++ be64 v ++ be16 x ++ f) :
    pre.length = tag.length + 32 + 24 + 2 + f.length
      ∧ slice pre 0 tag.length = tag
      ∧ slice pre tag.length (tag.length + 32) = m.val
      ∧ u64be (slice pre (tag.length + 32) (tag.length + 40)) = w
      ∧ u64be (slice pre (tag.length + 40) (tag.length + 48)) = p
      ∧ u64be (slice pre (tag.length + 48) (tag.length + 56)) = v
      ∧ u16be (slice pre (tag.length + 56) (tag.length + 58)) = x
      ∧ pre.drop (tag.length + 58) = f := by
  have hm := m.property
  refine ⟨?_, ?_, ?_, ?_, ?_, ?_, ?_, ?_⟩
  · subst h
    simp only [List.length_append, be64_length, be16_length, hm]
  · exact slice_eq_of pre [] tag (m.val ++ be64 w ++ be64 p ++ be64 v ++ be16 x ++ f)
      (by rw [h]; simp [List.append_assoc]) 0 _ rfl (by simp)
  · exact slice_eq_of pre tag m.val (be64 w ++ be64 p ++ be64 v ++ be16 x ++ f)
      (by rw [h]; simp [List.append_assoc]) _ _ rfl (by rw [hm])
  · rw [slice_eq_of pre (tag ++ m.val) (be64 w) (be64 p ++ be64 v ++ be16 x ++ f)
      (by rw [h]; simp [List.append_assoc]) _ _ (by simp [hm])
      (by simp [hm, be64_length]), u64be_be64]
  · rw [slice_eq_of pre (tag ++ m.val ++ be64 w) (be64 p) (be64 v ++ be16 x ++ f)
      (by rw [h]; simp [List.append_assoc]) _ _ (by simp [hm, be64_length])
      (by simp [hm, be64_length]), u64be_be64]
  · rw [slice_eq_of pre (tag ++ m.val ++ be64 w ++ be64 p) (be64 v) (be16 x ++ f)
      (by rw [h]; simp [List.append_assoc]) _ _ (by simp [hm, be64_length])
      (by simp [hm, be64_length]), u64be_be64]
  · rw [slice_eq_of pre (tag ++ m.val ++ be64 w ++ be64 p ++ be64 v) (be16 x) f
      (by rw [h]) _ _ (by simp [hm, be64_length])
      (by simp [hm, be64_length, be16_length]), u16be_be16]
  · subst h
    have hl : (tag ++ m.val ++ be64 w ++ be64 p ++ be64 v ++ be16 x).length = tag.length + 58 := by
      simp only [List.length_append, be64_length, be16_length, hm]
    rw [← hl, List.drop_left]

/-- C13. For every market id, window id, clear price, total volume and fills
hash `f`, `BuildShieldedLedgerPublicInputsPreimage` returns
`"VEIL_SHIELDED_LEDGER_V1" ‖ market_id ‖ BE64(window_id) ‖ BE64(clear_price) ‖
BE64(total_volume) ‖ BE16(len f) ‖ f`, of length `23 + 32 + 24 + 2 + len f`, and
`BuildClearPublicInputsPreimage` returns the same layout with the tag
`"VEIL_CLEAR_V1"`; each field reads back from its offset (the two length bytes
hold `len f` as a `uint16`, which is `len f` itself below 65536). -/
theorem public_inputs_preimage_layout (m : ID) (w p v : U64) (f : Bytes) :
    (BuildShieldedLedgerPublicInputsPreimage m w p v f
        = ascii "VEIL_SHIELDED_LEDGER_V1" ++ m.val ++ be64 w ++ be64 p ++ be64 v
            ++ be16 (toU16 f.length) ++ f
      ∧ (BuildShieldedLedgerPublicInputsPreimage m w p v f).length = 23 + 32 + 24 + 2 + f.length
      ∧ slice (BuildShieldedLedgerPublicInputsPreimage m w p v f) 0 23
          = ascii "VEIL_SHIELDED_LEDGER_V1"
      ∧ slice (BuildShieldedLedgerPublicInputsPreimage m w p v f) 23 55 = m.val
      ∧ u64be (slice (BuildShieldedLedgerPublicInputsPreimage m w p v f) 55 63) = w
      ∧ u64be (slice (BuildShieldedLedgerPublicInputsPreimage m w p v f) 63 71) = p
      ∧ u64be (slice (BuildShieldedLedgerPublicInputsPreimage m w p v f) 71 79) = v
      ∧ (u16be (slice (BuildShieldedLedgerPublicInputsPreimage m w p v f) 79 81)).val
          = f.length % 65536
      ∧ (BuildShieldedLedgerPublicInputsPreimage m w p v f).drop 81 = f)
    ∧ (BuildClearPublicInputsPreimage m w p v f
        = ascii "VEIL_CLEAR_V1" ++ m.val ++ be64 w ++ be64 p ++ be64 v
            ++ be16 (toU16 f.length) ++ f
      ∧ (BuildClearPublicInputsPreimage m w p v f).length = 13 + 32 + 24 + 2 + f.length
      ∧ slice (BuildClearPublicInputsPreimage m w p v f) 0 13 = ascii "VEIL_CLEAR_V1"
      ∧ slice (BuildClearPublicInputsPreimage m w p v f) 13 45 = m.val
      ∧ u64be (slice (BuildClearPublicInputsPreimage m w p v f) 45 53) = w
      ∧ u64be (slice (BuildClearPublicInputsPreimage m w p v f) 53 61) = p
      ∧ u64be (slice (BuildClearPublicInputsPreimage m w p v f) 61 69) = v
      ∧ (u16be (slice (BuildClearPublicInputsPreimage m w p v f) 69 71)).val
          = f.length % 65536
      ∧ (BuildClearPublicInputsPreimage m w p v f).drop 71 = f) := by
  have hS : (ascii "VEIL_SHIELDED_LEDGER_V1").length = 23 := by decide
  have hC : (ascii "VEIL_CLEAR_V1").length = 13 := by decide
  constructor
  · obtain ⟨h1, h2, h3, h4, h5, h6, h7, h8⟩ :=
      tagged_preimage_fields (ascii "VEIL_SHIELDED_LEDGER_V1") m w p v (toU16 f.length) f
        (BuildShieldedLedgerPublicInputsPreimage m w p v f) rfl
    rw [hS] at h1 h2 h3 h4 h5 h6 h7 h8
    exact ⟨rfl, h1, h2, h3, h4, h5, h6, by rw [h7]; rfl, h8⟩
  · obtain ⟨h1, h2, h3, h4, h5, h6, h7, h8⟩ :=
      tagged_preimage_fields (ascii "VEIL_CLEAR_V1") m w p v (toU16 f.length) f
        (BuildClearPublicInputsPreimage m w p v f) rfl
    rw [hC] at h1 h2 h3 h4 h5 h6 h7 h8
    exact ⟨rfl, h1, h2, h3, h4, h5, h6, by rw [h7]; rfl, h8⟩

/-- C14 (as amended). The expected public-inputs hash is selected by the
circuit id after `strings.TrimSpace`: it is `SHA-256` of the clear preimage
when the trimmed id is empty or `clearhash-v1`, `SHA-256` of the
shielded-ledger preimage when the trimmed id is `shielded-ledger-v1`, and the
call fails with `ErrUnsupportedProofCircuit` for every other id. For an id
without leading or trailing white space (`TrimSpace c = c`) the selection is by
`c` itself. -/
theorem computeExpectedPublicInputsHash_cases (c : Bytes) (m : ID) (w p v : U64) (f : Bytes) :
    ((trimSpace c = [] ∨ trimSpace c = ascii "clearhash-v1") →
        computeExpectedPublicInputsHash c m w p v f
          = .ok (SHA256.Sum256 (BuildClearPublicInputsPreimage m w p v f)))
      ∧ (trimSpace c = ascii "shielded-ledger-v1" →
        computeExpectedPublicInputsHash c m w p v f
          = .ok (SHA256.Sum256 (BuildShieldedLedgerPublicInputsPreimage m w p v f)))
      ∧ (trimSpace c ≠ [] → trimSpace c ≠ ascii "clearhash-v1" →
          trimSpace c ≠ ascii "shielded-ledger-v1" →
        computeExpectedPublicInputsHash c m w p v f = .error ErrUnsupportedProofCircuit)
      ∧ (trimSpace c = c →
        ((c = [] ∨ c = ascii "clearhash-v1") →
          computeExpectedPublicInputsHash c m w p v f
            = .ok (SHA256.Sum256 (BuildClearPublicInputsPreimage m w p v f)))
        ∧ (c = ascii "shielded-ledger-v1" →
          computeExpectedPublicInputsHash c m w p v f
            = .ok (SHA256.Sum256 (BuildShieldedLedgerPublicInputsPreimage m w p v f)))
        ∧ (c ≠ [] → c ≠ ascii "clearhash-v1" → c ≠ ascii "shielded-ledger-v1" →
          computeExpectedPublicInputsHash c m w p v f = .error ErrUnsupportedProofCircuit)) := by
  have hne : ¬ (ascii "shielded-ledger-v1" = [] ∨ ascii "shielded-ledger-v1"
      = ascii "clearhash-v1") := by decide
  have h1 : (trimSpace c = [] ∨ trimSpace c = ascii "clearhash-v1") →
      computeExpectedPublicInputsHash c m w p v f
        = .ok (SHA256.Sum256 (BuildClearPublicInputsPreimage m w p v f)) := by
    intro h
    unfold computeExpectedPublicInputsHash ProofCircuitClearHashV1
    simp only
    rw [if_pos h]
    rfl
  have h2 : trimSpace c = ascii "shielded-ledger-v1" →
      computeExpectedPublicInputsHash c m w p v f
        = .ok (SHA256.Sum256 (BuildShieldedLedgerPublicInputsPreimage m w p v f)) := by
    intro h
    unfold computeExpectedPublicInputsHash ProofCircuitClearHashV1 ProofCircuitShieldedLedgerV1
    simp only
    rw [h, if_neg hne, if_pos rfl]
    rfl
  have h3 : trimSpace c ≠ [] → trimSpace c ≠ ascii "clearhash-v1" →
      trimSpace c ≠ ascii "shielded-ledger-v1" →
      computeExpectedPublicInputsHash c m w p v f = .error ErrUnsupportedProofCircuit := by
    intro ha hb hc
    unfold computeExpectedPublicInputsHash ProofCircuitClearHashV1 ProofCircuitShieldedLedgerV1
    simp only
    rw [if_neg (by rintro (h | h); exact ha h; exact hb h), if_neg hc]
  refine ⟨h1, h2, h3, ?_⟩
  intro ht
  rw [ht] at h1 h2 h3
  exact ⟨h1, h2, h3⟩

/-- Witness for C14: the id `shielded-ledger-v1` selects the shielded-ledger preimage. -/
theorem computeExpectedPublicInputsHash_cases_witness :
    computeExpectedPublicInputsHash (ascii "shielded-ledger-v1") Scenario.market 1 1025 3200
        Scenario.fillsHash
      = .ok (SHA256.Sum256 (BuildShieldedLedgerPublicInputsPreimage Scenario.market 1 1025 3200
          Scenario.fillsHash)) :=
  (computeExpectedPublicInputsHash_cases (ascii "shielded-ledger-v1") Scenario.market 1 1025
    3200 Scenario.fillsHash).2.1 (by decide)

/-- Counterexample to C14 as stated: the circuit id `" clearhash-v1"` (leading
space) is neither empty nor `clearhash-v1` nor `shielded-ledger-v1`, yet the
call does not fail with `ErrUnsupportedProofCircuit`: it returns the clear
hash. -/
theorem computeExpectedPublicInputsHash_untrimmed_counterexample :
    ascii " clearhash-v1" ≠ [] ∧ ascii " clearhash-v1" ≠ ascii "clearhash-v1"
      ∧ ascii " clearhash-v1" ≠ ascii "shielded-ledger-v1"
      ∧ computeExpectedPublicInputsHash (ascii " clearhash-v1") Scenario.market 1 1025 3200
          Scenario.fillsHash
        = .ok (SHA256.Sum256 (BuildClearPublicInputsPreimage Scenario.market 1 1025 3200
            Scenario.fillsHash))
      ∧ computeExpectedPublicInputsHash (ascii " clearhash-v1") Scenario.market 1 1025 3200
          Scenario.fillsHash
        ≠ .error ErrUnsupportedProofCircuit := by
  have h : computeExpectedPublicInputsHash (ascii " clearhash-v1") Scenario.market 1 1025 3200
      Scenario.fillsHash
        = .ok (SHA256.Sum256 (BuildClearPublicInputsPreimage Scenario.market 1 1025 3200
            Scenario.fillsHash)) := by
    unfold computeExpectedPublicInputsHash ProofCircuitClearHashV1
    simp only
    rw [if_pos (Or.inr (by decide))]
    rfl
  refine ⟨by decide, by decide, by decide, h, ?_⟩
  rw [h]
  exact fun e => by cases e

/-! ## Digest vectors -/

/-- The byte loop accepts exactly when every remaining element equals its byte. -/
theorem validateDigestLoop_none (h : Bytes) (vec : List Element) (k i : Nat) :
    (validateDigestLoop h vec i k = none ↔
        ∀ j, i ≤ j → j < i + k → (vec.getD j Element.zero).val = (h.getD j 0).val)
      ∧ (validateDigestLoop h vec i k ≠ none →
        validateDigestLoop h vec i k = some ErrProofPublicInputsMismatch) := by
  induction k generalizing i with
  | zero =>
    refine ⟨⟨fun _ j h1 h2 => by omega, fun _ => rfl⟩, fun hne => absurd rfl hne⟩
  | succ k ih =>
    have hstep : (¬ (vec.getD i Element.zero).IsUint64 = true
        ∨ (vec.getD i Element.zero).Uint64 ≠ toU64 (h.getD i 0).val)
        ↔ (vec.getD i Element.zero).val ≠ (h.getD i 0).val := by
      have hb := (h.getD i 0).isLt
      simp only [Element.IsUint64, Element.Uint64, toU64, decide_eq_true_eq, ne_eq, Fin.mk.injEq]
      omega
    unfold validateDigestLoop
    by_cases hc : (vec.getD i Element.zero).val = (h.getD i 0).val
    · rw [if_neg (by rw [hstep]; exact not_not.mpr hc)]
      refine ⟨?_, (ih (i + 1)).2⟩
      rw [(ih (i + 1)).1]
      constructor
      · intro hall j h1 h2
        by_cases hj : j = i
        · rw [hj]; exact hc
        · exact hall j (by omega) (by omega)
      · intro hall j h1 h2
        exact hall j (by omega) (by omega)
    · rw [if_pos (hstep.mpr hc)]
      refine ⟨⟨(fun e => by cases e), fun hall => absurd (hall i (Nat.le_refl _) (by omega)) hc⟩,
        fun _ => rfl⟩

/-- C15. Over the BN254 scalar field, `validateDigestVector(h, vec)` succeeds
exactly when either `vec` has one element, `h` is non-empty and `vec[0]` is the
big-endian value of `h` reduced modulo `p`, or `vec` has 32 elements, `h` has
32 bytes and `vec[i]` is the byte `h[i]` for every `i`. When the shape is
accepted but a value differs the error is `ErrProofPublicInputsMismatch`, and
every other vector length is rejected. -/
theorem validateDigestVector_spec (h : Bytes) (vec : List Element) :
    (validateDigestVector h vec = none ↔
        (vec.length = 1 ∧ h ≠ []
          ∧ (vec.getD 0 Element.zero).val = beNat h % bn254ScalarField)
        ∨ (vec.length = 32 ∧ h.length = 32
          ∧ ∀ i, i < 32 → (vec.getD i Element.zero).val = (h.getD i 0).val))
      ∧ (((vec.length = 1 ∧ h ≠ []) ∨ (vec.length = 32 ∧ h.length = 32)) →
        validateDigestVector h vec ≠ none →
        validateDigestVector h vec = some ErrProofPublicInputsMismatch)
      ∧ (vec.length ≠ 1 → vec.length ≠ 32 → validateDigestVector h vec ≠ none) := by
  have hlen0 : h.length = 0 ↔ h = [] := List.length_eq_zero
  unfold validateDigestVector hashToFieldElement ClearHashDigestLen
  by_cases h1 : vec.length = 1
  · rw [if_pos h1]
    by_cases hh : h.length = 0
    · rw [if_pos hh]
      refine ⟨⟨(fun e => by cases e), ?_⟩, ?_, fun hne => absurd h1 hne⟩
      · rintro (⟨-, hne, -⟩ | ⟨h32, -, -⟩)
        · exact absurd (hlen0.mp hh) hne
        · omega
      · rintro (⟨-, hne⟩ | ⟨h32, -⟩)
        · exact absurd (hlen0.mp hh) hne
        · omega
    · rw [if_neg hh]
      simp only
      by_cases hv : (vec.getD 0 Element.zero).val = beNat h % bn254ScalarField
      · have hv2 : vec.getD 0 Element.zero = ⟨beNat h % bn254ScalarField,
            Nat.mod_lt _ (by decide)⟩ := Fin.ext hv
        rw [if_neg (not_not.mpr hv2)]
        exact ⟨⟨fun _ => Or.inl ⟨h1, fun e => hh (hlen0.mpr e), hv⟩, fun _ => rfl⟩,
          fun _ hne => absurd rfl hne, fun hne => absurd h1 hne⟩
      · have hv2 : vec.getD 0 Element.zero ≠ ⟨beNat h % bn254ScalarField,
            Nat.mod_lt _ (by decide)⟩ := fun e => hv (by rw [e])
        rw [if_pos hv2]
        refine ⟨⟨(fun e => by cases e), ?_⟩, fun _ _ => rfl, fun hne => absurd h1 hne⟩
        rintro (⟨-, -, hv3⟩ | ⟨h32, -, -⟩)
        · exact absurd hv3 hv
        · omega
  · rw [if_neg h1]
    by_cases h32 : vec.length = 32
    · rw [if_pos h32]
      by_cases hh : h.length = 32
      · rw [if_neg (not_not.mpr hh)]
        obtain ⟨hl1, hl2⟩ := validateDigestLoop_none h vec 32 0
        refine ⟨?_, fun _ => hl2, fun _ hne => absurd h32 hne⟩
        rw [hl1]
        constructor
        · intro hall
          exact Or.inr ⟨h32, hh, fun i hi => hall i (Nat.zero_le _) (by omega)⟩
        · rintro (⟨hx, -, -⟩ | ⟨-, -, hall⟩)
          · exact absurd hx h1
          · exact fun j _ hj => hall j (by omega)
      · rw [if_pos hh]
        refine ⟨⟨(fun e => by cases e), ?_⟩, ?_, fun _ hne => absurd h32 hne⟩
        · rintro (⟨hx, -, -⟩ | ⟨-, hy, -⟩)
          · exact absurd hx h1
          · exact absurd hy hh
        · rintro (⟨hx, -⟩ | ⟨-, hy⟩)
          · exact absurd hx h1
          · exact absurd hy hh
    · rw [if_neg h32]
      refine ⟨⟨(fun e => by cases e), ?_⟩, ?_, fun _ _ e => by cases e⟩
      · rintro (⟨hx, -, -⟩ | ⟨hy, -, -⟩)
        · exact absurd hx h1
        · exact absurd hy h32
      · rintro (⟨hx, -⟩ | ⟨hy, -⟩)
        · exact absurd hx h1
        · exact absurd hy h32

/-- Witness for C15: the two-byte hash `01 02` and the single scalar 258. -/
theorem validateDigestVector_spec_witness :
    validateDigestVector [1, 2] [⟨258, by decide⟩] = none :=
  (validateDigestVector_spec [1, 2] [⟨258, by decide⟩]).1.mpr
    (Or.inl ⟨rfl, by decide, by decide⟩)

/-! ## Integer square root -/

theorem U64_val_div (a b : U64) : (a / b).val = a.val / b.val := rfl

/-- One Newton step from any positive `x` lands at or above the integer square root. -/
theorem newton_step_lower (N x : Nat) (hx : 0 < x) :
    N < ((x + N / x) / 2 + 1) * ((x + N / x) / 2 + 1) := by
  have h1 : N < x * (N / x) + x := by
    have := Nat.div_add_mod N x
    have := Nat.mod_lt N hx
    omega
  have h2 : x + N / x ≤ 2 * ((x + N / x) / 2) + 1 := by omega
  generalize N / x = q at h1 h2
  generalize (x + q) / 2 = y at h2
  zify at h1 h2 ⊢
  nlinarith [sq_nonneg ((x : ℤ) - q - 1), sq_nonneg ((x : ℤ) - q)]

/-- When the Newton step does not decrease `x`, `x` is at most the square root. -/
theorem newton_exit (N x : Nat) (h : x ≤ (x + N / x) / 2) : x * x ≤ N := by
  have h1 : x ≤ N / x := by omega
  calc x * x ≤ x * (N / x) := Nat.mul_le_mul_left x h1
    _ ≤ N := Nat.mul_div_le N x

/-- For `1 ≤ x ≤ N` the sum `x + N / x` is at most `N + 1`. -/
theorem newton_sum_le (N x : Nat) (hx : 0 < x) (hxN : x ≤ N) : x + N / x ≤ N + 1 := by
  have h1 : x * (N / x) ≤ N := Nat.mul_div_le N x
  generalize N / x = q at h1
  by_contra hc
  have h2 : N + 2 ≤ x + q := by omega
  nlinarith

/-- The loop of `intSqrt` started from an over-estimate returns the integer
square root, provided `n + 1` does not wrap. -/
theorem intSqrtLoop_correct (n : U64) (hn : 0 < n.val) (hmax : n.val < 18446744073709551615) :
    ∀ (fuel : Nat) (x y : U64), x.val < fuel → 0 < x.val → x.val ≤ n.val →
      n.val < (x.val + 1) * (x.val + 1) → y.val = (x.val + n.val / x.val) / 2 →
      ∃ r, intSqrtLoop fuel n x y = some r ∧ r.val * r.val ≤ n.val
        ∧ n.val < (r.val + 1) * (r.val + 1) := by
  intro fuel
  induction fuel with
  | zero => intro x y h; omega
  | succ fuel ih =>
    intro x y hfuel hx hxn hup hy
    unfold intSqrtLoop
    by_cases hlt : y < x
    · rw [if_pos hlt]
      have hlt2 : y.val < x.val := hlt
      have hyup : n.val < (y.val + 1) * (y.val + 1) := by
        rw [hy]; exact newton_step_lower n.val x.val hx
      have hy0 : 0 < y.val := by
        by_contra hc
        have : y.val = 0 := by omega
        rw [this] at hyup
        omega
      have hyne : y ≠ 0 := by
        intro e
        rw [e] at hy0
        exact absurd hy0 (by decide)
      rw [if_neg hyne]
      have hsum := newton_sum_le n.val y.val hy0 (by omega)
      apply ih y _ (by omega) hy0 (by omega) hyup
      have h2 : ((2 : U64)).val = 2 := rfl
      rw [U64_val_div, Fin.val_add, U64_val_div, h2, Nat.mod_eq_of_lt (by omega)]
    · rw [if_neg hlt]
      have hge : x.val ≤ y.val := Nat.le_of_not_lt hlt
      exact ⟨x, rfl, newton_exit n.val x.val (by rw [← hy]; exact hge), hup⟩

/-- Below `2^64 - 1`, `intSqrt` returns the integer square root. -/
theorem intSqrt_correct_below_max (n : U64) (hmax : n.val < 18446744073709551615) :
    ∃ r, intSqrt n = some r ∧ r.val * r.val ≤ n.val ∧ n.val < (r.val + 1) * (r.val + 1) := by
  unfold intSqrt
  by_cases h0 : n = 0
  · rw [if_pos h0, h0]
    exact ⟨0, rfl, by decide, by decide⟩
  · rw [if_neg h0]
    have hn : 0 < n.val := by
      by_contra hc
      exact h0 (Fin.ext (by simp only [Fin.val_zero]; omega))
    apply intSqrtLoop_correct n hn hmax (n.val + 1) n _ (by omega) hn (Nat.le_refl _)
    · nlinarith
    · have h1 : ((1 : U64)).val = 1 := rfl
      have h2 : ((2 : U64)).val = 2 := rfl
      rw [U64_val_div, Fin.val_add, h1, h2, Nat.mod_eq_of_lt (by omega), Nat.div_self hn]

/-- C17, the code at the failing input. For `n = 2^64 - 1` the first estimate
`(n + 1) / 2` wraps to `0`, and the next loop iteration divides by zero: the
call does not return. A first deposit whose amounts multiply to `2^64 - 1`
(`4294967295 * 4294967297`, no overflow in the checked product) reaches it. -/
theorem intSqrt_max_divides_by_zero :
    intSqrt 18446744073709551615 = none
      ∧ smathMul 4294967295 4294967297 = .ok 18446744073709551615
      ∧ errorOf (Scenario.maxProductDeposit.Execute Scenario.ammGenesis ⟨0⟩ Scenario.trader
          Scenario.txID) = some (.goPanic "integer divide by zero") := by
  decide!

/-! ## Balance rows: what the add and subtract functions do -/

/-- A row reads as a present balance exactly when it holds eight bytes. -/
theorem innerGetBalance_present (v : Option Bytes) (bal : U64) :
    innerGetBalance v = (bal, true, none) ↔ ∃ w, v = some w ∧ w.length = 8 ∧ u64be w = bal := by
  unfold innerGetBalance parseUInt64
  cases v with
  | none => simp
  | some w =>
    by_cases h : w.length = 8
    · simp [h]
    · simp [h]

/-- A row reads without error exactly when it is absent or holds eight bytes. -/
theorem innerGetBalance_readable (v : Option Bytes) (bal : U64) (ok : Bool) :
    innerGetBalance v = (bal, ok, none) ↔
      (v = none ∧ bal = 0 ∧ ok = false) ∨ (∃ w, v = some w ∧ w.length = 8 ∧ u64be w = bal
        ∧ ok = true) := by
  unfold innerGetBalance parseUInt64
  cases v with
  | none =>
    simp only [Prod.mk.injEq, true_and, reduceCtorEq, false_and, exists_false, or_false,
      and_true]
    constructor
    · rintro ⟨h1, h2⟩; exact ⟨h1.symm, h2.symm⟩
    · rintro ⟨h1, h2⟩; exact ⟨h1.symm, h2.symm⟩
  | some w =>
    by_cases h : w.length = 8
    · simp only [h, if_true, Prod.mk.injEq, and_true, reduceCtorEq, false_and, false_or,
        Option.some.injEq, exists_eq_left', true_and]
      constructor
      · rintro ⟨h1, h2⟩; exact ⟨h1, h2.symm⟩
      · rintro ⟨h1, h2⟩; exact ⟨h1, h2.symm⟩
    · simp [h]

theorem innerGetBalance_insert (mu : Store) (k : Bytes) (nb : U64) :
    innerGetBalance (Store.insert mu k (be64 nb) k) = (nb, true, none) := by
  rw [Store.insert_same]
  exact (innerGetBalance_present _ _).mpr ⟨_, rfl, be64_length nb, u64be_be64 nb⟩

theorem Store.remove_same (mu : Store) (k : Bytes) : Store.remove mu k k = none := by
  simp [Store.remove]

theorem Store.remove_other (mu : Store) (k q : Bytes) (h : q ≠ k) :
    Store.remove mu k q = mu q := by
  simp [Store.remove, h]

theorem writeSub_other (mu : Store) (k q : Bytes) (nb : U64) (h : q ≠ k) :
    writeSub mu k nb q = mu q := by
  unfold writeSub
  split
  · exact Store.remove_other mu k q h
  · exact Store.insert_other mu k _ q h

/-- After the subtract write the row reads as the new balance. -/
theorem innerGetBalance_writeSub (mu : Store) (k : Bytes) (nb : U64) :
    ∃ ok, innerGetBalance (writeSub mu k nb k) = (nb, ok, none) := by
  unfold writeSub
  split
  · rename_i h
    rw [Store.remove_same, h]
    exact ⟨false, rfl⟩
  · exact ⟨true, innerGetBalance_insert mu k nb⟩

theorem smathSub_ok_iff (a b r : U64) :
    smathSub a b = .ok r ↔ b.val ≤ a.val ∧ r = a - b := by
  unfold smathSub
  split
  · rename_i h
    simp only [Except.ok.injEq, h, true_and]
    exact eq_comm
  · rename_i h
    simp [h]

theorem smathAdd_ok_iff (a b r : U64) :
    smathAdd a b = .ok r ↔ a.val + b.val < 18446744073709551616 ∧ r = a + b := by
  unfold smathAdd
  split
  · rename_i h
    simp only [Except.ok.injEq, h, true_and]
    exact eq_comm
  · rename_i h
    simp [h]

theorem U64_sub_val (a b : U64) (h : b.val ≤ a.val) : (a - b).val = a.val - b.val := by
  rw [Fin.sub_def]
  simp only
  have ha := a.isLt
  have hb := b.isLt
  omega

theorem U64_add_val (a b : U64) (h : a.val + b.val < 18446744073709551616) :
    (a + b).val = a.val + b.val := by
  rw [Fin.val_add]
  exact Nat.mod_eq_of_lt h

/-- The shared shape of `SubBalance`, `SubVAIBalance` and `SubLPBalance`. -/
theorem sub_row_ok_iff (mu : Store) (k : Bytes) (x nb : U64) (s : Store) (e1 e2 : Err)
    (set : Store → Bytes → U64 → Store) (hset : ∀ m q b, set m q b = Store.insert m q (be64 b)) :
    (match (k, innerGetBalance (mu k)) with
      | (_, _, false, _) => Except.error e1
      | (_, _, true, some e) => .error e
      | (key, bal, true, none) =>
        match smathSub bal x with
        | .error _ => .error e2
        | .ok nbal =>
          if nbal = 0 then .ok (0, Store.remove mu key)
          else .ok (nbal, set mu key nbal)) = Except.ok (nb, s)
      ↔ ∃ bal, innerGetBalance (mu k) = (bal, true, none) ∧ x.val ≤ bal.val ∧ nb = bal - x
          ∧ s = writeSub mu k nb := by
  generalize innerGetBalance (mu k) = t
  obtain ⟨bal, ok, e⟩ := t
  cases ok with
  | false => simp
  | true =>
    cases e with
    | some e => simp
    | none =>
      simp only [Prod.mk.injEq, true_and, and_true, exists_eq_left']
      by_cases hle : x.val ≤ bal.val
      · have hs : smathSub bal x = .ok (bal - x) := (smathSub_ok_iff _ _ _).mpr ⟨hle, rfl⟩
        rw [hs]
        simp only [hle, true_and, hset, writeSub]
        by_cases h0 : bal - x = 0
        · rw [if_pos h0]
          simp only [Except.ok.injEq, Prod.mk.injEq]
          constructor
          · rintro ⟨h1, h2⟩
            subst h1
            rw [h0, if_pos rfl]
            exact ⟨rfl, h2.symm⟩
          · rintro ⟨h1, h2⟩
            rw [h1, h0, if_pos rfl] at h2
            exact ⟨by rw [h1, h0], h2.symm⟩
        · rw [if_neg h0]
          simp only [Except.ok.injEq, Prod.mk.injEq]
          constructor
          · rintro ⟨h1, h2⟩
            subst h1
            rw [if_neg h0]
            exact ⟨rfl, h2.symm⟩
          · rintro ⟨h1, h2⟩
            rw [h1, if_neg h0] at h2
            exact ⟨h1.symm, h2.symm⟩
      · have hs : ∀ r, smathSub bal x ≠ .ok r := fun r hr =>
          hle ((smathSub_ok_iff _ _ _).mp hr).1
        cases hsub : smathSub bal x with
        | ok r => exact absurd hsub (hs r)
        | error e => simp [hle]

theorem SubBalance_ok_iff (mu : Store) (a : Address) (x nb : U64) (s : Store) :
    SubBalance mu a x = .ok (nb, s) ↔
      ∃ bal, innerGetBalance (mu (BalanceKey a)) = (bal, true, none) ∧ x.val ≤ bal.val
        ∧ nb = bal - x ∧ s = writeSub mu (BalanceKey a) nb :=
  sub_row_ok_iff mu (BalanceKey a) x nb s _ _ setBalance (fun _ _ _ => rfl)

theorem SubVAIBalance_ok_iff (mu : Store) (a : Address) (x nb : U64) (s : Store) :
    SubVAIBalance mu a x = .ok (nb, s) ↔
      ∃ bal, innerGetBalance (mu (VAIBalanceKey a)) = (bal, true, none) ∧ x.val ≤ bal.val
        ∧ nb = bal - x ∧ s = writeSub mu (VAIBalanceKey a) nb :=
  sub_row_ok_iff mu (VAIBalanceKey a) x nb s _ _ setVAIBalance (fun _ _ _ => rfl)

theorem SubLPBalance_ok_iff (mu : Store) (a0 a1 : Byte) (a : Address) (x nb : U64) (s : Store) :
    SubLPBalance mu a0 a1 a x = .ok (nb, s) ↔
      ∃ bal, innerGetBalance (mu (LPBalanceKey a0 a1 a)) = (bal, true, none) ∧ x.val ≤ bal.val
        ∧ nb = bal - x ∧ s = writeSub mu (LPBalanceKey a0 a1 a) nb :=
  sub_row_ok_iff mu (LPBalanceKey a0 a1 a) x nb s _ _ setLPBalance (fun _ _ _ => rfl)

/-- The shared shape of `AddBalance`, `AddVAIBalance` and `AddLPBalance`. -/
theorem add_row_ok_iff (mu : Store) (k : Bytes) (x nb : U64) (s : Store) (e1 : Err)
    (set : Store → Bytes → U64 → Store) (hset : ∀ m q b, set m q b = Store.insert m q (be64 b)) :
    (match (k, innerGetBalance (mu k)) with
      | (_, _, _, some e) => Except.error e
      | (key, bal, _, none) =>
        match smathAdd bal x with
        | .error _ => .error e1
        | .ok nbal => .ok (nbal, set mu key nbal)) = Except.ok (nb, s)
      ↔ ∃ bal ok, innerGetBalance (mu k) = (bal, ok, none)
          ∧ bal.val + x.val < 18446744073709551616 ∧ nb = bal + x
          ∧ s = Store.insert mu k (be64 nb) := by
  generalize innerGetBalance (mu k) = t
  obtain ⟨bal, ok, e⟩ := t
  cases e with
  | some e => simp
  | none =>
    simp only [Prod.mk.injEq, and_true, exists_and_left, exists_eq_left', hset]
    by_cases hlt : bal.val + x.val < 18446744073709551616
    · have hs : smathAdd bal x = .ok (bal + x) := (smathAdd_ok_iff _ _ _).mpr ⟨hlt, rfl⟩
      rw [hs]
      simp only [Except.ok.injEq, Prod.mk.injEq, hlt, true_and]
      constructor
      · rintro ⟨h1, h2⟩
        subst h1
        exact ⟨bal, ok, ⟨rfl, rfl⟩, hlt, rfl, h2.symm⟩
      · rintro ⟨b, o, ⟨hb, -⟩, -, h1, h2⟩
        subst hb
        rw [h1] at h2
        exact ⟨h1.symm, h2.symm⟩
    · have hs : ∀ r, smathAdd bal x ≠ .ok r := fun r hr =>
        hlt ((smathAdd_ok_iff _ _ _).mp hr).1
      cases hadd : smathAdd bal x with
      | ok r => exact absurd hadd (hs r)
      | error e => simp [hlt]

theorem AddBalance_ok_iff (mu : Store) (a : Address) (x nb : U64) (s : Store) :
    AddBalance mu a x = .ok (nb, s) ↔
      ∃ bal ok, innerGetBalance (mu (BalanceKey a)) = (bal, ok, none)
        ∧ bal.val + x.val < 18446744073709551616 ∧ nb = bal + x
        ∧ s = Store.insert mu (BalanceKey a) (be64 nb) :=
  add_row_ok_iff mu (BalanceKey a) x nb s _ setBalance (fun _ _ _ => rfl)

theorem AddVAIBalance_ok_iff (mu : Store) (a : Address) (x nb : U64) (s : Store) :
    AddVAIBalance mu a x = .ok (nb, s) ↔
      ∃ bal ok, innerGetBalance (mu (VAIBalanceKey a)) = (bal, ok, none)
        ∧ bal.val + x.val < 18446744073709551616 ∧ nb = bal + x
        ∧ s = Store.insert mu (VAIBalanceKey a) (be64 nb) :=
  add_row_ok_iff mu (VAIBalanceKey a) x nb s _ setVAIBalance (fun _ _ _ => rfl)

theorem AddLPBalance_ok_iff (mu : Store) (a0 a1 : Byte) (a : Address) (x nb : U64) (s : Store) :
    AddLPBalance mu a0 a1 a x = .ok (nb, s) ↔
      ∃ bal ok, innerGetBalance (mu (LPBalanceKey a0 a1 a)) = (bal, ok, none)
        ∧ bal.val + x.val < 18446744073709551616 ∧ nb = bal + x
        ∧ s = Store.insert mu (LPBalanceKey a0 a1 a) (be64 nb) :=
  add_row_ok_iff mu (LPBalanceKey a0 a1 a) x nb s _ setLPBalance (fun _ _ _ => rfl)

theorem isSupportedAsset_iff (a : Byte) : isSupportedAsset a = true ↔ a = AssetVEIL ∨ a = AssetVAI := by
  simp [isSupportedAsset]

theorem validateAssetPair_none_iff (a b : Byte) :
    validateAssetPair a b = none ↔
      isSupportedAsset a = true ∧ isSupportedAsset b = true ∧ a ≠ b := by
  unfold validateAssetPair
  by_cases ha : isSupportedAsset a = true <;> by_cases hb : isSupportedAsset b = true <;>
    by_cases hab : a = b <;> simp [ha, hb, hab]

theorem GetBalance_ok_iff (mu : Store) (a : Address) (bal : U64) :
    GetBalance mu a = .ok bal ↔ ∃ ok, innerGetBalance (mu (BalanceKey a)) = (bal, ok, none) := by
  unfold GetBalance getBalance
  simp only
  generalize innerGetBalance (mu (BalanceKey a)) = t
  obtain ⟨b, ok, e⟩ := t
  cases e with
  | some e => simp
  | none => simp

theorem GetVAIBalance_ok_iff (mu : Store) (a : Address) (bal : U64) :
    GetVAIBalance mu a = .ok bal ↔
      ∃ ok, innerGetBalance (mu (VAIBalanceKey a)) = (bal, ok, none) := by
  unfold GetVAIBalance getVAIBalance
  simp only
  generalize innerGetBalance (mu (VAIBalanceKey a)) = t
  obtain ⟨b, ok, e⟩ := t
  cases e with
  | some e => simp
  | none => simp

theorem GetLPBalance_ok_iff (mu : Store) (a0 a1 : Byte) (a : Address) (bal : U64) :
    GetLPBalance mu a0 a1 a = .ok bal ↔
      ∃ ok, innerGetBalance (mu (LPBalanceKey a0 a1 a)) = (bal, ok, none) := by
  unfold GetLPBalance getLPBalance
  simp only
  generalize innerGetBalance (mu (LPBalanceKey a0 a1 a)) = t
  obtain ⟨b, ok, e⟩ := t
  cases e with
  | some e => simp
  | none => simp

theorem assetBalance_ok_iff (mu : Store) (actor : Address) (asset : Byte) (bal : U64) :
    assetBalance mu actor asset = .ok bal ↔
      ∃ ok, innerGetBalance (mu (assetBalanceKey actor asset)) = (bal, ok, none) := by
  unfold assetBalance assetBalanceKey
  split
  · exact GetBalance_ok_iff _ _ _
  · exact GetVAIBalance_ok_iff _ _ _

theorem subAssetBalance_ok_iff (mu : Store) (actor : Address) (asset : Byte) (x nb : U64)
    (s : Store) (hs : isSupportedAsset asset = true) :
    subAssetBalance mu actor asset x = .ok (nb, s) ↔
      ∃ bal, innerGetBalance (mu (assetBalanceKey actor asset)) = (bal, true, none)
        ∧ x.val ≤ bal.val ∧ nb = bal - x ∧ s = writeSub mu (assetBalanceKey actor asset) nb := by
  unfold subAssetBalance assetBalanceKey
  rcases (isSupportedAsset_iff asset).mp hs with h | h
  · rw [if_pos h, if_pos h]
    exact SubBalance_ok_iff _ _ _ _ _
  · have hne : asset ≠ AssetVEIL := by rw [h]; decide
    rw [if_neg hne, if_pos h, if_neg hne]
    exact SubVAIBalance_ok_iff _ _ _ _ _

theorem addAssetBalance_ok_iff (mu : Store) (actor : Address) (asset : Byte) (x nb : U64)
    (s : Store) (hs : isSupportedAsset asset = true) :
    addAssetBalance mu actor asset x = .ok (nb, s) ↔
      ∃ bal ok, innerGetBalance (mu (assetBalanceKey actor asset)) = (bal, ok, none)
        ∧ bal.val + x.val < 18446744073709551616 ∧ nb = bal + x
        ∧ s = Store.insert mu (assetBalanceKey actor asset) (be64 nb) := by
  unfold addAssetBalance assetBalanceKey
  rcases (isSupportedAsset_iff asset).mp hs with h | h
  · rw [if_pos h, if_pos h]
    exact AddBalance_ok_iff _ _ _ _ _
  · have hne : asset ≠ AssetVEIL := by rw [h]; decide
    rw [if_neg hne, if_pos h, if_neg hne]
    exact AddVAIBalance_ok_iff _ _ _ _ _

theorem assetBalanceKey_head (actor : Address) (asset : Byte) :
    (assetBalanceKey actor asset).head? = some balancePrefix
      ∨ (assetBalanceKey actor asset).head? = some vaiBalancePrefix := by
  unfold assetBalanceKey
  split
  · exact Or.inl rfl
  · exact Or.inr rfl

theorem assetBalanceKey_ne (actor : Address) {a b : Byte} (ha : isSupportedAsset a = true)
    (hb : isSupportedAsset b = true) (hab : a ≠ b) :
    assetBalanceKey actor a ≠ assetBalanceKey actor b := by
  unfold assetBalanceKey
  rcases (isSupportedAsset_iff a).mp ha with h1 | h1 <;>
    rcases (isSupportedAsset_iff b).mp hb with h2 | h2
  · exact absurd (h1.trans h2.symm) hab
  · rw [if_pos h1, if_neg (by rw [h2]; decide)]
    exact ne_of_head (VAIBalanceKey_head actor) (BalanceKey_head actor) (by decide)
  · rw [if_neg (by rw [h1]; decide), if_pos h2]
    exact ne_of_head (BalanceKey_head actor) (VAIBalanceKey_head actor) (by decide)
  · exact absurd (h1.trans h2.symm) hab

theorem assetBalanceKey_ne_pool (actor : Address) (asset a0 a1 : Byte) :
    assetBalanceKey actor asset ≠ PoolKey a0 a1 := by
  rcases assetBalanceKey_head actor asset with h | h
  · exact ne_of_head (PoolKey_head a0 a1) h (by decide)
  · exact ne_of_head (PoolKey_head a0 a1) h (by decide)

theorem assetBalanceKey_ne_lp (actor who : Address) (asset a0 a1 : Byte) :
    assetBalanceKey actor asset ≠ LPBalanceKey a0 a1 who := by
  rcases assetBalanceKey_head actor asset with h | h
  · exact ne_of_head (LPBalanceKey_head a0 a1 who) h (by decide)
  · exact ne_of_head (LPBalanceKey_head a0 a1 who) h (by decide)

theorem PoolKey_ne_lp (b0 b1 a0 a1 : Byte) (who : Address) :
    PoolKey b0 b1 ≠ LPBalanceKey a0 a1 who :=
  ne_of_head (LPBalanceKey_head a0 a1 who) (PoolKey_head b0 b1) (by decide)

theorem sortedAssetPair_comm (a b : Byte) : sortedAssetPair a b = sortedAssetPair b a := by
  unfold sortedAssetPair
  by_cases h1 : a ≤ b <;> by_cases h2 : b ≤ a
  · have : a = b := le_antisymm h1 h2
    rw [this]
  · rw [if_pos h1, if_neg h2]
  · rw [if_neg h1, if_pos h2]
  · exact absurd (le_of_lt (lt_of_not_le h1)) h2

theorem PoolKey_comm (a b : Byte) : PoolKey a b = PoolKey b a := by
  unfold PoolKey
  rw [sortedAssetPair_comm]

theorem LPBalanceKey_comm (a b : Byte) (who : Address) :
    LPBalanceKey a b who = LPBalanceKey b a who := by
  unfold LPBalanceKey
  rw [sortedAssetPair_comm]

theorem sortedAssetPair_idem (a b : Byte) :
    sortedAssetPair (sortedAssetPair a b).1 (sortedAssetPair a b).2 = sortedAssetPair a b := by
  unfold sortedAssetPair
  by_cases h : a ≤ b
  · simp [h]
  · have h2 : b ≤ a := le_of_lt (lt_of_not_le h)
    simp [h, h2]

/-- The pool row written by `PutPool` parses back with the assets in sorted order. -/
theorem parsePool_PutPool (mu : Store) (pool : Pool) :
    GetPool (PutPool mu pool) pool.Asset0 pool.Asset1
      = .ok ⟨(sortedAssetPair pool.Asset0 pool.Asset1).1, (sortedAssetPair pool.Asset0 pool.Asset1).2,
          pool.FeeBips, pool.Reserve0, pool.Reserve1, pool.TotalLP⟩ := by
  unfold GetPool PutPool
  rw [Store.insert_same]
  generalize (sortedAssetPair pool.Asset0 pool.Asset1).1 = p1
  generalize (sortedAssetPair pool.Asset0 pool.Asset1).2 = p2
  unfold parsePool
  have hl : ([p1, p2] ++ be16 pool.FeeBips ++ be64 pool.Reserve0 ++ be64 pool.Reserve1
      ++ be64 pool.TotalLP).length = 28 := rfl
  simp only
  rw [if_neg (by rw [hl]; decide)]
  have e1 : slice ([p1, p2] ++ be16 pool.FeeBips ++ be64 pool.Reserve0 ++ be64 pool.Reserve1
      ++ be64 pool.TotalLP) 2 4 = be16 pool.FeeBips :=
    slice_eq_of _ [p1, p2] (be16 pool.FeeBips)
      (be64 pool.Reserve0 ++ be64 pool.Reserve1 ++ be64 pool.TotalLP)
      (by simp [List.append_assoc]) _ _ rfl rfl
  have e2 : slice ([p1, p2] ++ be16 pool.FeeBips ++ be64 pool.Reserve0 ++ be64 pool.Reserve1
      ++ be64 pool.TotalLP) 4 12 = be64 pool.Reserve0 :=
    slice_eq_of _ ([p1, p2] ++ be16 pool.FeeBips) (be64 pool.Reserve0)
      (be64 pool.Reserve1 ++ be64 pool.TotalLP)
      (by simp [List.append_assoc]) _ _ rfl rfl
  have e3 : slice ([p1, p2] ++ be16 pool.FeeBips ++ be64 pool.Reserve0 ++ be64 pool.Reserve1
      ++ be64 pool.TotalLP) 12 20 = be64 pool.Reserve1 :=
    slice_eq_of _ ([p1, p2] ++ be16 pool.FeeBips ++ be64 pool.Reserve0) (be64 pool.Reserve1)
      (be64 pool.TotalLP) rfl _ _ rfl rfl
  have e4 : slice ([p1, p2] ++ be16 pool.FeeBips ++ be64 pool.Reserve0 ++ be64 pool.Reserve1
      ++ be64 pool.TotalLP) 20 28 = be64 pool.TotalLP :=
    slice_eq_of _ ([p1, p2] ++ be16 pool.FeeBips ++ be64 pool.Reserve0 ++ be64 pool.Reserve1)
      (be64 pool.TotalLP) [] (by simp) _ _ rfl rfl
  rw [e1, e2, e3, e4, u16be_be16, u64be_be64, u64be_be64, u64be_be64]
  rfl

/-! ## Swaps -/

theorem mulDiv_ok_iff (a b den q : U64) :
    mulDiv a b den = .ok q ↔
      den ≠ 0 ∧ a.val * b.val / den.val < 18446744073709551616
        ∧ q.val = a.val * b.val / den.val := by
  unfold mulDiv
  by_cases hd : den = 0
  · simp [hd]
  · rw [if_neg hd]
    simp only
    by_cases hq : a.val * b.val / den.val < 18446744073709551616
    · rw [if_pos hq]
      simp only [Except.ok.injEq, ne_eq, hd, not_false_eq_true, hq, true_and]
      constructor
      · intro h
        rw [← h]
        exact Nat.mod_eq_of_lt hq
      · intro h
        apply Fin.ext
        rw [h]
        exact Nat.mod_eq_of_lt hq
    · rw [if_neg hq]
      simp [hq]

/-- Every step that a successful `SwapExactIn.swap` has taken. -/
theorem SwapExactIn_swap_inv {a : SwapExactIn} {mu s : Store} {actor : Address} {pool : Pool}
    {inIs0 : Bool} {reserveIn reserveOut : U64} {r : SwapExactInResult}
    (h : SwapExactIn.swap a mu actor pool inIs0 reserveIn reserveOut = .ok (s, r)) :
    ∃ (b1 : U64) (mu1 : Store) (inWithFee den out : U64) (pool1 : Pool) (rb : U64),
      reserveIn ≠ 0 ∧ reserveOut ≠ 0
        ∧ subAssetBalance mu actor a.AssetIn a.AmountIn = .ok (b1, mu1)
        ∧ mulDiv a.AmountIn (toU64 ((10000 : U16) - pool.FeeBips).val) 10000 = .ok inWithFee
        ∧ inWithFee ≠ 0
        ∧ smathAdd reserveIn inWithFee = .ok den
        ∧ mulDiv reserveOut inWithFee den = .ok out
        ∧ out ≠ 0 ∧ a.MinAmountOut.val ≤ out.val ∧ out.val ≤ reserveOut.val
        ∧ SwapExactIn.nextPool pool inIs0 a.AmountIn out = .ok pool1
        ∧ addAssetBalance (PutPool mu1 pool1) actor a.AssetOut out = .ok (rb, s)
        ∧ r = ⟨out, rb, pool1.Reserve0, pool1.Reserve1⟩ := by
  unfold SwapExactIn.swap at h
  split at h
  · cases h
  rename_i c1
  split at h
  · cases h
  rename_i b1 mu1 hsub
  split at h
  · cases h
  rename_i inWithFee hfee
  split at h
  · cases h
  rename_i c2
  split at h
  · cases h
  rename_i den hden
  split at h
  · cases h
  rename_i out hout
  split at h
  · cases h
  rename_i c3
  split at h
  · cases h
  rename_i c4
  split at h
  · cases h
  rename_i pool1 hnext
  simp only at h
  split at h
  · cases h
  rename_i rb mu3 hadd
  cases h
  refine ⟨b1, mu1, inWithFee, den, out, pool1, rb, fun e => c1 (Or.inl e),
    fun e => c1 (Or.inr e), hsub, hfee, c2, hden, hout, fun e => c3 (Or.inl e), ?_, ?_, hnext,
    hadd, rfl⟩
  · exact Nat.le_of_not_lt (fun e => c3 (Or.inr e))
  · exact Nat.le_of_not_lt c4

theorem PutPool_other (mu : Store) (pool : Pool) (q : Bytes)
    (h : q ≠ PoolKey pool.Asset0 pool.Asset1) : PutPool mu pool q = mu q := by
  unfold PutPool
  exact Store.insert_other mu _ _ q h

theorem GetPool_congr {mu s : Store} (a b : Byte) (h : s (PoolKey a b) = mu (PoolKey a b)) :
    GetPool s a b = GetPool mu a b := by
  unfold GetPool
  rw [h]

theorem assetBalance_congr {mu s : Store} (actor : Address) (asset : Byte)
    (h : s (assetBalanceKey actor asset) = mu (assetBalanceKey actor asset)) :
    assetBalance s actor asset = assetBalance mu actor asset := by
  unfold assetBalance GetBalance GetVAIBalance getBalance getVAIBalance
  unfold assetBalanceKey at h
  split
  · rename_i h1
    rw [if_pos h1] at h
    simp only [h]
  · rename_i h1
    rw [if_neg h1] at h
    simp only [h]

theorem assetBalance_of_row {mu : Store} {actor : Address} {asset : Byte} {bal : U64}
    {ok : Bool} (h : innerGetBalance (mu (assetBalanceKey actor asset)) = (bal, ok, none)) :
    assetBalance mu actor asset = .ok bal :=
  (assetBalance_ok_iff mu actor asset bal).mpr ⟨ok, h⟩

theorem GetLPBalance_of_row {mu : Store} {a0 a1 : Byte} {who : Address} {bal : U64}
    {ok : Bool} (h : innerGetBalance (mu (LPBalanceKey a0 a1 who)) = (bal, ok, none)) :
    GetLPBalance mu a0 a1 who = .ok bal :=
  (GetLPBalance_ok_iff mu a0 a1 who bal).mpr ⟨ok, h⟩

theorem nextPool_inv {pool pool1 : Pool} {inIs0 : Bool} {amountIn amountOut : U64}
    (h : SwapExactIn.nextPool pool inIs0 amountIn amountOut = .ok pool1) :
    pool1.Asset0 = pool.Asset0 ∧ pool1.Asset1 = pool.Asset1 ∧ pool1.FeeBips = pool.FeeBips
      ∧ pool1.TotalLP = pool.TotalLP
      ∧ (inIs0 = true → pool1.Reserve0.val = pool.Reserve0.val + amountIn.val
          ∧ pool1.Reserve1.val + amountOut.val = pool.Reserve1.val)
      ∧ (inIs0 = false → pool1.Reserve1.val = pool.Reserve1.val + amountIn.val
          ∧ pool1.Reserve0.val + amountOut.val = pool.Reserve0.val) := by
  unfold SwapExactIn.nextPool at h
  cases inIs0 with
  | true =>
    simp only [if_true] at h
    split at h
    · cases h
    rename_i r0 h0
    split at h
    · cases h
    rename_i r1 h1
    cases h
    obtain ⟨ha, hb⟩ := (smathAdd_ok_iff _ _ _).mp h0
    obtain ⟨hc, hd⟩ := (smathSub_ok_iff _ _ _).mp h1
    refine ⟨rfl, rfl, rfl, rfl, fun _ => ⟨?_, ?_⟩, fun e => by cases e⟩
    · simp only [hb]; exact U64_add_val _ _ ha
    · simp only [hd]; rw [U64_sub_val _ _ hc]; omega
  | false =>
    simp only [Bool.false_eq_true, if_false] at h
    split at h
    · cases h
    rename_i r1 h1
    split at h
    · cases h
    rename_i r0 h0
    cases h
    obtain ⟨ha, hb⟩ := (smathAdd_ok_iff _ _ _).mp h1
    obtain ⟨hc, hd⟩ := (smathSub_ok_iff _ _ _).mp h0
    refine ⟨rfl, rfl, rfl, rfl, (fun e => by cases e), fun _ => ⟨?_, ?_⟩⟩
    · simp only [hb]; exact U64_add_val _ _ ha
    · simp only [hd]; rw [U64_sub_val _ _ hc]; omega

/-- What a successful `SwapExactIn.swap` computes and writes, for either orientation. -/
theorem SwapExactIn_swap_effects {a : SwapExactIn} {mu s : Store} {actor : Address}
    {pool : Pool} {inIs0 : Bool} {reserveIn reserveOut : U64} {r : SwapExactInResult}
    (hin : isSupportedAsset a.AssetIn = true) (hout : isSupportedAsset a.AssetOut = true)
    (hne : a.AssetIn ≠ a.AssetOut) (hfee : pool.FeeBips.val ≤ 10000)
    (hkey : PoolKey pool.Asset0 pool.Asset1 = PoolKey a.AssetIn a.AssetOut)
    (h : SwapExactIn.swap a mu actor pool inIs0 reserveIn reserveOut = .ok (s, r)) :
    ∃ (inWithFee out : Nat) (pool1 : Pool) (balIn balOut balIn1 balOut1 : U64),
      inWithFee = a.AmountIn.val * (10000 - pool.FeeBips.val) / 10000
        ∧ out = reserveOut.val * inWithFee / (reserveIn.val + inWithFee)
        ∧ r.AmountOut.val = out ∧ a.MinAmountOut.val ≤ out ∧ out ≤ reserveOut.val
        ∧ GetPool s a.AssetIn a.AssetOut = .ok pool1
        ∧ pool1.FeeBips = pool.FeeBips ∧ pool1.TotalLP = pool.TotalLP
        ∧ (inIs0 = true → pool1.Reserve0.val = pool.Reserve0.val + a.AmountIn.val
            ∧ pool1.Reserve1.val + out = pool.Reserve1.val)
        ∧ (inIs0 = false → pool1.Reserve1.val = pool.Reserve1.val + a.AmountIn.val
            ∧ pool1.Reserve0.val + out = pool.Reserve0.val)
        ∧ r.Reserve0 = pool1.Reserve0 ∧ r.Reserve1 = pool1.Reserve1
        ∧ assetBalance mu actor a.AssetIn = .ok balIn
        ∧ assetBalance s actor a.AssetIn = .ok balIn1
        ∧ balIn1.val + a.AmountIn.val = balIn.val
        ∧ assetBalance mu actor a.AssetOut = .ok balOut
        ∧ assetBalance s actor a.AssetOut = .ok balOut1
        ∧ balOut1.val = balOut.val + out
        ∧ r.ReceiverBalance = balOut1 := by
  obtain ⟨b1, mu1, inWithFee, den, out, pool1, rb, -, -, hsub, hmf, -, hden, hmo, -, hmin, hcap,
    hnext, hadd, hr⟩ := SwapExactIn_swap_inv h
  obtain ⟨balIn, hrowIn, hle, hb1, hmu1⟩ := (subAssetBalance_ok_iff _ _ _ _ _ _ hin).mp hsub
  obtain ⟨-, -, hq1⟩ := (mulDiv_ok_iff _ _ _ _).mp hmf
  obtain ⟨hdlt, hdv⟩ := (smathAdd_ok_iff _ _ _).mp hden
  obtain ⟨-, -, hq2⟩ := (mulDiv_ok_iff _ _ _ _).mp hmo
  obtain ⟨hA0, hA1, hF, hT, hT1, hT2⟩ := nextPool_inv hnext
  obtain ⟨balOut, okOut, hrowOut, hsum, hrb, hs⟩ :=
    (addAssetBalance_ok_iff _ _ _ _ _ _ hout).mp hadd
  have hkio : assetBalanceKey actor a.AssetIn ≠ assetBalanceKey actor a.AssetOut :=
    assetBalanceKey_ne actor hin hout hne
  have hkey1 : PoolKey pool1.Asset0 pool1.Asset1 = PoolKey a.AssetIn a.AssetOut := by
    rw [hA0, hA1, hkey]
  have hfeeval : (toU64 ((10000 : U16) - pool.FeeBips).val).val = 10000 - pool.FeeBips.val := by
    have hf := pool.FeeBips.isLt
    have h10 : ((10000 : U16)).val = 10000 := rfl
    have : ((10000 : U16) - pool.FeeBips).val = 10000 - pool.FeeBips.val := by
      rw [Fin.sub_def]
      simp only [h10]
      omega
    rw [this]
    simp only [toU64]
    omega
  have h10k : ((10000 : U64)).val = 10000 := rfl
  rw [hfeeval, h10k] at hq1
  rw [hdv, U64_add_val _ _ hdlt] at hq2
  -- the rows of the final store
  have hsIn : s (assetBalanceKey actor a.AssetIn)
      = writeSub mu (assetBalanceKey actor a.AssetIn) b1 (assetBalanceKey actor a.AssetIn) := by
    rw [hs, Store.insert_other _ _ _ _ hkio,
      PutPool_other _ _ _ (assetBalanceKey_ne_pool actor _ _ _), hmu1]
  have hpOut : PutPool mu1 pool1 (assetBalanceKey actor a.AssetOut)
      = mu (assetBalanceKey actor a.AssetOut) := by
    rw [PutPool_other _ _ _ (assetBalanceKey_ne_pool actor _ _ _), hmu1,
      writeSub_other _ _ _ _ hkio.symm]
  have hsPool : s (PoolKey a.AssetIn a.AssetOut)
      = PutPool mu1 pool1 (PoolKey a.AssetIn a.AssetOut) := by
    rw [hs, Store.insert_other _ _ _ _ (assetBalanceKey_ne_pool actor _ _ _).symm]
  obtain ⟨okIn1, hrowIn1⟩ := innerGetBalance_writeSub mu (assetBalanceKey actor a.AssetIn) b1
  rw [← hsIn] at hrowIn1
  rw [hpOut] at hrowOut
  have hrowOut1 : innerGetBalance (s (assetBalanceKey actor a.AssetOut)) = (rb, true, none) := by
    rw [hs]
    exact innerGetBalance_insert _ _ _
  have hpool1 := parsePool_PutPool mu1 pool1
  rw [← hkey1] at hsPool
  have hget : GetPool s a.AssetIn a.AssetOut = GetPool (PutPool mu1 pool1) pool1.Asset0
      pool1.Asset1 := by
    unfold GetPool
    rw [← hkey1, hsPool]
  refine ⟨inWithFee.val, out.val, _, balIn, balOut, b1, rb, hq1, ?_, ?_, hmin, hcap,
    hget.trans hpool1, hF, hT, ?_, ?_, ?_, ?_, assetBalance_of_row hrowIn,
    assetBalance_of_row hrowIn1, ?_, assetBalance_of_row hrowOut,
    assetBalance_of_row hrowOut1, ?_, ?_⟩
  · exact hq2
  · rw [hr]
  · exact hT1
  · exact hT2
  · rw [hr]
  · rw [hr]
  · rw [hb1, U64_sub_val _ _ hle]; omega
  · rw [hrb, U64_add_val _ _ hsum]
  · rw [hr]

/-- C16. For a pool with fee in `[1, 1000]` and both reserves non-zero, every
successful `swap_exact_in` has `amount_in_with_fee = floor(amount_in * (10000 -
fee_bips) / 10000)` and `amount_out = floor(reserve_out * amount_in_with_fee /
(reserve_in + amount_in_with_fee))` with `amount_out >= min_out`; the reserve on
the in-side grows by the full `amount_in`, the reserve on the out-side shrinks
by `amount_out`, and the caller's balance of `asset_in` falls by `amount_in`
while the balance of `asset_out` rises by `amount_out`. The in-side is the
reserve slot of the stored pool whose asset is `asset_in`. -/
theorem SwapExactIn_success_effects (a : SwapExactIn) (mu s : Store) (ts : I64)
    (actor : Address) (tx : ID) (r : SwapExactInResult) (pool : Pool)
    (hpool : GetPool mu a.AssetIn a.AssetOut = .ok pool)
    (hfee : 1 ≤ pool.FeeBips.val ∧ pool.FeeBips.val ≤ 1000)
    (hres : pool.Reserve0 ≠ 0 ∧ pool.Reserve1 ≠ 0)
    (h : a.Execute mu ts actor tx = .ok (s, r)) :
    ∃ (reserveIn reserveOut inWithFee out : Nat) (pool1 : Pool)
        (balIn balOut balIn1 balOut1 : U64),
      ((pool.Asset0 = a.AssetIn ∧ pool.Asset1 = a.AssetOut
          ∧ reserveIn = pool.Reserve0.val ∧ reserveOut = pool.Reserve1.val
          ∧ pool1.Reserve0.val = reserveIn + a.AmountIn.val
          ∧ pool1.Reserve1.val + out = reserveOut)
        ∨ (pool.Asset0 = a.AssetOut ∧ pool.Asset1 = a.AssetIn
          ∧ reserveIn = pool.Reserve1.val ∧ reserveOut = pool.Reserve0.val
          ∧ pool1.Reserve1.val = reserveIn + a.AmountIn.val
          ∧ pool1.Reserve0.val + out = reserveOut))
        ∧ 0 < reserveIn ∧ 0 < reserveOut
        ∧ inWithFee = a.AmountIn.val * (10000 - pool.FeeBips.val) / 10000
        ∧ out = reserveOut * inWithFee / (reserveIn + inWithFee)
        ∧ r.AmountOut.val = out ∧ a.MinAmountOut.val ≤ out ∧ out ≤ reserveOut
        ∧ GetPool s a.AssetIn a.AssetOut = .ok pool1
        ∧ pool1.FeeBips = pool.FeeBips ∧ pool1.TotalLP = pool.TotalLP
        ∧ r.Reserve0 = pool1.Reserve0 ∧ r.Reserve1 = pool1.Reserve1
        ∧ assetBalance mu actor a.AssetIn = .ok balIn
        ∧ assetBalance s actor a.AssetIn = .ok balIn1
        ∧ balIn1.val + a.AmountIn.val = balIn.val
        ∧ assetBalance mu actor a.AssetOut = .ok balOut
        ∧ assetBalance s actor a.AssetOut = .ok balOut1
        ∧ balOut1.val = balOut.val + out
        ∧ r.ReceiverBalance = balOut1 := by
  have hr0 : 0 < pool.Reserve0.val := Nat.pos_of_ne_zero (fun e => hres.1 (Fin.ext e))
  have hr1 : 0 < pool.Reserve1.val := Nat.pos_of_ne_zero (fun e => hres.2 (Fin.ext e))
  unfold SwapExactIn.Execute at h
  split at h
  · cases h
  rename_i hv
  obtain ⟨hin, hout, hne⟩ := (validateAssetPair_none_iff _ _).mp hv
  split at h
  · cases h
  rw [hpool] at h
  simp only at h
  split at h
  · rename_i c
    have hkey : PoolKey pool.Asset0 pool.Asset1 = PoolKey a.AssetIn a.AssetOut := by
      rw [c.1, c.2]
    obtain ⟨iwf, out, pool1, bi, bo, bi1, bo1, h1, h2, h3, h4, h5, h6, h7, h8, h9, -, h11, h12,
      h13, h14, h15, h16, h17, h18, h19⟩ :=
      SwapExactIn_swap_effects hin hout hne (by omega) hkey h
    obtain ⟨h9a, h9b⟩ := h9 rfl
    exact ⟨pool.Reserve0.val, pool.Reserve1.val, iwf, out, pool1, bi, bo, bi1, bo1,
      Or.inl ⟨c.1, c.2, rfl, rfl, h9a, h9b⟩, hr0, hr1, h1, h2, h3, h4, h5, h6, h7, h8, h11, h12,
      h13, h14, h15, h16, h17, h18, h19⟩
  split at h
  · rename_i c
    have hkey : PoolKey pool.Asset0 pool.Asset1 = PoolKey a.AssetIn a.AssetOut := by
      rw [c.1, c.2]
      exact PoolKey_comm _ _
    obtain ⟨iwf, out, pool1, bi, bo, bi1, bo1, h1, h2, h3, h4, h5, h6, h7, h8, -, h10, h11, h12,
      h13, h14, h15, h16, h17, h18, h19⟩ :=
      SwapExactIn_swap_effects hin hout hne (by omega) hkey h
    obtain ⟨h10a, h10b⟩ := h10 rfl
    exact ⟨pool.Reserve1.val, pool.Reserve0.val, iwf, out, pool1, bi, bo, bi1, bo1,
      Or.inr ⟨c.1, c.2, rfl, rfl, h10a, h10b⟩, hr1, hr0, h1, h2, h3, h4, h5, h6, h7, h8, h11,
      h12, h13, h14, h15, h16, h17, h18, h19⟩
  · cases h

/-- Witness for C16, the example of the claim: reserves `(10000, 10000)`, fee
30, `amount_in = 100` give `amount_out = 98` and reserves `(10100, 9902)`. -/
theorem SwapExactIn_success_effects_witness :
    ∃ pool1, GetPool Scenario.afterSwap AssetVEIL AssetVAI = .ok pool1
      ∧ pool1.Reserve0.val = 10100 ∧ pool1.Reserve1.val = 9902
      ∧ (okValue (Scenario.swap.Execute Scenario.afterDeposit ⟨0⟩ Scenario.trader Scenario.txID)
          (Store.empty, ⟨0, 0, 0, 0⟩)).2.AmountOut.val = 98 := by
  obtain ⟨rin, rout, iwf, out, pool1, bi, bo, bi1, bo1, hor, -, -, hiwf, hout, hamt, -, -, hget,
    -⟩ := SwapExactIn_success_effects Scenario.swap Scenario.afterDeposit Scenario.afterSwap ⟨0⟩
      Scenario.trader Scenario.txID _ ⟨0, 1, 30, 10000, 10000, 10000⟩ (by decide!)
      ⟨by decide, by decide⟩ ⟨by decide, by decide⟩
      (eq_ok_pair_of_succeeded _ (Store.empty, ⟨0, 0, 0, 0⟩) (by decide!))
  rcases hor with ⟨-, -, h1, h2, h3, h4⟩ | ⟨h0, -⟩
  · have ha : Scenario.swap.AmountIn.val = 100 := rfl
    have hf : (⟨0, 1, 30, 10000, 10000, 10000⟩ : Pool).FeeBips.val = 30 := rfl
    have hp0 : (⟨0, 1, 30, 10000, 10000, 10000⟩ : Pool).Reserve0.val = 10000 := rfl
    have hp1 : (⟨0, 1, 30, 10000, 10000, 10000⟩ : Pool).Reserve1.val = 10000 := rfl
    rw [ha, hf] at hiwf
    rw [hp0] at h1
    rw [hp1] at h2
    rw [ha] at h3
    have hiwf2 : iwf = 99 := by rw [hiwf]
    have hout2 : out = 98 := by rw [hout, h1, h2, hiwf2]
    refine ⟨pool1, hget, by omega, by omega, ?_⟩
    rw [hamt, hout2]
  · exact absurd h0 (by decide)

/-! ## Adding liquidity -/

/-- A readable balance that covers a non-zero amount can be debited. -/
theorem subAssetBalance_of_sufficient {mu : Store} {actor : Address} {asset : Byte}
    {x bal : U64} (hs : isSupportedAsset asset = true)
    (hb : assetBalance mu actor asset = .ok bal) (hle : x.val ≤ bal.val) (hx : x ≠ 0) :
    subAssetBalance mu actor asset x
      = .ok (bal - x, writeSub mu (assetBalanceKey actor asset) (bal - x)) := by
  obtain ⟨ok, hrow⟩ := (assetBalance_ok_iff _ _ _ _).mp hb
  rcases (innerGetBalance_readable _ _ _).mp hrow with ⟨-, h0, -⟩ | ⟨w, hw, hl, hu, -⟩
  · exfalso
    apply hx
    apply Fin.ext
    rw [h0] at hle
    simp only [Fin.val_zero] at hle ⊢
    omega
  · exact (subAssetBalance_ok_iff _ _ _ _ _ _ hs).mpr
      ⟨bal, (innerGetBalance_present _ _).mpr ⟨w, hw, hl, hu⟩, hle, rfl, rfl⟩

theorem minU64_val (a b : U64) : (minU64 a b).val = min a.val b.val := by
  unfold minU64
  split
  · rename_i h
    have : a.val < b.val := h
    omega
  · rename_i h
    have : ¬ a.val < b.val := h
    omega

theorem mapPairAmounts_inv {a b : Byte} {x y p q : U64} {pool : Pool}
    (h : mapPairAmounts a b x y pool = .ok (p, q)) :
    (a = pool.Asset0 ∧ b = pool.Asset1 ∧ p = x ∧ q = y)
      ∨ (a = pool.Asset1 ∧ b = pool.Asset0 ∧ p = y ∧ q = x) := by
  unfold mapPairAmounts at h
  split at h
  · rename_i c
    cases h
    exact Or.inl ⟨c.1, c.2, rfl, rfl⟩
  split at h
  · rename_i c
    cases h
    exact Or.inr ⟨c.1, c.2, rfl, rfl⟩
  · cases h

theorem mapPairAmounts_keys {a b : Byte} {x y p q : U64} {pool : Pool}
    (h : mapPairAmounts a b x y pool = .ok (p, q)) (who : Address) :
    PoolKey pool.Asset0 pool.Asset1 = PoolKey a b
      ∧ LPBalanceKey pool.Asset0 pool.Asset1 who = LPBalanceKey a b who := by
  rcases mapPairAmounts_inv h with ⟨h1, h2, -, -⟩ | ⟨h1, h2, -, -⟩
  · rw [h1, h2]
    exact ⟨rfl, rfl⟩
  · rw [h1, h2]
    exact ⟨PoolKey_comm _ _, LPBalanceKey_comm _ _ _⟩

/-- The part of `AddLiquidity.Execute` that follows the two debits. -/
theorem AddLiquidity_after_debits {a : AddLiquidity} {mu mu1 mu2 : Store} {ts : I64}
    {actor : Address} {tx : ID} {pool : Pool} {a0p a1p n0 n1 : U64}
    (hv : validateAssetPair a.Asset0 a.Asset1 = none)
    (hamt : a.Amount0 ≠ 0 ∧ a.Amount1 ≠ 0)
    (hpool : GetPool mu a.Asset0 a.Asset1 = .ok pool)
    (hmap : mapPairAmounts a.Asset0 a.Asset1 a.Amount0 a.Amount1 pool = .ok (a0p, a1p))
    (h0 : subAssetBalance mu actor a.Asset0 a.Amount0 = .ok (n0, mu1))
    (h1 : subAssetBalance mu1 actor a.Asset1 a.Amount1 = .ok (n1, mu2)) :
    a.Execute mu ts actor tx =
      match AddLiquidity.minted pool a0p a1p with
      | .error e => .error e
      | .ok minted =>
        if minted = 0 ∨ minted < a.MinLP then .error ErrSlippageExceeded
        else
          match smathAdd pool.Reserve0 a0p with
          | .error e => .error e
          | .ok nextReserve0 =>
            match smathAdd pool.Reserve1 a1p with
            | .error e => .error e
            | .ok nextReserve1 =>
              match smathAdd pool.TotalLP minted with
              | .error e => .error e
              | .ok nextTotalLP =>
                match AddLPBalance
                  (PutPool mu2 { pool with
                    Reserve0 := nextReserve0, Reserve1 := nextReserve1, TotalLP := nextTotalLP })
                  pool.Asset0 pool.Asset1 actor minted with
                | .error e => .error e
                | .ok (lpBalance, mu4) =>
                  .ok (mu4, ⟨minted, lpBalance, nextReserve0, nextReserve1, nextTotalLP⟩) := by
  unfold AddLiquidity.Execute
  rw [hv]
  simp only
  rw [if_neg (by rintro (e | e); exact hamt.1 e; exact hamt.2 e), hpool]
  simp only
  rw [hmap]
  simp only
  rw [h0]
  simp only
  rw [h1]
  try rfl

/-- C18 (as amended). `add_liquidity` of two supported, distinct assets with
both amounts non-zero, on a pool with `total_lp > 0`, by a caller whose balances
cover the amounts, when no `u64` overflow occurs: if either reserve is zero the
action fails with `ErrInsufficientLiquidity`; otherwise, with
`minted = min(floor(amount0_pool * total_lp / reserve0), floor(amount1_pool *
total_lp / reserve1))` (products in unbounded integers), the action fails with
`ErrSlippageExceeded` exactly when `minted = 0` or `minted < min_lp`, and
otherwise it succeeds: both reserves grow by the pool-oriented amounts, and
`total_lp` and the caller's LP balance both grow by `minted`. -/
theorem AddLiquidity_subsequent_deposit (a : AddLiquidity) (mu : Store) (ts : I64)
    (actor : Address) (tx : ID) (pool : Pool) (a0p a1p bal0 bal1 lp0 : U64)
    (hv : validateAssetPair a.Asset0 a.Asset1 = none)
    (hamt : a.Amount0 ≠ 0 ∧ a.Amount1 ≠ 0)
    (hpool : GetPool mu a.Asset0 a.Asset1 = .ok pool)
    (hT : pool.TotalLP ≠ 0)
    (hmap : mapPairAmounts a.Asset0 a.Asset1 a.Amount0 a.Amount1 pool = .ok (a0p, a1p))
    (hb0 : assetBalance mu actor a.Asset0 = .ok bal0) (hle0 : a.Amount0.val ≤ bal0.val)
    (hb1 : assetBalance mu actor a.Asset1 = .ok bal1) (hle1 : a.Amount1.val ≤ bal1.val)
    (hlp : GetLPBalance mu a.Asset0 a.Asset1 actor = .ok lp0)
    (hq0 : a0p.val * pool.TotalLP.val / pool.Reserve0.val < 18446744073709551616)
    (hq1 : a1p.val * pool.TotalLP.val / pool.Reserve1.val < 18446744073709551616)
    (hr0 : pool.Reserve0.val + a0p.val < 18446744073709551616)
    (hr1 : pool.Reserve1.val + a1p.val < 18446744073709551616)
    (hTm : pool.TotalLP.val + min (a0p.val * pool.TotalLP.val / pool.Reserve0.val)
      (a1p.val * pool.TotalLP.val / pool.Reserve1.val) < 18446744073709551616)
    (hlpm : lp0.val + min (a0p.val * pool.TotalLP.val / pool.Reserve0.val)
      (a1p.val * pool.TotalLP.val / pool.Reserve1.val) < 18446744073709551616) :
    ((pool.Reserve0 = 0 ∨ pool.Reserve1 = 0) →
        errorOf (a.Execute mu ts actor tx) = some ErrInsufficientLiquidity)
      ∧ (pool.Reserve0 ≠ 0 → pool.Reserve1 ≠ 0 →
        (errorOf (a.Execute mu ts actor tx) = some ErrSlippageExceeded ↔
          (min (a0p.val * pool.TotalLP.val / pool.Reserve0.val)
              (a1p.val * pool.TotalLP.val / pool.Reserve1.val) = 0
            ∨ min (a0p.val * pool.TotalLP.val / pool.Reserve0.val)
              (a1p.val * pool.TotalLP.val / pool.Reserve1.val) < a.MinLP.val))
        ∧ (¬ (min (a0p.val * pool.TotalLP.val / pool.Reserve0.val)
              (a1p.val * pool.TotalLP.val / pool.Reserve1.val) = 0
            ∨ min (a0p.val * pool.TotalLP.val / pool.Reserve0.val)
              (a1p.val * pool.TotalLP.val / pool.Reserve1.val) < a.MinLP.val) →
          ∃ (s : Store) (r : AddLiquidityResult) (pool1 : Pool) (lp1 : U64),
            a.Execute mu ts actor tx = .ok (s, r)
              ∧ r.MintedLP.val = min (a0p.val * pool.TotalLP.val / pool.Reserve0.val)
                  (a1p.val * pool.TotalLP.val / pool.Reserve1.val)
              ∧ GetPool s a.Asset0 a.Asset1 = .ok pool1
              ∧ pool1.Reserve0.val = pool.Reserve0.val + a0p.val
              ∧ pool1.Reserve1.val = pool.Reserve1.val + a1p.val
              ∧ pool1.TotalLP.val = pool.TotalLP.val + r.MintedLP.val
              ∧ GetLPBalance s a.Asset0 a.Asset1 actor = .ok lp1
              ∧ lp1.val = lp0.val + r.MintedLP.val
              ∧ r.LPBalance = lp1 ∧ r.Reserve0 = pool1.Reserve0
              ∧ r.Reserve1 = pool1.Reserve1 ∧ r.TotalLP = pool1.TotalLP)) := by
  obtain ⟨hs0, hs1, hne⟩ := (validateAssetPair_none_iff _ _).mp hv
  have hk01 : assetBalanceKey actor a.Asset0 ≠ assetBalanceKey actor a.Asset1 :=
    assetBalanceKey_ne actor hs0 hs1 hne
  have h0 := subAssetBalance_of_sufficient hs0 hb0 hle0 hamt.1
  have hb1' : assetBalance (writeSub mu (assetBalanceKey actor a.Asset0) (bal0 - a.Amount0))
      actor a.Asset1 = .ok bal1 := by
    rw [assetBalance_congr actor a.Asset1 (writeSub_other _ _ _ _ hk01.symm)]
    exact hb1
  have h1 := subAssetBalance_of_sufficient hs1 hb1' hle1 hamt.2
  rw [AddLiquidity_after_debits hv hamt hpool hmap h0 h1]
  obtain ⟨hkp, hkl⟩ := mapPairAmounts_keys hmap actor
  constructor
  · intro hz
    unfold AddLiquidity.minted
    rw [if_neg hT, if_pos hz]
    rfl
  · intro hz0 hz1
    have hm0 : mulDiv a0p pool.TotalLP pool.Reserve0
        = .ok ⟨a0p.val * pool.TotalLP.val / pool.Reserve0.val, hq0⟩ :=
      (mulDiv_ok_iff _ _ _ _).mpr ⟨hz0, hq0, rfl⟩
    have hm1 : mulDiv a1p pool.TotalLP pool.Reserve1
        = .ok ⟨a1p.val * pool.TotalLP.val / pool.Reserve1.val, hq1⟩ :=
      (mulDiv_ok_iff _ _ _ _).mpr ⟨hz1, hq1, rfl⟩
    have hminted : AddLiquidity.minted pool a0p a1p
        = .ok (minU64 ⟨a0p.val * pool.TotalLP.val / pool.Reserve0.val, hq0⟩
            ⟨a1p.val * pool.TotalLP.val / pool.Reserve1.val, hq1⟩) := by
      unfold AddLiquidity.minted
      rw [if_neg hT, if_neg (by rintro (e | e); exact hz0 e; exact hz1 e), hm0]
      simp only
      rw [hm1]
    rw [hminted]
    simp only
    have hmv := minU64_val ⟨a0p.val * pool.TotalLP.val / pool.Reserve0.val, hq0⟩
      ⟨a1p.val * pool.TotalLP.val / pool.Reserve1.val, hq1⟩
    simp only at hmv
    generalize minU64 ⟨a0p.val * pool.TotalLP.val / pool.Reserve0.val, hq0⟩
      ⟨a1p.val * pool.TotalLP.val / pool.Reserve1.val, hq1⟩ = minted at hmv ⊢
    rw [← hmv] at hTm hlpm ⊢
    have hcond : (minted = 0 ∨ minted < a.MinLP) ↔
        (minted.val = 0 ∨ minted.val < a.MinLP.val) := by
      constructor
      · rintro (e | e)
        · exact Or.inl (by rw [e]; rfl)
        · exact Or.inr e
      · rintro (e | e)
        · exact Or.inl (Fin.ext e)
        · exact Or.inr e
    by_cases hc : minted = 0 ∨ minted < a.MinLP
    · rw [if_pos hc]
      exact ⟨⟨fun _ => hcond.mp hc, fun _ => rfl⟩, fun hn => absurd (hcond.mp hc) hn⟩
    · rw [if_neg hc]
      have ha0 : smathAdd pool.Reserve0 a0p = .ok (pool.Reserve0 + a0p) :=
        (smathAdd_ok_iff _ _ _).mpr ⟨hr0, rfl⟩
      have ha1 : smathAdd pool.Reserve1 a1p = .ok (pool.Reserve1 + a1p) :=
        (smathAdd_ok_iff _ _ _).mpr ⟨hr1, rfl⟩
      have ha2 : smathAdd pool.TotalLP minted = .ok (pool.TotalLP + minted) :=
        (smathAdd_ok_iff _ _ _).mpr ⟨hTm, rfl⟩
      rw [ha0]
      simp only
      rw [ha1]
      simp only
      rw [ha2]
      simp only
      obtain ⟨oklp, hrow⟩ := (GetLPBalance_ok_iff _ _ _ _ _).mp hlp
      rw [← hkl] at hrow
      have hrow3 : innerGetBalance (PutPool
          (writeSub (writeSub mu (assetBalanceKey actor a.Asset0) (bal0 - a.Amount0))
            (assetBalanceKey actor a.Asset1) (bal1 - a.Amount1))
          { pool with Reserve0 := pool.Reserve0 + a0p, Reserve1 := pool.Reserve1 + a1p,
                      TotalLP := pool.TotalLP + minted }
          (LPBalanceKey pool.Asset0 pool.Asset1 actor)) = (lp0, oklp, none) := by
        rw [PutPool_other _ _ _ (PoolKey_ne_lp _ _ _ _ _).symm,
          writeSub_other _ _ _ _ (assetBalanceKey_ne_lp _ _ _ _ _).symm,
          writeSub_other _ _ _ _ (assetBalanceKey_ne_lp _ _ _ _ _).symm]
        exact hrow
      have hadd := (AddLPBalance_ok_iff _ pool.Asset0 pool.Asset1 actor minted (lp0 + minted)
        _).mpr ⟨lp0, oklp, hrow3, hlpm, rfl, rfl⟩
      rw [hadd]
      simp only
      refine ⟨⟨(fun e => by cases e), fun hn => absurd (hcond.mpr hn) hc⟩, fun _ => ?_⟩
      refine ⟨_, _, ⟨(sortedAssetPair pool.Asset0 pool.Asset1).1,
        (sortedAssetPair pool.Asset0 pool.Asset1).2, pool.FeeBips, pool.Reserve0 + a0p,
        pool.Reserve1 + a1p, pool.TotalLP + minted⟩, lp0 + minted, rfl, rfl, ?_, ?_, ?_, ?_, ?_,
        ?_, rfl, rfl, rfl, rfl⟩
      · have hpp := parsePool_PutPool
          (writeSub (writeSub mu (assetBalanceKey actor a.Asset0) (bal0 - a.Amount0))
            (assetBalanceKey actor a.Asset1) (bal1 - a.Amount1))
          { pool with Reserve0 := pool.Reserve0 + a0p, Reserve1 := pool.Reserve1 + a1p,
                      TotalLP := pool.TotalLP + minted }
        unfold GetPool at hpp ⊢
        rw [← hkp, Store.insert_other _ _ _ _ (PoolKey_ne_lp _ _ _ _ _)]
        exact hpp
      · exact U64_add_val _ _ hr0
      · exact U64_add_val _ _ hr1
      · exact U64_add_val _ _ hTm
      · exact (GetLPBalance_ok_iff _ _ _ _ _).mpr
          ⟨true, by rw [← hkl]; exact innerGetBalance_insert _ _ _⟩
      · exact U64_add_val _ _ hlpm

/-- Witness for C18: `add_liquidity(0, 1, 500, 600, min = 1)` into the pool
`(10000, 10000)` with `total_lp = 10000` mints `min(500, 600) = 500`. -/
theorem AddLiquidity_subsequent_deposit_witness :
    ∃ (s : Store) (r : AddLiquidityResult),
      Scenario.secondDeposit.Execute Scenario.afterDeposit ⟨0⟩ Scenario.trader Scenario.txID
          = .ok (s, r)
        ∧ r.MintedLP.val = 500 := by
  obtain ⟨s, r, pool1, lp1, h1, h2, -⟩ :=
    ((AddLiquidity_subsequent_deposit Scenario.secondDeposit Scenario.afterDeposit ⟨0⟩
      Scenario.trader Scenario.txID ⟨0, 1, 30, 10000, 10000, 10000⟩ 500 600 9999990000
      9999990000 10000 (by decide) (by decide) (by decide!) (by decide) (by decide)
      (by decide!) (by decide) (by decide!) (by decide) (by decide!) (by decide) (by decide)
      (by decide) (by decide) (by decide) (by decide)).2 (by decide) (by decide)).2 (by decide)
  exact ⟨s, r, h1, by rw [h2]; decide⟩

/-- Counterexample to C18 as stated: on the pool `(10000, 10000)` with
`total_lp = 10000`, a caller holding both assets submits
`add_liquidity(0, 1, amount0 = 0, amount1 = 500, min_lp = 0)`. No overflow
occurs and `minted = min(0, 500) = 0`, so the claim has the action fail with
`ErrSlippageExceeded`; the code returns `ErrInvalidLiquidityAmount`. -/
theorem AddLiquidity_zero_amount_counterexample :
    GetPool Scenario.afterDeposit AssetVEIL AssetVAI = .ok ⟨0, 1, 30, 10000, 10000, 10000⟩
      ∧ assetBalance Scenario.afterDeposit Scenario.trader AssetVEIL = .ok 9999990000
      ∧ assetBalance Scenario.afterDeposit Scenario.trader AssetVAI = .ok 9999990000
      ∧ min (0 * 10000 / 10000) (500 * 10000 / 10000) = 0
      ∧ errorOf (Scenario.zeroAmountDeposit.Execute Scenario.afterDeposit ⟨0⟩ Scenario.trader
          Scenario.txID) = some ErrInvalidLiquidityAmount
      ∧ errorOf (Scenario.zeroAmountDeposit.Execute Scenario.afterDeposit ⟨0⟩ Scenario.trader
          Scenario.txID) ≠ some ErrSlippageExceeded := by
  decide!

/-! ## Caller orientation -/

theorem Store.insert_comm (mu : Store) {k1 k2 : Bytes} (v1 v2 : Bytes) (h : k1 ≠ k2) :
    Store.insert (Store.insert mu k1 v1) k2 v2 = Store.insert (Store.insert mu k2 v2) k1 v1 := by
  funext q
  unfold Store.insert
  by_cases h1 : q = k1 <;> by_cases h2 : q = k2
  · exact absurd (h1.symm.trans h2) h
  · simp [h1, h]
  · simp [h2, Ne.symm h]
  · simp [h1, h2]

theorem Store.remove_comm (mu : Store) (k1 k2 : Bytes) :
    Store.remove (Store.remove mu k1) k2 = Store.remove (Store.remove mu k2) k1 := by
  funext q
  unfold Store.remove
  by_cases h1 : q = k1 <;> by_cases h2 : q = k2 <;> simp [h1, h2]

theorem Store.insert_remove_comm (mu : Store) {k1 k2 : Bytes} (v : Bytes) (h : k1 ≠ k2) :
    Store.remove (Store.insert mu k1 v) k2 = Store.insert (Store.remove mu k2) k1 v := by
  funext q
  unfold Store.insert Store.remove
  by_cases h1 : q = k1 <;> by_cases h2 : q = k2
  · exact absurd (h1.symm.trans h2) h
  · simp [h1, h]
  · simp [h2, Ne.symm h]
  · simp [h1, h2]

/-- Subtract writes to two different rows commute. -/
theorem writeSub_comm (mu : Store) {k1 k2 : Bytes} (n1 n2 : U64) (h : k1 ≠ k2) :
    writeSub (writeSub mu k1 n1) k2 n2 = writeSub (writeSub mu k2 n2) k1 n1 := by
  unfold writeSub
  by_cases h1 : n1 = 0 <;> by_cases h2 : n2 = 0
  · rw [if_pos h1, if_pos h2, if_pos h2, if_pos h1]
    exact Store.remove_comm _ _ _
  · rw [if_pos h1, if_neg h2, if_neg h2, if_pos h1]
    exact (Store.insert_remove_comm mu _ (Ne.symm h)).symm
  · rw [if_neg h1, if_pos h2, if_pos h2, if_neg h1]
    exact Store.insert_remove_comm mu _ h
  · rw [if_neg h1, if_neg h2, if_neg h2, if_neg h1]
    exact Store.insert_comm mu _ _ h

theorem mapPairAmounts_swap {a b : Byte} {x y p q : U64} {pool : Pool} (hab : a ≠ b)
    (h : mapPairAmounts a b x y pool = .ok (p, q)) :
    mapPairAmounts b a y x pool = .ok (p, q) := by
  rcases mapPairAmounts_inv h with ⟨h1, h2, h3, h4⟩ | ⟨h1, h2, h3, h4⟩
  · unfold mapPairAmounts
    rw [if_neg (by rintro ⟨e1, -⟩; exact hab (h1.trans e1.symm)), if_pos ⟨h2, h1⟩, h3, h4]
  · unfold mapPairAmounts
    rw [if_pos ⟨h2, h1⟩, h3, h4]

/-- The checks and debits that a successful `add_liquidity` has passed. -/
theorem AddLiquidity_debits_inv {a : AddLiquidity} {mu s : Store} {ts : I64} {actor : Address}
    {tx : ID} {r : AddLiquidityResult} (h : a.Execute mu ts actor tx = .ok (s, r)) :
    ∃ (pool : Pool) (a0p a1p n0 : U64) (mu1 : Store) (n1 : U64) (mu2 : Store),
      validateAssetPair a.Asset0 a.Asset1 = none
        ∧ (a.Amount0 ≠ 0 ∧ a.Amount1 ≠ 0)
        ∧ GetPool mu a.Asset0 a.Asset1 = .ok pool
        ∧ mapPairAmounts a.Asset0 a.Asset1 a.Amount0 a.Amount1 pool = .ok (a0p, a1p)
        ∧ subAssetBalance mu actor a.Asset0 a.Amount0 = .ok (n0, mu1)
        ∧ subAssetBalance mu1 actor a.Asset1 a.Amount1 = .ok (n1, mu2) := by
  unfold AddLiquidity.Execute at h
  split at h
  · cases h
  rename_i hv
  split at h
  · cases h
  rename_i hamt
  split at h
  · cases h
  rename_i pool hpool
  split at h
  · cases h
  rename_i a0p a1p hmap
  split at h
  · cases h
  rename_i n0 mu1 h0
  split at h
  · cases h
  rename_i n1 mu2 h1
  exact ⟨pool, a0p, a1p, n0, mu1, n1, mu2, hv, ⟨fun e => hamt (Or.inl e),
    fun e => hamt (Or.inr e)⟩, hpool, hmap, h0, h1⟩

/-- A successful `add_liquidity` succeeds with the same store and result when
the caller swaps the two assets together with their amounts. -/
theorem AddLiquidity_swap_ok {mu s : Store} {ts : I64} {actor : Address} {tx : ID}
    {a b : Byte} {x y minLP : U64} {r : AddLiquidityResult}
    (h : AddLiquidity.Execute ⟨a, b, x, y, minLP⟩ mu ts actor tx = .ok (s, r)) :
    AddLiquidity.Execute ⟨b, a, y, x, minLP⟩ mu ts actor tx = .ok (s, r) := by
  obtain ⟨pool, a0p, a1p, n0, mu1, n1, mu2, hv, hamt, hpool, hmap, h0, h1⟩ :=
    AddLiquidity_debits_inv h
  simp only at hv hamt hpool hmap h0 h1
  obtain ⟨hsa, hsb, hab⟩ := (validateAssetPair_none_iff _ _).mp hv
  have hkab : assetBalanceKey actor a ≠ assetBalanceKey actor b :=
    assetBalanceKey_ne actor hsa hsb hab
  obtain ⟨bal0, hrow0, hle0, hn0, hmu1⟩ := (subAssetBalance_ok_iff _ _ _ _ _ _ hsa).mp h0
  obtain ⟨bal1, hrow1, hle1, hn1, hmu2⟩ := (subAssetBalance_ok_iff _ _ _ _ _ _ hsb).mp h1
  rw [hmu1, writeSub_other _ _ _ _ hkab.symm] at hrow1
  have h0' : subAssetBalance mu actor b y
      = .ok (n1, writeSub mu (assetBalanceKey actor b) n1) :=
    (subAssetBalance_ok_iff _ _ _ _ _ _ hsb).mpr ⟨bal1, hrow1, hle1, hn1, rfl⟩
  have h1' : subAssetBalance (writeSub mu (assetBalanceKey actor b) n1) actor a x
      = .ok (n0, mu2) := by
    refine (subAssetBalance_ok_iff _ _ _ _ _ _ hsa).mpr ⟨bal0, ?_, hle0, hn0, ?_⟩
    · rw [writeSub_other _ _ _ _ hkab]
      exact hrow0
    · rw [hmu2, hmu1]
      exact writeSub_comm mu n0 n1 hkab
  have hv' : validateAssetPair b a = none :=
    (validateAssetPair_none_iff _ _).mpr ⟨hsb, hsa, Ne.symm hab⟩
  have hpool' : GetPool mu b a = .ok pool := by
    rw [← hpool]
    unfold GetPool
    rw [PoolKey_comm]
  have e1 := @AddLiquidity_after_debits ⟨a, b, x, y, minLP⟩ mu mu1 mu2 ts actor tx pool a0p a1p
    n0 n1 hv hamt hpool hmap h0 h1
  have e2 := @AddLiquidity_after_debits ⟨b, a, y, x, minLP⟩ mu
    (writeSub mu (assetBalanceKey actor b) n1) mu2 ts actor tx pool a0p a1p n1 n0
    hv' ⟨hamt.2, hamt.1⟩ hpool' (mapPairAmounts_swap hab hmap) h0' h1'
  rw [e2, ← e1]
  exact h

/-- C19. Caller orientation does not matter: in every state,
`add_liquidity(a, b, x, y, min_lp)` and `add_liquidity(b, a, y, x, min_lp)`
either both fail or both succeed with the same resulting store and the same
result; and `PoolKey(a, b) = PoolKey(b, a)` and `LPBalanceKey(a, b, addr) =
LPBalanceKey(b, a, addr)`. -/
theorem AddLiquidity_orientation (mu : Store) (ts : I64) (actor : Address) (tx : ID)
    (a b : Byte) (x y minLP : U64) :
    ((∃ e1 e2, AddLiquidity.Execute ⟨a, b, x, y, minLP⟩ mu ts actor tx = .error e1
          ∧ AddLiquidity.Execute ⟨b, a, y, x, minLP⟩ mu ts actor tx = .error e2)
        ∨ (∃ s r, AddLiquidity.Execute ⟨a, b, x, y, minLP⟩ mu ts actor tx = .ok (s, r)
          ∧ AddLiquidity.Execute ⟨b, a, y, x, minLP⟩ mu ts actor tx = .ok (s, r)))
      ∧ PoolKey a b = PoolKey b a
      ∧ ∀ addr, LPBalanceKey a b addr = LPBalanceKey b a addr := by
  refine ⟨?_, PoolKey_comm a b, fun addr => LPBalanceKey_comm a b addr⟩
  cases h1 : AddLiquidity.Execute ⟨a, b, x, y, minLP⟩ mu ts actor tx with
  | ok p =>
    obtain ⟨s, r⟩ := p
    exact Or.inr ⟨s, r, rfl, AddLiquidity_swap_ok h1⟩
  | error e1 =>
    cases h2 : AddLiquidity.Execute ⟨b, a, y, x, minLP⟩ mu ts actor tx with
    | ok p =>
      obtain ⟨s, r⟩ := p
      have := AddLiquidity_swap_ok h2
      rw [h1] at this
      cases this
    | error e2 => exact Or.inl ⟨e1, e2, rfl, rfl⟩

/-! ## Removing liquidity -/

/-- Every step that a successful `RemoveLiquidity.settle` has taken. -/
theorem RemoveLiquidity_settle_inv {a : RemoveLiquidity} {mu s : Store} {actor : Address}
    {pool : Pool} {out0 out1 : U64} {r : RemoveLiquidityResult}
    (h : RemoveLiquidity.settle a mu actor pool out0 out1 = .ok (s, r)) :
    ∃ (nr0 nr1 nT nlp : U64) (mu2 : Store) (nb0 : U64) (mu3 : Store) (nb1 o0 o1 : U64),
      smathSub pool.Reserve0 out0 = .ok nr0
        ∧ smathSub pool.Reserve1 out1 = .ok nr1
        ∧ smathSub pool.TotalLP a.LPAmount = .ok nT
        ∧ SubLPBalance (PutPool mu { pool with Reserve0 := nr0, Reserve1 := nr1, TotalLP := nT })
            pool.Asset0 pool.Asset1 actor a.LPAmount = .ok (nlp, mu2)
        ∧ addAssetBalance mu2 actor pool.Asset0 out0 = .ok (nb0, mu3)
        ∧ addAssetBalance mu3 actor pool.Asset1 out1 = .ok (nb1, s)
        ∧ mapPoolAmountsToPair pool a.Asset0 a.Asset1 out0 out1 = .ok (o0, o1)
        ∧ r = ⟨o0, o1, nlp, nr0, nr1, nT⟩ := by
  unfold RemoveLiquidity.settle at h
  split at h
  · cases h
  rename_i nr0 h0
  split at h
  · cases h
  rename_i nr1 h1
  split at h
  · cases h
  rename_i nT hT
  simp only at h
  split at h
  · cases h
  rename_i nlp mu2 hlp
  split at h
  · cases h
  rename_i nb0 mu3 ha0
  split at h
  · cases h
  rename_i nb1 mu4 ha1
  split at h
  · cases h
  rename_i o0 o1 hmap
  cases h
  exact ⟨nr0, nr1, nT, nlp, mu2, nb0, mu3, nb1, o0, o1, h0, h1, hT, hlp, ha0, ha1, hmap, rfl⟩

/-- Every check that a successful `remove_liquidity` has passed. -/
theorem RemoveLiquidity_Execute_inv {a : RemoveLiquidity} {mu s : Store} {ts : I64}
    {actor : Address} {tx : ID} {r : RemoveLiquidityResult} {pool : Pool}
    (hpool : GetPool mu a.Asset0 a.Asset1 = .ok pool)
    (h : a.Execute mu ts actor tx = .ok (s, r)) :
    ∃ (lpb out0 out1 m0 m1 : U64),
      validateAssetPair a.Asset0 a.Asset1 = none
        ∧ a.LPAmount ≠ 0
        ∧ GetLPBalance mu pool.Asset0 pool.Asset1 actor = .ok lpb
        ∧ a.LPAmount.val ≤ lpb.val
        ∧ mulDiv a.LPAmount pool.Reserve0 pool.TotalLP = .ok out0
        ∧ mulDiv a.LPAmount pool.Reserve1 pool.TotalLP = .ok out1
        ∧ mapPairAmounts a.Asset0 a.Asset1 a.MinAmount0 a.MinAmount1 pool = .ok (m0, m1)
        ∧ m0.val ≤ out0.val ∧ m1.val ≤ out1.val
        ∧ RemoveLiquidity.settle a mu actor pool out0 out1 = .ok (s, r) := by
  unfold RemoveLiquidity.Execute at h
  split at h
  · cases h
  rename_i hv
  split at h
  · cases h
  rename_i hlp0
  rw [hpool] at h
  simp only at h
  split at h
  · cases h
  split at h
  · cases h
  rename_i lpb hlpb
  split at h
  · cases h
  rename_i hge
  split at h
  · cases h
  rename_i out0 ho0
  split at h
  · cases h
  rename_i out1 ho1
  split at h
  · cases h
  split at h
  · cases h
  rename_i m0 m1 hmap
  split at h
  · cases h
  rename_i hmin
  exact ⟨lpb, out0, out1, m0, m1, hv, hlp0, hlpb, Nat.le_of_not_lt hge, ho0, ho1, hmap,
    Nat.le_of_not_lt (fun e => hmin (Or.inl e)), Nat.le_of_not_lt (fun e => hmin (Or.inr e)), h⟩

theorem mapPoolAmountsToPair_inv {a b : Byte} {x y p q : U64} {pool : Pool}
    (h : mapPoolAmountsToPair pool a b x y = .ok (p, q)) :
    (a = pool.Asset0 ∧ b = pool.Asset1 ∧ p = x ∧ q = y)
      ∨ (a = pool.Asset1 ∧ b = pool.Asset0 ∧ p = y ∧ q = x) := by
  unfold mapPoolAmountsToPair at h
  split at h
  · rename_i c
    cases h
    exact Or.inl ⟨c.1, c.2, rfl, rfl⟩
  split at h
  · rename_i c
    cases h
    exact Or.inr ⟨c.1, c.2, rfl, rfl⟩
  · cases h

/-- C20 (as amended). Every successful `remove_liquidity` has `lp_amount > 0`
and a caller holding at least `lp_amount` LP; the pool-oriented outputs are
`out0 = floor(lp_amount * reserve0 / total_lp)` and `out1 = floor(lp_amount *
reserve1 / total_lp)`; each output is at least the caller's minimum for the
same asset; the reserves fall by the outputs, `total_lp` and the caller's LP
balance fall by `lp_amount`, the caller's asset balances rise by the outputs,
and the result reports the outputs in caller orientation. When both computed
outputs are non-zero and one is below its minimum the action fails with
`ErrSlippageExceeded`; a computed output of zero fails with
`ErrInsufficientLiquidity`. -/
theorem RemoveLiquidity_effects (a : RemoveLiquidity) (mu : Store) (ts : I64)
    (actor : Address) (tx : ID) (pool : Pool)
    (hpool : GetPool mu a.Asset0 a.Asset1 = .ok pool) :
    (∀ s r, a.Execute mu ts actor tx = .ok (s, r) →
      ∃ (out0 out1 : Nat) (lpb lpb1 b0 b0n b1 b1n : U64) (pool1 : Pool),
        0 < a.LPAmount.val
          ∧ GetLPBalance mu a.Asset0 a.Asset1 actor = .ok lpb ∧ a.LPAmount.val ≤ lpb.val
          ∧ out0 = a.LPAmount.val * pool.Reserve0.val / pool.TotalLP.val
          ∧ out1 = a.LPAmount.val * pool.Reserve1.val / pool.TotalLP.val
          ∧ ((a.Asset0 = pool.Asset0 ∧ a.Asset1 = pool.Asset1
              ∧ a.MinAmount0.val ≤ out0 ∧ a.MinAmount1.val ≤ out1
              ∧ r.Amount0Out.val = out0 ∧ r.Amount1Out.val = out1)
            ∨ (a.Asset0 = pool.Asset1 ∧ a.Asset1 = pool.Asset0
              ∧ a.MinAmount0.val ≤ out1 ∧ a.MinAmount1.val ≤ out0
              ∧ r.Amount0Out.val = out1 ∧ r.Amount1Out.val = out0))
          ∧ GetPool s a.Asset0 a.Asset1 = .ok pool1
          ∧ pool1.Reserve0.val + out0 = pool.Reserve0.val
          ∧ pool1.Reserve1.val + out1 = pool.Reserve1.val
          ∧ pool1.TotalLP.val + a.LPAmount.val = pool.TotalLP.val
          ∧ GetLPBalance s a.Asset0 a.Asset1 actor = .ok lpb1
          ∧ lpb1.val + a.LPAmount.val = lpb.val
          ∧ assetBalance mu actor pool.Asset0 = .ok b0
          ∧ assetBalance s actor pool.Asset0 = .ok b0n ∧ b0n.val = b0.val + out0
          ∧ assetBalance mu actor pool.Asset1 = .ok b1
          ∧ assetBalance s actor pool.Asset1 = .ok b1n ∧ b1n.val = b1.val + out1
          ∧ r.LPBalance = lpb1 ∧ r.Reserve0 = pool1.Reserve0 ∧ r.Reserve1 = pool1.Reserve1
          ∧ r.TotalLP = pool1.TotalLP)
      ∧ (∀ (lpb out0 out1 m0 m1 : U64),
        validateAssetPair a.Asset0 a.Asset1 = none → a.LPAmount ≠ 0 →
        pool.TotalLP ≠ 0 → pool.Reserve0 ≠ 0 → pool.Reserve1 ≠ 0 →
        GetLPBalance mu pool.Asset0 pool.Asset1 actor = .ok lpb → a.LPAmount.val ≤ lpb.val →
        mulDiv a.LPAmount pool.Reserve0 pool.TotalLP = .ok out0 →
        mulDiv a.LPAmount pool.Reserve1 pool.TotalLP = .ok out1 →
        mapPairAmounts a.Asset0 a.Asset1 a.MinAmount0 a.MinAmount1 pool = .ok (m0, m1) →
        (out0.val < m0.val ∨ out1.val < m1.val) →
        ((out0 = 0 ∨ out1 = 0) →
            errorOf (a.Execute mu ts actor tx) = some ErrInsufficientLiquidity)
          ∧ (out0 ≠ 0 → out1 ≠ 0 →
            errorOf (a.Execute mu ts actor tx) = some ErrSlippageExceeded)) := by
  constructor
  · intro s r h
    obtain ⟨lpb, out0, out1, m0, m1, hv, hlp0, hlpb, hge, ho0, ho1, hmins, hm0, hm1, hset⟩ :=
      RemoveLiquidity_Execute_inv hpool h
    obtain ⟨nr0, nr1, nT, nlp, mu2, nb0, mu3, nb1, o0, o1, hs0, hs1, hsT, hsub, ha0, ha1, hback,
      hr⟩ := RemoveLiquidity_settle_inv hset
    obtain ⟨hsa, hsb, hab⟩ := (validateAssetPair_none_iff _ _).mp hv
    obtain ⟨hkp, hkl⟩ := mapPairAmounts_keys hmins actor
    -- the pool's assets are the caller's pair
    have hpa : isSupportedAsset pool.Asset0 = true ∧ isSupportedAsset pool.Asset1 = true
        ∧ pool.Asset0 ≠ pool.Asset1 := by
      rcases mapPairAmounts_inv hmins with ⟨e1, e2, -, -⟩ | ⟨e1, e2, -, -⟩
      · rw [← e1, ← e2]; exact ⟨hsa, hsb, hab⟩
      · rw [← e1, ← e2]; exact ⟨hsb, hsa, Ne.symm hab⟩
    obtain ⟨hp0, hp1, hp01⟩ := hpa
    have hk01 : assetBalanceKey actor pool.Asset0 ≠ assetBalanceKey actor pool.Asset1 :=
      assetBalanceKey_ne actor hp0 hp1 hp01
    obtain ⟨-, -, hq0⟩ := (mulDiv_ok_iff _ _ _ _).mp ho0
    obtain ⟨-, -, hq1⟩ := (mulDiv_ok_iff _ _ _ _).mp ho1
    obtain ⟨hle0, hnr0⟩ := (smathSub_ok_iff _ _ _).mp hs0
    obtain ⟨hle1, hnr1⟩ := (smathSub_ok_iff _ _ _).mp hs1
    obtain ⟨hleT, hnT⟩ := (smathSub_ok_iff _ _ _).mp hsT
    obtain ⟨lpbX, hrowX, hleX, hnlp, hmu2⟩ := (SubLPBalance_ok_iff _ _ _ _ _ _ _).mp hsub
    rw [PutPool_other _ _ _ (PoolKey_ne_lp _ _ _ _ _).symm] at hrowX
    obtain ⟨oklp, hrowL⟩ := (GetLPBalance_ok_iff _ _ _ _ _).mp hlpb
    have hlpeq : lpbX = lpb := by
      rw [hrowX] at hrowL
      simp only [Prod.mk.injEq] at hrowL
      exact hrowL.1
    subst hlpeq
    obtain ⟨b0, ok0, hrow0, hsum0, hnb0, hmu3⟩ := (addAssetBalance_ok_iff _ _ _ _ _ _ hp0).mp ha0
    obtain ⟨b1, ok1, hrow1, hsum1, hnb1, hs⟩ := (addAssetBalance_ok_iff _ _ _ _ _ _ hp1).mp ha1
    rw [hmu2, writeSub_other _ _ _ _ (assetBalanceKey_ne_lp _ _ _ _ _),
      PutPool_other _ _ _ (assetBalanceKey_ne_pool actor _ _ _)] at hrow0
    rw [hmu3, Store.insert_other _ _ _ _ hk01.symm, hmu2,
      writeSub_other _ _ _ _ (assetBalanceKey_ne_lp _ _ _ _ _),
      PutPool_other _ _ _ (assetBalanceKey_ne_pool actor _ _ _)] at hrow1
    -- rows of the final store
    have hsP : s (PoolKey pool.Asset0 pool.Asset1)
        = PutPool mu { pool with Reserve0 := nr0, Reserve1 := nr1, TotalLP := nT }
            (PoolKey pool.Asset0 pool.Asset1) := by
      rw [hs, Store.insert_other _ _ _ _ (assetBalanceKey_ne_pool actor _ _ _).symm, hmu3,
        Store.insert_other _ _ _ _ (assetBalanceKey_ne_pool actor _ _ _).symm, hmu2,
        writeSub_other _ _ _ _ (PoolKey_ne_lp _ _ _ _ _)]
    have hsL : s (LPBalanceKey pool.Asset0 pool.Asset1 actor)
        = writeSub (PutPool mu { pool with Reserve0 := nr0, Reserve1 := nr1, TotalLP := nT })
            (LPBalanceKey pool.Asset0 pool.Asset1 actor) nlp
            (LPBalanceKey pool.Asset0 pool.Asset1 actor) := by
      rw [hs, Store.insert_other _ _ _ _ (assetBalanceKey_ne_lp _ _ _ _ _).symm, hmu3,
        Store.insert_other _ _ _ _ (assetBalanceKey_ne_lp _ _ _ _ _).symm, hmu2]
    have hs0row : innerGetBalance (s (assetBalanceKey actor pool.Asset0)) = (nb0, true, none) := by
      rw [hs, Store.insert_other _ _ _ _ hk01, hmu3]
      exact innerGetBalance_insert _ _ _
    have hs1row : innerGetBalance (s (assetBalanceKey actor pool.Asset1)) = (nb1, true, none) := by
      rw [hs]
      exact innerGetBalance_insert _ _ _
    obtain ⟨okn, hrowN⟩ := innerGetBalance_writeSub
      (PutPool mu { pool with Reserve0 := nr0, Reserve1 := nr1, TotalLP := nT })
      (LPBalanceKey pool.Asset0 pool.Asset1 actor) nlp
    rw [← hsL] at hrowN
    have hpp := parsePool_PutPool mu
      { pool with Reserve0 := nr0, Reserve1 := nr1, TotalLP := nT }
    have hget : GetPool s a.Asset0 a.Asset1 = .ok ⟨(sortedAssetPair pool.Asset0 pool.Asset1).1,
        (sortedAssetPair pool.Asset0 pool.Asset1).2, pool.FeeBips, nr0, nr1, nT⟩ := by
      unfold GetPool at hpp ⊢
      rw [← hkp, hsP]
      exact hpp
    have horient : (a.Asset0 = pool.Asset0 ∧ a.Asset1 = pool.Asset1
          ∧ a.MinAmount0.val ≤ out0.val ∧ a.MinAmount1.val ≤ out1.val
          ∧ r.Amount0Out.val = out0.val ∧ r.Amount1Out.val = out1.val)
        ∨ (a.Asset0 = pool.Asset1 ∧ a.Asset1 = pool.Asset0
          ∧ a.MinAmount0.val ≤ out1.val ∧ a.MinAmount1.val ≤ out0.val
          ∧ r.Amount0Out.val = out1.val ∧ r.Amount1Out.val = out0.val) := by
      rcases mapPairAmounts_inv hmins with ⟨e1, e2, e3, e4⟩ | ⟨e1, e2, e3, e4⟩
      · rcases mapPoolAmountsToPair_inv hback with ⟨f1, f2, f3, f4⟩ | ⟨f1, f2, f3, f4⟩
        · refine Or.inl ⟨e1, e2, ?_, ?_, ?_, ?_⟩
          · rw [← e3]; exact hm0
          · rw [← e4]; exact hm1
          · rw [hr, f3]
          · rw [hr, f4]
        · exact absurd (e1.symm.trans f1) hp01
      · rcases mapPoolAmountsToPair_inv hback with ⟨f1, f2, f3, f4⟩ | ⟨f1, f2, f3, f4⟩
        · exact absurd (f1.symm.trans e1) hp01
        · refine Or.inr ⟨e1, e2, ?_, ?_, ?_, ?_⟩
          · rw [← e4]; exact hm1
          · rw [← e3]; exact hm0
          · rw [hr, f3]
          · rw [hr, f4]
    have hlpos : 0 < a.LPAmount.val := Nat.pos_of_ne_zero (fun e => hlp0 (Fin.ext e))
    refine ⟨out0.val, out1.val, lpbX, nlp, b0, nb0, b1, nb1, _, hlpos, ?_, hge, hq0, hq1, horient,
      hget, ?_, ?_, ?_, ?_, ?_, assetBalance_of_row hrow0, assetBalance_of_row hs0row, ?_,
      assetBalance_of_row hrow1, assetBalance_of_row hs1row, ?_, ?_, ?_, ?_, ?_⟩
    · exact (GetLPBalance_ok_iff _ _ _ _ _).mpr ⟨true, by rw [← hkl]; exact hrowX⟩
    · simp only [hnr0]; rw [U64_sub_val _ _ hle0]; omega
    · simp only [hnr1]; rw [U64_sub_val _ _ hle1]; omega
    · simp only [hnT]; rw [U64_sub_val _ _ hleT]; omega
    · exact (GetLPBalance_ok_iff _ _ _ _ _).mpr ⟨okn, by rw [← hkl]; exact hrowN⟩
    · rw [hnlp, U64_sub_val _ _ hleX]; omega
    · rw [hnb0, U64_add_val _ _ hsum0]
    · rw [hnb1, U64_add_val _ _ hsum1]
    · rw [hr]
    · rw [hr]
    · rw [hr]
    · rw [hr]
  · intro lpb out0 out1 m0 m1 hv hlp0 hT hr0 hr1 hlpb hge ho0 ho1 hmins hbelow
    have hE : a.Execute mu ts actor tx =
        if out0 = 0 ∨ out1 = 0 then .error ErrInsufficientLiquidity
        else if out0 < m0 ∨ out1 < m1 then .error ErrSlippageExceeded
        else RemoveLiquidity.settle a mu actor pool out0 out1 := by
      unfold RemoveLiquidity.Execute
      rw [hv]
      simp only
      rw [if_neg hlp0, hpool]
      simp only
      rw [if_neg (by rintro (e | e | e); exact hT e; exact hr0 e; exact hr1 e), hlpb]
      simp only
      rw [if_neg (show ¬ lpb < a.LPAmount from Nat.not_lt.mpr hge), ho0]
      simp only
      rw [ho1]
      simp only
      rw [hmins]
      try rfl
    rw [hE]
    constructor
    · intro hz
      rw [if_pos hz]
      rfl
    · intro h0 h1
      rw [if_neg (by rintro (e | e); exact h0 e; exact h1 e),
        if_pos (show out0 < m0 ∨ out1 < m1 from hbelow)]
      rfl

/-- Witness for C20: removing 1000 of the 10000 LP units from the pool
`(10000, 10000)` pays out 1000 of each asset. -/
theorem RemoveLiquidity_effects_witness :
    ∃ pool1, GetPool Scenario.afterRemoval AssetVEIL AssetVAI = .ok pool1
      ∧ pool1.Reserve0.val + 1000 = 10000 ∧ pool1.Reserve1.val + 1000 = 10000 := by
  obtain ⟨out0, out1, lpb, lpb1, b0, b0n, b1, b1n, pool1, -, -, -, ho0, ho1, -, hget, h0, h1,
    -⟩ := (RemoveLiquidity_effects Scenario.removal Scenario.afterDeposit ⟨0⟩ Scenario.trader
      Scenario.txID ⟨0, 1, 30, 10000, 10000, 10000⟩ (by decide!)).1 Scenario.afterRemoval _
      (eq_ok_pair_of_succeeded _ (Store.empty, ⟨0, 0, 0, 0, 0, 0⟩) (by decide!))
  have e0 : out0 = 1000 := by rw [ho0]; decide
  have e1 : out1 = 1000 := by rw [ho1]; decide
  rw [e0] at h0
  rw [e1] at h1
  exact ⟨pool1, hget, h0, h1⟩

/-- Counterexample to C20 as stated: on a pool with reserves `(5, 20000000)`
and `total_lp = 10000`, `remove_liquidity(0, 1, lp = 1, min0 = 1, min1 = 0)` by
a holder of 10000 LP computes `out0 = floor(1 * 5 / 10000) = 0`, which is below
`min0 = 1`; the action fails with `ErrInsufficientLiquidity`, not with
`ErrSlippageExceeded`. -/
theorem RemoveLiquidity_zero_output_counterexample :
    GetPool Scenario.thinPool AssetVEIL AssetVAI = .ok ⟨0, 1, 30, 5, 20000000, 10000⟩
      ∧ GetLPBalance Scenario.thinPool AssetVEIL AssetVAI Scenario.trader = .ok 10000
      ∧ mulDiv Scenario.dustRemoval.LPAmount 5 10000 = .ok 0
      ∧ (0 : U64) < Scenario.dustRemoval.MinAmount0
      ∧ errorOf (Scenario.dustRemoval.Execute Scenario.thinPool ⟨0⟩ Scenario.trader
          Scenario.txID) = some ErrInsufficientLiquidity
      ∧ errorOf (Scenario.dustRemoval.Execute Scenario.thinPool ⟨0⟩ Scenario.trader
          Scenario.txID) ≠ some ErrSlippageExceeded := by
  decide!

/-! ## Sealed orders -/

/-- What a successful `commit_order` checked and wrote. -/
theorem CommitOrder_Execute_inv {t : CommitOrder} {mu s : Store} {ts : I64} {actor : Address}
    {tx : ID} {r : CommitOrderResult} (h : t.Execute mu ts actor tx = .ok (s, r)) :
    (0 < t.Envelope.length ∧ t.Envelope.length ≤ MaxEnvelopeSize)
      ∧ (0 < t.Commitment.length ∧ t.Commitment.length ≤ MaxCommitmentSize)
      ∧ (∃ market, GetMarket mu t.MarketID = .ok market ∧ market.status = MarketStatusActive)
      ∧ s = PutCommitment mu t.MarketID t.WindowID actor t.Envelope t.Commitment := by
  unfold CommitOrder.Execute at h
  split at h
  · cases h
  rename_i h1
  split at h
  · cases h
  rename_i h2
  split at h
  · cases h
  rename_i h3
  split at h
  · cases h
  rename_i h4
  split at h
  · cases h
  rename_i market hm
  split at h
  · cases h
  rename_i h5
  cases h
  refine ⟨⟨Nat.pos_of_ne_zero h1, Nat.le_of_not_lt h2⟩,
    ⟨Nat.pos_of_ne_zero h3, Nat.le_of_not_lt h4⟩, ⟨market, hm, ?_⟩, rfl⟩
  exact Decidable.of_not_not h5

/-- C30 (amended): on every successful `commit_order(market, window, envelope,
commitment)` by `actor` the envelope has between 1 and 4096 bytes, the
commitment between 1 and 64, the market is Active, and the value stored at
`CommitmentKey(market, window, actor)` is exactly `commitment ‖ envelope`:
the commitment comes first, then the envelope. -/
theorem CommitOrder_stores_commitment_then_envelope (t : CommitOrder) (mu s : Store) (ts : I64)
    (actor : Address) (tx : ID) (r : CommitOrderResult)
    (h : t.Execute mu ts actor tx = .ok (s, r)) :
    (0 < t.Envelope.length ∧ t.Envelope.length ≤ 4096)
      ∧ (0 < t.Commitment.length ∧ t.Commitment.length ≤ 64)
      ∧ (∃ market, GetMarket mu t.MarketID = .ok market ∧ market.status = MarketStatusActive)
      ∧ s (CommitmentKey t.MarketID t.WindowID actor) = some (t.Commitment ++ t.Envelope) := by
  obtain ⟨h1, h2, h3, h4⟩ := CommitOrder_Execute_inv h
  refine ⟨h1, h2, h3, ?_⟩
  rw [h4]
  unfold PutCommitment
  exact Store.insert_same _ _ _

/-- C30 (witness): the sealed order of the scenario succeeds and its row holds `AA BB 01 02 03`. -/
theorem CommitOrder_stores_commitment_then_envelope_witness :
    Scenario.afterOrder (CommitmentKey Scenario.market 1 Scenario.trader)
      = some ([170, 187] ++ [1, 2, 3]) :=
  (CommitOrder_stores_commitment_then_envelope Scenario.order Scenario.genesis
    Scenario.afterOrder ⟨1000⟩ Scenario.trader Scenario.txID _
    (eq_ok_pair_of_succeeded _ (Store.empty, ⟨0⟩) (by decide!))).2.2.2

/-- C30 (counterexample): the sealed order of the scenario succeeds with a
3-byte envelope and a 2-byte commitment on an Active market, and the stored
row is not `envelope ‖ commitment`. -/
theorem CommitOrder_envelope_first_counterexample :
    succeeded (Scenario.order.Execute Scenario.genesis ⟨1000⟩ Scenario.trader Scenario.txID)
        = true
      ∧ Scenario.afterOrder (CommitmentKey Scenario.market 1 Scenario.trader)
        ≠ some (Scenario.order.Envelope ++ Scenario.order.Commitment)
      ∧ Scenario.afterOrder (CommitmentKey Scenario.market 1 Scenario.trader)
        = some (Scenario.order.Commitment ++ Scenario.order.Envelope) := by
  decide!

/-! ## Reading the singleton rows back -/

theorem GetTreasuryState_PutTreasuryState (mu : Store) (s : TreasuryState) :
    GetTreasuryState (PutTreasuryState mu s) = .ok s := by
  unfold GetTreasuryState PutTreasuryState
  rw [Store.insert_same]
  have hl : (be64 s.Locked ++ be64 s.Live ++ be64 s.Released
      ++ be64 s.LastReleaseUnix.bits).length = 32 := rfl
  simp only
  rw [if_neg (by rw [hl]; decide)]
  have e1 : slice (be64 s.Locked ++ be64 s.Live ++ be64 s.Released
      ++ be64 s.LastReleaseUnix.bits) 0 8 = be64 s.Locked :=
    slice_eq_of _ [] (be64 s.Locked) (be64 s.Live ++ be64 s.Released
      ++ be64 s.LastReleaseUnix.bits) (by simp [List.append_assoc]) _ _ rfl rfl
  have e2 : slice (be64 s.Locked ++ be64 s.Live ++ be64 s.Released
      ++ be64 s.LastReleaseUnix.bits) 8 16 = be64 s.Live :=
    slice_eq_of _ (be64 s.Locked) (be64 s.Live) (be64 s.Released
      ++ be64 s.LastReleaseUnix.bits) (by simp [List.append_assoc]) _ _ rfl rfl
  have e3 : slice (be64 s.Locked ++ be64 s.Live ++ be64 s.Released
      ++ be64 s.LastReleaseUnix.bits) 16 24 = be64 s.Released :=
    slice_eq_of _ (be64 s.Locked ++ be64 s.Live) (be64 s.Released)
      (be64 s.LastReleaseUnix.bits) rfl _ _ rfl rfl
  have e4 : slice (be64 s.Locked ++ be64 s.Live ++ be64 s.Released
      ++ be64 s.LastReleaseUnix.bits) 24 32 = be64 s.LastReleaseUnix.bits :=
    slice_eq_of _ (be64 s.Locked ++ be64 s.Live ++ be64 s.Released)
      (be64 s.LastReleaseUnix.bits) [] (by simp) _ _ rfl rfl
  rw [e1, e2, e3, e4, u64be_be64, u64be_be64, u64be_be64, u64be_be64]

theorem GetFeeRouterState_PutFeeRouterState (mu : Store) (s : FeeRouterState) :
    GetFeeRouterState (PutFeeRouterState mu s) = .ok s := by
  unfold GetFeeRouterState PutFeeRouterState
  rw [Store.insert_same]
  have hl : (be64 s.MSRBBudget ++ be64 s.COLBudget ++ be64 s.OpsBudget).length = 24 := rfl
  simp only
  rw [if_neg (by rw [hl]; decide)]
  have e1 : slice (be64 s.MSRBBudget ++ be64 s.COLBudget ++ be64 s.OpsBudget) 0 8
      = be64 s.MSRBBudget :=
    slice_eq_of _ [] (be64 s.MSRBBudget) (be64 s.COLBudget ++ be64 s.OpsBudget)
      (by simp [List.append_assoc]) _ _ rfl rfl
  have e2 : slice (be64 s.MSRBBudget ++ be64 s.COLBudget ++ be64 s.OpsBudget) 8 16
      = be64 s.COLBudget :=
    slice_eq_of _ (be64 s.MSRBBudget) (be64 s.COLBudget) (be64 s.OpsBudget) rfl _ _ rfl rfl
  have e3 : slice (be64 s.MSRBBudget ++ be64 s.COLBudget ++ be64 s.OpsBudget) 16 24
      = be64 s.OpsBudget :=
    slice_eq_of _ (be64 s.MSRBBudget ++ be64 s.COLBudget) (be64 s.OpsBudget) [] (by simp) _ _
      rfl rfl
  rw [e1, e2, e3, u64be_be64, u64be_be64, u64be_be64]

theorem GetVAIState_PutVAIState (mu : Store) (s : VAIState) :
    GetVAIState (PutVAIState mu s) = .ok s := by
  unfold GetVAIState PutVAIState
  rw [Store.insert_same]
  have hl : (be64 s.TotalDebt ++ be64 s.EpochStartUnix.bits ++ be64 s.EpochMinted).length
      = 24 := rfl
  simp only
  rw [if_neg (by rw [hl]; decide)]
  have e1 : slice (be64 s.TotalDebt ++ be64 s.EpochStartUnix.bits ++ be64 s.EpochMinted) 0 8
      = be64 s.TotalDebt :=
    slice_eq_of _ [] (be64 s.TotalDebt) (be64 s.EpochStartUnix.bits ++ be64 s.EpochMinted)
      (by simp [List.append_assoc]) _ _ rfl rfl
  have e2 : slice (be64 s.TotalDebt ++ be64 s.EpochStartUnix.bits ++ be64 s.EpochMinted) 8 16
      = be64 s.EpochStartUnix.bits :=
    slice_eq_of _ (be64 s.TotalDebt) (be64 s.EpochStartUnix.bits) (be64 s.EpochMinted) rfl _ _
      rfl rfl
  have e3 : slice (be64 s.TotalDebt ++ be64 s.EpochStartUnix.bits ++ be64 s.EpochMinted) 16 24
      = be64 s.EpochMinted :=
    slice_eq_of _ (be64 s.TotalDebt ++ be64 s.EpochStartUnix.bits) (be64 s.EpochMinted) []
      (by simp) _ _ rfl rfl
  rw [e1, e2, e3, u64be_be64, u64be_be64, u64be_be64]

theorem GetReserveState_PutReserveState (mu : Store) (s : ReserveState) :
    GetReserveState (PutReserveState mu s) = .ok s := by
  unfold GetReserveState PutReserveState
  rw [Store.insert_same]
  have hl : (be64 s.ExogenousReserve ++ be64 s.VAIBuffer).length = 16 := rfl
  simp only
  rw [if_neg (by rw [hl]; decide)]
  have e1 : slice (be64 s.ExogenousReserve ++ be64 s.VAIBuffer) 0 8 = be64 s.ExogenousReserve :=
    slice_eq_of _ [] (be64 s.ExogenousReserve) (be64 s.VAIBuffer) (by simp) _ _ rfl rfl
  have e2 : slice (be64 s.ExogenousReserve ++ be64 s.VAIBuffer) 8 16 = be64 s.VAIBuffer :=
    slice_eq_of _ (be64 s.ExogenousReserve) (be64 s.VAIBuffer) [] (by simp) _ _ rfl rfl
  rw [e1, e2, u64be_be64, u64be_be64]

/-- A singleton read depends only on its own row. -/
theorem GetTreasuryConfig_congr {mu s : Store} (h : s TreasuryConfigKey = mu TreasuryConfigKey) :
    GetTreasuryConfig s = GetTreasuryConfig mu := by
  unfold GetTreasuryConfig
  rw [h]

theorem GetTreasuryState_congr {mu s : Store} (h : s TreasuryStateKey = mu TreasuryStateKey) :
    GetTreasuryState s = GetTreasuryState mu := by
  unfold GetTreasuryState
  rw [h]

theorem GetFeeRouterConfig_congr {mu s : Store}
    (h : s FeeRouterConfigKey = mu FeeRouterConfigKey) :
    GetFeeRouterConfig s = GetFeeRouterConfig mu := by
  unfold GetFeeRouterConfig
  rw [h]

theorem GetFeeRouterState_congr {mu s : Store} (h : s FeeRouterStateKey = mu FeeRouterStateKey) :
    GetFeeRouterState s = GetFeeRouterState mu := by
  unfold GetFeeRouterState
  rw [h]

theorem GetVAIConfig_congr {mu s : Store} (h : s VAIConfigKey = mu VAIConfigKey) :
    GetVAIConfig s = GetVAIConfig mu := by
  unfold GetVAIConfig
  rw [h]

theorem GetVAIState_congr {mu s : Store} (h : s VAIStateKey = mu VAIStateKey) :
    GetVAIState s = GetVAIState mu := by
  unfold GetVAIState
  rw [h]

theorem GetRiskConfig_congr {mu s : Store} (h : s RiskConfigKey = mu RiskConfigKey) :
    GetRiskConfig s = GetRiskConfig mu := by
  unfold GetRiskConfig
  rw [h]

theorem GetReserveState_congr {mu s : Store} (h : s ReserveStateKey = mu ReserveStateKey) :
    GetReserveState s = GetReserveState mu := by
  unfold GetReserveState
  rw [h]

theorem GetMarket_congr {mu s : Store} (m : ID) (h : s (MarketKey m) = mu (MarketKey m)) :
    GetMarket s m = GetMarket mu m := by
  unfold GetMarket
  rw [h]

/-! ## Signed 64-bit time arithmetic -/

theorem I64_toInt_range (x : I64) :
    -9223372036854775808 ≤ x.toInt ∧ x.toInt < 9223372036854775808 := by
  unfold I64.toInt
  have h := x.bits.isLt
  split <;> omega

theorem I64_ofInt_1000_bits : (I64.ofInt 1000).bits = 1000 := by decide

/-- Go `x * 1_000` on `int64` is the exact product when that product fits. -/
theorem I64_mul_1000 (x : I64) (hlo : -9223372036854775808 ≤ x.toInt * 1000)
    (hhi : x.toInt * 1000 < 9223372036854775808) :
    (I64.mul x (I64.ofInt 1000)).toInt = x.toInt * 1000 := by
  unfold I64.mul
  rw [I64_ofInt_1000_bits]
  unfold I64.toInt at hlo hhi ⊢
  have hb := x.bits.isLt
  have hv : (x.bits * 1000).val = (x.bits.val * 1000) % 18446744073709551616 := by
    rw [Fin.val_mul]
    rfl
  simp only
  rw [hv]
  split at hlo <;> split <;> omega

/-- Go `a + b` on `int64` is the exact sum when that sum fits. -/
theorem I64_add_toInt (a b : I64) (hlo : -9223372036854775808 ≤ a.toInt + b.toInt)
    (hhi : a.toInt + b.toInt < 9223372036854775808) :
    (I64.add a b).toInt = a.toInt + b.toInt := by
  unfold I64.add
  unfold I64.toInt at hlo hhi ⊢
  have ha := a.bits.isLt
  have hb := b.bits.isLt
  have hv : (a.bits + b.bits).val = (a.bits.val + b.bits.val) % 18446744073709551616 := by
    rw [Fin.val_add]
  simp only
  rw [hv]
  split at hlo <;> split at hlo <;> split <;> omega

/-! ## Releasing COL tranches -/

/-- What a successful `release_col_tranche` checked and wrote. -/
theorem ReleaseCOLTranche_Execute_inv {t : ReleaseCOLTranche} {mu s : Store} {ts : I64}
    {actor : Address} {tx : ID} {r : ReleaseCOLTrancheResult}
    (h : t.Execute mu ts actor tx = .ok (s, r)) :
    ∃ cfg st, GetTreasuryConfig mu = .ok cfg ∧ GetTreasuryState mu = .ok st
      ∧ t.Amount ≠ 0 ∧ actor = cfg.Governance
      ∧ ¬ (st.LastReleaseUnix.toInt > 0 ∧ ts.toInt < (I64.add st.LastReleaseUnix
          (I64.mul cfg.ReleaseEpochSeconds (I64.ofInt 1000))).toInt)
      ∧ t.Amount.val ≤ st.Locked.val
      ∧ st.Locked * toU64 cfg.MaxReleaseBips.val / 10000 ≠ 0
      ∧ t.Amount.val ≤ (st.Locked * toU64 cfg.MaxReleaseBips.val / 10000).val
      ∧ st.Live.val + t.Amount.val < 18446744073709551616
      ∧ st.Released.val + t.Amount.val < 18446744073709551616
      ∧ s = PutTreasuryState mu
          ⟨st.Locked - t.Amount, st.Live + t.Amount, st.Released + t.Amount, ts⟩
      ∧ r = ⟨st.Locked - t.Amount, st.Live + t.Amount, st.Released + t.Amount⟩ := by
  unfold ReleaseCOLTranche.Execute at h
  split at h
  · cases h
  rename_i h0
  split at h
  · cases h
  rename_i cfg hcfg
  split at h
  · cases h
  rename_i hgov
  split at h
  · cases h
  rename_i st hst
  simp only at h
  split at h
  · cases h
  rename_i htime
  split at h
  · cases h
  rename_i hlocked
  split at h
  · cases h
  rename_i hcap
  split at h
  · cases h
  rename_i nextLive hlive
  split at h
  · cases h
  rename_i nextReleased hrel
  cases h
  obtain ⟨hl1, hl2⟩ := (smathAdd_ok_iff _ _ _).mp hlive
  obtain ⟨hr1, hr2⟩ := (smathAdd_ok_iff _ _ _).mp hrel
  subst hl2 hr2
  refine ⟨cfg, st, hcfg, hst, h0, Decidable.of_not_not hgov, htime, Nat.le_of_not_lt hlocked,
    fun e => hcap (Or.inl e), Nat.le_of_not_lt (fun e => hcap (Or.inr e)), hl1, hr1, rfl, rfl⟩

/-- The `uint64` cap of `release_col_tranche` never exceeds the exact one. -/
theorem release_cap_le_exact (locked : U64) (bips : U16) :
    (locked * toU64 bips.val / 10000).val ≤ locked.val * bips.val / 10000 := by
  have hb : (toU64 bips.val).val = bips.val := by
    unfold toU64
    have := bips.isLt
    simp only
    omega
  have hv : (locked * toU64 bips.val / 10000).val
      = (locked.val * bips.val) % 18446744073709551616 / 10000 := by
    rw [U64_val_div, Fin.val_mul, hb]
    rfl
  rw [hv]
  exact Nat.div_le_div_right (Nat.mod_le _ _)

/-- The `uint64` cap of `release_col_tranche` is the exact one when the product fits. -/
theorem release_cap_exact (locked : U64) (bips : U16)
    (h : locked.val * bips.val < 18446744073709551616) :
    (locked * toU64 bips.val / 10000).val = locked.val * bips.val / 10000 := by
  have hb : (toU64 bips.val).val = bips.val := by
    unfold toU64
    have := bips.isLt
    simp only
    omega
  rw [U64_val_div, Fin.val_mul, hb, Nat.mod_eq_of_lt h]
  rfl

/-- The treasury state before and after a successful `release_col_tranche`. -/
theorem ReleaseCOLTranche_effects {t : ReleaseCOLTranche} {mu s : Store} {now : I64}
    {actor : Address} {tx : ID} {r : ReleaseCOLTrancheResult}
    (h : t.Execute mu now actor tx = .ok (s, r)) :
    ∃ st st1, GetTreasuryState mu = .ok st ∧ GetTreasuryState s = .ok st1
      ∧ t.Amount.val ≤ st.Locked.val
      ∧ st1.Locked.val = st.Locked.val - t.Amount.val
      ∧ st1.Live.val = st.Live.val + t.Amount.val
      ∧ st1.Locked.val + st1.Live.val = st.Locked.val + st.Live.val
      ∧ st1.Released.val = st.Released.val + t.Amount.val
      ∧ st1.LastReleaseUnix = now
      ∧ st.Locked.val + st.Live.val + st.Released.val
          ≤ st1.Locked.val + st1.Live.val + st1.Released.val
      ∧ (∀ q, q ≠ TreasuryStateKey → s q = mu q)
      ∧ GetTreasuryConfig s = GetTreasuryConfig mu
      ∧ r = ⟨st1.Locked, st1.Live, st1.Released⟩ := by
  obtain ⟨cfg, st, -, hst, -, -, -, hlocked, -, -, hlive, hrel, hs, hr⟩ :=
    ReleaseCOLTranche_Execute_inv h
  have e1 := U64_sub_val st.Locked t.Amount hlocked
  have e2 := U64_add_val st.Live t.Amount hlive
  have e3 := U64_add_val st.Released t.Amount hrel
  have hframe : ∀ q, q ≠ TreasuryStateKey → s q = mu q := by
    intro q hq
    rw [hs]
    unfold PutTreasuryState
    exact Store.insert_other _ _ _ _ hq
  refine ⟨st, ⟨st.Locked - t.Amount, st.Live + t.Amount, st.Released + t.Amount, now⟩, hst, ?_,
    hlocked, e1, e2, ?_, e3, rfl, ?_, hframe, ?_, hr⟩
  · rw [hs]
    exact GetTreasuryState_PutTreasuryState _ _
  · simp only
    omega
  · simp only
    omega
  · exact GetTreasuryConfig_congr (hframe _ (by decide))

/-- C27: every successful `release_col_tranche(amount)` at time `now` is a pure
transfer. With `st` the treasury state before and `st1` the one after:
`locked1 = locked - amount`, `live1 = live + amount` (so `locked + live` is
unchanged), `released1 = released + amount`, `last_release1 = now`; the sum
`locked + live + released` does not decrease; every row other than the
treasury-state row is unchanged, in particular the treasury config. -/
theorem ReleaseCOLTranche_pure_transfer (t : ReleaseCOLTranche) (mu s : Store) (now : I64)
    (actor : Address) (tx : ID) (r : ReleaseCOLTrancheResult)
    (h : t.Execute mu now actor tx = .ok (s, r)) :
    ∃ st st1, GetTreasuryState mu = .ok st ∧ GetTreasuryState s = .ok st1
      ∧ t.Amount.val ≤ st.Locked.val
      ∧ st1.Locked.val = st.Locked.val - t.Amount.val
      ∧ st1.Live.val = st.Live.val + t.Amount.val
      ∧ st1.Locked.val + st1.Live.val = st.Locked.val + st.Live.val
      ∧ st1.Released.val = st.Released.val + t.Amount.val
      ∧ st1.LastReleaseUnix = now
      ∧ st.Locked.val + st.Live.val + st.Released.val
          ≤ st1.Locked.val + st1.Live.val + st1.Released.val
      ∧ (∀ q, q ≠ TreasuryStateKey → s q = mu q)
      ∧ GetTreasuryConfig s = GetTreasuryConfig mu
      ∧ r = ⟨st1.Locked, st1.Live, st1.Released⟩ :=
  ReleaseCOLTranche_effects h

/-- C27 (witness): the release of 1000000 from the vault of the scenario. -/
theorem ReleaseCOLTranche_pure_transfer_witness :
    ∃ st1, GetTreasuryState Scenario.afterRelease = .ok st1
      ∧ st1.Locked.val = 900000000 - 1000000 ∧ st1.Live.val = 0 + 1000000
      ∧ st1.Released.val = 0 + 1000000 ∧ st1.LastReleaseUnix = ⟨1700000000000⟩ := by
  obtain ⟨st, st1, hst, hst1, -, h1, h2, -, h3, h4, -⟩ :=
    ReleaseCOLTranche_pure_transfer ⟨1000000⟩ Scenario.treasuryGenesis Scenario.afterRelease
      ⟨1700000000000⟩ Scenario.governance Scenario.txID _
      (eq_ok_pair_of_succeeded _ (Store.empty, ⟨0, 0, 0⟩) (by decide!))
  have e : st = ⟨900000000, 0, 0, ⟨0⟩⟩ := by
    have h0 : GetTreasuryState Scenario.treasuryGenesis = .ok ⟨900000000, 0, 0, ⟨0⟩⟩ :=
      GetTreasuryState_PutTreasuryState _ _
    rw [h0] at hst
    cases hst
    rfl
  subst e
  exact ⟨st1, hst1, h1, h2, h3, h4⟩

/-- No action other than `release_col_tranche` touches the treasury state, so
`locked + live + released` never decreases along any successful transaction. -/
theorem treasury_total_monotone {env : Env} {act : Action} {mu s : Store} {ts : I64}
    {actor : Address} {tx : ID} (h : act.execute env mu ts actor tx = .ok s)
    {st : TreasuryState} (hst : GetTreasuryState mu = .ok st) :
    ∃ st1, GetTreasuryState s = .ok st1
      ∧ st.Locked.val + st.Live.val + st.Released.val
          ≤ st1.Locked.val + st1.Live.val + st1.Released.val := by
  by_cases hw : treasuryStatePrefix ∈ act.writePrefixes
  · cases act <;> simp only [Action.writePrefixes] at hw <;> try (exact absurd hw (by decide))
    rename_i a
    simp only [Action.execute] at h
    cases hr : a.Execute mu ts actor tx with
    | error e => rw [hr] at h; cases h
    | ok p =>
      rw [hr] at h
      cases h
      obtain ⟨st0, st1, hst0, hst1, -, -, -, -, -, -, hsum, -⟩ :=
        ReleaseCOLTranche_effects hr
      rw [hst] at hst0
      cases hst0
      exact ⟨st1, hst1, hsum⟩
  · have e := row_unchanged_of_not_written h TreasuryStateKey treasuryStatePrefix rfl hw
    exact ⟨st, by rw [GetTreasuryState_congr e]; exact hst, Nat.le_refl _⟩

/-- The checks behind a successful `release_col_tranche(amount)` at time `now`:
issued by governance, `amount > 0`, `amount ≤ locked`, `amount` at most the
exact `floor(locked * max_release_bips / 10000)`, and either
`last_release ≤ 0` or `now` is not before the `int64` value of
`last_release + release_epoch_seconds * 1000`; that value is the exact one
whenever the product and the sum fit in `int64`. -/
theorem ReleaseCOLTranche_checks {t : ReleaseCOLTranche} {mu s : Store} {now : I64}
    {actor : Address} {tx : ID} {r : ReleaseCOLTrancheResult}
    (h : t.Execute mu now actor tx = .ok (s, r)) :
    ∃ cfg st, GetTreasuryConfig mu = .ok cfg ∧ GetTreasuryState mu = .ok st
      ∧ actor = cfg.Governance ∧ 0 < t.Amount.val ∧ t.Amount.val ≤ st.Locked.val
      ∧ t.Amount.val ≤ st.Locked.val * cfg.MaxReleaseBips.val / 10000
      ∧ (st.LastReleaseUnix.toInt ≤ 0 ∨ (I64.add st.LastReleaseUnix
          (I64.mul cfg.ReleaseEpochSeconds (I64.ofInt 1000))).toInt ≤ now.toInt)
      ∧ (-9223372036854775808 ≤ cfg.ReleaseEpochSeconds.toInt * 1000
          → st.LastReleaseUnix.toInt + cfg.ReleaseEpochSeconds.toInt * 1000
            < 9223372036854775808
          → st.LastReleaseUnix.toInt ≤ 0
            ∨ st.LastReleaseUnix.toInt + cfg.ReleaseEpochSeconds.toInt * 1000 ≤ now.toInt) := by
  obtain ⟨cfg, st, hcfg, hst, h0, hgov, htime, hlocked, -, hcap, -, -, -, -⟩ :=
    ReleaseCOLTranche_Execute_inv h
  have hpos : 0 < t.Amount.val := by
    rcases Nat.eq_zero_or_pos t.Amount.val with e | e
    · exact absurd (Fin.ext e) h0
    · exact e
  have htime1 : st.LastReleaseUnix.toInt ≤ 0 ∨ (I64.add st.LastReleaseUnix
      (I64.mul cfg.ReleaseEpochSeconds (I64.ofInt 1000))).toInt ≤ now.toInt := by
    by_cases hl : st.LastReleaseUnix.toInt > 0
    · right
      exact Int.not_lt.mp (fun e => htime ⟨hl, e⟩)
    · left
      exact Int.not_lt.mp hl
  refine ⟨cfg, st, hcfg, hst, hgov, hpos, hlocked,
    Nat.le_trans hcap (release_cap_le_exact _ _), htime1, ?_⟩
  intro hlo hhi
  rcases htime1 with e | e
  · exact Or.inl e
  · by_cases hl : st.LastReleaseUnix.toInt ≤ 0
    · exact Or.inl hl
    · right
      have hr := I64_toInt_range st.LastReleaseUnix
      have hm := I64_mul_1000 cfg.ReleaseEpochSeconds hlo (by omega)
      have ha := I64_add_toInt st.LastReleaseUnix
        (I64.mul cfg.ReleaseEpochSeconds (I64.ofInt 1000)) (by rw [hm]; omega)
        (by rw [hm]; omega)
      rw [ha, hm] at e
      exact e

/-- The example of the specification: with `locked = 900000000` and 15 bips,
releasing 1500000 fails with `ErrReleaseCapExceeded`, releasing 1000000
succeeds, and a further release one second later fails with `ErrReleaseTooEarly`. -/
theorem ReleaseCOLTranche_example :
    errorOf ((⟨1500000⟩ : ReleaseCOLTranche).Execute Scenario.treasuryGenesis ⟨1700000000000⟩
        Scenario.governance Scenario.txID) = some ErrReleaseCapExceeded
      ∧ succeeded ((⟨1000000⟩ : ReleaseCOLTranche).Execute Scenario.treasuryGenesis
        ⟨1700000000000⟩ Scenario.governance Scenario.txID) = true
      ∧ errorOf ((⟨1000000⟩ : ReleaseCOLTranche).Execute Scenario.afterRelease ⟨1700000001000⟩
        Scenario.governance Scenario.txID) = some ErrReleaseTooEarly := by
  decide!

/-- C26, the code at the failing input. With `release_epoch_seconds = 2^63 - 1`
the `int64` product `release_epoch_seconds * 1000` wraps to `-1000`: after a
first release at `t = 1000` a second release at `t = 1001` succeeds, although
a release has happened before and `1001 < 1000 + (2^63 - 1) * 1000`. -/
theorem release_epoch_product_wraps :
    GetTreasuryConfig Scenario.longEpochGenesis
        = .ok { Scenario.treasuryConfig with ReleaseEpochSeconds := ⟨9223372036854775807⟩ }
      ∧ succeeded ((⟨1000000⟩ : ReleaseCOLTranche).Execute Scenario.longEpochGenesis ⟨1000⟩
        Scenario.governance Scenario.txID) = true
      ∧ GetTreasuryState Scenario.afterLongEpochRelease
        = .ok ⟨899000000, 1000000, 1000000, ⟨1000⟩⟩
      ∧ succeeded ((⟨1000000⟩ : ReleaseCOLTranche).Execute Scenario.afterLongEpochRelease
        ⟨1001⟩ Scenario.governance Scenario.txID) = true
      ∧ ¬ ((1000 : Int) ≤ 0 ∨ (1000 : Int) + 9223372036854775807 * 1000 ≤ 1001)
      ∧ (I64.mul ⟨9223372036854775807⟩ (I64.ofInt 1000)).toInt = -1000 := by
  decide!

/-! ## Fee routing -/

theorem GetFeeRouterConfig_sum {mu : Store} {cfg : FeeRouterConfig}
    (h : GetFeeRouterConfig mu = .ok cfg) :
    cfg.MSRBBips.val + cfg.COLBips.val + cfg.OpsBips.val = 10000 := by
  unfold GetFeeRouterConfig at h
  split at h
  · cases h
  split at h
  · cases h
  simp only at h
  split at h
  · cases h
  rename_i hsum
  cases h
  exact Decidable.of_not_not hsum

theorem toU64_u16 (b : U16) : (toU64 b.val).val = b.val := by
  unfold toU64
  have := b.isLt
  simp only
  omega

/-- The `uint64` share `bips * amount / 10000` as a natural number. -/
theorem share_val (b : U16) (amount : U64) :
    (toU64 b.val * amount / 10000).val
      = (b.val * amount.val) % 18446744073709551616 / 10000 := by
  rw [U64_val_div, Fin.val_mul, toU64_u16]
  rfl

/-- The `uint64` share is the exact `floor(bips * amount / 10000)` when the product fits. -/
theorem share_exact (b : U16) (amount : U64) (h : b.val * amount.val < 18446744073709551616) :
    (toU64 b.val * amount / 10000).val = b.val * amount.val / 10000 := by
  rw [share_val, Nat.mod_eq_of_lt h]

/-- The two `uint64` shares never exceed the amount when the bips are at most 10000 together. -/
theorem shares_le_amount (b1 b2 : U16) (amount : U64) (h : b1.val + b2.val ≤ 10000) :
    (toU64 b1.val * amount / 10000).val + (toU64 b2.val * amount / 10000).val ≤ amount.val := by
  rw [share_val, share_val]
  have h1 : b1.val * amount.val + b2.val * amount.val ≤ 10000 * amount.val := by
    rw [← Nat.add_mul]
    exact Nat.mul_le_mul_right _ h
  have h2 := Nat.mod_le (b1.val * amount.val) 18446744073709551616
  have h3 := Nat.mod_le (b2.val * amount.val) 18446744073709551616
  generalize b1.val * amount.val % 18446744073709551616 = p1 at h2 ⊢
  generalize b2.val * amount.val % 18446744073709551616 = p2 at h3 ⊢
  generalize b1.val * amount.val = q1 at h1 h2
  generalize b2.val * amount.val = q2 at h1 h3
  omega

/-- What a successful `route_fees` checked and wrote. -/
theorem RouteFees_Execute_inv {t : RouteFees} {mu s : Store} {ts : I64} {actor : Address}
    {tx : ID} {r : RouteFeesResult} (h : t.Execute mu ts actor tx = .ok (s, r)) :
    ∃ cfg st bal, GetFeeRouterConfig mu = .ok cfg ∧ GetFeeRouterState mu = .ok st
      ∧ t.Amount ≠ 0
      ∧ innerGetBalance (mu (BalanceKey actor)) = (bal, true, none) ∧ t.Amount.val ≤ bal.val
      ∧ st.MSRBBudget.val + (toU64 cfg.MSRBBips.val * t.Amount / 10000).val
          < 18446744073709551616
      ∧ st.COLBudget.val + (toU64 cfg.COLBips.val * t.Amount / 10000).val
          < 18446744073709551616
      ∧ st.OpsBudget.val + (t.Amount - toU64 cfg.MSRBBips.val * t.Amount / 10000
          - toU64 cfg.COLBips.val * t.Amount / 10000).val < 18446744073709551616
      ∧ s = PutFeeRouterState (writeSub mu (BalanceKey actor) (bal - t.Amount))
          ⟨st.MSRBBudget + toU64 cfg.MSRBBips.val * t.Amount / 10000,
           st.COLBudget + toU64 cfg.COLBips.val * t.Amount / 10000,
           st.OpsBudget + (t.Amount - toU64 cfg.MSRBBips.val * t.Amount / 10000
             - toU64 cfg.COLBips.val * t.Amount / 10000)⟩
      ∧ r = ⟨bal - t.Amount, st.MSRBBudget + toU64 cfg.MSRBBips.val * t.Amount / 10000,
           st.COLBudget + toU64 cfg.COLBips.val * t.Amount / 10000,
           st.OpsBudget + (t.Amount - toU64 cfg.MSRBBips.val * t.Amount / 10000
             - toU64 cfg.COLBips.val * t.Amount / 10000)⟩ := by
  unfold RouteFees.Execute at h
  split at h
  · cases h
  rename_i h0
  split at h
  · cases h
  rename_i cfg hcfg
  split at h
  · cases h
  rename_i st hst
  split at h
  · cases h
  rename_i senderBalance mu1 hsub
  simp only at h
  split at h
  · cases h
  rename_i nextMSRB hm
  split at h
  · cases h
  rename_i nextCOL hc
  split at h
  · cases h
  rename_i nextOps ho
  cases h
  obtain ⟨bal, hbal, hle, hnb, hmu1⟩ := (SubBalance_ok_iff _ _ _ _ _).mp hsub
  obtain ⟨hm1, hm2⟩ := (smathAdd_ok_iff _ _ _).mp hm
  obtain ⟨hc1, hc2⟩ := (smathAdd_ok_iff _ _ _).mp hc
  obtain ⟨ho1, ho2⟩ := (smathAdd_ok_iff _ _ _).mp ho
  subst hm2 hc2 ho2 hnb hmu1
  exact ⟨cfg, st, bal, hcfg, hst, h0, hbal, hle, hm1, hc1, ho1, rfl, rfl⟩

theorem BalanceKey_ne_FeeRouterStateKey (a : Address) : BalanceKey a ≠ FeeRouterStateKey :=
  @ne_of_head FeeRouterStateKey (BalanceKey a) feeRouterStatePrefix balancePrefix rfl rfl
    (by decide)

/-- The state before and after a successful `route_fees(amount)`: the three
shares as the code computes them, the budgets, and the caller's balance. -/
theorem RouteFees_effects {t : RouteFees} {mu s : Store} {ts : I64} {actor : Address}
    {tx : ID} {r : RouteFeesResult} (h : t.Execute mu ts actor tx = .ok (s, r)) :
    ∃ cfg st st1 bal, GetFeeRouterConfig mu = .ok cfg ∧ GetFeeRouterState mu = .ok st
      ∧ GetFeeRouterState s = .ok st1
      ∧ (toU64 cfg.MSRBBips.val * t.Amount / 10000).val
          + (toU64 cfg.COLBips.val * t.Amount / 10000).val ≤ t.Amount.val
      ∧ st1.MSRBBudget.val
          = st.MSRBBudget.val + (toU64 cfg.MSRBBips.val * t.Amount / 10000).val
      ∧ st1.COLBudget.val = st.COLBudget.val + (toU64 cfg.COLBips.val * t.Amount / 10000).val
      ∧ st1.OpsBudget.val = st.OpsBudget.val + (t.Amount.val
          - (toU64 cfg.MSRBBips.val * t.Amount / 10000).val
          - (toU64 cfg.COLBips.val * t.Amount / 10000).val)
      ∧ GetBalance mu actor = .ok bal ∧ t.Amount.val ≤ bal.val
      ∧ GetBalance s actor = .ok (bal - t.Amount)
      ∧ (bal - t.Amount).val = bal.val - t.Amount.val
      ∧ (∀ q, q ≠ BalanceKey actor → q ≠ FeeRouterStateKey → s q = mu q) := by
  obtain ⟨cfg, st, bal, hcfg, hst, -, hbal, hle, hm, hc, ho, hs, -⟩ := RouteFees_Execute_inv h
  have hsum := GetFeeRouterConfig_sum hcfg
  have hshares := shares_le_amount cfg.MSRBBips cfg.COLBips t.Amount (by omega)
  have hsub1 := U64_sub_val t.Amount (toU64 cfg.MSRBBips.val * t.Amount / 10000) (by omega)
  have hsub2 := U64_sub_val (t.Amount - toU64 cfg.MSRBBips.val * t.Amount / 10000)
    (toU64 cfg.COLBips.val * t.Amount / 10000) (by rw [hsub1]; omega)
  rw [hsub1] at hsub2
  rw [hsub2] at ho
  refine ⟨cfg, st, _, bal, hcfg, hst, by rw [hs]; exact GetFeeRouterState_PutFeeRouterState _ _,
    hshares, U64_add_val _ _ hm, U64_add_val _ _ hc, ?_,
    (GetBalance_ok_iff _ _ _).mpr ⟨true, hbal⟩, hle, ?_, U64_sub_val _ _ hle, ?_⟩
  · simp only
    rw [U64_add_val _ _ (by rw [hsub2]; exact ho), hsub2]
  · obtain ⟨ok, hok⟩ := innerGetBalance_writeSub mu (BalanceKey actor) (bal - t.Amount)
    refine (GetBalance_ok_iff _ _ _).mpr ⟨ok, ?_⟩
    rw [hs]
    unfold PutFeeRouterState
    rw [Store.insert_other _ _ _ _ (BalanceKey_ne_FeeRouterStateKey actor)]
    exact hok
  · intro q hq1 hq2
    rw [hs]
    unfold PutFeeRouterState
    rw [Store.insert_other _ _ _ _ hq2, writeSub_other _ _ _ _ hq1]

/-- A successful `route_fees(amount)` adds exactly `amount` to the budget sum. -/
theorem RouteFees_budgetSum {t : RouteFees} {mu s : Store} {ts : I64} {actor : Address}
    {tx : ID} {r : RouteFeesResult} (h : t.Execute mu ts actor tx = .ok (s, r)) :
    (∃ st1, GetFeeRouterState s = .ok st1) ∧ budgetSum s = budgetSum mu + t.Amount.val := by
  obtain ⟨cfg, st, st1, bal, -, hst, hst1, hsh, h1, h2, h3, -⟩ := RouteFees_effects h
  refine ⟨⟨st1, hst1⟩, ?_⟩
  unfold budgetSum
  rw [hst, hst1]
  simp only
  omega

/-- One transaction, successful or not, adds exactly what it routes to the budget sum. -/
theorem budgetSum_apply (st : Step) (mu : Store) (fs : FeeRouterState)
    (h : GetFeeRouterState mu = .ok fs) :
    (∃ fs1, GetFeeRouterState (st.apply mu) = .ok fs1)
      ∧ budgetSum (st.apply mu) = budgetSum mu + st.routed mu := by
  obtain ⟨env, act, ts, actor, tx⟩ := st
  unfold Step.apply Step.routed
  simp only
  cases hact : act.execute env mu ts actor tx with
  | error e =>
    simp only
    refine ⟨⟨fs, h⟩, ?_⟩
    cases act <;> simp only [Nat.add_zero]
    rename_i a
    simp only [Action.execute] at hact
    cases hr : a.Execute mu ts actor tx with
    | error e1 =>
      have hfail : ¬ succeeded (Except.error e1 : Except Err (Store × RouteFeesResult)) = true :=
        fun e => by cases e
      simp only [if_neg hfail, Nat.add_zero]
    | ok p => rw [hr] at hact; cases hact
  | ok s =>
    simp only
    by_cases hw : feeRouterStatePrefix ∈ act.writePrefixes
    · cases act <;> simp only [Action.writePrefixes] at hw <;>
        try (exact absurd hw (by decide))
      rename_i a
      simp only [Action.execute] at hact
      cases hr : a.Execute mu ts actor tx with
      | error e1 => rw [hr] at hact; cases hact
      | ok p =>
        rw [hr] at hact
        cases hact
        have hsucc : succeeded (a.Execute mu ts actor tx) = true := by rw [hr]; rfl
        show (∃ fs1, GetFeeRouterState p.1 = .ok fs1) ∧ budgetSum p.1 = budgetSum mu
          + (if succeeded (a.Execute mu ts actor tx) = true then a.Amount.val else 0)
        rw [if_pos hsucc]
        exact RouteFees_budgetSum hr
    · have e := row_unchanged_of_not_written hact FeeRouterStateKey feeRouterStatePrefix rfl hw
      have hg := GetFeeRouterState_congr e
      refine ⟨⟨fs, by rw [hg]; exact h⟩, ?_⟩
      have hb : budgetSum s = budgetSum mu := by
        unfold budgetSum
        rw [hg]
      rw [hb]
      cases act <;> simp only [Action.writePrefixes] at hw <;> try (simp only [Nat.add_zero])
      exact absurd (by decide) hw

/-- Along any sequence of transactions the budget sum grows by exactly the routed total. -/
theorem budgetSum_run (steps : List Step) (mu : Store) (fs : FeeRouterState)
    (h : GetFeeRouterState mu = .ok fs) :
    budgetSum (run steps mu) = budgetSum mu + totalRouted steps mu := by
  induction steps generalizing mu fs with
  | nil => rfl
  | cons st rest ih =>
    obtain ⟨⟨fs1, h1⟩, h2⟩ := budgetSum_apply st mu fs h
    have e : run (st :: rest) mu = run rest (st.apply mu) := rfl
    rw [e, ih (st.apply mu) fs1 h1, h2]
    simp only [totalRouted]
    omega

/-- For a successful `route_fees(amount)` whose two products fit in `uint64`
(in particular for every `amount ≤ 1844674407370955`), the MSRB budget grows
by exactly `floor(msrb_bips * amount / 10000)`, the COL budget by exactly
`floor(col_bips * amount / 10000)` and the ops budget by `amount` minus
those two shares. -/
theorem RouteFees_exact_below_wrap {t : RouteFees} {mu s : Store} {ts : I64} {actor : Address}
    {tx : ID} {r : RouteFeesResult} (h : t.Execute mu ts actor tx = .ok (s, r)) :
    ∃ cfg st st1, GetFeeRouterConfig mu = .ok cfg ∧ GetFeeRouterState mu = .ok st
      ∧ GetFeeRouterState s = .ok st1
      ∧ (cfg.MSRBBips.val * t.Amount.val < 18446744073709551616
          → cfg.COLBips.val * t.Amount.val < 18446744073709551616
          → st1.MSRBBudget.val = st.MSRBBudget.val + cfg.MSRBBips.val * t.Amount.val / 10000
            ∧ st1.COLBudget.val = st.COLBudget.val + cfg.COLBips.val * t.Amount.val / 10000
            ∧ st1.OpsBudget.val = st.OpsBudget.val + (t.Amount.val
              - cfg.MSRBBips.val * t.Amount.val / 10000
              - cfg.COLBips.val * t.Amount.val / 10000)) := by
  obtain ⟨cfg, st, st1, bal, hcfg, hst, hst1, -, h1, h2, h3, -⟩ := RouteFees_effects h
  refine ⟨cfg, st, st1, hcfg, hst, hst1, ?_⟩
  intro hm hc
  rw [share_exact _ _ hm] at h1 h3
  rw [share_exact _ _ hc] at h2 h3
  exact ⟨h1, h2, h3⟩

/-- C24, the code at the failing input. Under the default fee router
`(7000, 2000, 1000)` a caller holding `10^16` routes `3000000000000000`: the
`uint64` product `7000 * amount` wraps, the MSRB budget grows by
`255325592629044` instead of `floor(7000 * amount / 10000) = 2100000000000000`
and the ops budget by `2144674407370956` instead of `300000000000000`. -/
theorem route_fees_product_wraps :
    GetFeeRouterConfig Scenario.feeGenesis = .ok ⟨7000, 2000, 1000⟩
      ∧ GetFeeRouterState Scenario.feeGenesis = .ok ⟨0, 0, 0⟩
      ∧ GetBalance Scenario.feeGenesis Scenario.trader = .ok 10000000000000000
      ∧ succeeded ((⟨3000000000000000⟩ : RouteFees).Execute Scenario.feeGenesis ⟨0⟩
          Scenario.trader Scenario.txID) = true
      ∧ GetFeeRouterState Scenario.afterLargeRoute
          = .ok ⟨255325592629044, 600000000000000, 2144674407370956⟩
      ∧ 7000 * 3000000000000000 / 10000 = 2100000000000000
      ∧ 2000 * 3000000000000000 / 10000 = 600000000000000
      ∧ 3000000000000000 - 2100000000000000 - 600000000000000 = 300000000000000
      ∧ (7000 * 3000000000000000) % 18446744073709551616 / 10000 = 255325592629044 := by
  decide!

/-- C25: fee routing conserves value. For every successful `route_fees(amount)`
the caller's native balance decreases by exactly `amount`; the two `uint64`
shares together are at most `amount`, so the ops share `amount - msrb - col`
does not underflow; the three budgets grow by the three shares and their sum
by exactly `amount`. Along any sequence of transactions the budget sum grows
by exactly the total of the routed amounts, so it never exceeds the budget
sum at the start plus that total. -/
theorem RouteFees_conserves_value (t : RouteFees) (mu s : Store) (ts : I64) (actor : Address)
    (tx : ID) (r : RouteFeesResult) (h : t.Execute mu ts actor tx = .ok (s, r)) :
    (∃ bal bal1, GetBalance mu actor = .ok bal ∧ GetBalance s actor = .ok bal1
        ∧ t.Amount.val ≤ bal.val ∧ bal1.val = bal.val - t.Amount.val)
      ∧ (∃ cfg st st1, GetFeeRouterConfig mu = .ok cfg ∧ GetFeeRouterState mu = .ok st
        ∧ GetFeeRouterState s = .ok st1
        ∧ (toU64 cfg.MSRBBips.val * t.Amount / 10000).val
            + (toU64 cfg.COLBips.val * t.Amount / 10000).val ≤ t.Amount.val
        ∧ st1.MSRBBudget.val
            = st.MSRBBudget.val + (toU64 cfg.MSRBBips.val * t.Amount / 10000).val
        ∧ st1.COLBudget.val
            = st.COLBudget.val + (toU64 cfg.COLBips.val * t.Amount / 10000).val
        ∧ st1.OpsBudget.val = st.OpsBudget.val + (t.Amount.val
            - (toU64 cfg.MSRBBips.val * t.Amount / 10000).val
            - (toU64 cfg.COLBips.val * t.Amount / 10000).val)
        ∧ st1.MSRBBudget.val + st1.COLBudget.val + st1.OpsBudget.val
            = st.MSRBBudget.val + st.COLBudget.val + st.OpsBudget.val + t.Amount.val)
      ∧ budgetSum s = budgetSum mu + t.Amount.val
      ∧ (∀ (steps : List Step) (mu0 : Store) (fs : FeeRouterState),
          GetFeeRouterState mu0 = .ok fs →
            budgetSum (run steps mu0) = budgetSum mu0 + totalRouted steps mu0
              ∧ budgetSum (run steps mu0) ≤ budgetSum mu0 + totalRouted steps mu0) := by
  obtain ⟨cfg, st, st1, bal, hcfg, hst, hst1, hsh, h1, h2, h3, hb, hle, hb1, hbv, -⟩ :=
    RouteFees_effects h
  refine ⟨⟨bal, _, hb, hb1, hle, hbv⟩, ⟨cfg, st, st1, hcfg, hst, hst1, hsh, h1, h2, h3, ?_⟩,
    (RouteFees_budgetSum h).2, ?_⟩
  · omega
  · intro steps mu0 fs hfs
    have e := budgetSum_run steps mu0 fs hfs
    exact ⟨e, Nat.le_of_eq e⟩

/-- C25 (witness): `route_fees(1001)` under `(7000, 2000, 1000)` gives shares
700, 200 and 101; the budget sum grows from 0 to 1001. -/
theorem RouteFees_conserves_value_witness :
    budgetSum Scenario.afterRoute = budgetSum Scenario.feeGenesis + 1001
      ∧ GetFeeRouterState Scenario.afterRoute = .ok ⟨700, 200, 101⟩ :=
  ⟨(RouteFees_conserves_value ⟨1001⟩ Scenario.feeGenesis Scenario.afterRoute ⟨0⟩
      Scenario.trader Scenario.txID _
      (eq_ok_pair_of_succeeded _ (Store.empty, ⟨0, 0, 0, 0⟩) (by decide!))).2.2.1,
    by decide!⟩

/-! ## Minting and burning VAI -/

/-- What a successful `mint_vai` checked and wrote; `MintVAI.epochState` is the
VAI state after the epoch rule. -/
theorem MintVAI_Execute_inv {t : MintVAI} {mu s : Store} {ts : I64} {actor : Address}
    {tx : ID} {r : MintVAIResult} (h : t.Execute mu ts actor tx = .ok (s, r)) :
    ∃ cfg st risk res toBalance mu1, GetVAIConfig mu = .ok cfg ∧ GetVAIState mu = .ok st
      ∧ GetRiskConfig mu = .ok risk ∧ GetReserveState mu = .ok res
      ∧ t.Amount ≠ 0 ∧ actor = cfg.MintAuthority
      ∧ (MintVAI.epochState cfg st ts).EpochMinted.val + t.Amount.val < 18446744073709551616
      ∧ ((MintVAI.epochState cfg st ts).EpochMinted + t.Amount).val ≤ cfg.EpochMintLimit.val
      ∧ (MintVAI.epochState cfg st ts).TotalDebt.val + t.Amount.val < 18446744073709551616
      ∧ ((MintVAI.epochState cfg st ts).TotalDebt + t.Amount).val ≤ cfg.DebtCeiling.val
      ∧ ¬ (((MintVAI.epochState cfg st ts).TotalDebt + t.Amount).val > 0
          ∧ res.ExogenousReserve.val * 10000
            < ((MintVAI.epochState cfg st ts).TotalDebt + t.Amount).val
              * risk.BackingFloorBips.val)
      ∧ AddVAIBalance mu t.To t.Amount = .ok (toBalance, mu1)
      ∧ s = PutVAIState mu1 ⟨(MintVAI.epochState cfg st ts).TotalDebt + t.Amount,
          (MintVAI.epochState cfg st ts).EpochStartUnix,
          (MintVAI.epochState cfg st ts).EpochMinted + t.Amount⟩
      ∧ r = ⟨toBalance, (MintVAI.epochState cfg st ts).TotalDebt + t.Amount⟩ := by
  unfold MintVAI.Execute at h
  split at h
  · cases h
  rename_i h0
  split at h
  · cases h
  rename_i cfg hcfg
  split at h
  · cases h
  rename_i hauth
  split at h
  · cases h
  rename_i st hst
  have he : (if ts.toInt ≥ (I64.add (if st.EpochStartUnix = I64.ofInt 0 then
        ({ st with EpochStartUnix := ts } : VAIState) else st).EpochStartUnix
        (I64.mul cfg.MintEpochSeconds (I64.ofInt 1000))).toInt then
      ({ (if st.EpochStartUnix = I64.ofInt 0 then
        ({ st with EpochStartUnix := ts } : VAIState) else st) with
        EpochStartUnix := ts, EpochMinted := 0 } : VAIState)
    else (if st.EpochStartUnix = I64.ofInt 0 then
        ({ st with EpochStartUnix := ts } : VAIState) else st))
      = MintVAI.epochState cfg st ts := rfl
  simp only [he] at h
  split at h
  · cases h
  rename_i nextEpochMinted hem
  split at h
  · cases h
  rename_i hlimit
  split at h
  · cases h
  rename_i nextDebt hdebt
  split at h
  · cases h
  rename_i hceiling
  split at h
  · cases h
  rename_i risk hrisk
  split at h
  · cases h
  rename_i res hres
  split at h
  · cases h
  rename_i hback
  split at h
  · cases h
  rename_i toBalance mu1 hadd
  cases h
  obtain ⟨hem1, hem2⟩ := (smathAdd_ok_iff _ _ _).mp hem
  obtain ⟨hd1, hd2⟩ := (smathAdd_ok_iff _ _ _).mp hdebt
  subst hem2 hd2
  exact ⟨cfg, st, risk, res, toBalance, mu1, hcfg, hst, hrisk, hres, h0,
    Decidable.of_not_not hauth, hem1, Nat.le_of_not_lt hlimit, hd1, Nat.le_of_not_lt hceiling,
    hback, hadd, rfl, rfl⟩

/-- The epoch rule never touches the debt. -/
theorem epochState_TotalDebt (cfg : VAIConfig) (st : VAIState) (ts : I64) :
    (MintVAI.epochState cfg st ts).TotalDebt = st.TotalDebt := by
  unfold MintVAI.epochState
  simp only
  split <;> split <;> rfl

/-- The epoch rule when the epoch has started (`epoch_start ≠ 0`) and
`epoch_start + mint_epoch_seconds * 1000` fits in `int64`: the epoch restarts
exactly when `now` has reached that sum. -/
theorem epochState_started (cfg : VAIConfig) (st : VAIState) (now : I64)
    (hstart : st.EpochStartUnix ≠ I64.ofInt 0)
    (hlo : -9223372036854775808 ≤ cfg.MintEpochSeconds.toInt * 1000)
    (hlo1 : -9223372036854775808 ≤ st.EpochStartUnix.toInt + cfg.MintEpochSeconds.toInt * 1000)
    (hhi1 : cfg.MintEpochSeconds.toInt * 1000 < 9223372036854775808)
    (hhi : st.EpochStartUnix.toInt + cfg.MintEpochSeconds.toInt * 1000 < 9223372036854775808) :
    (st.EpochStartUnix.toInt + cfg.MintEpochSeconds.toInt * 1000 ≤ now.toInt
        → MintVAI.epochState cfg st now = ⟨st.TotalDebt, now, 0⟩)
      ∧ (now.toInt < st.EpochStartUnix.toInt + cfg.MintEpochSeconds.toInt * 1000
        → MintVAI.epochState cfg st now = st) := by
  have hm := I64_mul_1000 cfg.MintEpochSeconds hlo hhi1
  have ha := I64_add_toInt st.EpochStartUnix (I64.mul cfg.MintEpochSeconds (I64.ofInt 1000))
    (by rw [hm]; exact hlo1) (by rw [hm]; exact hhi)
  rw [hm] at ha
  unfold MintVAI.epochState
  simp only
  rw [if_neg hstart, ha]
  constructor
  · intro h
    rw [if_pos (show now.toInt ≥ st.EpochStartUnix.toInt + cfg.MintEpochSeconds.toInt * 1000
      from h)]
  · intro h
    rw [if_neg (show ¬ now.toInt ≥ st.EpochStartUnix.toInt + cfg.MintEpochSeconds.toInt * 1000
      from Int.not_le.mpr h)]

/-- The epoch rule on a state whose epoch has not started (`epoch_start = 0`):
the epoch starts at `now`, and nothing has been minted in it when nothing
was recorded before. -/
theorem epochState_fresh (cfg : VAIConfig) (st : VAIState) (now : I64)
    (hstart : st.EpochStartUnix = I64.ofInt 0) :
    (MintVAI.epochState cfg st now).EpochStartUnix = now
      ∧ (st.EpochMinted = 0 → (MintVAI.epochState cfg st now).EpochMinted = 0) := by
  unfold MintVAI.epochState
  simp only
  rw [if_pos hstart]
  split
  · exact ⟨rfl, fun _ => rfl⟩
  · exact ⟨rfl, fun h => h⟩

theorem VAIBalanceKey_ne_VAIStateKey (a : Address) : VAIBalanceKey a ≠ VAIStateKey :=
  @ne_of_head VAIStateKey (VAIBalanceKey a) vaiStatePrefix vaiBalancePrefix rfl rfl (by decide)

/-- The state before and after a successful `mint_vai(to, amount)`. -/
theorem MintVAI_effects {t : MintVAI} {mu s : Store} {now : I64} {actor : Address}
    {tx : ID} {r : MintVAIResult} (h : t.Execute mu now actor tx = .ok (s, r)) :
    ∃ cfg st st1 risk res bal, GetVAIConfig mu = .ok cfg ∧ GetVAIState mu = .ok st
      ∧ GetRiskConfig mu = .ok risk ∧ GetReserveState mu = .ok res
      ∧ GetVAIState s = .ok st1
      ∧ actor = cfg.MintAuthority ∧ 0 < t.Amount.val
      ∧ st1.TotalDebt.val = st.TotalDebt.val + t.Amount.val
      ∧ st1.TotalDebt.val ≤ cfg.DebtCeiling.val
      ∧ st1.EpochMinted.val ≤ cfg.EpochMintLimit.val
      ∧ st1.EpochStartUnix = (MintVAI.epochState cfg st now).EpochStartUnix
      ∧ st1.EpochMinted.val = (MintVAI.epochState cfg st now).EpochMinted.val + t.Amount.val
      ∧ st1.TotalDebt.val * risk.BackingFloorBips.val ≤ res.ExogenousReserve.val * 10000
      ∧ GetVAIBalance mu t.To = .ok bal
      ∧ GetVAIBalance s t.To = .ok (bal + t.Amount)
      ∧ (bal + t.Amount).val = bal.val + t.Amount.val
      ∧ (∀ q, q ≠ VAIBalanceKey t.To → q ≠ VAIStateKey → s q = mu q) := by
  obtain ⟨cfg, st, risk, res, toBalance, mu1, hcfg, hst, hrisk, hres, h0, hauth, hem1, hem2,
    hd1, hd2, hback, hadd, hs, -⟩ := MintVAI_Execute_inv h
  obtain ⟨bal, ok, hbal, hsum, hnb, hmu1⟩ := (AddVAIBalance_ok_iff _ _ _ _ _).mp hadd
  have hpos : 0 < t.Amount.val := by
    rcases Nat.eq_zero_or_pos t.Amount.val with e | e
    · exact absurd (Fin.ext e) h0
    · exact e
  have hdebt := U64_add_val _ _ hd1
  have hminted := U64_add_val _ _ hem1
  rw [epochState_TotalDebt] at hdebt hd2 hback hs
  rw [hdebt] at hd2 hback
  rw [hminted] at hem2
  refine ⟨cfg, st, ⟨st.TotalDebt + t.Amount, (MintVAI.epochState cfg st now).EpochStartUnix,
    (MintVAI.epochState cfg st now).EpochMinted + t.Amount⟩, risk, res, bal, hcfg, hst, hrisk, hres,
    by rw [hs]; exact GetVAIState_PutVAIState _ _, hauth, hpos, hdebt, ?_, ?_, rfl, hminted, ?_,
    (GetVAIBalance_ok_iff _ _ _).mpr ⟨ok, hbal⟩, ?_, U64_add_val _ _ hsum, ?_⟩
  · simp only
    rw [hdebt]
    exact hd2
  · simp only
    rw [hminted]
    exact hem2
  · simp only
    rw [hdebt]
    by_cases hlt : res.ExogenousReserve.val * 10000
        < (st.TotalDebt.val + t.Amount.val) * risk.BackingFloorBips.val
    · exact absurd ⟨by omega, hlt⟩ hback
    · exact Nat.le_of_not_lt hlt
  · refine (GetVAIBalance_ok_iff _ _ _).mpr ⟨true, ?_⟩
    rw [hs, hmu1, hnb]
    unfold PutVAIState
    rw [Store.insert_other _ _ _ _ (VAIBalanceKey_ne_VAIStateKey t.To)]
    exact innerGetBalance_insert _ _ _
  · intro q hq1 hq2
    rw [hs, hmu1]
    unfold PutVAIState
    rw [Store.insert_other _ _ _ _ hq2, Store.insert_other _ _ _ _ hq1]

/-- The checks and effects behind a successful `mint_vai(to, amount)` at time
`now`: it was issued by `VAIConfig.mint_authority` with `amount > 0` and leaves
`total_debt1 = total_debt + amount ≤ debt_ceiling`,
`epoch_minted1 ≤ epoch_mint_limit`,
`exogenous_reserve * 10000 ≥ total_debt1 * backing_floor_bips` over the
integers, and the VAI balance of `to` increased by `amount`. The epoch
counter is the one left by the epoch rule plus `amount`: for a started epoch
(`epoch_start > 0`, `mint_epoch_seconds > 0`) it was first reset to 0, and
`epoch_start` to `now`, if `now ≥ epoch_start + mint_epoch_seconds * 1000`,
and kept if `now` is below that sum and the sum fits in `int64`; on a fresh
state (`epoch_start = 0`) the epoch starts at `now`. -/
theorem MintVAI_success_effects (t : MintVAI) (mu s : Store) (now : I64) (actor : Address)
    (tx : ID) (r : MintVAIResult) (h : t.Execute mu now actor tx = .ok (s, r)) :
    ∃ cfg st st1 risk res bal, GetVAIConfig mu = .ok cfg ∧ GetVAIState mu = .ok st
      ∧ GetRiskConfig mu = .ok risk ∧ GetReserveState mu = .ok res
      ∧ GetVAIState s = .ok st1
      ∧ actor = cfg.MintAuthority ∧ 0 < t.Amount.val
      ∧ st1.TotalDebt.val = st.TotalDebt.val + t.Amount.val
      ∧ st1.TotalDebt.val ≤ cfg.DebtCeiling.val
      ∧ st1.EpochMinted.val ≤ cfg.EpochMintLimit.val
      ∧ st1.EpochStartUnix = (MintVAI.epochState cfg st now).EpochStartUnix
      ∧ st1.EpochMinted.val = (MintVAI.epochState cfg st now).EpochMinted.val + t.Amount.val
      ∧ (0 < st.EpochStartUnix.toInt → 0 < cfg.MintEpochSeconds.toInt →
          (st.EpochStartUnix.toInt + cfg.MintEpochSeconds.toInt * 1000 ≤ now.toInt
              → st1.EpochStartUnix = now ∧ st1.EpochMinted.val = t.Amount.val)
            ∧ (now.toInt < st.EpochStartUnix.toInt + cfg.MintEpochSeconds.toInt * 1000
              → st.EpochStartUnix.toInt + cfg.MintEpochSeconds.toInt * 1000
                < 9223372036854775808
              → st1.EpochStartUnix = st.EpochStartUnix
                ∧ st1.EpochMinted.val = st.EpochMinted.val + t.Amount.val))
      ∧ (st.EpochStartUnix = I64.ofInt 0 →
          st1.EpochStartUnix = now ∧ (st.EpochMinted = 0 → st1.EpochMinted.val = t.Amount.val))
      ∧ st1.TotalDebt.val * risk.BackingFloorBips.val ≤ res.ExogenousReserve.val * 10000
      ∧ GetVAIBalance mu t.To = .ok bal
      ∧ GetVAIBalance s t.To = .ok (bal + t.Amount)
      ∧ (bal + t.Amount).val = bal.val + t.Amount.val := by
  obtain ⟨cfg, st, st1, risk, res, bal, hcfg, hst, hrisk, hres, hst1, hauth, hpos, hdebt, hceil,
    hlim, hstart, hminted, hback, hbal, hbal1, hbalv, -⟩ := MintVAI_effects h
  refine ⟨cfg, st, st1, risk, res, bal, hcfg, hst, hrisk, hres, hst1, hauth, hpos, hdebt, hceil,
    hlim, hstart, hminted, ?_, ?_, hback, hbal, hbal1, hbalv⟩
  · intro hs0 he0
    have hne : st.EpochStartUnix ≠ I64.ofInt 0 := by
      intro e
      rw [e] at hs0
      exact absurd hs0 (by decide)
    have hr := I64_toInt_range now
    constructor
    · intro hle
      have hrule := (epochState_started cfg st now hne (by omega) (by omega) (by omega)
        (by omega)).1 hle
      rw [hrule] at hstart hminted
      exact ⟨hstart, by rw [hminted]; simp⟩
    · intro hlt hfit
      have hrule := (epochState_started cfg st now hne (by omega) (by omega) (by omega)
        hfit).2 hlt
      rw [hrule] at hstart hminted
      exact ⟨hstart, hminted⟩
  · intro hs0
    obtain ⟨e1, e2⟩ := epochState_fresh cfg st now hs0
    rw [e1] at hstart
    refine ⟨hstart, fun hz => ?_⟩
    rw [e2 hz] at hminted
    rw [hminted]
    simp

/-- The effects of minting 1000000 to the trader in the vault of the scenario. -/
theorem MintVAI_success_effects_witness :
    ∃ st1, GetVAIState Scenario.afterMint = .ok st1 ∧ st1.TotalDebt.val = 0 + 1000000
      ∧ GetVAIBalance Scenario.afterMint Scenario.trader = .ok (0 + 1000000) := by
  obtain ⟨cfg, st, st1, risk, res, bal, -, hst, -, -, hst1, -, -, hdebt, -, -, -, -, -, -, -,
    hbal, hbal1, -⟩ := MintVAI_success_effects ⟨Scenario.trader, 1000000⟩ Scenario.vaiGenesis
      Scenario.afterMint ⟨1700000000000⟩ Scenario.minter Scenario.txID _
      (eq_ok_pair_of_succeeded _ (Store.empty, ⟨0, 0⟩) (by decide!))
  have e : st = ⟨0, ⟨0⟩, 0⟩ := by
    have h0 : GetVAIState Scenario.vaiGenesis = .ok ⟨0, ⟨0⟩, 0⟩ := by decide!
    rw [h0] at hst
    cases hst
    rfl
  have eb : bal = 0 := by
    have h0 : GetVAIBalance Scenario.vaiGenesis Scenario.trader = .ok 0 := by decide!
    rw [h0] at hbal
    cases hbal
    rfl
  subst e eb
  exact ⟨st1, hst1, hdebt, hbal1⟩

/-- The example of the specification: with ceiling 2000000, floor 10000 bips
and reserve 1000000, minting 1500000 fails with `ErrBackingRatioViolation`
and minting 1000000 succeeds. -/
theorem MintVAI_example :
    errorOf ((⟨Scenario.trader, 1500000⟩ : MintVAI).Execute Scenario.vaiGenesis
        ⟨1700000000000⟩ Scenario.minter Scenario.txID) = some ErrBackingRatioViolation
      ∧ succeeded ((⟨Scenario.trader, 1000000⟩ : MintVAI).Execute Scenario.vaiGenesis
        ⟨1700000000000⟩ Scenario.minter Scenario.txID) = true
      ∧ GetVAIState Scenario.afterMint = .ok ⟨1000000, ⟨1700000000000⟩, 1000000⟩ := by
  decide!

/-! ## The reserve floor -/

/-- What a successful `burn_vai` checked and wrote. -/
theorem BurnVAI_Execute_inv {t : BurnVAI} {mu s : Store} {ts : I64} {actor : Address}
    {tx : ID} {r : BurnVAIResult} (h : t.Execute mu ts actor tx = .ok (s, r)) :
    ∃ bal st, t.Amount ≠ 0
      ∧ innerGetBalance (mu (VAIBalanceKey actor)) = (bal, true, none)
      ∧ t.Amount.val ≤ bal.val ∧ GetVAIState mu = .ok st ∧ t.Amount.val ≤ st.TotalDebt.val
      ∧ s = PutVAIState (writeSub mu (VAIBalanceKey actor) (bal - t.Amount))
          ⟨st.TotalDebt - t.Amount, st.EpochStartUnix, st.EpochMinted⟩
      ∧ r = ⟨bal - t.Amount, st.TotalDebt - t.Amount⟩ := by
  unfold BurnVAI.Execute at h
  split at h
  · cases h
  rename_i h0
  split at h
  · cases h
  rename_i actorBalance mu1 hsub
  split at h
  · cases h
  rename_i st hst
  split at h
  · cases h
  rename_i hdebt
  cases h
  obtain ⟨bal, hbal, hle, hnb, hmu1⟩ := (SubVAIBalance_ok_iff _ _ _ _ _).mp hsub
  subst hnb hmu1
  have hst0 : GetVAIState mu = .ok st := by
    rw [← hst]
    exact (GetVAIState_congr (writeSub_other _ _ _ _
      (@ne_of_head (VAIBalanceKey actor) VAIStateKey vaiBalancePrefix vaiStatePrefix rfl rfl
        (by decide)))).symm
  exact ⟨bal, st, h0, hbal, hle, hst0, Nat.le_of_not_lt hdebt, rfl, rfl⟩

/-- The reserve floor only depends on the VAI state, the risk config and the reserve state. -/
theorem ReserveFloor_congr {mu s : Store} (h1 : s VAIStateKey = mu VAIStateKey)
    (h2 : s RiskConfigKey = mu RiskConfigKey) (h3 : s ReserveStateKey = mu ReserveStateKey)
    (hinv : ReserveFloor mu) : ReserveFloor s := by
  intro st risk res e1 e2 e3
  rw [GetVAIState_congr h1] at e1
  rw [GetRiskConfig_congr h2] at e2
  rw [GetReserveState_congr h3] at e3
  exact hinv st risk res e1 e2 e3

/-- A successful `mint_vai` establishes the reserve floor, whatever the state before. -/
theorem MintVAI_establishes_floor {t : MintVAI} {mu s : Store} {ts : I64} {actor : Address}
    {tx : ID} {r : MintVAIResult} (h : t.Execute mu ts actor tx = .ok (s, r)) :
    ReserveFloor s := by
  obtain ⟨cfg, st, st1, risk, res, bal, -, -, hrisk, hres, hst1, -, -, -, -, -, -, -, hback, -,
    -, -, hframe⟩ := MintVAI_effects h
  have k1 : RiskConfigKey ≠ VAIBalanceKey t.To :=
    @ne_of_head (VAIBalanceKey t.To) RiskConfigKey vaiBalancePrefix riskConfigPrefix rfl rfl
      (by decide)
  have k2 : ReserveStateKey ≠ VAIBalanceKey t.To :=
    @ne_of_head (VAIBalanceKey t.To) ReserveStateKey vaiBalancePrefix reserveStatePrefix rfl rfl
      (by decide)
  intro st2 risk2 res2 e1 e2 e3 _
  rw [hst1] at e1
  rw [GetRiskConfig_congr (hframe _ k1 (by decide)), hrisk] at e2
  rw [GetReserveState_congr (hframe _ k2 (by decide)), hres] at e3
  cases e1
  cases e2
  cases e3
  exact hback

/-- A successful `burn_vai` preserves the reserve floor: the debt only goes down. -/
theorem BurnVAI_preserves_floor {t : BurnVAI} {mu s : Store} {ts : I64} {actor : Address}
    {tx : ID} {r : BurnVAIResult} (h : t.Execute mu ts actor tx = .ok (s, r))
    (hinv : ReserveFloor mu) : ReserveFloor s := by
  obtain ⟨bal, st, -, -, -, hst, hle, hs, -⟩ := BurnVAI_Execute_inv h
  have hframe : ∀ q, q ≠ VAIBalanceKey actor → q ≠ VAIStateKey → s q = mu q := by
    intro q hq1 hq2
    rw [hs]
    unfold PutVAIState
    rw [Store.insert_other _ _ _ _ hq2, writeSub_other _ _ _ _ hq1]
  have k1 : RiskConfigKey ≠ VAIBalanceKey actor :=
    @ne_of_head (VAIBalanceKey actor) RiskConfigKey vaiBalancePrefix riskConfigPrefix rfl rfl
      (by decide)
  have k2 : ReserveStateKey ≠ VAIBalanceKey actor :=
    @ne_of_head (VAIBalanceKey actor) ReserveStateKey vaiBalancePrefix reserveStatePrefix rfl
      rfl (by decide)
  intro st2 risk2 res2 e1 e2 e3 hpos
  rw [hs, GetVAIState_PutVAIState] at e1
  rw [GetRiskConfig_congr (hframe _ k1 (by decide))] at e2
  rw [GetReserveState_congr (hframe _ k2 (by decide))] at e3
  cases e1
  have hv := U64_sub_val st.TotalDebt t.Amount hle
  simp only at hpos ⊢
  rw [hv] at hpos ⊢
  have h0 := hinv st risk2 res2 hst e2 e3 (by omega)
  exact Nat.le_trans (Nat.mul_le_mul_right _ (Nat.sub_le _ _)) h0

/-- Shared part of C23: every successful action other than `update_reserve_state`
and `set_risk_params` preserves the reserve floor. -/
theorem ReserveFloor_step {env : Env} {act : Action} {mu s : Store} {ts : I64}
    {actor : Address} {tx : ID} (h : act.execute env mu ts actor tx = .ok s)
    (hu : ∀ a, act ≠ .updateReserveState a) (hr : ∀ a, act ≠ .setRiskParams a)
    (hinv : ReserveFloor mu) : ReserveFloor s := by
  by_cases hw : vaiStatePrefix ∈ act.writePrefixes ∨ riskConfigPrefix ∈ act.writePrefixes
      ∨ reserveStatePrefix ∈ act.writePrefixes
  · cases act <;> simp only [Action.writePrefixes] at hw <;>
      try (exact absurd hw (by decide))
    · rename_i a
      simp only [Action.execute] at h
      cases hx : a.Execute mu ts actor tx with
      | error e => rw [hx] at h; cases h
      | ok p =>
        rw [hx] at h
        cases h
        exact MintVAI_establishes_floor hx
    · rename_i a
      simp only [Action.execute] at h
      cases hx : a.Execute mu ts actor tx with
      | error e => rw [hx] at h; cases h
      | ok p =>
        rw [hx] at h
        cases h
        exact BurnVAI_preserves_floor hx hinv
    · rename_i a
      exact absurd rfl (hu a)
    · rename_i a
      exact absurd rfl (hr a)
  · have h1 : vaiStatePrefix ∉ act.writePrefixes := fun e => hw (Or.inl e)
    have h2 : riskConfigPrefix ∉ act.writePrefixes := fun e => hw (Or.inr (Or.inl e))
    have h3 : reserveStatePrefix ∉ act.writePrefixes := fun e => hw (Or.inr (Or.inr e))
    exact ReserveFloor_congr
      (row_unchanged_of_not_written h VAIStateKey vaiStatePrefix rfl h1)
      (row_unchanged_of_not_written h RiskConfigKey riskConfigPrefix rfl h2)
      (row_unchanged_of_not_written h ReserveStateKey reserveStatePrefix rfl h3) hinv

/-- C23 (amended): starting from any state that satisfies the reserve floor
(`total_debt > 0` implies `exogenous_reserve * 10000 ≥ total_debt *
backing_floor_bips`), every successful action other than
`update_reserve_state` and `set_risk_params`, in particular `mint_vai` and
`burn_vai`, yields a state that satisfies it again. -/
theorem reserve_floor_preserved (env : Env) (act : Action) (mu s : Store) (ts : I64)
    (actor : Address) (tx : ID) (h : act.execute env mu ts actor tx = .ok s)
    (hu : ∀ a, act ≠ .updateReserveState a) (hr : ∀ a, act ≠ .setRiskParams a)
    (hinv : ReserveFloor mu) : ReserveFloor s :=
  ReserveFloor_step h hu hr hinv

/-- C23 (witness): the mint of the scenario, from the debt-free vault. -/
theorem reserve_floor_preserved_witness : ReserveFloor Scenario.afterMint := by
  have hx := eq_ok_pair_of_succeeded
    ((⟨Scenario.trader, 1000000⟩ : MintVAI).Execute Scenario.vaiGenesis ⟨1700000000000⟩
      Scenario.minter Scenario.txID) (Store.empty, ⟨0, 0⟩) (by decide!)
  have h : (Action.mintVAI ⟨Scenario.trader, 1000000⟩).execute Scenario.env Scenario.vaiGenesis
      ⟨1700000000000⟩ Scenario.minter Scenario.txID = .ok Scenario.afterMint := by
    simp only [Action.execute]
    rw [hx]
    rfl
  have h0 : ReserveFloor Scenario.vaiGenesis := by
    intro st risk res e1 _ _ hpos
    have c1 : GetVAIState Scenario.vaiGenesis = .ok ⟨0, ⟨0⟩, 0⟩ := by decide!
    rw [c1] at e1
    cases e1
    exact absurd hpos (by decide)
  exact reserve_floor_preserved Scenario.env _ Scenario.vaiGenesis Scenario.afterMint
    ⟨1700000000000⟩ Scenario.minter Scenario.txID h (fun a e => by cases e)
    (fun a e => by cases e) h0

/-- C23 (counterexample): after the mint of the scenario (debt 1000000, reserve
1000000, floor 10000 bips) the floor holds; governance's
`update_reserve_state(0, 0)` succeeds and leaves debt 1000000 against reserve
0, and `set_risk_params` with `backing_floor_bips = 20000` succeeds and
leaves `1000000 * 20000 > 1000000 * 10000`: both break the floor. -/
theorem reserve_floor_broken_counterexample :
    ReserveFloor Scenario.afterMint
      ∧ succeeded ((⟨0, 0⟩ : UpdateReserveState).Execute Scenario.afterMint ⟨1700000001000⟩
          Scenario.governance Scenario.txID) = true
      ∧ GetVAIState Scenario.afterReserveUpdate = .ok ⟨1000000, ⟨1700000000000⟩, 1000000⟩
      ∧ GetRiskConfig Scenario.afterReserveUpdate = .ok Scenario.riskConfig
      ∧ GetReserveState Scenario.afterReserveUpdate = .ok ⟨0, 0⟩
      ∧ ¬ ReserveFloor Scenario.afterReserveUpdate
      ∧ succeeded ((⟨20000, 5000, 5000, 0, 1000, 1000, 1000⟩ : SetRiskParams).Execute
          Scenario.afterMint ⟨1700000001000⟩ Scenario.governance Scenario.txID) = true
      ∧ GetVAIState Scenario.afterRiskUpdate = .ok ⟨1000000, ⟨1700000000000⟩, 1000000⟩
      ∧ GetRiskConfig Scenario.afterRiskUpdate = .ok ⟨20000, 5000, 5000, 0, 1000, 1000, 1000⟩
      ∧ GetReserveState Scenario.afterRiskUpdate = .ok ⟨1000000, 0⟩
      ∧ ¬ ReserveFloor Scenario.afterRiskUpdate := by
  have a1 : GetVAIState Scenario.afterMint = .ok ⟨1000000, ⟨1700000000000⟩, 1000000⟩ := by
    decide!
  have a2 : GetRiskConfig Scenario.afterMint = .ok Scenario.riskConfig := by decide!
  have a3 : GetReserveState Scenario.afterMint = .ok ⟨1000000, 0⟩ := by decide!
  have b1 : GetVAIState Scenario.afterReserveUpdate
      = .ok ⟨1000000, ⟨1700000000000⟩, 1000000⟩ := by decide!
  have b2 : GetRiskConfig Scenario.afterReserveUpdate = .ok Scenario.riskConfig := by decide!
  have b3 : GetReserveState Scenario.afterReserveUpdate = .ok ⟨0, 0⟩ := by decide!
  have c1 : GetVAIState Scenario.afterRiskUpdate
      = .ok ⟨1000000, ⟨1700000000000⟩, 1000000⟩ := by decide!
  have c2 : GetRiskConfig Scenario.afterRiskUpdate
      = .ok ⟨20000, 5000, 5000, 0, 1000, 1000, 1000⟩ := by decide!
  have c3 : GetReserveState Scenario.afterRiskUpdate = .ok ⟨1000000, 0⟩ := by decide!
  refine ⟨?_, by decide!, b1, b2, b3, ?_, by decide!, c1, c2, c3, ?_⟩
  · intro st risk res e1 e2 e3 _
    rw [a1] at e1
    rw [a2] at e2
    rw [a3] at e3
    cases e1
    cases e2
    cases e3
    decide
  · intro hf
    exact absurd (hf _ _ _ b1 b2 b3 (by decide)) (by decide)
  · intro hf
    exact absurd (hf _ _ _ c1 c2 c3 (by decide)) (by decide)

/-! ## Creating pools -/

theorem GetPool_error_notFound_iff (mu : Store) (a b : Byte) (e : Err)
    (h : GetPool mu a b = .error e) :
    errorsIs e ErrPoolNotFound = true ↔ mu (PoolKey a b) = none := by
  unfold GetPool at h
  split at h
  · rename_i hnone
    cases h
    exact ⟨fun _ => hnone, fun _ => by decide⟩
  · rename_i v hv
    unfold parsePool at h
    split at h
    · cases h
      constructor
      · intro e
        exact absurd e (by decide)
      · intro e
        rw [hv] at e
        cases e
    · cases h

/-- Exactly when `create_pool` succeeds, and what it then writes and returns. -/
theorem CreatePool_ok_iff (a : CreatePool) (mu s : Store) (ts : I64) (actor : Address)
    (tx : ID) (r : CreatePoolResult) :
    a.Execute mu ts actor tx = .ok (s, r) ↔
      validateAssetPair a.Asset0 a.Asset1 = none
        ∧ (1 ≤ a.FeeBips.val ∧ a.FeeBips.val ≤ 1000)
        ∧ (∃ cfg, GetTreasuryConfig mu = .ok cfg ∧ actor = cfg.Governance)
        ∧ mu (PoolKey a.Asset0 a.Asset1) = none
        ∧ s = PutPool mu ⟨(sortedPair a.Asset0 a.Asset1).1, (sortedPair a.Asset0 a.Asset1).2,
            a.FeeBips, 0, 0, 0⟩
        ∧ r = ⟨(sortedPair a.Asset0 a.Asset1).1, (sortedPair a.Asset0 a.Asset1).2,
            a.FeeBips⟩ := by
  constructor
  · intro h
    unfold CreatePool.Execute at h
    split at h
    · cases h
    rename_i hv
    split at h
    · cases h
    rename_i hfee
    split at h
    · cases h
    rename_i cfg hcfg
    split at h
    · cases h
    rename_i hgov
    split at h
    · cases h
    rename_i e hpool
    split at h
    · cases h
    rename_i hnf
    cases h
    have hfee1 : 1 ≤ a.FeeBips.val :=
      Nat.le_of_not_lt (fun e1 => hfee (Or.inl (show a.FeeBips < MinPoolFeeBips from e1)))
    have hfee2 : a.FeeBips.val ≤ 1000 :=
      Nat.le_of_not_lt (fun e1 => hfee (Or.inr (show a.FeeBips > MaxPoolFeeBips from e1)))
    exact ⟨hv, ⟨hfee1, hfee2⟩, ⟨cfg, hcfg, Decidable.of_not_not hgov⟩,
      (GetPool_error_notFound_iff mu _ _ e hpool).mp (by simpa using hnf), rfl, rfl⟩
  · rintro ⟨hv, ⟨hfee1, hfee2⟩, ⟨cfg, hcfg, hgov⟩, hnone, hs, hr⟩
    have hpool : GetPool mu a.Asset0 a.Asset1 = .error ErrPoolNotFound := by
      unfold GetPool
      rw [hnone]
    have hfee : ¬ (a.FeeBips < MinPoolFeeBips ∨ a.FeeBips > MaxPoolFeeBips) := by
      intro e
      rcases e with e | e
      · exact absurd (show a.FeeBips.val < 1 from e) (by omega)
      · exact absurd (show 1000 < a.FeeBips.val from e) (by omega)
    unfold CreatePool.Execute
    rw [hv]
    simp only
    rw [if_neg hfee, hcfg]
    simp only
    rw [if_neg (not_not.mpr hgov), hpool]
    simp only
    rw [if_neg (by decide), hs, hr]

/-! ## Pool rows keep their assets and fee -/

theorem agreeOutside_PutPool_both {L : List Byte} {mu s : Store} (pool : Pool)
    (h : agreeOutside L mu s) : agreeOutside L (PutPool mu pool) (PutPool s pool) := by
  intro q hq
  unfold PutPool Store.insert
  by_cases hk : q = PoolKey pool.Asset0 pool.Asset1
  · simp [hk]
  · simp [hk, h q hq]

theorem agreeOutside_symm {L : List Byte} {mu s : Store} (h : agreeOutside L mu s) :
    agreeOutside L s mu :=
  fun q hq => (h q hq).symm

/-- A row written by `PutPool` parses to a pool in sorted order with the fee it was given. -/
theorem GetPool_PutPool_key (mu : Store) (pool p : Pool) (a b : Byte)
    (hk : PoolKey a b = PoolKey pool.Asset0 pool.Asset1)
    (h : GetPool (PutPool mu pool) a b = .ok p) :
    p.FeeBips = pool.FeeBips ∧ p.Asset0 ≤ p.Asset1 := by
  have h1 : GetPool (PutPool mu pool) a b = GetPool (PutPool mu pool) pool.Asset0 pool.Asset1 := by
    unfold GetPool
    rw [hk]
  rw [h1, parsePool_PutPool] at h
  cases h
  refine ⟨rfl, ?_⟩
  show (sortedAssetPair pool.Asset0 pool.Asset1).1 ≤ (sortedAssetPair pool.Asset0 pool.Asset1).2
  unfold sortedAssetPair
  split
  · assumption
  · rename_i hle
    exact Fin.le_of_lt (Fin.not_le.mp hle)

/-- If the pool rows of `s` are those of `mu` with one pool rewritten by
`PutPool`, keeping a fee in `[1, 1000]`, then `s` is well formed when `mu` is. -/
theorem PoolsWellFormed_of_PutPool {mu s : Store} {pool1 : Pool}
    (hrows : agreeOutside [ balancePrefix, vaiBalancePrefix, lpBalancePrefix]
      (PutPool mu pool1) s)
    (hfee : 1 ≤ pool1.FeeBips.val ∧ pool1.FeeBips.val ≤ 1000) (hinv : PoolsWellFormed mu) :
    PoolsWellFormed s := by
  intro a b p hp
  have hrow : s (PoolKey a b) = PutPool mu pool1 (PoolKey a b) := by
    apply hrows
    intro q hq hh
    rw [PoolKey_head] at hh
    cases hh
    revert hq
    decide
  rw [GetPool_congr a b hrow] at hp
  by_cases hk : PoolKey a b = PoolKey pool1.Asset0 pool1.Asset1
  · obtain ⟨e1, e2⟩ := GetPool_PutPool_key mu pool1 p a b hk hp
    rw [e1]
    exact ⟨hfee, e2⟩
  · rw [GetPool_congr a b (PutPool_other mu pool1 _ hk)] at hp
    exact hinv a b p hp

/-- The pool rows after a successful swap. -/
theorem SwapExactIn_pool_rows {a : SwapExactIn} {mu s : Store} {ts : I64} {actor : Address}
    {tx : ID} {r : SwapExactInResult} (h : a.Execute mu ts actor tx = .ok (s, r)) :
    ∃ pool pool1, GetPool mu a.AssetIn a.AssetOut = .ok pool
      ∧ pool1.FeeBips = pool.FeeBips
      ∧ agreeOutside [ balancePrefix, vaiBalancePrefix, lpBalancePrefix]
          (PutPool mu pool1) s := by
  have key : ∀ (pool : Pool) (inIs0 : Bool) (rin rout : U64),
      SwapExactIn.swap a mu actor pool inIs0 rin rout = .ok (s, r) →
      ∃ pool1, pool1.FeeBips = pool.FeeBips
        ∧ agreeOutside [ balancePrefix, vaiBalancePrefix, lpBalancePrefix]
            (PutPool mu pool1) s := by
    intro pool inIs0 rin rout hsw
    obtain ⟨b1, mu1, inWithFee, den, out, pool1, rb, -, -, hsub, -, -, -, -, -, -, -, hnext,
      hadd, -⟩ := SwapExactIn_swap_inv hsw
    obtain ⟨-, -, hfee, -⟩ := nextPool_inv hnext
    refine ⟨pool1, hfee, ?_⟩
    have f1 : agreeOutside [ balancePrefix, vaiBalancePrefix, lpBalancePrefix] mu mu1 :=
      subAssetBalance_frame (by simp) (by simp) (agreeOutside_refl _ _) hsub
    exact addAssetBalance_frame (by simp) (by simp)
      (agreeOutside_PutPool_both pool1 f1) hadd
  unfold SwapExactIn.Execute at h
  split at h
  · cases h
  split at h
  · cases h
  split at h
  · cases h
  rename_i pool hpool
  split at h
  · obtain ⟨pool1, h1, h2⟩ := key _ _ _ _ h
    exact ⟨pool, pool1, hpool, h1, h2⟩
  split at h
  · obtain ⟨pool1, h1, h2⟩ := key _ _ _ _ h
    exact ⟨pool, pool1, hpool, h1, h2⟩
  · cases h

/-- The pool rows after a successful removal of liquidity. -/
theorem RemoveLiquidity_pool_rows {a : RemoveLiquidity} {mu s : Store} {ts : I64}
    {actor : Address} {tx : ID} {r : RemoveLiquidityResult}
    (h : a.Execute mu ts actor tx = .ok (s, r)) :
    ∃ pool pool1, GetPool mu a.Asset0 a.Asset1 = .ok pool
      ∧ pool1.FeeBips = pool.FeeBips
      ∧ agreeOutside [ balancePrefix, vaiBalancePrefix, lpBalancePrefix]
          (PutPool mu pool1) s := by
  cases hp : GetPool mu a.Asset0 a.Asset1 with
  | error e =>
    unfold RemoveLiquidity.Execute at h
    rw [hp] at h
    simp only at h
    split at h
    · cases h
    split at h
    · cases h
    · cases h
  | ok pool =>
    obtain ⟨lpb, out0, out1, m0, m1, -, -, -, -, -, -, -, -, -, hsettle⟩ :=
      RemoveLiquidity_Execute_inv hp h
    obtain ⟨nr0, nr1, nT, nlp, mu2, nb0, mu3, nb1, o0, o1, -, -, -, hlp, hadd0, hadd1, -, -⟩ :=
      RemoveLiquidity_settle_inv hsettle
    refine ⟨pool, { pool with Reserve0 := nr0, Reserve1 := nr1, TotalLP := nT }, rfl, rfl, ?_⟩
    have f1 := SubLPBalance_frame (L := [ balancePrefix, vaiBalancePrefix, lpBalancePrefix])
      (by simp) (agreeOutside_refl _ _) hlp
    have f2 := addAssetBalance_frame (by simp) (by simp) f1 hadd0
    exact addAssetBalance_frame (by simp) (by simp) f2 hadd1

/-- The pool rows after a successful deposit of liquidity. -/
theorem AddLiquidity_pool_rows {a : AddLiquidity} {mu s : Store} {ts : I64} {actor : Address}
    {tx : ID} {r : AddLiquidityResult} (h : a.Execute mu ts actor tx = .ok (s, r)) :
    ∃ pool pool1, GetPool mu a.Asset0 a.Asset1 = .ok pool
      ∧ pool1.FeeBips = pool.FeeBips
      ∧ agreeOutside [ balancePrefix, vaiBalancePrefix, lpBalancePrefix]
          (PutPool mu pool1) s := by
  obtain ⟨pool, a0p, a1p, n0, mu1, n1, mu2, hv, hamt, hpool, hmap, hs0, hs1⟩ :=
    AddLiquidity_debits_inv h
  rw [AddLiquidity_after_debits hv hamt hpool hmap hs0 hs1] at h
  split at h
  · cases h
  rename_i minted hminted
  split at h
  · cases h
  split at h
  · cases h
  rename_i nr0 hr0
  split at h
  · cases h
  rename_i nr1 hr1
  split at h
  · cases h
  rename_i nT hT
  split at h
  · cases h
  rename_i lpBalance mu4 hlp
  cases h
  refine ⟨pool, { pool with Reserve0 := nr0, Reserve1 := nr1, TotalLP := nT }, hpool, rfl, ?_⟩
  have f1 : agreeOutside [ balancePrefix, vaiBalancePrefix, lpBalancePrefix] mu mu1 :=
    subAssetBalance_frame (by simp) (by simp) (agreeOutside_refl _ _) hs0
  have f2 := subAssetBalance_frame (by simp) (by simp) f1 hs1
  exact AddLPBalance_frame (by simp) (agreeOutside_PutPool_both _ f2) hlp

/-- Every successful action keeps the stored pools well formed: only
`create_pool`, `add_liquidity`, `remove_liquidity` and `swap_exact_in` write
pool rows, the first with a checked fee and the others with the fee they read. -/
theorem PoolsWellFormed_step {env : Env} {act : Action} {mu s : Store} {ts : I64}
    {actor : Address} {tx : ID} (h : act.execute env mu ts actor tx = .ok s)
    (hinv : PoolsWellFormed mu) : PoolsWellFormed s := by
  by_cases hw : poolPrefix ∈ act.writePrefixes
  · cases act <;> simp only [Action.writePrefixes] at hw <;>
      try (exact absurd hw (by decide))
    · rename_i a
      simp only [Action.execute] at h
      cases hx : a.Execute mu ts actor tx with
      | error e => rw [hx] at h; cases h
      | ok p =>
        rw [hx] at h
        cases h
        obtain ⟨-, hfee, -, -, hs, -⟩ := (CreatePool_ok_iff a mu p.1 ts actor tx p.2).mp hx
        rw [hs]
        exact PoolsWellFormed_of_PutPool (agreeOutside_refl _ _) hfee hinv
    · rename_i a
      simp only [Action.execute] at h
      cases hx : a.Execute mu ts actor tx with
      | error e => rw [hx] at h; cases h
      | ok p =>
        rw [hx] at h
        cases h
        obtain ⟨pool, pool1, hpool, hfee, hrows⟩ := AddLiquidity_pool_rows hx
        exact PoolsWellFormed_of_PutPool hrows (by rw [hfee]; exact (hinv _ _ _ hpool).1) hinv
    · rename_i a
      simp only [Action.execute] at h
      cases hx : a.Execute mu ts actor tx with
      | error e => rw [hx] at h; cases h
      | ok p =>
        rw [hx] at h
        cases h
        obtain ⟨pool, pool1, hpool, hfee, hrows⟩ := RemoveLiquidity_pool_rows hx
        exact PoolsWellFormed_of_PutPool hrows (by rw [hfee]; exact (hinv _ _ _ hpool).1) hinv
    · rename_i a
      simp only [Action.execute] at h
      cases hx : a.Execute mu ts actor tx with
      | error e => rw [hx] at h; cases h
      | ok p =>
        rw [hx] at h
        cases h
        obtain ⟨pool, pool1, hpool, hfee, hrows⟩ := SwapExactIn_pool_rows hx
        exact PoolsWellFormed_of_PutPool hrows (by rw [hfee]; exact (hinv _ _ _ hpool).1) hinv
  · intro a b p hp
    rw [GetPool_congr a b
      (row_unchanged_of_not_written h (PoolKey a b) poolPrefix (PoolKey_head a b) hw)] at hp
    exact hinv a b p hp

theorem sortedPair_min_max (a b : Byte) : sortedPair a b = (min a b, max a b) := by
  unfold sortedPair
  split
  · rename_i h
    rw [min_eq_left h, max_eq_right h]
  · rename_i h
    have h1 : b ≤ a := Fin.le_of_lt (Fin.not_le.mp h)
    rw [min_eq_right h1, max_eq_left h1]

/-- C21: `create_pool(asset0, asset1, fee_bips)` succeeds if and only if both
assets are supported tags (0 or 1), `asset0 ≠ asset1`, `fee_bips ∈ [1, 1000]`,
the actor is `TreasuryConfig.governance` and no pool row exists for the pair;
on success the stored pool is `(min, max, fee_bips, 0, 0, 0)`; and every
successful action of the action set keeps every stored pool with
`fee_bips ∈ [1, 1000]` and `asset0 ≤ asset1`. -/
theorem CreatePool_success_iff (a : CreatePool) (mu : Store) (ts : I64) (actor : Address)
    (tx : ID) :
    ((∃ s r, a.Execute mu ts actor tx = .ok (s, r)) ↔
        (a.Asset0 = 0 ∨ a.Asset0 = 1) ∧ (a.Asset1 = 0 ∨ a.Asset1 = 1) ∧ a.Asset0 ≠ a.Asset1
          ∧ (1 ≤ a.FeeBips.val ∧ a.FeeBips.val ≤ 1000)
          ∧ (∃ cfg, GetTreasuryConfig mu = .ok cfg ∧ actor = cfg.Governance)
          ∧ mu (PoolKey a.Asset0 a.Asset1) = none)
      ∧ (∀ s r, a.Execute mu ts actor tx = .ok (s, r) →
          GetPool s a.Asset0 a.Asset1
              = .ok ⟨min a.Asset0 a.Asset1, max a.Asset0 a.Asset1, a.FeeBips, 0, 0, 0⟩
            ∧ r = ⟨min a.Asset0 a.Asset1, max a.Asset0 a.Asset1, a.FeeBips⟩
            ∧ ∀ q, q ≠ PoolKey a.Asset0 a.Asset1 → s q = mu q)
      ∧ (∀ (env : Env) (act : Action) (mu0 s0 : Store) (ts0 : I64) (actor0 : Address)
          (tx0 : ID), act.execute env mu0 ts0 actor0 tx0 = .ok s0 →
            PoolsWellFormed mu0 → PoolsWellFormed s0) := by
  have hval : validateAssetPair a.Asset0 a.Asset1 = none ↔
      (a.Asset0 = 0 ∨ a.Asset0 = 1) ∧ (a.Asset1 = 0 ∨ a.Asset1 = 1) ∧ a.Asset0 ≠ a.Asset1 := by
    rw [validateAssetPair_none_iff, isSupportedAsset_iff, isSupportedAsset_iff]
    rfl
  refine ⟨⟨?_, ?_⟩, ?_, ?_⟩
  · rintro ⟨s, r, h⟩
    obtain ⟨hv, hfee, hgov, hnone, -, -⟩ := (CreatePool_ok_iff a mu s ts actor tx r).mp h
    obtain ⟨h1, h2, h3⟩ := hval.mp hv
    exact ⟨h1, h2, h3, hfee, hgov, hnone⟩
  · rintro ⟨h1, h2, h3, hfee, hgov, hnone⟩
    exact ⟨_, _, (CreatePool_ok_iff a mu _ ts actor tx _).mpr
      ⟨hval.mpr ⟨h1, h2, h3⟩, hfee, hgov, hnone, rfl, rfl⟩⟩
  · intro s r h
    obtain ⟨-, -, -, -, hs, hr⟩ := (CreatePool_ok_iff a mu s ts actor tx r).mp h
    have hsp := sortedPair_min_max a.Asset0 a.Asset1
    have e1 : (sortedPair a.Asset0 a.Asset1).1 = min a.Asset0 a.Asset1 := by rw [hsp]
    have e2 : (sortedPair a.Asset0 a.Asset1).2 = max a.Asset0 a.Asset1 := by rw [hsp]
    rw [e1, e2] at hs hr
    have hkey : PoolKey (min a.Asset0 a.Asset1) (max a.Asset0 a.Asset1)
        = PoolKey a.Asset0 a.Asset1 := by
      rcases Fin.le_total a.Asset0 a.Asset1 with hle | hle
      · rw [min_eq_left hle, max_eq_right hle]
      · rw [min_eq_right hle, max_eq_left hle]
        exact PoolKey_comm _ _
    have hsorted : sortedAssetPair (min a.Asset0 a.Asset1) (max a.Asset0 a.Asset1)
        = (min a.Asset0 a.Asset1, max a.Asset0 a.Asset1) := by
      unfold sortedAssetPair
      rw [if_pos (le_trans (min_le_left _ _) (le_max_left _ _))]
    refine ⟨?_, hr, ?_⟩
    · have hget := parsePool_PutPool mu
        ⟨min a.Asset0 a.Asset1, max a.Asset0 a.Asset1, a.FeeBips, 0, 0, 0⟩
      simp only [hsorted] at hget
      rw [hs]
      unfold GetPool at hget ⊢
      rw [← hkey]
      exact hget
    · intro q hq
      rw [hs]
      exact PutPool_other mu _ q (by simp only; rw [hkey]; exact hq)
  · intro env act mu0 s0 ts0 actor0 tx0 h hinv
    exact PoolsWellFormed_step h hinv

/-- C21 (witness): governance creates the pool `(1, 0, fee 30)` in a store
without pools; the stored pool is `(0, 1, 30, 0, 0, 0)`. -/
theorem CreatePool_success_iff_witness :
    GetPool Scenario.afterPoolCreation AssetVAI AssetVEIL = .ok ⟨0, 1, 30, 0, 0, 0⟩ :=
  ((CreatePool_success_iff Scenario.poolCreation Scenario.poolGenesis ⟨0⟩ Scenario.governance
    Scenario.txID).2.1 Scenario.afterPoolCreation _
    (eq_ok_pair_of_succeeded _ (Store.empty, ⟨0, 0, 0⟩) (by decide!))).1

/-! ## The market lifecycle -/

theorem MarketKey_injective {m1 m2 : ID} (h : MarketKey m1 = MarketKey m2) : m1 = m2 := by
  unfold MarketKey at h
  have hl1 := m1.property
  have hl2 := m2.property
  have h1 := List.append_inj_left h (by simp [hl1, hl2])
  have h2 := List.append_inj_right h1 rfl
  exact Subtype.ext h2

/-- A market row written by `PutMarket` reads back as written. -/
theorem GetMarket_PutMarket (mu : Store) (m : ID) (status outcomes : Byte) (rt : I64)
    (ro : Byte) (q : Bytes) :
    GetMarket (PutMarket mu m status outcomes rt ro q) m = .ok ⟨status, outcomes, rt, ro, q⟩ := by
  unfold GetMarket PutMarket
  rw [Store.insert_same]
  simp only
  generalize hv : [status, outcomes] ++ be64 rt.bits ++ [ro] ++ q = v
  have hlen : v.length = 11 + q.length := by
    subst hv
    simp [be64_length]
    omega
  have e0 : v.getD 0 0 = status :=
    getD_eq_of v [] status ([outcomes] ++ be64 rt.bits ++ [ro] ++ q)
      (by rw [← hv]; simp [List.append_assoc]) 0 rfl
  have e1 : v.getD 1 0 = outcomes :=
    getD_eq_of v [status] outcomes (be64 rt.bits ++ [ro] ++ q)
      (by rw [← hv]; simp [List.append_assoc]) 1 rfl
  have e2 : slice v 2 10 = be64 rt.bits :=
    slice_eq_of v [status, outcomes] _ ([ro] ++ q)
      (by rw [← hv]; simp [List.append_assoc]) 2 10 rfl rfl
  have e3 : v.getD 10 0 = ro :=
    getD_eq_of v ([status, outcomes] ++ be64 rt.bits) ro q (by rw [← hv]) 10 rfl
  have e4 : v.drop 11 = q := by
    subst hv
    have hl : ([status, outcomes] ++ be64 rt.bits ++ [ro]).length = 11 := rfl
    rw [← hl, List.drop_left]
  rw [if_neg (by omega), e0, e1, e2, e3, e4, u64be_be64]

theorem PutMarket_other (mu : Store) (m : ID) (status outcomes : Byte) (rt : I64) (ro : Byte)
    (q k : Bytes) (h : k ≠ MarketKey m) : PutMarket mu m status outcomes rt ro q k = mu k := by
  unfold PutMarket
  exact Store.insert_other _ _ _ _ h

/-- What a successful `create_market` checked and wrote. -/
theorem CreateMarket_Execute_inv {a : CreateMarket} {mu s : Store} {ts : I64}
    {actor : Address} {tx : ID} {r : CreateMarketResult}
    (h : a.Execute mu ts actor tx = .ok (s, r)) :
    ∃ nb mu1, 2 ≤ a.Outcomes.val ∧ 0 < a.ResolutionTime.toInt ∧ a.CreatorBond ≠ 0
      ∧ a.Question.length ≤ MaxQuestionSize
      ∧ mu (MarketKey a.MarketID) = none
      ∧ SubBalance mu actor a.CreatorBond = .ok (nb, mu1)
      ∧ s = PutMarket mu1 a.MarketID MarketStatusActive a.Outcomes a.ResolutionTime 0 a.Question
      ∧ r = ⟨nb⟩ := by
  unfold CreateMarket.Execute at h
  split at h
  · cases h
  rename_i h1
  split at h
  · cases h
  rename_i h2
  split at h
  · cases h
  rename_i h3
  split at h
  · cases h
  rename_i h4
  split at h
  · cases h
  rename_i e hget
  split at h
  · cases h
  rename_i hnf
  split at h
  · cases h
  rename_i nb mu1 hsub
  cases h
  have hnone : mu (MarketKey a.MarketID) = none := by
    unfold GetMarket at hget
    split at hget
    · assumption
    · split at hget
      · cases hget
        exact absurd (by decide) hnf
      · cases hget
  exact ⟨nb, mu1, Nat.le_of_not_lt h1, Int.not_le.mp h2, h3, Nat.le_of_not_lt h4, hnone, hsub,
    rfl, rfl⟩

/-- What a successful `resolve_market` checked and wrote. -/
theorem ResolveMarket_Execute_inv {a : ResolveMarket} {mu s : Store} {ts : I64}
    {actor : Address} {tx : ID} {r : ResolveMarketResult}
    (h : a.Execute mu ts actor tx = .ok (s, r)) :
    ∃ mk, GetMarket mu a.MarketID = .ok mk ∧ mk.status = MarketStatusActive
      ∧ a.Outcome.val < mk.outcomes.val
      ∧ s = PutMarket mu a.MarketID MarketStatusResolved mk.outcomes mk.resolutionTime
          a.Outcome mk.question
      ∧ r = ⟨a.Outcome⟩ := by
  unfold ResolveMarket.Execute at h
  split at h
  · cases h
  split at h
  · cases h
  split at h
  · cases h
  rename_i mk hget
  split at h
  · cases h
  rename_i hst
  split at h
  · cases h
  rename_i hout
  cases h
  exact ⟨mk, hget, Decidable.of_not_not hst, Nat.lt_of_not_le hout, rfl, rfl⟩

/-- What a successful `dispute` checked and wrote. -/
theorem Dispute_Execute_inv {a : Dispute} {mu s : Store} {ts : I64} {actor : Address}
    {tx : ID} {r : DisputeResult} (h : a.Execute mu ts actor tx = .ok (s, r)) :
    ∃ mk nb mu1, GetMarket mu a.MarketID = .ok mk ∧ mk.status = MarketStatusResolved
      ∧ SubBalance mu actor a.Bond = .ok (nb, mu1)
      ∧ s = PutDispute (PutMarket mu1 a.MarketID MarketStatusDisputed mk.outcomes
          mk.resolutionTime mk.resolvedOutcome mk.question) a.MarketID a.Bond a.Evidence
      ∧ r = ⟨nb⟩ := by
  unfold Dispute.Execute at h
  split at h
  · cases h
  split at h
  · cases h
  split at h
  · cases h
  split at h
  · cases h
  rename_i mk hget
  split at h
  · cases h
  rename_i hst
  split at h
  · cases h
  rename_i nb mu1 hsub
  cases h
  exact ⟨mk, nb, mu1, hget, Decidable.of_not_not hst, hsub, rfl, rfl⟩

/-- `create_market` on an id whose market exists always fails; with valid
parameters the error is `ErrMarketExists`, otherwise it is the error of the
first parameter check that fails. -/
theorem CreateMarket_existing {a : CreateMarket} {mu : Store} {mk : Market}
    (hget : GetMarket mu a.MarketID = .ok mk) (ts : I64) (actor : Address) (tx : ID) :
    ∃ e, a.Execute mu ts actor tx = .error e
      ∧ (2 ≤ a.Outcomes.val → 0 < a.ResolutionTime.toInt → a.CreatorBond ≠ 0
          → a.Question.length ≤ MaxQuestionSize → e = ErrMarketExists) := by
  unfold CreateMarket.Execute
  by_cases h1 : a.Outcomes.val < 2
  · rw [if_pos h1]
    exact ⟨_, rfl, fun h => absurd h1 (Nat.not_lt.mpr h)⟩
  rw [if_neg h1]
  by_cases h2 : a.ResolutionTime.toInt ≤ 0
  · rw [if_pos h2]
    exact ⟨_, rfl, fun _ h => absurd h2 (Int.not_le.mpr h)⟩
  rw [if_neg h2]
  by_cases h3 : a.CreatorBond = 0
  · rw [if_pos h3]
    exact ⟨_, rfl, fun _ _ h => absurd h3 h⟩
  rw [if_neg h3]
  by_cases h4 : a.Question.length > MaxQuestionSize
  · rw [if_pos h4]
    exact ⟨_, rfl, fun _ _ _ h => absurd h4 (Nat.not_lt.mpr h)⟩
  rw [if_neg h4, hget]
  exact ⟨_, rfl, fun _ _ _ _ => rfl⟩

/-- How one successful action can change the row of market `m`. -/
theorem market_row_step {env : Env} {act : Action} {mu s : Store} {ts : I64}
    {actor : Address} {tx : ID} (h : act.execute env mu ts actor tx = .ok s) (m : ID) :
    s (MarketKey m) = mu (MarketKey m)
      ∨ (∃ a, act = .createMarket a ∧ a.MarketID = m ∧ mu (MarketKey m) = none
          ∧ GetMarket s m
            = .ok ⟨MarketStatusActive, a.Outcomes, a.ResolutionTime, 0, a.Question⟩)
      ∨ (∃ a mk, act = .resolveMarket a ∧ a.MarketID = m ∧ GetMarket mu m = .ok mk
          ∧ mk.status = MarketStatusActive ∧ a.Outcome.val < mk.outcomes.val
          ∧ GetMarket s m
            = .ok ⟨MarketStatusResolved, mk.outcomes, mk.resolutionTime, a.Outcome,
                mk.question⟩)
      ∨ (∃ a mk, act = .dispute a ∧ a.MarketID = m ∧ GetMarket mu m = .ok mk
          ∧ mk.status = MarketStatusResolved
          ∧ GetMarket s m
            = .ok ⟨MarketStatusDisputed, mk.outcomes, mk.resolutionTime, mk.resolvedOutcome,
                mk.question⟩) := by
  by_cases hw : marketPrefix ∈ act.writePrefixes
  · cases act <;> simp only [Action.writePrefixes] at hw <;>
      try (exact absurd hw (by decide))
    · rename_i a
      simp only [Action.execute] at h
      cases hx : a.Execute mu ts actor tx with
      | error e => rw [hx] at h; cases h
      | ok p =>
        rw [hx] at h
        cases h
        obtain ⟨nb, mu1, -, -, -, -, hnone, hsub, hs, -⟩ := CreateMarket_Execute_inv hx
        obtain ⟨bal, -, -, -, hmu1⟩ := (SubBalance_ok_iff _ _ _ _ _).mp hsub
        by_cases hm : a.MarketID = m
        · right
          left
          refine ⟨a, rfl, hm, by rw [← hm]; exact hnone, ?_⟩
          rw [hs, ← hm]
          exact GetMarket_PutMarket _ _ _ _ _ _ _
        · left
          rw [hs, PutMarket_other _ _ _ _ _ _ _ _
            (fun e => hm (MarketKey_injective e).symm), hmu1]
          exact writeSub_other _ _ _ _
            (@ne_of_head (BalanceKey actor) (MarketKey m) balancePrefix marketPrefix rfl rfl
              (by decide))
    · rename_i a
      simp only [Action.execute] at h
      cases hx : a.Execute mu ts actor tx with
      | error e => rw [hx] at h; cases h
      | ok p =>
        rw [hx] at h
        cases h
        obtain ⟨mk, hget, hst, hout, hs, -⟩ := ResolveMarket_Execute_inv hx
        by_cases hm : a.MarketID = m
        · right
          right
          left
          refine ⟨a, mk, rfl, hm, by rw [← hm]; exact hget, hst, hout, ?_⟩
          rw [hs, ← hm]
          exact GetMarket_PutMarket _ _ _ _ _ _ _
        · left
          rw [hs]
          exact PutMarket_other _ _ _ _ _ _ _ _ (fun e => hm (MarketKey_injective e).symm)
    · rename_i a
      simp only [Action.execute] at h
      cases hx : a.Execute mu ts actor tx with
      | error e => rw [hx] at h; cases h
      | ok p =>
        rw [hx] at h
        cases h
        obtain ⟨mk, nb, mu1, hget, hst, hsub, hs, -⟩ := Dispute_Execute_inv hx
        obtain ⟨bal, -, -, -, hmu1⟩ := (SubBalance_ok_iff _ _ _ _ _).mp hsub
        have hd : ∀ k : ID, MarketKey k ≠ DisputeKey a.MarketID := fun k =>
          @ne_of_head (DisputeKey a.MarketID) (MarketKey k) oraclePrefix marketPrefix rfl rfl
            (by decide)
        by_cases hm : a.MarketID = m
        · right
          right
          right
          refine ⟨a, mk, rfl, hm, by rw [← hm]; exact hget, hst, ?_⟩
          have hrow : p.1 (MarketKey m) = (PutMarket mu1 a.MarketID MarketStatusDisputed
              mk.outcomes mk.resolutionTime mk.resolvedOutcome mk.question) (MarketKey m) := by
            rw [hs]
            unfold PutDispute
            exact Store.insert_other _ _ _ _ (hd m)
          rw [GetMarket_congr m hrow, ← hm]
          exact GetMarket_PutMarket _ _ _ _ _ _ _
        · left
          rw [hs]
          unfold PutDispute
          rw [Store.insert_other _ _ _ _ (hd m), PutMarket_other _ _ _ _ _ _ _ _
            (fun e => hm (MarketKey_injective e).symm), hmu1]
          exact writeSub_other _ _ _ _
            (@ne_of_head (BalanceKey actor) (MarketKey m) balancePrefix marketPrefix rfl rfl
              (by decide))
  · exact Or.inl (row_unchanged_of_not_written h (MarketKey m) marketPrefix rfl hw)

/-- One transaction, successful or not, keeps an existing market: its outcomes,
resolution time and question stay, and its status does not go down. -/
theorem market_kept_apply (st : Step) (mu : Store) (m : ID) (mk : Market)
    (hget : GetMarket mu m = .ok mk) :
    ∃ mk1, GetMarket (st.apply mu) m = .ok mk1 ∧ mk1.outcomes = mk.outcomes
      ∧ mk1.resolutionTime = mk.resolutionTime ∧ mk1.question = mk.question
      ∧ mk.status.val ≤ mk1.status.val := by
  unfold Step.apply
  cases hx : st.act.execute st.env mu st.timestamp st.actor st.txID with
  | error e => exact ⟨mk, hget, rfl, rfl, rfl, Nat.le_refl _⟩
  | ok s =>
    simp only
    rcases market_row_step hx m with h | ⟨a, -, -, hnone, -⟩ | ⟨a, mk0, -, -, hg, hst, -, hs⟩
      | ⟨a, mk0, -, -, hg, hst, hs⟩
    · exact ⟨mk, by rw [GetMarket_congr m h]; exact hget, rfl, rfl, rfl, Nat.le_refl _⟩
    · unfold GetMarket at hget
      rw [hnone] at hget
      cases hget
    · rw [hget] at hg
      cases hg
      refine ⟨_, hs, rfl, rfl, rfl, ?_⟩
      rw [hst]
      exact (by decide : MarketStatusActive.val ≤ MarketStatusResolved.val)
    · rw [hget] at hg
      cases hg
      refine ⟨_, hs, rfl, rfl, rfl, ?_⟩
      rw [hst]
      exact (by decide : MarketStatusResolved.val ≤ MarketStatusDisputed.val)

/-- Along any sequence of transactions an existing market is kept, with the
same outcomes, resolution time and question and a status that never goes down. -/
theorem market_kept_run (steps : List Step) (mu : Store) (m : ID) (mk : Market)
    (hget : GetMarket mu m = .ok mk) :
    ∃ mk1, GetMarket (run steps mu) m = .ok mk1 ∧ mk1.outcomes = mk.outcomes
      ∧ mk1.resolutionTime = mk.resolutionTime ∧ mk1.question = mk.question
      ∧ mk.status.val ≤ mk1.status.val := by
  induction steps generalizing mu mk with
  | nil => exact ⟨mk, hget, rfl, rfl, rfl, Nat.le_refl _⟩
  | cons st rest ih =>
    obtain ⟨mk1, h1, e1, e2, e3, e4⟩ := market_kept_apply st mu m mk hget
    obtain ⟨mk2, h2, f1, f2, f3, f4⟩ := ih (st.apply mu) mk1 h1
    have e : run (st :: rest) mu = run rest (st.apply mu) := rfl
    rw [e]
    exact ⟨mk2, h2, f1.trans e1, f2.trans e2, f3.trans e3, Nat.le_trans e4 f4⟩

/-- C28 (amended): the market lifecycle is forward-only. For every transaction
(successful or not), state and market id `m`, the row of `m` is unchanged, or
it is created as Active by `create_market` on an id without a row, or it goes
from Active to Resolved by `resolve_market` with `outcome < outcomes`
(recording the outcome), or from Resolved to Disputed by `dispute`, with
outcomes, resolution time and question kept. `create_market` on an id whose
market exists always fails: with `ErrMarketExists` when its parameters are
valid, with the error of the failing parameter check otherwise. Along any
sequence of transactions an existing market is never deleted, its status
never goes down, and its outcomes, resolution time and question never change. -/
theorem market_lifecycle_forward_only (st : Step) (mu : Store) (m : ID) :
    ((st.apply mu) (MarketKey m) = mu (MarketKey m)
        ∨ (∃ a, st.act = .createMarket a ∧ a.MarketID = m ∧ mu (MarketKey m) = none
            ∧ GetMarket (st.apply mu) m
              = .ok ⟨MarketStatusActive, a.Outcomes, a.ResolutionTime, 0, a.Question⟩)
        ∨ (∃ a mk, st.act = .resolveMarket a ∧ a.MarketID = m ∧ GetMarket mu m = .ok mk
            ∧ mk.status = MarketStatusActive ∧ a.Outcome.val < mk.outcomes.val
            ∧ GetMarket (st.apply mu) m
              = .ok ⟨MarketStatusResolved, mk.outcomes, mk.resolutionTime, a.Outcome,
                  mk.question⟩)
        ∨ (∃ a mk, st.act = .dispute a ∧ a.MarketID = m ∧ GetMarket mu m = .ok mk
            ∧ mk.status = MarketStatusResolved
            ∧ GetMarket (st.apply mu) m
              = .ok ⟨MarketStatusDisputed, mk.outcomes, mk.resolutionTime, mk.resolvedOutcome,
                  mk.question⟩))
      ∧ (∀ (a : CreateMarket) (ts : I64) (actor : Address) (tx : ID) (mk : Market),
          GetMarket mu a.MarketID = .ok mk →
            ∃ e, a.Execute mu ts actor tx = .error e
              ∧ (2 ≤ a.Outcomes.val → 0 < a.ResolutionTime.toInt → a.CreatorBond ≠ 0
                  → a.Question.length ≤ 1024 → e = ErrMarketExists))
      ∧ (∀ (steps : List Step) (mk : Market), GetMarket mu m = .ok mk →
          ∃ mk1, GetMarket (run steps mu) m = .ok mk1 ∧ mk1.outcomes = mk.outcomes
            ∧ mk1.resolutionTime = mk.resolutionTime ∧ mk1.question = mk.question
            ∧ mk.status.val ≤ mk1.status.val) := by
  refine ⟨?_, ?_, ?_⟩
  · obtain ⟨env, act, ts, actor, tx⟩ := st
    unfold Step.apply
    simp only
    cases hx : act.execute env mu ts actor tx with
    | error e => exact Or.inl rfl
    | ok s => exact market_row_step hx m
  · intro a ts actor tx mk hget
    exact CreateMarket_existing hget ts actor tx
  · intro steps mk hget
    exact market_kept_run steps mu m mk hget

/-- C28 (witness): the market of the scenario is resolved and then disputed;
it ends Disputed with its two outcomes, resolution time and question. -/
theorem market_lifecycle_forward_only_witness :
    ∃ mk1, GetMarket (run Scenario.lifecycleSteps Scenario.lifecycleGenesis) Scenario.market
        = .ok mk1
      ∧ mk1.outcomes = 2 ∧ mk1.resolutionTime = ⟨100000⟩ ∧ mk1.question = ascii "rain?"
      ∧ MarketStatusActive.val ≤ mk1.status.val :=
  (market_lifecycle_forward_only
      ⟨Scenario.env, .resolveMarket ⟨Scenario.market, 1, [1]⟩, ⟨200000⟩, Scenario.outsider,
        Scenario.txID⟩ Scenario.lifecycleGenesis Scenario.market).2.2
    Scenario.lifecycleSteps ⟨MarketStatusActive, 2, ⟨100000⟩, 0, ascii "rain?"⟩ (by decide!)

/-- C28 (counterexample): the market of the scenario exists; `create_market` on
its id with a single outcome fails with `ErrInvalidOutcomes`, not with
`ErrMarketExists` (which is the error when the parameters are valid). -/
theorem create_market_existing_counterexample :
    GetMarket Scenario.lifecycleGenesis Scenario.market
        = .ok ⟨MarketStatusActive, 2, ⟨100000⟩, 0, ascii "rain?"⟩
      ∧ Scenario.recreation.MarketID = Scenario.market
      ∧ errorOf (Scenario.recreation.Execute Scenario.lifecycleGenesis ⟨150000⟩
          Scenario.trader Scenario.txID) = some ErrInvalidOutcomes
      ∧ ErrInvalidOutcomes ≠ ErrMarketExists
      ∧ errorOf (Scenario.validRecreation.Execute Scenario.lifecycleGenesis ⟨150000⟩
          Scenario.trader Scenario.txID) = some ErrMarketExists
      ∧ GetMarket (run Scenario.lifecycleSteps Scenario.lifecycleGenesis) Scenario.market
        = .ok ⟨MarketStatusDisputed, 2, ⟨100000⟩, 1, ascii "rain?"⟩ := by
  decide!

/-! ## No zero-value balance rows -/

theorem parseUInt64_be64 (x : U64) : parseUInt64 (be64 x) = .ok x := by
  unfold parseUInt64
  rw [if_pos (be64_length x), u64be_be64]

theorem NoZero_empty : NoZeroBalances Store.empty := by
  intro q v _ h
  cases h

theorem NoZero_agree {mu s : Store} (h : ∀ q, isBalanceKey q → s q = mu q)
    (hinv : NoZeroBalances mu) : NoZeroBalances s := by
  intro q v hq hv
  rw [h q hq] at hv
  exact hinv q v hq hv

theorem NoZero_insert_be64 {mu : Store} (k : Bytes) {nb : U64} (hnb : nb ≠ 0)
    (hinv : NoZeroBalances mu) : NoZeroBalances (Store.insert mu k (be64 nb)) := by
  intro q v hq hv
  by_cases hk : q = k
  · rw [hk, Store.insert_same] at hv
    cases hv
    rw [parseUInt64_be64]
    intro e
    cases e
    exact hnb rfl
  · rw [Store.insert_other _ _ _ _ hk] at hv
    exact hinv q v hq hv

theorem NoZero_remove {mu : Store} (k : Bytes) (hinv : NoZeroBalances mu) :
    NoZeroBalances (Store.remove mu k) := by
  intro q v hq hv
  by_cases hk : q = k
  · rw [hk, Store.remove_same] at hv
    cases hv
  · rw [Store.remove_other _ _ _ hk] at hv
    exact hinv q v hq hv

theorem NoZero_writeSub {mu : Store} (k : Bytes) (nb : U64) (hinv : NoZeroBalances mu) :
    NoZeroBalances (writeSub mu k nb) := by
  unfold writeSub
  split
  · exact NoZero_remove k hinv
  · rename_i h
    exact NoZero_insert_be64 k h hinv

/-- Writing a row that is not a balance row keeps the invariant. -/
theorem NoZero_insert_other {mu : Store} (k v : Bytes) (hk : ¬ isBalanceKey k)
    (hinv : NoZeroBalances mu) : NoZeroBalances (Store.insert mu k v) := by
  apply NoZero_agree _ hinv
  intro q hq
  exact Store.insert_other _ _ _ _ (fun e => hk (e ▸ hq))

theorem U64_add_ne_zero {a b : U64} (hb : b ≠ 0) (h : a.val + b.val < 18446744073709551616) :
    a + b ≠ 0 := by
  intro e
  have hv := U64_add_val a b h
  rw [e] at hv
  have hb0 : b.val ≠ 0 := fun e1 => hb (Fin.ext e1)
  have h0 : ((0 : U64) : Nat) = 0 := rfl
  omega

theorem NoZero_SubBalance {mu s : Store} {a : Address} {x nb : U64}
    (h : SubBalance mu a x = .ok (nb, s)) (hinv : NoZeroBalances mu) : NoZeroBalances s := by
  obtain ⟨bal, -, -, -, hs⟩ := (SubBalance_ok_iff _ _ _ _ _).mp h
  rw [hs]
  exact NoZero_writeSub _ _ hinv

theorem NoZero_SubVAIBalance {mu s : Store} {a : Address} {x nb : U64}
    (h : SubVAIBalance mu a x = .ok (nb, s)) (hinv : NoZeroBalances mu) :
    NoZeroBalances s := by
  obtain ⟨bal, -, -, -, hs⟩ := (SubVAIBalance_ok_iff _ _ _ _ _).mp h
  rw [hs]
  exact NoZero_writeSub _ _ hinv

theorem NoZero_AddBalance {mu s : Store} {a : Address} {x nb : U64} (hx : x ≠ 0)
    (h : AddBalance mu a x = .ok (nb, s)) (hinv : NoZeroBalances mu) : NoZeroBalances s := by
  obtain ⟨bal, ok, -, hsum, hnb, hs⟩ := (AddBalance_ok_iff _ _ _ _ _).mp h
  rw [hs, hnb]
  exact NoZero_insert_be64 _ (U64_add_ne_zero hx hsum) hinv

theorem NoZero_AddVAIBalance {mu s : Store} {a : Address} {x nb : U64} (hx : x ≠ 0)
    (h : AddVAIBalance mu a x = .ok (nb, s)) (hinv : NoZeroBalances mu) :
    NoZeroBalances s := by
  obtain ⟨bal, ok, -, hsum, hnb, hs⟩ := (AddVAIBalance_ok_iff _ _ _ _ _).mp h
  rw [hs, hnb]
  exact NoZero_insert_be64 _ (U64_add_ne_zero hx hsum) hinv

theorem NoZero_subAssetBalance {mu s : Store} {a : Address} {asset : Byte} {x nb : U64}
    (h : subAssetBalance mu a asset x = .ok (nb, s)) (hinv : NoZeroBalances mu) :
    NoZeroBalances s := by
  unfold subAssetBalance at h
  split at h
  · exact NoZero_SubBalance h hinv
  split at h
  · exact NoZero_SubVAIBalance h hinv
  · cases h

theorem NoZero_addAssetBalance {mu s : Store} {a : Address} {asset : Byte} {x nb : U64}
    (hx : x ≠ 0) (h : addAssetBalance mu a asset x = .ok (nb, s))
    (hinv : NoZeroBalances mu) : NoZeroBalances s := by
  unfold addAssetBalance at h
  split at h
  · exact NoZero_AddBalance hx h hinv
  split at h
  · exact NoZero_AddVAIBalance hx h hinv
  · cases h

theorem NoZero_SubLPBalance {mu s : Store} {a0 a1 : Byte} {a : Address} {x nb : U64}
    (h : SubLPBalance mu a0 a1 a x = .ok (nb, s)) (hinv : NoZeroBalances mu) :
    NoZeroBalances s := by
  obtain ⟨bal, -, -, -, hs⟩ := (SubLPBalance_ok_iff _ _ _ _ _ _ _).mp h
  rw [hs]
  exact NoZero_writeSub _ _ hinv

theorem NoZero_AddLPBalance {mu s : Store} {a0 a1 : Byte} {a : Address} {x nb : U64}
    (hx : x ≠ 0) (h : AddLPBalance mu a0 a1 a x = .ok (nb, s)) (hinv : NoZeroBalances mu) :
    NoZeroBalances s := by
  obtain ⟨bal, ok, -, hsum, hnb, hs⟩ := (AddLPBalance_ok_iff _ _ _ _ _ _ _).mp h
  rw [hs, hnb]
  exact NoZero_insert_be64 _ (U64_add_ne_zero hx hsum) hinv

theorem not_isBalanceKey_of_head {k : Bytes} {p : Byte} (hk : k.head? = some p)
    (h1 : p ≠ balancePrefix) (h2 : p ≠ vaiBalancePrefix) (h3 : p ≠ lpBalancePrefix) :
    ¬ isBalanceKey k := by
  unfold isBalanceKey
  rw [hk]
  rintro (e | e | e)
  · exact h1 (Option.some.inj e)
  · exact h2 (Option.some.inj e)
  · exact h3 (Option.some.inj e)

theorem NoZero_PutPool {mu : Store} (pool : Pool) (hinv : NoZeroBalances mu) :
    NoZeroBalances (PutPool mu pool) := by
  unfold PutPool
  exact NoZero_insert_other _ _
    (not_isBalanceKey_of_head (PoolKey_head _ _) (by decide) (by decide) (by decide)) hinv

theorem NoZero_PutMarket {mu : Store} (m : ID) (status outcomes : Byte) (rt : I64) (ro : Byte)
    (q : Bytes) (hinv : NoZeroBalances mu) :
    NoZeroBalances (PutMarket mu m status outcomes rt ro q) := by
  unfold PutMarket
  exact NoZero_insert_other _ _
    (not_isBalanceKey_of_head (MarketKey_head _) (by decide) (by decide) (by decide)) hinv

theorem NoZero_Transfer {t : Transfer} {mu s : Store} {ts : I64} {actor : Address} {tx : ID}
    {r : TransferResult} (h : t.Execute mu ts actor tx = .ok (s, r))
    (hinv : NoZeroBalances mu) : NoZeroBalances s := by
  unfold Transfer.Execute at h
  split at h
  · cases h
  rename_i hv
  split at h
  · cases h
  split at h
  · cases h
  rename_i sb mu1 hsub
  split at h
  · cases h
  rename_i rb mu2 hadd
  cases h
  exact NoZero_AddBalance hv hadd (NoZero_SubBalance hsub hinv)

theorem NoZero_CreateMarket {t : CreateMarket} {mu s : Store} {ts : I64} {actor : Address}
    {tx : ID} {r : CreateMarketResult} (h : t.Execute mu ts actor tx = .ok (s, r))
    (hinv : NoZeroBalances mu) : NoZeroBalances s := by
  obtain ⟨nb, mu1, -, -, -, -, -, hsub, hs, -⟩ := CreateMarket_Execute_inv h
  rw [hs]
  exact NoZero_PutMarket _ _ _ _ _ _ (NoZero_SubBalance hsub hinv)

theorem NoZero_Dispute {t : Dispute} {mu s : Store} {ts : I64} {actor : Address}
    {tx : ID} {r : DisputeResult} (h : t.Execute mu ts actor tx = .ok (s, r))
    (hinv : NoZeroBalances mu) : NoZeroBalances s := by
  obtain ⟨mk, nb, mu1, -, -, hsub, hs, -⟩ := Dispute_Execute_inv h
  rw [hs]
  unfold PutDispute DisputeKey
  exact NoZero_insert_other _ _
    (not_isBalanceKey_of_head (OracleKey_head _ _) (by decide) (by decide) (by decide))
    (NoZero_PutMarket _ _ _ _ _ _ (NoZero_SubBalance hsub hinv))

theorem NoZero_RouteFees {t : RouteFees} {mu s : Store} {ts : I64} {actor : Address}
    {tx : ID} {r : RouteFeesResult} (h : t.Execute mu ts actor tx = .ok (s, r))
    (hinv : NoZeroBalances mu) : NoZeroBalances s := by
  obtain ⟨cfg, st, bal, -, -, -, -, -, -, -, -, hs, -⟩ := RouteFees_Execute_inv h
  rw [hs]
  unfold PutFeeRouterState
  exact NoZero_insert_other _ _
    (@not_isBalanceKey_of_head FeeRouterStateKey feeRouterStatePrefix rfl (by decide)
      (by decide) (by decide))
    (NoZero_writeSub _ _ hinv)

theorem NoZero_MintVAI {t : MintVAI} {mu s : Store} {ts : I64} {actor : Address}
    {tx : ID} {r : MintVAIResult} (h : t.Execute mu ts actor tx = .ok (s, r))
    (hinv : NoZeroBalances mu) : NoZeroBalances s := by
  obtain ⟨cfg, st, risk, res, toBalance, mu1, -, -, -, -, h0, -, -, -, -, -, -, hadd, hs, -⟩ :=
    MintVAI_Execute_inv h
  rw [hs]
  unfold PutVAIState
  exact NoZero_insert_other _ _
    (@not_isBalanceKey_of_head VAIStateKey vaiStatePrefix rfl (by decide) (by decide)
      (by decide))
    (NoZero_AddVAIBalance h0 hadd hinv)

theorem NoZero_BurnVAI {t : BurnVAI} {mu s : Store} {ts : I64} {actor : Address}
    {tx : ID} {r : BurnVAIResult} (h : t.Execute mu ts actor tx = .ok (s, r))
    (hinv : NoZeroBalances mu) : NoZeroBalances s := by
  obtain ⟨bal, st, -, -, -, -, -, hs, -⟩ := BurnVAI_Execute_inv h
  rw [hs]
  unfold PutVAIState
  exact NoZero_insert_other _ _
    (@not_isBalanceKey_of_head VAIStateKey vaiStatePrefix rfl (by decide) (by decide)
      (by decide))
    (NoZero_writeSub _ _ hinv)

theorem NoZero_SwapExactIn {a : SwapExactIn} {mu s : Store} {ts : I64} {actor : Address}
    {tx : ID} {r : SwapExactInResult} (h : a.Execute mu ts actor tx = .ok (s, r))
    (hinv : NoZeroBalances mu) : NoZeroBalances s := by
  have key : ∀ (pool : Pool) (inIs0 : Bool) (rin rout : U64),
      SwapExactIn.swap a mu actor pool inIs0 rin rout = .ok (s, r) → NoZeroBalances s := by
    intro pool inIs0 rin rout hsw
    obtain ⟨b1, mu1, inWithFee, den, out, pool1, rb, -, -, hsub, -, -, -, -, hout, -, -, -,
      hadd, -⟩ := SwapExactIn_swap_inv hsw
    exact NoZero_addAssetBalance hout hadd
      (NoZero_PutPool _ (NoZero_subAssetBalance hsub hinv))
  unfold SwapExactIn.Execute at h
  split at h
  · cases h
  split at h
  · cases h
  split at h
  · cases h
  split at h
  · exact key _ _ _ _ h
  split at h
  · exact key _ _ _ _ h
  · cases h

theorem NoZero_AddLiquidity {a : AddLiquidity} {mu s : Store} {ts : I64} {actor : Address}
    {tx : ID} {r : AddLiquidityResult} (h : a.Execute mu ts actor tx = .ok (s, r))
    (hinv : NoZeroBalances mu) : NoZeroBalances s := by
  obtain ⟨pool, a0p, a1p, n0, mu1, n1, mu2, hv, hamt, hpool, hmap, hs0, hs1⟩ :=
    AddLiquidity_debits_inv h
  rw [AddLiquidity_after_debits hv hamt hpool hmap hs0 hs1] at h
  split at h
  · cases h
  rename_i minted hminted
  split at h
  · cases h
  rename_i hslip
  split at h
  · cases h
  split at h
  · cases h
  split at h
  · cases h
  split at h
  · cases h
  rename_i lpBalance mu4 hlp
  cases h
  exact NoZero_AddLPBalance (fun e => hslip (Or.inl e)) hlp
    (NoZero_PutPool _ (NoZero_subAssetBalance hs1 (NoZero_subAssetBalance hs0 hinv)))

theorem NoZero_RemoveLiquidity {a : RemoveLiquidity} {mu s : Store} {ts : I64}
    {actor : Address} {tx : ID} {r : RemoveLiquidityResult}
    (h : a.Execute mu ts actor tx = .ok (s, r)) (hinv : NoZeroBalances mu) :
    NoZeroBalances s := by
  unfold RemoveLiquidity.Execute at h
  split at h
  · cases h
  split at h
  · cases h
  split at h
  · cases h
  split at h
  · cases h
  split at h
  · cases h
  split at h
  · cases h
  split at h
  · cases h
  split at h
  · cases h
  split at h
  · cases h
  rename_i hzero
  split at h
  · cases h
  split at h
  · cases h
  obtain ⟨nr0, nr1, nT, nlp, mu2, nb0, mu3, nb1, o0, o1, -, -, -, hlp, hadd0, hadd1, -, -⟩ :=
    RemoveLiquidity_settle_inv h
  exact NoZero_addAssetBalance (fun e => hzero (Or.inr e)) hadd1
    (NoZero_addAssetBalance (fun e => hzero (Or.inl e)) hadd0
      (NoZero_SubLPBalance hlp (NoZero_PutPool _ hinv)))

/-- Every successful action keeps the store free of zero-value balance rows. -/
theorem NoZero_step {env : Env} {act : Action} {mu s : Store} {ts : I64}
    {actor : Address} {tx : ID} (h : act.execute env mu ts actor tx = .ok s)
    (hinv : NoZeroBalances mu) : NoZeroBalances s := by
  by_cases hw : balancePrefix ∈ act.writePrefixes ∨ vaiBalancePrefix ∈ act.writePrefixes
      ∨ lpBalancePrefix ∈ act.writePrefixes
  · cases act <;> simp only [Action.writePrefixes] at hw <;>
      try (exact absurd hw (by decide))
    all_goals
      rename_i a
      simp only [Action.execute] at h
      cases hx : a.Execute mu ts actor tx with
      | error e => rw [hx] at h; cases h
      | ok p =>
        rw [hx] at h
        cases h
        first
          | exact NoZero_Transfer hx hinv
          | exact NoZero_CreateMarket hx hinv
          | exact NoZero_Dispute hx hinv
          | exact NoZero_RouteFees hx hinv
          | exact NoZero_MintVAI hx hinv
          | exact NoZero_BurnVAI hx hinv
          | exact NoZero_AddLiquidity hx hinv
          | exact NoZero_RemoveLiquidity hx hinv
          | exact NoZero_SwapExactIn hx hinv
  · apply NoZero_agree _ hinv
    intro q hq
    rcases hq with e | e | e
    · exact row_unchanged_of_not_written h q _ e (fun x => hw (Or.inl x))
    · exact row_unchanged_of_not_written h q _ e (fun x => hw (Or.inr (Or.inl x)))
    · exact row_unchanged_of_not_written h q _ e (fun x => hw (Or.inr (Or.inr x)))

/-- C29: no zero-value balance rows. Starting from any state in which no
stored native, VAI or LP balance is zero, every transaction, successful or
failing, yields such a state again. A debit that brings a balance to exactly
zero removes the row; a debit of more than is held fails (no store is
returned, nothing is written); a credit that would overflow `u64` fails
likewise. -/
theorem no_zero_balance_rows (st : Step) (mu : Store) (hinv : NoZeroBalances mu) :
    NoZeroBalances (st.apply mu)
      ∧ (∀ (a : Address) (x nb : U64) (s : Store) (bal : U64),
          innerGetBalance (mu (BalanceKey a)) = (bal, true, none) →
            (x = bal → SubBalance mu a x = .ok (nb, s) → s (BalanceKey a) = none)
            ∧ (bal.val < x.val → ∃ e, SubBalance mu a x = .error e))
      ∧ (∀ (a : Address) (x nb : U64) (s : Store) (bal : U64),
          innerGetBalance (mu (VAIBalanceKey a)) = (bal, true, none) →
            (x = bal → SubVAIBalance mu a x = .ok (nb, s) → s (VAIBalanceKey a) = none)
            ∧ (bal.val < x.val → ∃ e, SubVAIBalance mu a x = .error e))
      ∧ (∀ (a0 a1 : Byte) (a : Address) (x nb : U64) (s : Store) (bal : U64),
          innerGetBalance (mu (LPBalanceKey a0 a1 a)) = (bal, true, none) →
            (x = bal → SubLPBalance mu a0 a1 a x = .ok (nb, s)
              → s (LPBalanceKey a0 a1 a) = none)
            ∧ (bal.val < x.val → ∃ e, SubLPBalance mu a0 a1 a x = .error e))
      ∧ (∀ (a : Address) (x bal : U64) (ok : Bool),
          innerGetBalance (mu (BalanceKey a)) = (bal, ok, none) →
            18446744073709551616 ≤ bal.val + x.val → ∃ e, AddBalance mu a x = .error e)
      ∧ (∀ (a : Address) (x bal : U64) (ok : Bool),
          innerGetBalance (mu (VAIBalanceKey a)) = (bal, ok, none) →
            18446744073709551616 ≤ bal.val + x.val → ∃ e, AddVAIBalance mu a x = .error e)
      ∧ (∀ (a0 a1 : Byte) (a : Address) (x bal : U64) (ok : Bool),
          innerGetBalance (mu (LPBalanceKey a0 a1 a)) = (bal, ok, none) →
            18446744073709551616 ≤ bal.val + x.val
              → ∃ e, AddLPBalance mu a0 a1 a x = .error e) := by
  have hsub : ∀ (k : Bytes) (x nb bal : U64) (s : Store),
      x = bal → nb = bal - x → s = writeSub mu k nb → s k = none := by
    intro k x nb bal s hx hnb hs
    have h0 : nb = 0 := by
      rw [hnb, hx]
      exact Fin.ext (by rw [U64_sub_val _ _ (Nat.le_refl _)]; simp)
    rw [hs, h0]
    unfold writeSub
    rw [if_pos rfl]
    exact Store.remove_same _ _
  have hfail : ∀ {α : Type} (e : Except Err α), (∀ v, e ≠ .ok v) → ∃ err, e = .error err := by
    intro α e h
    cases e with
    | error err => exact ⟨err, rfl⟩
    | ok v => exact absurd rfl (h v)
  refine ⟨?_, ?_, ?_, ?_, ?_, ?_, ?_⟩
  · unfold Step.apply
    cases hx : st.act.execute st.env mu st.timestamp st.actor st.txID with
    | error e => exact hinv
    | ok s => exact NoZero_step hx hinv
  · intro a x nb s bal hb
    refine ⟨fun hx h => ?_, fun hlt => hfail _ (fun v h => ?_)⟩
    · obtain ⟨bal1, hb1, -, hnb, hs⟩ := (SubBalance_ok_iff _ _ _ _ _).mp h
      rw [hb] at hb1
      cases hb1
      exact hsub _ _ _ _ _ hx hnb hs
    · obtain ⟨bal1, hb1, hle, -, -⟩ := (SubBalance_ok_iff _ _ _ v.1 v.2).mp h
      rw [hb] at hb1
      cases hb1
      omega
  · intro a x nb s bal hb
    refine ⟨fun hx h => ?_, fun hlt => hfail _ (fun v h => ?_)⟩
    · obtain ⟨bal1, hb1, -, hnb, hs⟩ := (SubVAIBalance_ok_iff _ _ _ _ _).mp h
      rw [hb] at hb1
      cases hb1
      exact hsub _ _ _ _ _ hx hnb hs
    · obtain ⟨bal1, hb1, hle, -, -⟩ := (SubVAIBalance_ok_iff _ _ _ v.1 v.2).mp h
      rw [hb] at hb1
      cases hb1
      omega
  · intro a0 a1 a x nb s bal hb
    refine ⟨fun hx h => ?_, fun hlt => hfail _ (fun v h => ?_)⟩
    · obtain ⟨bal1, hb1, -, hnb, hs⟩ := (SubLPBalance_ok_iff _ _ _ _ _ _ _).mp h
      rw [hb] at hb1
      cases hb1
      exact hsub _ _ _ _ _ hx hnb hs
    · obtain ⟨bal1, hb1, hle, -, -⟩ := (SubLPBalance_ok_iff _ _ _ _ _ v.1 v.2).mp h
      rw [hb] at hb1
      cases hb1
      omega
  · intro a x bal ok hb hov
    refine hfail _ (fun v h => ?_)
    obtain ⟨bal1, ok1, hb1, hsum, -, -⟩ := (AddBalance_ok_iff _ _ _ v.1 v.2).mp h
    rw [hb] at hb1
    cases hb1
    omega
  · intro a x bal ok hb hov
    refine hfail _ (fun v h => ?_)
    obtain ⟨bal1, ok1, hb1, hsum, -, -⟩ := (AddVAIBalance_ok_iff _ _ _ v.1 v.2).mp h
    rw [hb] at hb1
    cases hb1
    omega
  · intro a0 a1 a x bal ok hb hov
    refine hfail _ (fun v h => ?_)
    obtain ⟨bal1, ok1, hb1, hsum, -, -⟩ := (AddLPBalance_ok_iff _ _ _ _ _ v.1 v.2).mp h
    rw [hb] at hb1
    cases hb1
    omega

/-- C29 (witness): the trader holds 1000 and sends all of it; afterwards there
is no zero-value row: the trader's row is gone and the receiver's holds 1000. -/
theorem no_zero_balance_rows_witness :
    NoZeroBalances (Scenario.fullTransfer.apply Scenario.walletGenesis)
      ∧ (Scenario.fullTransfer.apply Scenario.walletGenesis) (BalanceKey Scenario.trader) = none
      ∧ (Scenario.fullTransfer.apply Scenario.walletGenesis) (BalanceKey Scenario.outsider)
        = some (be64 1000) :=
  ⟨(no_zero_balance_rows Scenario.fullTransfer Scenario.walletGenesis
      (NoZero_insert_be64 _ (by decide) NoZero_empty)).1, by decide!, by decide!⟩

/-! ## Unambiguous public-input preimages -/

/-- A tagged preimage determines its five inputs. -/
theorem tagged_preimage_injective (tag : Bytes) {m1 m2 : ID} {w1 w2 p1 p2 v1 v2 : U64}
    {x1 x2 : U16} {f1 f2 : Bytes}
    (h : tag ++ m1.val ++ be64 w1 ++ be64 p1 ++ be64 v1 ++ be16 x1 ++ f1
      = tag ++ m2.val ++ be64 w2 ++ be64 p2 ++ be64 v2 ++ be16 x2 ++ f2) :
    m1 = m2 ∧ w1 = w2 ∧ p1 = p2 ∧ v1 = v2 ∧ f1 = f2 := by
  obtain ⟨-, -, a2, a3, a4, a5, -, a7⟩ := tagged_preimage_fields tag m1 w1 p1 v1 x1 f1 _ rfl
  obtain ⟨-, -, b2, b3, b4, b5, -, b7⟩ := tagged_preimage_fields tag m2 w2 p2 v2 x2 f2 _ rfl
  rw [h] at a2 a3 a4 a5 a7
  exact ⟨Subtype.ext (a2.symm.trans b2), a3.symm.trans b3, a4.symm.trans b4, a5.symm.trans b5,
    a7.symm.trans b7⟩

/-- C39: the canonical public-input preimage is unambiguous. Two clear
preimages are equal only if market id, window id, clear price, total volume
and fills hash are all equal; likewise two shielded-ledger preimages; and a
clear preimage never equals a shielded-ledger preimage. -/
theorem public_inputs_preimage_injective (m1 m2 : ID) (w1 w2 p1 p2 v1 v2 : U64)
    (f1 f2 : Bytes) :
    (BuildClearPublicInputsPreimage m1 w1 p1 v1 f1 = BuildClearPublicInputsPreimage m2 w2 p2 v2 f2
        → m1 = m2 ∧ w1 = w2 ∧ p1 = p2 ∧ v1 = v2 ∧ f1 = f2)
      ∧ (BuildShieldedLedgerPublicInputsPreimage m1 w1 p1 v1 f1
          = BuildShieldedLedgerPublicInputsPreimage m2 w2 p2 v2 f2
        → m1 = m2 ∧ w1 = w2 ∧ p1 = p2 ∧ v1 = v2 ∧ f1 = f2)
      ∧ BuildClearPublicInputsPreimage m1 w1 p1 v1 f1
          ≠ BuildShieldedLedgerPublicInputsPreimage m2 w2 p2 v2 f2 := by
  refine ⟨?_, ?_, ?_⟩
  · intro h
    exact tagged_preimage_injective ClearInputsDomainTag h
  · intro h
    exact tagged_preimage_injective ShieldedLedgerInputsDomainTag h
  · intro h
    unfold BuildClearPublicInputsPreimage BuildShieldedLedgerPublicInputsPreimage at h
    have h5 := congrArg (fun l => l.getD 5 0) h
    have e1 : ClearInputsDomainTag = [86, 69, 73, 76, 95, 67, 76, 69, 65, 82, 95, 86, 49] := by
      decide
    have e2 : ShieldedLedgerInputsDomainTag = [86, 69, 73, 76, 95, 83, 72, 73, 69, 76, 68, 69,
        68, 95, 76, 69, 68, 71, 69, 82, 95, 86, 49] := by
      decide
    rw [e1, e2] at h5
    simp [List.append_assoc] at h5

/-- C39 (witness): two clear preimages of the scenario market that differ in
the clear price only are different byte strings. -/
theorem public_inputs_preimage_injective_witness :
    BuildClearPublicInputsPreimage Scenario.market 1 1025 3200 Scenario.fillsHash
      ≠ BuildClearPublicInputsPreimage Scenario.market 1 1026 3200 Scenario.fillsHash :=
  fun h => absurd
    ((public_inputs_preimage_injective Scenario.market Scenario.market 1 1 1025 1026 3200 3200
      Scenario.fillsHash Scenario.fillsHash).1 h).2.2.1 (by decide)

/-! ## The dispute slot and oracle reveals -/

theorem be32_injective {x y : U32} (h : be32 x = be32 y) : x = y := by
  rw [← u32be_be32 x, ← u32be_be32 y, h]

theorem OracleKey_injective {m1 m2 : ID} {i1 i2 : U32} (h : OracleKey m1 i1 = OracleKey m2 i2) :
    m1 = m2 ∧ i1 = i2 := by
  unfold OracleKey at h
  have hl1 := m1.property
  have hl2 := m2.property
  have h1 := List.append_inj_left h (by simp [hl1, hl2, be32_length])
  have h2 := List.append_inj h1 (by simp [hl1, hl2])
  have h3 := List.append_inj_right h2.1 rfl
  exact ⟨Subtype.ext h3, be32_injective h2.2⟩

/-- What a successful `reveal_batch` checked and wrote. -/
theorem RevealBatch_Execute_inv {t : RevealBatch} {mu s : Store} {ts : I64} {actor : Address}
    {tx : ID} {r : RevealBatchResult} (h : t.Execute mu ts actor tx = .ok (s, r)) :
    (0 < t.DecryptionShare.length ∧ t.DecryptionShare.length ≤ MaxDecryptionShareSize)
      ∧ (∃ mk, GetMarket mu t.MarketID = .ok mk ∧ mk.status = MarketStatusActive)
      ∧ s = Store.insert mu (OracleKey t.MarketID t.ValidatorIndex)
          (be64 t.WindowID ++ t.DecryptionShare)
      ∧ r = ⟨t.ValidatorIndex⟩ := by
  unfold RevealBatch.Execute at h
  split at h
  · cases h
  rename_i h1
  split at h
  · cases h
  rename_i h2
  split at h
  · cases h
  rename_i mk hget
  split at h
  · cases h
  rename_i hst
  cases h
  exact ⟨⟨Nat.pos_of_ne_zero h1, Nat.le_of_not_lt h2⟩, ⟨mk, hget, Decidable.of_not_not hst⟩,
    rfl, rfl⟩

/-- C31 (amended): the dispute slot `DisputeKey(m) = OracleKey(m, 0xFFFFFFFF)`
and `reveal_batch`. A successful reveal for another market, or with a
validator index other than `0xFFFFFFFF`, leaves the slot of `m` unchanged; a
successful reveal for `m` with validator index `0xFFFFFFFF` (the market must
be Active) stores `BE64(window) ‖ share` in the slot; and when the market of
`m` is not Active every reveal for `m` fails. -/
theorem reveal_and_dispute_slot (t : RevealBatch) (mu : Store) (ts : I64) (actor : Address)
    (tx : ID) (m : ID) :
    (∀ s r, t.Execute mu ts actor tx = .ok (s, r) →
        (t.MarketID ≠ m ∨ t.ValidatorIndex ≠ 4294967295) →
          s (DisputeKey m) = mu (DisputeKey m))
      ∧ (∀ s r, t.Execute mu ts actor tx = .ok (s, r) →
          t.MarketID = m → t.ValidatorIndex = 4294967295 →
            s (DisputeKey m) = some (be64 t.WindowID ++ t.DecryptionShare)
              ∧ ∃ mk, GetMarket mu m = .ok mk ∧ mk.status = MarketStatusActive)
      ∧ (∀ mk, GetMarket mu m = .ok mk → mk.status ≠ MarketStatusActive → t.MarketID = m →
          ∃ e, t.Execute mu ts actor tx = .error e) := by
  refine ⟨?_, ?_, ?_⟩
  · intro s r h hne
    obtain ⟨-, -, hs, -⟩ := RevealBatch_Execute_inv h
    rw [hs]
    apply Store.insert_other
    intro e
    unfold DisputeKey at e
    obtain ⟨e1, e2⟩ := OracleKey_injective e
    rcases hne with hm | hi
    · exact hm e1.symm
    · exact hi e2.symm
  · intro s r h hm hi
    obtain ⟨-, hmk, hs, -⟩ := RevealBatch_Execute_inv h
    subst hm
    refine ⟨?_, hmk⟩
    rw [hs]
    unfold DisputeKey
    rw [← hi]
    exact Store.insert_same _ _ _
  · intro mk hget hst hm
    cases hx : t.Execute mu ts actor tx with
    | error e => exact ⟨e, rfl⟩
    | ok p =>
      obtain ⟨-, ⟨mk1, hget1, hst1⟩, -, -⟩ := RevealBatch_Execute_inv hx
      rw [hm, hget] at hget1
      cases hget1
      exact absurd hst1 hst

/-- C31 (witness): a reveal with validator index 0 on the scenario market
leaves the dispute slot unchanged. -/
theorem reveal_and_dispute_slot_witness :
    (okValue ((⟨Scenario.market, 1, [1, 2], 0⟩ : RevealBatch).Execute Scenario.genesis ⟨1000⟩
        Scenario.outsider Scenario.txID) (Store.empty, ⟨0⟩)).1 (DisputeKey Scenario.market)
      = Scenario.genesis (DisputeKey Scenario.market) :=
  (reveal_and_dispute_slot ⟨Scenario.market, 1, [1, 2], 0⟩ Scenario.genesis ⟨1000⟩
    Scenario.outsider Scenario.txID Scenario.market).1 _ _
    (eq_ok_pair_of_succeeded _ (Store.empty, ⟨0⟩) (by decide!)) (Or.inr (by decide))

/-- C31 (counterexample): on the Active market of the scenario a reveal with
validator index `0xFFFFFFFF` succeeds and changes the value stored at
`DisputeKey(market)` from nothing to `BE64(1) ‖ 01 02`. -/
theorem reveal_overwrites_dispute_slot_counterexample :
    Scenario.sentinelReveal.ValidatorIndex = 4294967295
      ∧ succeeded (Scenario.sentinelReveal.Execute Scenario.genesis ⟨1000⟩ Scenario.outsider
          Scenario.txID) = true
      ∧ Scenario.genesis (DisputeKey Scenario.market) = none
      ∧ Scenario.afterSentinelReveal (DisputeKey Scenario.market)
          = some (be64 1 ++ [1, 2])
      ∧ Scenario.afterSentinelReveal (DisputeKey Scenario.market)
          ≠ Scenario.genesis (DisputeKey Scenario.market) := by
  decide!

/-! ## A recorded dispute is immutable -/

/-- Once a market is Disputed, a successful action changes neither its market
row nor its dispute slot. -/
theorem disputed_rows_step {env : Env} {act : Action} {mu s : Store} {ts : I64}
    {actor : Address} {tx : ID} (h : act.execute env mu ts actor tx = .ok s) (m : ID)
    (mk : Market) (hget : GetMarket mu m = .ok mk) (hst : mk.status = MarketStatusDisputed) :
    s (MarketKey m) = mu (MarketKey m) ∧ s (DisputeKey m) = mu (DisputeKey m) := by
  constructor
  · rcases market_row_step h m with h0 | ⟨a, -, -, hnone, -⟩ | ⟨a, mk0, -, -, hg, hs0, -⟩
      | ⟨a, mk0, -, -, hg, hs0, -⟩
    · exact h0
    · unfold GetMarket at hget
      rw [hnone] at hget
      cases hget
    · rw [hget] at hg
      cases hg
      rw [hst] at hs0
      exact absurd hs0 (by decide)
    · rw [hget] at hg
      cases hg
      rw [hst] at hs0
      exact absurd hs0 (by decide)
  · by_cases hw : oraclePrefix ∈ act.writePrefixes
    · cases act <;> simp only [Action.writePrefixes] at hw <;>
        try (exact absurd hw (by decide))
      · rename_i a
        simp only [Action.execute] at h
        cases hx : a.Execute mu ts actor tx with
        | error e => rw [hx] at h; cases h
        | ok p =>
          rw [hx] at h
          cases h
          obtain ⟨-, ⟨mk1, hget1, hst1⟩, hs, -⟩ := RevealBatch_Execute_inv hx
          rw [hs]
          apply Store.insert_other
          intro e
          unfold DisputeKey at e
          obtain ⟨e1, -⟩ := OracleKey_injective e
          rw [← e1, hget] at hget1
          cases hget1
          rw [hst] at hst1
          exact absurd hst1 (by decide)
      · rename_i a
        simp only [Action.execute] at h
        cases hx : a.Execute mu ts actor tx with
        | error e => rw [hx] at h; cases h
        | ok p =>
          rw [hx] at h
          cases h
          obtain ⟨mk1, nb, mu1, hget1, hst1, hsub, hs, -⟩ := Dispute_Execute_inv hx
          by_cases hm : a.MarketID = m
          · rw [hm, hget] at hget1
            cases hget1
            rw [hst] at hst1
            exact absurd hst1 (by decide)
          · obtain ⟨bal, -, -, -, hmu1⟩ := (SubBalance_ok_iff _ _ _ _ _).mp hsub
            rw [hs]
            unfold PutDispute
            rw [Store.insert_other _ _ _ _ (fun e => hm (by
                unfold DisputeKey at e
                exact (OracleKey_injective e).1.symm)),
              PutMarket_other _ _ _ _ _ _ _ _
                (@ne_of_head (MarketKey a.MarketID) (DisputeKey m) marketPrefix oraclePrefix
                  rfl rfl (by decide)), hmu1]
            exact writeSub_other _ _ _ _
              (@ne_of_head (BalanceKey actor) (DisputeKey m) balancePrefix oraclePrefix rfl rfl
                (by decide))
    · exact row_unchanged_of_not_written h (DisputeKey m) oraclePrefix rfl hw

/-- Once a market is Disputed, no sequence of transactions changes its market
row or its dispute slot. -/
theorem disputed_rows_run (steps : List Step) (mu : Store) (m : ID) (mk : Market)
    (hget : GetMarket mu m = .ok mk) (hst : mk.status = MarketStatusDisputed) :
    (run steps mu) (MarketKey m) = mu (MarketKey m)
      ∧ (run steps mu) (DisputeKey m) = mu (DisputeKey m) := by
  induction steps generalizing mu with
  | nil => exact ⟨rfl, rfl⟩
  | cons st rest ih =>
    have e : run (st :: rest) mu = run rest (st.apply mu) := rfl
    rw [e]
    have hstep : (st.apply mu) (MarketKey m) = mu (MarketKey m)
        ∧ (st.apply mu) (DisputeKey m) = mu (DisputeKey m) := by
      unfold Step.apply
      cases hx : st.act.execute st.env mu st.timestamp st.actor st.txID with
      | error e => exact ⟨rfl, rfl⟩
      | ok s => exact disputed_rows_step hx m mk hget hst
    have hget1 : GetMarket (st.apply mu) m = .ok mk := by
      rw [GetMarket_congr m hstep.1]
      exact hget
    obtain ⟨i1, i2⟩ := ih (st.apply mu) hget1
    exact ⟨i1.trans hstep.1, i2.trans hstep.2⟩

/-- The market row and the dispute slot right after a successful `dispute`. -/
theorem Dispute_effects {a : Dispute} {mu s : Store} {ts : I64} {actor : Address}
    {tx : ID} {r : DisputeResult} (h : a.Execute mu ts actor tx = .ok (s, r)) :
    s (DisputeKey a.MarketID) = some (be64 a.Bond ++ a.Evidence)
      ∧ ∃ mk, GetMarket s a.MarketID = .ok mk ∧ mk.status = MarketStatusDisputed := by
  obtain ⟨mk, nb, mu1, -, -, -, hs, -⟩ := Dispute_Execute_inv h
  constructor
  · rw [hs]
    unfold PutDispute
    exact Store.insert_same _ _ _
  · have hrow : s (MarketKey a.MarketID) = (PutMarket mu1 a.MarketID MarketStatusDisputed
        mk.outcomes mk.resolutionTime mk.resolvedOutcome mk.question) (MarketKey a.MarketID) := by
      rw [hs]
      unfold PutDispute
      exact Store.insert_other _ _ _ _
        (@ne_of_head (DisputeKey a.MarketID) (MarketKey a.MarketID) oraclePrefix marketPrefix
          rfl rfl (by decide))
    refine ⟨⟨MarketStatusDisputed, mk.outcomes, mk.resolutionTime, mk.resolvedOutcome,
      mk.question⟩, ?_, rfl⟩
    rw [GetMarket_congr _ hrow]
    exact GetMarket_PutMarket _ _ _ _ _ _ _

/-- C40: a recorded dispute is immutable. Once `dispute` has succeeded for a
market, the market is Disputed and `bond ‖ evidence` is stored at
`DisputeKey(market)`; after any sequence of later transactions the slot still
holds that value and the market is still Disputed; in particular every later
`reveal_batch` for the market (also with validator index `0xFFFFFFFF`) and
every second `dispute` for it fails. -/
theorem dispute_record_immutable (a : Dispute) (mu s : Store) (ts : I64) (actor : Address)
    (tx : ID) (r : DisputeResult) (h : a.Execute mu ts actor tx = .ok (s, r))
    (steps : List Step) :
    s (DisputeKey a.MarketID) = some (be64 a.Bond ++ a.Evidence)
      ∧ (∃ mk, GetMarket s a.MarketID = .ok mk ∧ mk.status = MarketStatusDisputed)
      ∧ (run steps s) (DisputeKey a.MarketID) = some (be64 a.Bond ++ a.Evidence)
      ∧ (∃ mk, GetMarket (run steps s) a.MarketID = .ok mk
          ∧ mk.status = MarketStatusDisputed)
      ∧ (∀ (t : RevealBatch) (ts1 : I64) (actor1 : Address) (tx1 : ID),
          t.MarketID = a.MarketID →
            ∃ e, t.Execute (run steps s) ts1 actor1 tx1 = .error e)
      ∧ (∀ (d : Dispute) (ts1 : I64) (actor1 : Address) (tx1 : ID),
          d.MarketID = a.MarketID →
            ∃ e, d.Execute (run steps s) ts1 actor1 tx1 = .error e) := by
  obtain ⟨hslot, mk, hget, hst⟩ := Dispute_effects h
  obtain ⟨hrow, hkeep⟩ := disputed_rows_run steps s a.MarketID mk hget hst
  have hget1 : GetMarket (run steps s) a.MarketID = .ok mk := by
    rw [GetMarket_congr _ hrow]
    exact hget
  refine ⟨hslot, ⟨mk, hget, hst⟩, hkeep.trans hslot, ⟨mk, hget1, hst⟩, ?_, ?_⟩
  · intro t ts1 actor1 tx1 hm
    cases hx : t.Execute (run steps s) ts1 actor1 tx1 with
    | error e => exact ⟨e, rfl⟩
    | ok p =>
      obtain ⟨-, ⟨mk1, hg1, hs1⟩, -, -⟩ := RevealBatch_Execute_inv hx
      rw [hm, hget1] at hg1
      cases hg1
      rw [hst] at hs1
      exact absurd hs1 (by decide)
  · intro d ts1 actor1 tx1 hm
    cases hx : d.Execute (run steps s) ts1 actor1 tx1 with
    | error e => exact ⟨e, rfl⟩
    | ok p =>
      obtain ⟨mk1, nb, mu1, hg1, hs1, -⟩ := Dispute_Execute_inv hx
      rw [hm, hget1] at hg1
      cases hg1
      rw [hst] at hs1
      exact absurd hs1 (by decide)

/-- C40 (witness): after the trader's dispute (bond 10, evidence `01`) a
sentinel reveal, a second dispute and a transfer leave `BE64(10) ‖ 01` in the slot. -/
theorem dispute_record_immutable_witness :
    (run Scenario.afterDisputeSteps Scenario.afterDispute) (DisputeKey Scenario.market)
      = some (be64 10 ++ [1]) :=
  (dispute_record_immutable Scenario.traderDispute Scenario.afterResolve Scenario.afterDispute
    ⟨300000⟩ Scenario.trader Scenario.txID _
    (eq_ok_pair_of_succeeded _ (Store.empty, ⟨0⟩) (by decide!)) Scenario.afterDisputeSteps).2.2.1

/-! ## Singleton records: write, then read -/

theorem GetTreasuryConfig_PutTreasuryConfig (mu : Store) (c : TreasuryConfig) :
    GetTreasuryConfig (PutTreasuryConfig mu c) = .ok c := by
  obtain ⟨gov, ops, bips, ep⟩ := c
  unfold GetTreasuryConfig PutTreasuryConfig
  rw [Store.insert_same]
  simp only
  have hg := gov.property
  have ho := ops.property
  generalize hv : gov.val ++ ops.val ++ be16 bips ++ be64 ep.bits = v
  have hlen : v.length = 76 := by subst hv; simp [hg, ho, be16_length, be64_length]
  have e1 : slice v 0 33 = gov.val :=
    slice_eq_of v [] _ (ops.val ++ be16 bips ++ be64 ep.bits)
      (by rw [← hv]; simp [List.append_assoc]) 0 33 rfl (by simp [hg])
  have e2 : slice v 33 66 = ops.val :=
    slice_eq_of v gov.val _ (be16 bips ++ be64 ep.bits)
      (by rw [← hv]; simp [List.append_assoc]) 33 66 hg.symm (by simp [hg, ho])
  have e3 : slice v 66 68 = be16 bips :=
    slice_eq_of v (gov.val ++ ops.val) _ (be64 ep.bits) (by rw [← hv]) 66 68
      (by simp [hg, ho]) (by simp [hg, ho, be16_length])
  have e4 : slice v 68 76 = be64 ep.bits :=
    slice_eq_of v (gov.val ++ ops.val ++ be16 bips) _ [] (by rw [← hv]; simp) 68 76
      (by simp [hg, ho, be16_length]) (by simp [hg, ho, be16_length, be64_length])
  rw [if_neg (by omega), e1, e2, e3, e4, u16be_be16, u64be_be64, copyInto_val, copyInto_val]

theorem GetVAIConfig_PutVAIConfig (mu : Store) (c : VAIConfig) :
    GetVAIConfig (PutVAIConfig mu c) = .ok c := by
  obtain ⟨auth, ceil, lim, ep⟩ := c
  unfold GetVAIConfig PutVAIConfig
  rw [Store.insert_same]
  simp only
  have hg := auth.property
  generalize hv : auth.val ++ be64 ceil ++ be64 lim ++ be64 ep.bits = v
  have hlen : v.length = 57 := by subst hv; simp [hg, be64_length]
  have e1 : slice v 0 33 = auth.val :=
    slice_eq_of v [] _ (be64 ceil ++ be64 lim ++ be64 ep.bits)
      (by rw [← hv]; simp [List.append_assoc]) 0 33 rfl (by simp [hg])
  have e2 : slice v 33 41 = be64 ceil :=
    slice_eq_of v auth.val _ (be64 lim ++ be64 ep.bits)
      (by rw [← hv]; simp [List.append_assoc]) 33 41 hg.symm (by simp [hg, be64_length])
  have e3 : slice v 41 49 = be64 lim :=
    slice_eq_of v (auth.val ++ be64 ceil) _ (be64 ep.bits) (by rw [← hv]) 41 49
      (by simp [hg, be64_length]) (by simp [hg, be64_length])
  have e4 : slice v 49 57 = be64 ep.bits :=
    slice_eq_of v (auth.val ++ be64 ceil ++ be64 lim) _ [] (by rw [← hv]; simp) 49 57
      (by simp [hg, be64_length]) (by simp [hg, be64_length])
  rw [if_neg (by omega), e1, e2, e3, e4, u64be_be64, u64be_be64, u64be_be64, copyInto_val]

/-- The row written by `PutFeeRouterConfig` parses back to the three bips. -/
theorem FeeRouterConfig_row (c : FeeRouterConfig) :
    (be16 c.MSRBBips ++ be16 c.COLBips ++ be16 c.OpsBips).length = 6
      ∧ u16be (slice (be16 c.MSRBBips ++ be16 c.COLBips ++ be16 c.OpsBips) 0 2) = c.MSRBBips
      ∧ u16be (slice (be16 c.MSRBBips ++ be16 c.COLBips ++ be16 c.OpsBips) 2 4) = c.COLBips
      ∧ u16be (slice (be16 c.MSRBBips ++ be16 c.COLBips ++ be16 c.OpsBips) 4 6) = c.OpsBips := by
  refine ⟨rfl, ?_, ?_, ?_⟩
  · rw [slice_eq_of _ [] (be16 c.MSRBBips) (be16 c.COLBips ++ be16 c.OpsBips)
      (by simp [List.append_assoc]) 0 2 rfl rfl, u16be_be16]
  · rw [slice_eq_of _ (be16 c.MSRBBips) (be16 c.COLBips) (be16 c.OpsBips) rfl 2 4 rfl rfl,
      u16be_be16]
  · rw [slice_eq_of _ (be16 c.MSRBBips ++ be16 c.COLBips) (be16 c.OpsBips) [] (by simp) 4 6
      rfl rfl, u16be_be16]

/-- `GetFeeRouterConfig` after `PutFeeRouterConfig`: the record when the bips
sum to 10000, the error of the sum check otherwise. -/
theorem GetFeeRouterConfig_PutFeeRouterConfig (mu : Store) (c : FeeRouterConfig) :
    (c.MSRBBips.val + c.COLBips.val + c.OpsBips.val = 10000
        → GetFeeRouterConfig (PutFeeRouterConfig mu c) = .ok c)
      ∧ (c.MSRBBips.val + c.COLBips.val + c.OpsBips.val ≠ 10000
        → GetFeeRouterConfig (PutFeeRouterConfig mu c)
          = .error (.wrapf ErrInvalidFeeRouterConfig "sum")) := by
  obtain ⟨hl, e1, e2, e3⟩ := FeeRouterConfig_row c
  unfold GetFeeRouterConfig PutFeeRouterConfig
  rw [Store.insert_same]
  simp only
  rw [if_neg (by rw [hl]; decide), e1, e2, e3]
  constructor
  · intro h
    rw [if_neg (not_not.mpr (show c.MSRBBips.val + c.COLBips.val + c.OpsBips.val
      = bipsDenominator.val from h))]
  · intro h
    rw [if_pos (show c.MSRBBips.val + c.COLBips.val + c.OpsBips.val ≠ bipsDenominator.val
      from h)]

theorem GetRiskConfig_PutRiskConfig (mu s : Store) (c : RiskConfig)
    (h : PutRiskConfig mu c = .ok s) : GetRiskConfig s = .ok c := by
  unfold PutRiskConfig at h
  split at h
  · cases h
  rename_i hval
  cases h
  obtain ⟨fl, l1, l2, l3, h1, h2, h3⟩ := c
  unfold GetRiskConfig
  rw [Store.insert_same]
  simp only
  generalize hv : be32 fl ++ be16 l1 ++ be16 l2 ++ be16 l3 ++ be16 h1 ++ be16 h2 ++ be16 h3 = v
  have hlen : v.length = 16 := by subst hv; rfl
  have e0 : slice v 0 4 = be32 fl :=
    slice_eq_of v [] _ (be16 l1 ++ be16 l2 ++ be16 l3 ++ be16 h1 ++ be16 h2 ++ be16 h3)
      (by rw [← hv]; simp [List.append_assoc]) 0 4 rfl rfl
  have e1 : slice v 4 6 = be16 l1 :=
    slice_eq_of v (be32 fl) _ (be16 l2 ++ be16 l3 ++ be16 h1 ++ be16 h2 ++ be16 h3)
      (by rw [← hv]; simp [List.append_assoc]) 4 6 rfl rfl
  have e2 : slice v 6 8 = be16 l2 :=
    slice_eq_of v (be32 fl ++ be16 l1) _ (be16 l3 ++ be16 h1 ++ be16 h2 ++ be16 h3)
      (by rw [← hv]; simp [List.append_assoc]) 6 8 rfl rfl
  have e3 : slice v 8 10 = be16 l3 :=
    slice_eq_of v (be32 fl ++ be16 l1 ++ be16 l2) _ (be16 h1 ++ be16 h2 ++ be16 h3)
      (by rw [← hv]; simp [List.append_assoc]) 8 10 rfl rfl
  have e4 : slice v 10 12 = be16 h1 :=
    slice_eq_of v (be32 fl ++ be16 l1 ++ be16 l2 ++ be16 l3) _ (be16 h2 ++ be16 h3)
      (by rw [← hv]; simp [List.append_assoc]) 10 12 rfl rfl
  have e5 : slice v 12 14 = be16 h2 :=
    slice_eq_of v (be32 fl ++ be16 l1 ++ be16 l2 ++ be16 l3 ++ be16 h1) _ (be16 h3)
      (by rw [← hv]) 12 14 rfl rfl
  have e6 : slice v 14 16 = be16 h3 :=
    slice_eq_of v (be32 fl ++ be16 l1 ++ be16 l2 ++ be16 l3 ++ be16 h1 ++ be16 h2) _ []
      (by rw [← hv]; simp) 14 16 rfl rfl
  rw [if_neg (by omega), e0, e1, e2, e3, e4, e5, e6, u32be_be32, u16be_be16, u16be_be16,
    u16be_be16, u16be_be16, u16be_be16, u16be_be16, hval]

theorem GetProofConfig_PutProofConfig (mu s : Store) (c : ProofConfig)
    (h : PutProofConfig mu c = .ok s) : GetProofConfig s = .ok c := by
  unfold PutProofConfig at h
  split at h
  · cases h
  rename_i hval
  cases h
  obtain ⟨rp, ty, bw, dl, auth⟩ := c
  unfold GetProofConfig
  rw [Store.insert_same]
  simp only
  have hg := auth.property
  generalize hb : (if rp = true then (1 : Byte) else 0) = b
  generalize hv : [b] ++ [ty] ++ be64 bw.bits ++ be64 dl.bits ++ auth.val = v
  have hlen : v.length = 51 := by subst hv; simp [hg, be64_length]
  have e0 : v.getD 0 0 = b :=
    getD_eq_of v [] b ([ty] ++ be64 bw.bits ++ be64 dl.bits ++ auth.val)
      (by rw [← hv]; simp [List.append_assoc]) 0 rfl
  have e1 : v.getD 1 0 = ty :=
    getD_eq_of v [b] ty (be64 bw.bits ++ be64 dl.bits ++ auth.val)
      (by rw [← hv]; simp [List.append_assoc]) 1 rfl
  have e2 : slice v 2 10 = be64 bw.bits :=
    slice_eq_of v ([b] ++ [ty]) _ (be64 dl.bits ++ auth.val)
      (by rw [← hv]; simp [List.append_assoc]) 2 10 rfl rfl
  have e3 : slice v 10 18 = be64 dl.bits :=
    slice_eq_of v ([b] ++ [ty] ++ be64 bw.bits) _ auth.val (by rw [← hv]) 10 18 rfl rfl
  have e4 : v.drop 18 = auth.val := by
    subst hv
    have hl : ([b] ++ [ty] ++ be64 bw.bits ++ be64 dl.bits).length = 18 := rfl
    rw [← hl, List.drop_left]
  have eb : decide (b = 1) = rp := by
    subst hb
    cases rp <;> decide
  rw [if_neg (by omega), e0, e1, e2, e3, e4, u64be_be64, u64be_be64, copyInto_val, eb, hval]

/-- C32 (amended): singleton record round trip. For TreasuryConfig,
TreasuryState, FeeRouterState, VAIConfig, VAIState, RiskConfig, ReserveState
and ProofConfig, and every value `r` for which the Put function succeeds, the
corresponding Get on the resulting store succeeds and returns exactly `r`.
For FeeRouterConfig, `PutFeeRouterConfig` accepts every `r`; the Get returns
`r` when the three bips sum to 10000 and fails with `ErrInvalidFeeRouterConfig`
otherwise. -/
theorem singleton_round_trip (mu : Store) :
    (∀ r, GetTreasuryConfig (PutTreasuryConfig mu r) = .ok r)
      ∧ (∀ r, GetTreasuryState (PutTreasuryState mu r) = .ok r)
      ∧ (∀ r : FeeRouterConfig, r.MSRBBips.val + r.COLBips.val + r.OpsBips.val = 10000
          → GetFeeRouterConfig (PutFeeRouterConfig mu r) = .ok r)
      ∧ (∀ r : FeeRouterConfig, r.MSRBBips.val + r.COLBips.val + r.OpsBips.val ≠ 10000
          → GetFeeRouterConfig (PutFeeRouterConfig mu r)
              = .error (.wrapf ErrInvalidFeeRouterConfig "sum")
            ∧ errorsIs (.wrapf ErrInvalidFeeRouterConfig "sum") ErrInvalidFeeRouterConfig = true)
      ∧ (∀ r, GetFeeRouterState (PutFeeRouterState mu r) = .ok r)
      ∧ (∀ r, GetVAIConfig (PutVAIConfig mu r) = .ok r)
      ∧ (∀ r, GetVAIState (PutVAIState mu r) = .ok r)
      ∧ (∀ r s, PutRiskConfig mu r = .ok s → GetRiskConfig s = .ok r)
      ∧ (∀ r, GetReserveState (PutReserveState mu r) = .ok r)
      ∧ (∀ r s, PutProofConfig mu r = .ok s → GetProofConfig s = .ok r) :=
  ⟨GetTreasuryConfig_PutTreasuryConfig mu, GetTreasuryState_PutTreasuryState mu,
    fun r h => (GetFeeRouterConfig_PutFeeRouterConfig mu r).1 h,
    fun r h => ⟨(GetFeeRouterConfig_PutFeeRouterConfig mu r).2 h, by decide⟩,
    GetFeeRouterState_PutFeeRouterState mu, GetVAIConfig_PutVAIConfig mu,
    GetVAIState_PutVAIState mu, fun r s h => GetRiskConfig_PutRiskConfig mu s r h,
    GetReserveState_PutReserveState mu, fun r s h => GetProofConfig_PutProofConfig mu s r h⟩

/-- C32 (witness): the default fee router and the proof config of the scenario. -/
theorem singleton_round_trip_witness :
    GetFeeRouterConfig (PutFeeRouterConfig Store.empty ⟨7000, 2000, 1000⟩)
        = .ok ⟨7000, 2000, 1000⟩
      ∧ GetProofConfig Scenario.genesis = .ok Scenario.proofConfig :=
  ⟨(singleton_round_trip Store.empty).2.2.1 ⟨7000, 2000, 1000⟩ (by decide),
    (singleton_round_trip
      (PutMarket Store.empty Scenario.market MarketStatusActive 2 ⟨100000⟩ 0 (ascii "rain?"))
      ).2.2.2.2.2.2.2.2.2 Scenario.proofConfig Scenario.genesis
      (eq_ok_of_succeeded _ Store.empty (by decide!))⟩

/-- C32 (counterexample): `PutFeeRouterConfig` accepts the record `(1, 2, 3)`,
and `GetFeeRouterConfig` on the resulting store fails. -/
theorem FeeRouterConfig_round_trip_counterexample :
    (PutFeeRouterConfig Store.empty ⟨1, 2, 3⟩) FeeRouterConfigKey
        = some (be16 1 ++ be16 2 ++ be16 3)
      ∧ errorOf (GetFeeRouterConfig (PutFeeRouterConfig Store.empty ⟨1, 2, 3⟩))
        = some (.wrapf ErrInvalidFeeRouterConfig "sum")
      ∧ GetFeeRouterConfig (PutFeeRouterConfig Store.empty ⟨1, 2, 3⟩) ≠ .ok ⟨1, 2, 3⟩ := by
  decide!

/-! ## Short batch-proof records -/

theorem sliceChecked_ok (v : Bytes) (a b : Nat) (h1 : a ≤ b) (h2 : b ≤ v.length) :
    sliceChecked v a b = .ok (slice v a b) := by
  unfold sliceChecked
  rw [if_pos ⟨h1, h2⟩]

theorem slice_to_length (v : Bytes) (a : Nat) : slice v a v.length = v.drop a := by
  unfold slice
  apply List.take_of_length_le
  simp

/-- The bounds checks of the decoder never fire: on every input the
bounds-checked decoding gives exactly the result of the unchecked one. -/
theorem decodeBatchProofRecordChecked_eq (v : Bytes) :
    decodeBatchProofRecordChecked v = decodeBatchProofRecord v := by
  unfold decodeBatchProofRecordChecked decodeBatchProofRecord
  by_cases h0 : v.length < 86
  · rw [if_pos h0, if_pos h0]
  have hi : indexChecked v 0 = .ok (v.getD 0 0) := by
    unfold indexChecked
    rw [if_pos (by omega)]
  rw [if_neg h0, if_neg h0]
  simp only [hi, sliceChecked_ok v 1 9 (by omega) (by omega),
    sliceChecked_ok v 9 17 (by omega) (by omega), sliceChecked_ok v 17 50 (by omega) (by omega),
    sliceChecked_ok v 50 82 (by omega) (by omega),
    sliceChecked_ok v 82 v.length (by omega) (by omega),
    sliceChecked_ok v 82 84 (by omega) (by omega),
    sliceChecked_ok v 84 v.length (by omega) (by omega), slice_to_length, bind, Except.bind]
  generalize (u16be (slice v 82 84)).val = p
  by_cases h1 : (v.drop 82).length < 2
  · rw [if_pos h1, if_pos h1]
  rw [if_neg h1, if_neg h1]
  by_cases h2 : p ≤ 0 ∨ p > 32 ∨ (v.drop 84).length < p + 2
  · rw [if_pos h2, if_pos h2]
  rw [if_neg h2, if_neg h2]
  have hb : 84 + p + 2 ≤ v.length := by
    have h3 : ¬ (v.drop 84).length < p + 2 := fun e => h2 (Or.inr (Or.inr e))
    rw [List.length_drop] at h3
    omega
  simp only [sliceChecked_ok v 84 (84 + p) (by omega) (by omega),
    sliceChecked_ok v (84 + p) (84 + p + 2) (by omega) (by omega),
    sliceChecked_ok v (84 + p + 2) v.length (by omega) (by omega), slice_to_length]
  generalize (u16be (slice v (84 + p) (84 + p + 2))).val = f
  by_cases h4 : f ≤ 0 ∨ f > 64 ∨ (v.drop (84 + p + 2)).length < f
  · rw [if_pos h4, if_pos h4]
  rw [if_neg h4, if_neg h4]
  have hc : 84 + p + 2 + f ≤ v.length := by
    have h5 : ¬ (v.drop (84 + p + 2)).length < f := fun e => h4 (Or.inr (Or.inr e))
    rw [List.length_drop] at h5
    omega
  simp only [sliceChecked_ok v (84 + p + 2) (84 + p + 2 + f) (by omega) (by omega)]
  rfl

theorem slice_take (v : Bytes) (n a b : Nat) (h : b ≤ n) :
    slice (v.take n) a b = slice v a b := by
  unfold slice
  rw [List.drop_take, List.take_take, Nat.min_eq_left (by omega)]

/-- Every error of the record decoder is `ErrInvalidProofEnvelope`. -/
theorem decodeBatchProofRecord_error {v : Bytes} {e : Err}
    (h : decodeBatchProofRecord v = .error e) : e = ErrInvalidProofEnvelope := by
  unfold decodeBatchProofRecord at h
  split at h
  · cases h; rfl
  split at h
  · cases h; rfl
  simp only at h
  split at h
  · cases h; rfl
  split at h
  · cases h; rfl
  · cases h

/-- The lengths a successfully decoded value must have. -/
theorem decodeBatchProofRecord_ok_lengths {v : Bytes} {rec : BatchProofRecord}
    (h : decodeBatchProofRecord v = .ok rec) :
    86 ≤ v.length
      ∧ 86 + (u16be (slice v 82 84)).val ≤ v.length
      ∧ 86 + (u16be (slice v 82 84)).val
          + (u16be (slice v (84 + (u16be (slice v 82 84)).val)
              (84 + (u16be (slice v 82 84)).val + 2))).val ≤ v.length := by
  unfold decodeBatchProofRecord at h
  split at h
  · cases h
  rename_i h0
  split at h
  · cases h
  simp only at h
  split at h
  · cases h
  rename_i h2
  split at h
  · cases h
  rename_i h4
  have h3 : ¬ (v.drop 84).length < (u16be (slice v 82 84)).val + 2 :=
    fun e => h2 (Or.inr (Or.inr e))
  have h5 : ¬ (v.drop (84 + (u16be (slice v 82 84)).val + 2)).length
      < (u16be (slice v (84 + (u16be (slice v 82 84)).val)
          (84 + (u16be (slice v 82 84)).val + 2))).val :=
    fun e => h4 (Or.inr (Or.inr e))
  rw [List.length_drop] at h3 h5
  omega

/-- The two length fields inside the encoding of an accepted record. -/
theorem encodeBatchProofRecord_lengths (rec : BatchProofRecord)
    (h1 : 1 ≤ rec.PublicInputsHash.length ∧ rec.PublicInputsHash.length ≤ 32)
    (h2 : 1 ≤ rec.FillsHash.length ∧ rec.FillsHash.length ≤ 64) :
    (encodeBatchProofRecord rec).length = 86 + rec.PublicInputsHash.length + rec.FillsHash.length
      ∧ (u16be (slice (encodeBatchProofRecord rec) 82 84)).val = rec.PublicInputsHash.length
      ∧ (u16be (slice (encodeBatchProofRecord rec) (84 + rec.PublicInputsHash.length)
          (84 + rec.PublicInputsHash.length + 2))).val = rec.FillsHash.length := by
  obtain ⟨ty, sub, wc, prover, commit, pih, fills⟩ := rec
  simp only at h1 h2 ⊢
  have hpl := prover.property
  have hcl := commit.property
  have hpn : (toU16 pih.length).val = pih.length := by simp [toU16]; omega
  have hfn : (toU16 fills.length).val = fills.length := by simp [toU16]; omega
  generalize hv : encodeBatchProofRecord ⟨ty, sub, wc, prover, commit, pih, fills⟩ = v
  unfold encodeBatchProofRecord at hv
  simp only at hv
  have hlen : v.length = 86 + pih.length + fills.length := by
    subst hv; simp [be64_length, be16_length, hpl, hcl]; omega
  have e5 : slice v 82 84 = be16 (toU16 pih.length) :=
    slice_eq_of v ([ty] ++ be64 sub.bits ++ be64 wc.bits ++ prover.val ++ commit.val) _
      (pih ++ be16 (toU16 fills.length) ++ fills)
      (by rw [← hv]; simp [List.append_assoc]) 82 84 (by simp [be64_length, hpl, hcl])
      (by simp [be64_length, be16_length, hpl, hcl])
  have e7 : slice v (84 + pih.length) (84 + pih.length + 2) = be16 (toU16 fills.length) :=
    slice_eq_of v ([ty] ++ be64 sub.bits ++ be64 wc.bits ++ prover.val ++ commit.val
      ++ be16 (toU16 pih.length) ++ pih) _ fills
      (by rw [← hv]) _ _ (by simp [be64_length, be16_length, hpl, hcl]; omega)
      (by simp [be64_length, be16_length, hpl, hcl]; omega)
  rw [e5, e7, u16be_be16, u16be_be16]
  exact ⟨hlen, hpn, hfn⟩

/-- Decoding a strict prefix of the encoding of an accepted record fails. -/
theorem decodeBatchProofRecord_prefix (rec : BatchProofRecord)
    (h1 : 1 ≤ rec.PublicInputsHash.length ∧ rec.PublicInputsHash.length ≤ 32)
    (h2 : 1 ≤ rec.FillsHash.length ∧ rec.FillsHash.length ≤ 64) (n : Nat)
    (hn : n < (encodeBatchProofRecord rec).length) :
    decodeBatchProofRecord ((encodeBatchProofRecord rec).take n)
      = .error ErrInvalidProofEnvelope := by
  obtain ⟨hlen, hp, hf⟩ := encodeBatchProofRecord_lengths rec h1 h2
  cases hd : decodeBatchProofRecord ((encodeBatchProofRecord rec).take n) with
  | error e => rw [decodeBatchProofRecord_error hd]
  | ok r =>
    exfalso
    obtain ⟨a0, a1, a2⟩ := decodeBatchProofRecord_ok_lengths hd
    have hl : ((encodeBatchProofRecord rec).take n).length = n := by
      rw [List.length_take]
      omega
    rw [hl] at a0 a1 a2
    rw [slice_take _ n 82 84 (by omega), hp] at a1 a2
    rw [slice_take _ n _ _ (by omega), hf] at a2
    omega

/-- C33: for every record `r` accepted by `PutBatchProofRecord`
(`1 ≤ |public_inputs_hash| ≤ 32`, `1 ≤ |fills_hash| ≤ 64`), decoding the
complete stored encoding with `GetBatchProofRecord` returns `r`, and decoding
any strict prefix of it fails with `ErrInvalidProofEnvelope`; the
bounds-checked decoder gives the same results, so no index or slice
expression of the decoder is ever out of bounds. -/
theorem GetBatchProofRecord_truncated_rejected (mu s : Store) (m : ID) (w : U64)
    (r : BatchProofRecord) (hput : PutBatchProofRecord mu m w r = .ok s) :
    (1 ≤ r.PublicInputsHash.length ∧ r.PublicInputsHash.length ≤ 32)
      ∧ (1 ≤ r.FillsHash.length ∧ r.FillsHash.length ≤ 64)
      ∧ s (BatchProofKey m w) = some (encodeBatchProofRecord r)
      ∧ GetBatchProofRecord s m w = .ok r
      ∧ decodeBatchProofRecordChecked (encodeBatchProofRecord r) = .ok r
      ∧ (∀ (n : Nat) (s1 : Store), n < (encodeBatchProofRecord r).length →
          s1 (BatchProofKey m w) = some ((encodeBatchProofRecord r).take n) →
            GetBatchProofRecord s1 m w = .error ErrInvalidProofEnvelope
              ∧ decodeBatchProofRecordChecked ((encodeBatchProofRecord r).take n)
                = .error ErrInvalidProofEnvelope)
      ∧ (∀ v : Bytes, decodeBatchProofRecordChecked v = decodeBatchProofRecord v) := by
  unfold PutBatchProofRecord at hput
  split at hput
  · cases hput
  rename_i h1
  split at hput
  · cases hput
  rename_i h2
  cases hput
  have b1 : 1 ≤ r.PublicInputsHash.length ∧ r.PublicInputsHash.length ≤ 32 := by
    constructor
    · exact Nat.pos_of_ne_zero (fun e => h1 (Or.inl e))
    · exact Nat.le_of_not_lt (fun e => h1 (Or.inr e))
  have b2 : 1 ≤ r.FillsHash.length ∧ r.FillsHash.length ≤ 64 := by
    constructor
    · exact Nat.pos_of_ne_zero (fun e => h2 (Or.inl e))
    · exact Nat.le_of_not_lt (fun e => h2 (Or.inr e))
  have hrow := Store.insert_same mu (BatchProofKey m w) (encodeBatchProofRecord r)
  have hdec := decode_encodeBatchProofRecord r b1 b2
  refine ⟨b1, b2, hrow, ?_, ?_, ?_, decodeBatchProofRecordChecked_eq⟩
  · unfold GetBatchProofRecord
    rw [hrow]
    exact hdec
  · rw [decodeBatchProofRecordChecked_eq]
    exact hdec
  · intro n s1 hn hs1
    have hp := decodeBatchProofRecord_prefix r b1 b2 n hn
    constructor
    · unfold GetBatchProofRecord
      rw [hs1]
      exact hp
    · rw [decodeBatchProofRecordChecked_eq]
      exact hp

/-- C33 (witness): the record of the scenario is 150 bytes long when stored;
its first 149 bytes do not decode. -/
theorem GetBatchProofRecord_truncated_rejected_witness :
    GetBatchProofRecord
        (Store.insert Store.empty (BatchProofKey Scenario.market 1)
          ((encodeBatchProofRecord Scenario.proofRecord).take 149)) Scenario.market 1
      = .error ErrInvalidProofEnvelope :=
  ((GetBatchProofRecord_truncated_rejected Store.empty
      (Store.insert Store.empty (BatchProofKey Scenario.market 1)
        (encodeBatchProofRecord Scenario.proofRecord)) Scenario.market 1 Scenario.proofRecord
      rfl).2.2.2.2.2.1 149 _ (by decide) (Store.insert_same _ _ _)).1

/-- The allocation loop succeeds exactly when the running sum stays below
`2^64`, and then returns that sum; otherwise it returns `math.ErrOverflow`. -/
theorem sumAllocations_spec (allocs : List CustomAllocation) (acc : U64) :
    (acc.val + (allocs.map (fun alloc => alloc.Balance.val)).sum < 18446744073709551616 →
        ∃ s : U64, sumAllocations allocs acc = .ok s
          ∧ s.val = acc.val + (allocs.map (fun alloc => alloc.Balance.val)).sum)
      ∧ (18446744073709551616 ≤ acc.val + (allocs.map (fun alloc => alloc.Balance.val)).sum →
        sumAllocations allocs acc = .error ErrOverflow) := by
  induction allocs generalizing acc with
  | nil =>
    constructor
    · intro _
      exact ⟨acc, rfl, by simp⟩
    · intro h
      have := acc.isLt
      simp at h
      omega
  | cons alloc rest ih =>
    simp only [List.map_cons, List.sum_cons]
    by_cases hs : acc.val + alloc.Balance.val < 18446744073709551616
    · have hadd : smathAdd acc alloc.Balance = .ok (acc + alloc.Balance) :=
        (smathAdd_ok_iff _ _ _).2 ⟨hs, rfl⟩
      have hv := U64_add_val acc alloc.Balance hs
      have ih1 := ih (acc + alloc.Balance)
      rw [hv] at ih1
      constructor
      · intro h
        obtain ⟨s, h1, h2⟩ := ih1.1 (by omega)
        refine ⟨s, ?_, by omega⟩
        simp only [sumAllocations, hadd]
        exact h1
      · intro h
        simp only [sumAllocations, hadd]
        exact ih1.2 (by omega)
    · have hadd : smathAdd acc alloc.Balance = .error ErrOverflow := by
        unfold smathAdd
        rw [if_neg hs]
      constructor
      · intro h
        omega
      · intro _
        simp only [sumAllocations, hadd]

/-- The three checked additions of `validateTokenomics` taken together. -/
theorem supply_total_spec (allocs : List CustomAllocation) (t : Tokenomics) :
    (supplySum allocs t < 18446744073709551616 →
        ∃ allocSum total0 total : U64, sumAllocations allocs 0 = .ok allocSum
          ∧ smathAdd allocSum t.COLVaultLocked = .ok total0
          ∧ smathAdd total0 t.COLVaultLive = .ok total
          ∧ total.val = supplySum allocs t)
      ∧ (18446744073709551616 ≤ supplySum allocs t →
        sumAllocations allocs 0 = .error ErrOverflow
          ∨ (∃ allocSum : U64, sumAllocations allocs 0 = .ok allocSum
              ∧ smathAdd allocSum t.COLVaultLocked = .error ErrOverflow)
          ∨ (∃ allocSum total0 : U64, sumAllocations allocs 0 = .ok allocSum
              ∧ smathAdd allocSum t.COLVaultLocked = .ok total0
              ∧ smathAdd total0 t.COLVaultLive = .error ErrOverflow)) := by
  have hsum := sumAllocations_spec allocs 0
  have h0 : (0 : U64).val = 0 := rfl
  rw [h0] at hsum
  simp only [Nat.zero_add] at hsum
  unfold supplySum
  generalize (allocs.map (fun alloc => alloc.Balance.val)).sum = A at hsum ⊢
  constructor
  · intro h
    obtain ⟨s, hs1, hs2⟩ := hsum.1 (by omega)
    have h1 : s.val + t.COLVaultLocked.val < 18446744073709551616 := by omega
    have hv1 := U64_add_val s t.COLVaultLocked h1
    have h2 : (s + t.COLVaultLocked).val + t.COLVaultLive.val < 18446744073709551616 := by omega
    have hv2 := U64_add_val (s + t.COLVaultLocked) t.COLVaultLive h2
    exact ⟨s, s + t.COLVaultLocked, s + t.COLVaultLocked + t.COLVaultLive, hs1,
      (smathAdd_ok_iff _ _ _).2 ⟨h1, rfl⟩, (smathAdd_ok_iff _ _ _).2 ⟨h2, rfl⟩, by omega⟩
  · intro h
    by_cases hA : A < 18446744073709551616
    · obtain ⟨s, hs1, hs2⟩ := hsum.1 hA
      right
      by_cases h1 : s.val + t.COLVaultLocked.val < 18446744073709551616
      · right
        have hv1 := U64_add_val s t.COLVaultLocked h1
        refine ⟨s, s + t.COLVaultLocked, hs1, (smathAdd_ok_iff _ _ _).2 ⟨h1, rfl⟩, ?_⟩
        unfold smathAdd
        rw [if_neg (by omega)]
      · left
        refine ⟨s, hs1, ?_⟩
        unfold smathAdd
        rw [if_neg h1]
    · left
      exact hsum.2 (by omega)

/-- A Go early return: when `if c { return err }; rest` yields `nil`, the
condition was false and the rest yielded `nil`. -/
theorem ite_some_eq_none {c : Prop} [Decidable c] {e : Err} {x : Option Err}
    (h : (if c then some e else x) = none) : ¬ c ∧ x = none := by
  by_cases hc : c
  · rw [if_pos hc] at h
    cases h
  · rw [if_neg hc] at h
    exact ⟨hc, h⟩

/-- The three checked additions succeed only when the supply sum fits in 64
bits, and then yield it. -/
theorem supply_total_ok {allocs : List CustomAllocation} {t : Tokenomics}
    {allocSum total0 total : U64} (h1 : sumAllocations allocs 0 = .ok allocSum)
    (h2 : smathAdd allocSum t.COLVaultLocked = .ok total0)
    (h3 : smathAdd total0 t.COLVaultLive = .ok total) :
    supplySum allocs t < 18446744073709551616 ∧ total.val = supplySum allocs t := by
  by_cases hlt : supplySum allocs t < 18446744073709551616
  · obtain ⟨s, s0, tot, g1, g2, g3, g4⟩ := (supply_total_spec allocs t).1 hlt
    rw [h1] at g1
    cases g1
    rw [h2] at g2
    cases g2
    rw [h3] at g3
    cases g3
    exact ⟨hlt, g4⟩
  · exfalso
    rcases (supply_total_spec allocs t).2 (by omega) with g1 | ⟨s, g1, g2⟩ | ⟨s, s0, g1, g2, g3⟩
    · rw [h1] at g1
      cases g1
    · rw [h1] at g1
      cases g1
      rw [h2] at g2
      cases g2
    · rw [h1] at g1
      cases g1
      rw [h2] at g2
      cases g2
      rw [h3] at g3
      cases g3

/-- Function `validateTokenomics` accepts a block exactly when the field
checks pass, the supply sum fits in 64 bits, and the declared total supply is
either zero or equal to the sum. -/
theorem validateTokenomics_none_iff (allocs : List CustomAllocation) (t : Tokenomics) :
    validateTokenomics allocs (some t) = none ↔
      t.fieldsValid ∧ supplySum allocs t < 18446744073709551616
        ∧ (t.TotalSupply = 0 ∨ supplySum allocs t = t.TotalSupply.val) := by
  have hb : bipsDenominator.val = 10000 := rfl
  constructor
  · intro hv
    rw [validateTokenomics] at hv
    obtain ⟨c1, hv⟩ := ite_some_eq_none hv
    obtain ⟨c2, hv⟩ := ite_some_eq_none hv
    obtain ⟨c3, hv⟩ := ite_some_eq_none hv
    obtain ⟨c4, hv⟩ := ite_some_eq_none hv
    obtain ⟨c5, hv⟩ := ite_some_eq_none hv
    obtain ⟨c6, hv⟩ := ite_some_eq_none hv
    obtain ⟨c7, hv⟩ := ite_some_eq_none hv
    obtain ⟨c8, hv⟩ := ite_some_eq_none hv
    obtain ⟨c9, hv⟩ := ite_some_eq_none hv
    obtain ⟨c10, hv⟩ := ite_some_eq_none hv
    obtain ⟨c11, hv⟩ := ite_some_eq_none hv
    obtain ⟨c12, hv⟩ := ite_some_eq_none hv
    obtain ⟨c13, hv⟩ := ite_some_eq_none hv
    split at hv
    · cases hv
    rename_i s h1
    split at hv
    · cases hv
    rename_i s0 h2
    split at hv
    · cases hv
    rename_i tot h3
    obtain ⟨c14, _⟩ := ite_some_eq_none hv
    obtain ⟨hlt, h4⟩ := supply_total_ok h1 h2 h3
    rw [hb] at c2 c8 c9 c13
    refine ⟨⟨by omega, ⟨fun e => c2 (Or.inl e), by omega⟩, by omega, c4,
      ⟨fun e => c5 (Or.inl e), by omega⟩, c6, not_not.mp c7, ⟨by omega, by omega⟩,
      ⟨by omega, by omega, by omega⟩, ?_, ⟨by omega, by omega⟩, c12, not_not.mp c13⟩, hlt, ?_⟩
    · by_cases hg : t.RequiredProofType = ProofTypeGroth16
      · exact Or.inl hg
      · right
        by_contra hp
        exact c10 ⟨hg, hp⟩
    · by_cases hz : t.TotalSupply = 0
      · exact Or.inl hz
      · right
        rw [← h4]
        by_contra hne
        exact c14 ⟨hz, fun e => hne (by rw [e])⟩
  · rintro ⟨⟨f1, f2, f3, f4, f5, f6, f7, f8, f9, f10, f11, f12, f13⟩, hlt, hts⟩
    obtain ⟨s, s0, tot, h1, h2, h3, h4⟩ := (supply_total_spec allocs t).1 hlt
    rw [validateTokenomics]
    rw [if_neg (by omega), if_neg (by rw [hb]; rintro (e | e); exact f2.1 e; omega),
      if_neg (by omega), if_neg f4, if_neg (by rintro (e | e); exact f5.1 e; omega),
      if_neg f6, if_neg (not_not.mpr f7),
      if_neg (by rw [hb, f7]; rintro (e | e | e); omega; omega; exact absurd e (by decide)),
      if_neg (by rw [hb]; omega),
      if_neg (by rintro ⟨a, b⟩; rcases f10 with e | e; exact a e; exact b e),
      if_neg (by omega), if_neg f12]
    refine (if_neg (by rw [hb]; exact not_not.mpr f13)).trans ?_
    rw [h1]
    dsimp only
    rw [h2]
    dsimp only
    rw [h3]
    dsimp only
    rw [if_neg]
    rintro ⟨a, b⟩
    rcases hts with e | e
    · exact a e
    · exact b (Fin.ext (by omega))

/-- C34 (amended): `validateTokenomics` returns an error for every tokenomics
block and allocation list in which the sum of the allocation balances plus
`colVaultLocked` plus `colVaultLive` does not fit in 64 bits, and for every
one that declares a non-zero `totalSupply` different from that sum. -/
theorem validateTokenomics_supply_check (allocs : List CustomAllocation) (t : Tokenomics)
    (h : 18446744073709551616 ≤ supplySum allocs t
      ∨ (t.TotalSupply ≠ 0 ∧ supplySum allocs t ≠ t.TotalSupply.val)) :
    ∃ e : Err, validateTokenomics allocs (some t) = some e := by
  cases hv : validateTokenomics allocs (some t) with
  | some e => exact ⟨e, rfl⟩
  | none =>
    exfalso
    obtain ⟨_, hlt, hts⟩ := (validateTokenomics_none_iff allocs t).1 hv
    rcases h with h | ⟨h0, h1⟩
    · omega
    · rcases hts with e | e
      · exact h0 e
      · exact h1 e

/-- C34 (witness): a declared total supply of 1015 against allocations of 6
and vault amounts of 1000 and 10 is rejected. -/
theorem validateTokenomics_supply_check_witness :
    ∃ e : Err, validateTokenomics [⟨Scenario.governance, 6⟩] (some Scenario.tokenomicsDeclared)
      = some e :=
  validateTokenomics_supply_check [⟨Scenario.governance, 6⟩] Scenario.tokenomicsDeclared
    (Or.inr ⟨by decide, by decide⟩)

/-- C34 (counterexample): a block without `totalSupply` (zero) is accepted
although the allocations and vault amounts sum to 1015, which differs from
the total supply of the block. -/
theorem validateTokenomics_zero_supply_counterexample :
    validateTokenomics Scenario.allocations (some Scenario.tokenomics) = none
      ∧ supplySum Scenario.allocations Scenario.tokenomics = 1015
      ∧ Scenario.tokenomics.TotalSupply.val = 0
      ∧ supplySum Scenario.allocations Scenario.tokenomics
          ≠ Scenario.tokenomics.TotalSupply.val := by
  refine ⟨?_, by decide, by decide, by decide⟩
  decide!

/-! ## Swap arithmetic: constant product and strict output bound -/

/-- The output of the swap formula is strictly below the out-side reserve
when both reserves are non-zero. -/
theorem swap_out_lt {reserveIn reserveOut f den out : U64} (h1 : reserveIn ≠ 0)
    (h2 : reserveOut ≠ 0) (hden : smathAdd reserveIn f = .ok den)
    (hout : mulDiv reserveOut f den = .ok out) : out.val < reserveOut.val := by
  obtain ⟨hlt, hd⟩ := (smathAdd_ok_iff _ _ _).1 hden
  obtain ⟨_, _, hq⟩ := (mulDiv_ok_iff _ _ _ _).1 hout
  have hdv : den.val = reserveIn.val + f.val := by rw [hd]; exact U64_add_val _ _ hlt
  have hi : 0 < reserveIn.val := Nat.pos_of_ne_zero (fun e => h1 (Fin.ext e))
  have ho : 0 < reserveOut.val := Nat.pos_of_ne_zero (fun e => h2 (Fin.ext e))
  rw [hq, hdv]
  rw [Nat.div_lt_iff_lt_mul (by omega)]
  have : reserveOut.val * f.val < reserveOut.val * (reserveIn.val + f.val) :=
    Nat.mul_lt_mul_of_pos_left (by omega) ho
  exact this

/-- The constant product does not decrease: with `f ≤ amountIn` credited to
the formula and `out = floor(reserveOut * f / (reserveIn + f))` paid out. -/
theorem swap_product_le (rin rout f amountIn out k : Nat) (hf : f ≤ amountIn)
    (hout : out = rout * f / (rin + f)) (hk : k + out = rout) :
    rin * rout ≤ (rin + amountIn) * k := by
  have h1 : out * (rin + f) ≤ rout * f := by
    rw [hout]
    exact Nat.div_mul_le_self _ _
  rw [← hk] at h1 ⊢
  have h2 : out * rin ≤ k * f := by
    have e1 : out * (rin + f) = out * rin + out * f := Nat.mul_add _ _ _
    have e2 : (k + out) * f = k * f + out * f := Nat.add_mul _ _ _
    omega
  have h3 : k * f ≤ k * amountIn := Nat.mul_le_mul_left k hf
  have e3 : rin * (k + out) = rin * k + rin * out := Nat.mul_add _ _ _
  have e4 : (rin + amountIn) * k = rin * k + amountIn * k := Nat.add_mul _ _ _
  have e5 : rin * out = out * rin := Nat.mul_comm _ _
  have e6 : amountIn * k = k * amountIn := Nat.mul_comm _ _
  omega

/-- The amount credited to the swap formula is at most the amount paid in when
the fee is at most 10000 bips. -/
theorem swap_fee_le (amountIn : U64) (fee : U16) (hfee : fee.val ≤ 10000) (f : U64)
    (h : mulDiv amountIn (toU64 ((10000 : U16) - fee).val) 10000 = .ok f) :
    f.val ≤ amountIn.val := by
  obtain ⟨_, _, hq⟩ := (mulDiv_ok_iff _ _ _ _).1 h
  have hs : ((10000 : U16) - fee).val = 10000 - fee.val := by
    rw [Fin.sub_def]
    show (65536 - fee.val + 10000) % 65536 = 10000 - fee.val
    omega
  have ht : (toU64 ((10000 : U16) - fee).val).val = 10000 - fee.val := by
    rw [hs]
    show (10000 - fee.val) % 18446744073709551616 = 10000 - fee.val
    omega
  have h10 : ((10000 : U64)).val = 10000 := rfl
  rw [ht, h10] at hq
  rw [hq]
  apply Nat.div_le_of_le_mul
  have : amountIn.val * (10000 - fee.val) ≤ amountIn.val * 10000 :=
    Nat.mul_le_mul_left _ (by omega)
  omega

/-- The orientation step of `SwapExactIn.Execute`: a call that got past
validation and found the pool runs `SwapExactIn.swap` on one of the two
orientations, or fails with `ErrInvalidAssetPair`. -/
theorem SwapExactIn_Execute_shape (a : SwapExactIn) (mu : Store) (ts : I64) (actor : Address)
    (tx : ID) (pool : Pool) (hpool : GetPool mu a.AssetIn a.AssetOut = .ok pool) :
    (∃ e, a.Execute mu ts actor tx = .error e
        ∧ (e = ErrUnsupportedAsset ∨ e = ErrInvalidAssetPair ∨ e = ErrInvalidSwapAmount))
      ∨ (a.AmountIn ≠ 0 ∧ validateAssetPair a.AssetIn a.AssetOut = none
        ∧ ∃ (inIs0 : Bool) (reserveIn reserveOut : U64),
          a.Execute mu ts actor tx = SwapExactIn.swap a mu actor pool inIs0 reserveIn reserveOut
            ∧ ((inIs0 = true ∧ reserveIn = pool.Reserve0 ∧ reserveOut = pool.Reserve1
                ∧ pool.Asset0 = a.AssetIn ∧ pool.Asset1 = a.AssetOut)
              ∨ (inIs0 = false ∧ reserveIn = pool.Reserve1 ∧ reserveOut = pool.Reserve0
                ∧ pool.Asset0 = a.AssetOut ∧ pool.Asset1 = a.AssetIn))) := by
  unfold SwapExactIn.Execute
  cases hv : validateAssetPair a.AssetIn a.AssetOut with
  | some e =>
    left
    refine ⟨e, rfl, ?_⟩
    unfold validateAssetPair at hv
    split at hv
    · cases hv
      exact Or.inl rfl
    split at hv
    · cases hv
      exact Or.inr (Or.inl rfl)
    · cases hv
  | none =>
    simp only
    by_cases hz : a.AmountIn = 0
    · left
      rw [if_pos hz]
      exact ⟨_, rfl, Or.inr (Or.inr rfl)⟩
    rw [if_neg hz, hpool]
    simp only
    by_cases c1 : pool.Asset0 = a.AssetIn ∧ pool.Asset1 = a.AssetOut
    · right
      rw [if_pos c1]
      exact ⟨hz, trivial, true, _, _, rfl, Or.inl ⟨rfl, rfl, rfl, c1.1, c1.2⟩⟩
    rw [if_neg c1]
    by_cases c2 : pool.Asset0 = a.AssetOut ∧ pool.Asset1 = a.AssetIn
    · right
      rw [if_pos c2]
      exact ⟨hz, trivial, false, _, _, rfl, Or.inr ⟨rfl, rfl, rfl, c2.1, c2.2⟩⟩
    · left
      rw [if_neg c2]
      exact ⟨_, rfl, Or.inr (Or.inl rfl)⟩

/-- C35: for every stored pool with `fee_bips ≤ 10000` and every successful
`swap_exact_in`, the product of the post-swap reserves, which is
`(reserve_in + amount_in) * (reserve_out - amount_out)`, is at least the
product `reserve_in * reserve_out` of the reserves before the swap, over the
naturals. -/
theorem swap_constant_product_nondecreasing (a : SwapExactIn) (mu s : Store) (ts : I64)
    (actor : Address) (tx : ID) (r : SwapExactInResult) (pool : Pool)
    (hpool : GetPool mu a.AssetIn a.AssetOut = .ok pool)
    (hfee : pool.FeeBips.val ≤ 10000)
    (h : a.Execute mu ts actor tx = .ok (s, r)) :
    ∃ (pool1 : Pool) (reserveIn reserveOut : Nat),
      GetPool s a.AssetIn a.AssetOut = .ok pool1
        ∧ ((pool.Asset0 = a.AssetIn ∧ pool.Asset1 = a.AssetOut
            ∧ reserveIn = pool.Reserve0.val ∧ reserveOut = pool.Reserve1.val
            ∧ pool1.Reserve0.val = reserveIn + a.AmountIn.val
            ∧ pool1.Reserve1.val = reserveOut - r.AmountOut.val)
          ∨ (pool.Asset0 = a.AssetOut ∧ pool.Asset1 = a.AssetIn
            ∧ reserveIn = pool.Reserve1.val ∧ reserveOut = pool.Reserve0.val
            ∧ pool1.Reserve1.val = reserveIn + a.AmountIn.val
            ∧ pool1.Reserve0.val = reserveOut - r.AmountOut.val))
        ∧ r.AmountOut.val ≤ reserveOut
        ∧ reserveIn * reserveOut
            ≤ (reserveIn + a.AmountIn.val) * (reserveOut - r.AmountOut.val)
        ∧ pool.Reserve0.val * pool.Reserve1.val ≤ pool1.Reserve0.val * pool1.Reserve1.val := by
  rcases SwapExactIn_Execute_shape a mu ts actor tx pool hpool with
    ⟨e, he, _⟩ | ⟨_, hv, inIs0, rin, rout, hex, hor⟩
  · rw [he] at h
    cases h
  obtain ⟨hin, hout, hne⟩ := (validateAssetPair_none_iff _ _).mp hv
  rw [hex] at h
  have hkey : PoolKey pool.Asset0 pool.Asset1 = PoolKey a.AssetIn a.AssetOut := by
    rcases hor with ⟨_, _, _, c1, c2⟩ | ⟨_, _, _, c1, c2⟩
    · rw [c1, c2]
    · rw [c1, c2]
      exact PoolKey_comm _ _
  obtain ⟨_, _, f, _, _, _, _, _, _, _, hmf, _⟩ := SwapExactIn_swap_inv h
  have hfle := swap_fee_le a.AmountIn pool.FeeBips hfee f hmf
  obtain ⟨iwf, out, pool1, _, _, _, _, h1, h2, h3, _, h5, h6, _, _, h9, h10, _⟩ :=
    SwapExactIn_swap_effects hin hout hne hfee hkey h
  have hf2 : iwf = f.val := by
    obtain ⟨_, _, hq⟩ := (mulDiv_ok_iff _ _ _ _).1 hmf
    have hs : ((10000 : U16) - pool.FeeBips).val = 10000 - pool.FeeBips.val := by
      rw [Fin.sub_def]
      show (65536 - pool.FeeBips.val + 10000) % 65536 = 10000 - pool.FeeBips.val
      omega
    have ht : (toU64 ((10000 : U16) - pool.FeeBips).val).val = 10000 - pool.FeeBips.val := by
      rw [hs]
      show (10000 - pool.FeeBips.val) % 18446744073709551616 = 10000 - pool.FeeBips.val
      omega
    have h10 : ((10000 : U64)).val = 10000 := rfl
    rw [ht, h10] at hq
    rw [h1, hq]
  rw [hf2] at h2
  rcases hor with ⟨hi, hri, hro, c1, c2⟩ | ⟨hi, hri, hro, c1, c2⟩
  · obtain ⟨g1, g2⟩ := h9 hi
    rw [hri, hro] at h2
    rw [hro] at h5
    have hprod := swap_product_le pool.Reserve0.val pool.Reserve1.val f.val a.AmountIn.val out
      pool1.Reserve1.val hfle h2 g2
    have hk : pool1.Reserve1.val = pool.Reserve1.val - r.AmountOut.val := by omega
    refine ⟨pool1, pool.Reserve0.val, pool.Reserve1.val, h6,
      Or.inl ⟨c1, c2, rfl, rfl, g1, hk⟩, by omega, ?_, ?_⟩
    · rw [← hk]
      exact hprod
    · rw [g1]
      exact hprod
  · obtain ⟨g1, g2⟩ := h10 hi
    rw [hri, hro] at h2
    rw [hro] at h5
    have hprod := swap_product_le pool.Reserve1.val pool.Reserve0.val f.val a.AmountIn.val out
      pool1.Reserve0.val hfle h2 g2
    have hk : pool1.Reserve0.val = pool.Reserve0.val - r.AmountOut.val := by omega
    refine ⟨pool1, pool.Reserve1.val, pool.Reserve0.val, h6,
      Or.inr ⟨c1, c2, rfl, rfl, g1, hk⟩, by omega, ?_, ?_⟩
    · rw [← hk]
      exact hprod
    · rw [g1, Nat.mul_comm pool.Reserve0.val, Nat.mul_comm pool1.Reserve0.val]
      exact hprod

/-- C35 (witness): the swap of 100 into reserves `(10000, 10000)` at 30 bips
leaves a product of at least `10000 * 10000`. -/
theorem swap_constant_product_nondecreasing_witness :
    ∃ pool1 : Pool, GetPool Scenario.afterSwap AssetVEIL AssetVAI = .ok pool1
      ∧ 10000 * 10000 ≤ pool1.Reserve0.val * pool1.Reserve1.val := by
  obtain ⟨pool1, rin, rout, hget, _, _, _, hp⟩ :=
    swap_constant_product_nondecreasing Scenario.swap Scenario.afterDeposit Scenario.afterSwap
      ⟨0⟩ Scenario.trader Scenario.txID _ ⟨0, 1, 30, 10000, 10000, 10000⟩ (by decide!)
      (by decide) (eq_ok_pair_of_succeeded _ (Store.empty, ⟨0, 0, 0, 0⟩) (by decide!))
  exact ⟨pool1, hget, hp⟩

/-! ## The errors of a swap -/

/-- The only error `innerGetBalance` reports is the size error of
`database.ParseUInt64`. -/
theorem innerGetBalance_error (r : Option Bytes) (bal : U64) (ok : Bool) (e : Err)
    (h : innerGetBalance r = (bal, ok, some e)) : e = ErrWrongSize := by
  unfold innerGetBalance at h
  split at h
  · cases h
  · split at h
    · rename_i e1 he
      cases h
      unfold parseUInt64 at he
      split at he
      · cases he
      · cases he
        rfl
    · cases h

/-- The errors of the shared shape of `SubBalance` and `SubVAIBalance`. -/
theorem sub_row_error (mu : Store) (k : Bytes) (x : U64) (e e1 e2 : Err)
    (set : Store → Bytes → U64 → Store)
    (h : (match (k, innerGetBalance (mu k)) with
      | (_, _, false, _) => Except.error e1
      | (_, _, true, some e) => .error e
      | (key, bal, true, none) =>
        match smathSub bal x with
        | .error _ => .error e2
        | .ok nbal =>
          if nbal = 0 then .ok (0, Store.remove mu key)
          else .ok (nbal, set mu key nbal)) = Except.error e) :
    e = e1 ∨ e = e2 ∨ e = ErrWrongSize := by
  have hi := innerGetBalance_error (mu k)
  generalize innerGetBalance (mu k) = t at h hi
  obtain ⟨bal, ok, e0⟩ := t
  cases ok with
  | false =>
    simp only at h
    cases h
    exact Or.inl rfl
  | true =>
    cases e0 with
    | some e0 =>
      simp only at h
      cases h
      exact Or.inr (Or.inr (hi _ _ _ rfl))
    | none =>
      simp only at h
      split at h
      · cases h
        exact Or.inr (Or.inl rfl)
      · split at h <;> cases h

/-- The errors of the shared shape of `AddBalance` and `AddVAIBalance`. -/
theorem add_row_error (mu : Store) (k : Bytes) (x : U64) (e e2 : Err)
    (set : Store → Bytes → U64 → Store)
    (h : (match (k, innerGetBalance (mu k)) with
      | (_, _, _, some e) => Except.error e
      | (key, bal, _, none) =>
        match smathAdd bal x with
        | .error _ => .error e2
        | .ok nbal => .ok (nbal, set mu key nbal)) = Except.error e) :
    e = e2 ∨ e = ErrWrongSize := by
  have hi := innerGetBalance_error (mu k)
  generalize innerGetBalance (mu k) = t at h hi
  obtain ⟨bal, ok, e0⟩ := t
  cases e0 with
  | some e0 =>
    simp only at h
    cases h
    exact Or.inr (hi _ _ _ rfl)
  | none =>
    simp only at h
    split at h
    · cases h
      exact Or.inl rfl
    · cases h

/-- The errors of `subAssetBalance`: an unsupported asset, a malformed balance
row, or a wrapped `ErrInvalidBalance`. -/
theorem subAssetBalance_error {mu : Store} {actor : Address} {asset : Byte} {x : U64} {e : Err}
    (h : subAssetBalance mu actor asset x = .error e) :
    e = ErrUnsupportedAsset ∨ e = ErrWrongSize ∨ ∃ d, e = .wrapf ErrInvalidBalance d := by
  unfold subAssetBalance at h
  split at h
  · rcases sub_row_error mu (BalanceKey actor) x e _ _ setBalance h with h1 | h1 | h1
    · exact Or.inr (Or.inr ⟨_, h1⟩)
    · exact Or.inr (Or.inr ⟨_, h1⟩)
    · exact Or.inr (Or.inl h1)
  split at h
  · rcases sub_row_error mu (VAIBalanceKey actor) x e _ _ setVAIBalance h with h1 | h1 | h1
    · exact Or.inr (Or.inr ⟨_, h1⟩)
    · exact Or.inr (Or.inr ⟨_, h1⟩)
    · exact Or.inr (Or.inl h1)
  · cases h
    exact Or.inl rfl

/-- The errors of `addAssetBalance`. -/
theorem addAssetBalance_error {mu : Store} {actor : Address} {asset : Byte} {x : U64} {e : Err}
    (h : addAssetBalance mu actor asset x = .error e) :
    e = ErrUnsupportedAsset ∨ e = ErrWrongSize ∨ ∃ d, e = .wrapf ErrInvalidBalance d := by
  unfold addAssetBalance at h
  split at h
  · rcases add_row_error mu (BalanceKey actor) x e _ setBalance h with h1 | h1
    · exact Or.inr (Or.inr ⟨_, h1⟩)
    · exact Or.inr (Or.inl h1)
  split at h
  · rcases add_row_error mu (VAIBalanceKey actor) x e _ setVAIBalance h with h1 | h1
    · exact Or.inr (Or.inr ⟨_, h1⟩)
    · exact Or.inr (Or.inl h1)
  · cases h
    exact Or.inl rfl

/-- The errors of `mulDiv` are built in place. -/
theorem mulDiv_error {a b den : U64} {e : Err} (h : mulDiv a b den = .error e) :
    ∃ msg, e = .text msg := by
  unfold mulDiv at h
  split at h
  · cases h
    exact ⟨_, rfl⟩
  · simp only at h
    split at h
    · cases h
    · cases h
      exact ⟨_, rfl⟩

/-- A balance error is neither `ErrUnderflow` nor `ErrInsufficientLiquidity`. -/
theorem balance_error_ne {e : Err}
    (h : e = ErrUnsupportedAsset ∨ e = ErrWrongSize ∨ ∃ d, e = .wrapf ErrInvalidBalance d) :
    e ≠ ErrUnderflow ∧ e ≠ ErrInsufficientLiquidity := by
  rcases h with h | h | ⟨d, h⟩
  · rw [h]
    exact ⟨by decide, by decide⟩
  · rw [h]
    exact ⟨by decide, by decide⟩
  · rw [h]
    constructor
    · intro c
      cases c
    · intro c
      cases c

/-- A failing `SwapExactIn.swap` whose out-side reserve is the reserve slot
that `nextPool` debits never fails with `ErrUnderflow`, and fails with
`ErrInsufficientLiquidity` only when a reserve is zero: the later test
`amountOut > reserveOut` is never taken. -/
theorem SwapExactIn_swap_error {a : SwapExactIn} {mu : Store} {actor : Address} {pool : Pool}
    {inIs0 : Bool} {reserveIn reserveOut : U64} {e : Err}
    (hor : (inIs0 = true ∧ reserveOut = pool.Reserve1)
      ∨ (inIs0 = false ∧ reserveOut = pool.Reserve0))
    (h : SwapExactIn.swap a mu actor pool inIs0 reserveIn reserveOut = .error e) :
    e ≠ ErrUnderflow ∧ (e = ErrInsufficientLiquidity → reserveIn = 0 ∨ reserveOut = 0) := by
  unfold SwapExactIn.swap at h
  split at h
  · rename_i c
    cases h
    exact ⟨by decide, fun _ => c⟩
  rename_i c1
  have hi : reserveIn ≠ 0 := fun e => c1 (Or.inl e)
  have ho : reserveOut ≠ 0 := fun e => c1 (Or.inr e)
  split at h
  · rename_i e1 he
    cases h
    have := balance_error_ne (subAssetBalance_error he)
    exact ⟨this.1, fun c => absurd c this.2⟩
  split at h
  · rename_i e1 he
    cases h
    obtain ⟨msg, hm⟩ := mulDiv_error he
    rw [hm]
    exact ⟨fun c => (by cases c), fun c => (by cases c)⟩
  rename_i f hf
  split at h
  · cases h
    exact ⟨by decide, fun c => absurd c (by decide)⟩
  split at h
  · rename_i e1 he
    cases h
    unfold smathAdd at he
    split at he
    · cases he
    · cases he
      exact ⟨by decide, fun c => absurd c (by decide)⟩
  rename_i den hden
  split at h
  · rename_i e1 he
    cases h
    obtain ⟨msg, hm⟩ := mulDiv_error he
    rw [hm]
    exact ⟨fun c => (by cases c), fun c => (by cases c)⟩
  rename_i out hout
  have hlt := swap_out_lt hi ho hden hout
  split at h
  · cases h
    exact ⟨by decide, fun c => absurd c (by decide)⟩
  split at h
  · rename_i c4
    exact absurd (Fin.lt_def.mp c4) (by omega)
  split at h
  · rename_i e1 he
    cases h
    unfold SwapExactIn.nextPool at he
    rcases hor with ⟨hb, hro⟩ | ⟨hb, hro⟩
    · rw [hb] at he
      simp only [if_true] at he
      split at he
      · rename_i e2 he2
        cases he
        unfold smathAdd at he2
        split at he2
        · cases he2
        · cases he2
          exact ⟨by decide, fun c => absurd c (by decide)⟩
      split at he
      · rename_i e2 he2
        exfalso
        unfold smathSub at he2
        rw [← hro] at he2
        rw [if_pos (by omega)] at he2
        cases he2
      · cases he
    · rw [hb] at he
      simp only [Bool.false_eq_true, if_false] at he
      split at he
      · rename_i e2 he2
        cases he
        unfold smathAdd at he2
        split at he2
        · cases he2
        · cases he2
          exact ⟨by decide, fun c => absurd c (by decide)⟩
      split at he
      · rename_i e2 he2
        exfalso
        unfold smathSub at he2
        rw [← hro] at he2
        rw [if_pos (by omega)] at he2
        cases he2
      · cases he
  simp only at h
  split at h
  · rename_i e1 he
    cases h
    have := balance_error_ne (addAssetBalance_error he)
    exact ⟨this.1, fun c => absurd c this.2⟩
  · cases h

/-- The pool row after a successful `SwapExactIn.swap` is the pool computed by
`nextPool`. -/
theorem SwapExactIn_swap_pool_after {a : SwapExactIn} {mu s : Store} {actor : Address}
    {pool : Pool} {inIs0 : Bool} {reserveIn reserveOut : U64} {r : SwapExactInResult}
    (hout : isSupportedAsset a.AssetOut = true)
    (hkey : PoolKey pool.Asset0 pool.Asset1 = PoolKey a.AssetIn a.AssetOut)
    (h : SwapExactIn.swap a mu actor pool inIs0 reserveIn reserveOut = .ok (s, r)) :
    ∃ (f den out : U64) (pool1 pool2 : Pool),
      reserveIn ≠ 0 ∧ reserveOut ≠ 0
        ∧ smathAdd reserveIn f = .ok den ∧ mulDiv reserveOut f den = .ok out
        ∧ SwapExactIn.nextPool pool inIs0 a.AmountIn out = .ok pool1
        ∧ GetPool s a.AssetIn a.AssetOut = .ok pool2
        ∧ pool2.Reserve0 = pool1.Reserve0 ∧ pool2.Reserve1 = pool1.Reserve1
        ∧ r.AmountOut = out ∧ r.Reserve0 = pool1.Reserve0 ∧ r.Reserve1 = pool1.Reserve1 := by
  obtain ⟨b1, mu1, f, den, out, pool1, rb, hi, ho, -, -, -, hden, hmo, -, -, -, hnext, hadd,
    hr⟩ := SwapExactIn_swap_inv h
  obtain ⟨hA0, hA1, -⟩ := nextPool_inv hnext
  obtain ⟨balOut, okOut, -, -, -, hs⟩ := (addAssetBalance_ok_iff _ _ _ _ _ _ hout).mp hadd
  have hkey1 : PoolKey pool1.Asset0 pool1.Asset1 = PoolKey a.AssetIn a.AssetOut := by
    rw [hA0, hA1, hkey]
  have hsPool : s (PoolKey a.AssetIn a.AssetOut)
      = PutPool mu1 pool1 (PoolKey a.AssetIn a.AssetOut) := by
    rw [hs, Store.insert_other _ _ _ _ (assetBalanceKey_ne_pool actor _ _ _).symm]
  have hpool1 := parsePool_PutPool mu1 pool1
  rw [← hkey1] at hsPool
  have hget : GetPool s a.AssetIn a.AssetOut = GetPool (PutPool mu1 pool1) pool1.Asset0
      pool1.Asset1 := by
    unfold GetPool
    rw [← hkey1, hsPool]
  refine ⟨f, den, out, pool1, _, hi, ho, hden, hmo, hnext, hget.trans hpool1, rfl, rfl, ?_, ?_,
    ?_⟩
  · rw [hr]
  · rw [hr]
  · rw [hr]

/-- C36: a swap never drains a pool. Whenever both reserves are non-zero, the
amount computed by the swap formula is strictly below the out-side reserve.
Hence a failing `swap_exact_in` on a stored pool never reports the underflow
of the reserve subtraction, and reports `ErrInsufficientLiquidity` only
because a reserve was zero on entry, never from the test
`amountOut > reserveOut`; and after every successful `swap_exact_in` the
amount paid out is strictly below the out-side reserve and both reserves of
the stored pool are non-zero. -/
theorem swap_never_drains_pool (a : SwapExactIn) (mu : Store) (ts : I64) (actor : Address)
    (tx : ID) (pool : Pool) (hpool : GetPool mu a.AssetIn a.AssetOut = .ok pool) :
    (∀ reserveIn reserveOut f den out : U64, reserveIn ≠ 0 → reserveOut ≠ 0 →
        smathAdd reserveIn f = .ok den → mulDiv reserveOut f den = .ok out →
        out.val < reserveOut.val ∧ ¬ (out > reserveOut)
          ∧ smathSub reserveOut out = .ok (reserveOut - out))
      ∧ (∀ e, a.Execute mu ts actor tx = .error e →
          e ≠ ErrUnderflow
            ∧ (e = ErrInsufficientLiquidity → pool.Reserve0 = 0 ∨ pool.Reserve1 = 0))
      ∧ (∀ s r, a.Execute mu ts actor tx = .ok (s, r) →
          pool.Reserve0 ≠ 0 ∧ pool.Reserve1 ≠ 0
            ∧ ∃ pool1 : Pool, GetPool s a.AssetIn a.AssetOut = .ok pool1
              ∧ r.Reserve0 = pool1.Reserve0 ∧ r.Reserve1 = pool1.Reserve1
              ∧ pool1.Reserve0 ≠ 0 ∧ pool1.Reserve1 ≠ 0
              ∧ ((pool.Asset0 = a.AssetIn ∧ r.AmountOut.val < pool.Reserve1.val
                  ∧ pool1.Reserve0.val = pool.Reserve0.val + a.AmountIn.val
                  ∧ pool1.Reserve1.val = pool.Reserve1.val - r.AmountOut.val)
                ∨ (pool.Asset0 = a.AssetOut ∧ r.AmountOut.val < pool.Reserve0.val
                  ∧ pool1.Reserve1.val = pool.Reserve1.val + a.AmountIn.val
                  ∧ pool1.Reserve0.val = pool.Reserve0.val - r.AmountOut.val))) := by
  refine ⟨?_, ?_, ?_⟩
  · intro rin rout f den out hi ho hden hout
    have hlt := swap_out_lt hi ho hden hout
    refine ⟨hlt, ?_, ?_⟩
    · intro c
      have := Fin.lt_def.mp c
      omega
    · exact (smathSub_ok_iff _ _ _).2 ⟨by omega, rfl⟩
  · intro e he
    rcases SwapExactIn_Execute_shape a mu ts actor tx pool hpool with
      ⟨e1, he1, hc⟩ | ⟨_, _, inIs0, rin, rout, hex, hor⟩
    · rw [he1] at he
      cases he
      rcases hc with hc | hc | hc
      · rw [hc]
        exact ⟨by decide, fun c => absurd c (by decide)⟩
      · rw [hc]
        exact ⟨by decide, fun c => absurd c (by decide)⟩
      · rw [hc]
        exact ⟨by decide, fun c => absurd c (by decide)⟩
    · rw [hex] at he
      rcases hor with ⟨hb, hri, hro, _, _⟩ | ⟨hb, hri, hro, _, _⟩
      · obtain ⟨h1, h2⟩ := SwapExactIn_swap_error (Or.inl ⟨hb, hro⟩) he
        refine ⟨h1, fun c => ?_⟩
        rcases h2 c with z | z
        · exact Or.inl (by rw [← hri]; exact z)
        · exact Or.inr (by rw [← hro]; exact z)
      · obtain ⟨h1, h2⟩ := SwapExactIn_swap_error (Or.inr ⟨hb, hro⟩) he
        refine ⟨h1, fun c => ?_⟩
        rcases h2 c with z | z
        · exact Or.inr (by rw [← hri]; exact z)
        · exact Or.inl (by rw [← hro]; exact z)
  · intro s r h
    rcases SwapExactIn_Execute_shape a mu ts actor tx pool hpool with
      ⟨e, he, _⟩ | ⟨hz, hv, inIs0, rin, rout, hex, hor⟩
    · rw [he] at h
      cases h
    obtain ⟨hin, hout, hne⟩ := (validateAssetPair_none_iff _ _).mp hv
    rw [hex] at h
    have hA : 0 < a.AmountIn.val := Nat.pos_of_ne_zero (fun e => hz (Fin.ext e))
    have hkey : PoolKey pool.Asset0 pool.Asset1 = PoolKey a.AssetIn a.AssetOut := by
      rcases hor with ⟨_, _, _, c1, c2⟩ | ⟨_, _, _, c1, c2⟩
      · rw [c1, c2]
      · rw [c1, c2]
        exact PoolKey_comm _ _
    obtain ⟨f, den, out, pool0, pool1, hi, ho, hden, hmo, hnext, hget, hp0, hp1, hr, hr0, hr1⟩ :=
      SwapExactIn_swap_pool_after hout hkey h
    rw [← hp0] at hr0
    rw [← hp1] at hr1
    have hlt := swap_out_lt hi ho hden hmo
    obtain ⟨_, _, _, _, hT1, hT2⟩ := nextPool_inv hnext
    rw [← hp0, ← hp1] at hT1 hT2
    rcases hor with ⟨hb, hri, hro, c1, c2⟩ | ⟨hb, hri, hro, c1, c2⟩
    · obtain ⟨g1, g2⟩ := hT1 hb
      rw [hro] at hlt
      rw [hri] at hi
      rw [hro] at ho
      refine ⟨hi, ho, pool1, hget, hr0, hr1, ?_, ?_, Or.inl ⟨c1, ?_, g1, ?_⟩⟩
      · intro c
        rw [c] at g1
        exact absurd g1 (by show ¬ (0 = _); omega)
      · intro c
        rw [c] at g2
        have : ((0 : U64)).val = 0 := rfl
        omega
      · rw [hr]
        exact hlt
      · rw [hr]
        omega
    · obtain ⟨g1, g2⟩ := hT2 hb
      rw [hro] at hlt
      rw [hri] at hi
      rw [hro] at ho
      refine ⟨ho, hi, pool1, hget, hr0, hr1, ?_, ?_, Or.inr ⟨c1, ?_, g1, ?_⟩⟩
      · intro c
        rw [c] at g2
        have : ((0 : U64)).val = 0 := rfl
        omega
      · intro c
        rw [c] at g1
        exact absurd g1 (by show ¬ (0 = _); omega)
      · rw [hr]
        exact hlt
      · rw [hr]
        omega

/-- C36 (witness): the swap of 100 into reserves `(10000, 10000)` pays out less
than 10000 and leaves both reserves non-zero. -/
theorem swap_never_drains_pool_witness :
    ∃ pool1 : Pool, GetPool Scenario.afterSwap AssetVEIL AssetVAI = .ok pool1
      ∧ pool1.Reserve0 ≠ 0 ∧ pool1.Reserve1 ≠ 0 := by
  obtain ⟨_, _, pool1, hget, _, _, h0, h1, _⟩ :=
    (swap_never_drains_pool Scenario.swap Scenario.afterDeposit ⟨0⟩ Scenario.trader
      Scenario.txID ⟨0, 1, 30, 10000, 10000, 10000⟩ (by decide!)).2.2 Scenario.afterSwap _
      (eq_ok_pair_of_succeeded _ (Store.empty, ⟨0, 0, 0, 0⟩) (by decide!))
  exact ⟨pool1, hget, h0, h1⟩

/-! ## Adding then removing liquidity -/

/-- Every step that a successful `add_liquidity` has taken. -/
theorem AddLiquidity_Execute_inv {a : AddLiquidity} {mu s : Store} {ts : I64} {actor : Address}
    {tx : ID} {r : AddLiquidityResult} (h : a.Execute mu ts actor tx = .ok (s, r)) :
    ∃ (pool : Pool) (x y : U64) (mu2 : Store) (minted nr0 nr1 nT lpb : U64),
      validateAssetPair a.Asset0 a.Asset1 = none
        ∧ GetPool mu a.Asset0 a.Asset1 = .ok pool
        ∧ mapPairAmounts a.Asset0 a.Asset1 a.Amount0 a.Amount1 pool = .ok (x, y)
        ∧ agreeOutside [ balancePrefix, vaiBalancePrefix] mu mu2
        ∧ AddLiquidity.minted pool x y = .ok minted
        ∧ minted ≠ 0 ∧ a.MinLP.val ≤ minted.val
        ∧ smathAdd pool.Reserve0 x = .ok nr0
        ∧ smathAdd pool.Reserve1 y = .ok nr1
        ∧ smathAdd pool.TotalLP minted = .ok nT
        ∧ AddLPBalance
            (PutPool mu2 { pool with Reserve0 := nr0, Reserve1 := nr1, TotalLP := nT })
            pool.Asset0 pool.Asset1 actor minted = .ok (lpb, s)
        ∧ r = ⟨minted, lpb, nr0, nr1, nT⟩ := by
  obtain ⟨pool, x, y, n0, mu1, n1, mu2, hv, hamt, hpool, hmap, h0, h1⟩ :=
    AddLiquidity_debits_inv h
  have hex := @AddLiquidity_after_debits a mu mu1 mu2 ts actor tx pool x y n0 n1 hv hamt hpool
    hmap h0 h1
  rw [hex] at h
  have f1 : agreeOutside [ balancePrefix, vaiBalancePrefix] mu mu1 :=
    subAssetBalance_frame (by simp) (by simp) (agreeOutside_refl _ _) h0
  have f2 : agreeOutside [ balancePrefix, vaiBalancePrefix] mu mu2 :=
    subAssetBalance_frame (by simp) (by simp) f1 h1
  split at h
  · cases h
  rename_i minted hmint
  split at h
  · cases h
  rename_i c
  split at h
  · cases h
  rename_i nr0 hr0
  split at h
  · cases h
  rename_i nr1 hr1
  split at h
  · cases h
  rename_i nT hT
  split at h
  · cases h
  rename_i lpb mu4 hlp
  cases h
  exact ⟨pool, x, y, mu2, minted, nr0, nr1, nT, lpb, hv, hpool, hmap, f2, hmint,
    fun e => c (Or.inl e), Nat.le_of_not_lt (fun e => c (Or.inr e)), hr0, hr1, hT, hlp, rfl⟩

/-- What `AddLiquidity.minted` returns: on a pool without LP supply some
amount, and otherwise an amount bounded by both proportional shares. -/
theorem AddLiquidity_minted_le {pool : Pool} {x y L : U64}
    (h : AddLiquidity.minted pool x y = .ok L) (hT : pool.TotalLP ≠ 0) :
    pool.Reserve0 ≠ 0 ∧ pool.Reserve1 ≠ 0
      ∧ L.val ≤ x.val * pool.TotalLP.val / pool.Reserve0.val
      ∧ L.val ≤ y.val * pool.TotalLP.val / pool.Reserve1.val := by
  unfold AddLiquidity.minted at h
  rw [if_neg hT] at h
  split at h
  · cases h
  rename_i c
  split at h
  · cases h
  rename_i lp0 h0
  split at h
  · cases h
  rename_i lp1 h1
  cases h
  obtain ⟨_, _, q0⟩ := (mulDiv_ok_iff _ _ _ _).1 h0
  obtain ⟨_, _, q1⟩ := (mulDiv_ok_iff _ _ _ _).1 h1
  refine ⟨fun e => c (Or.inl e), fun e => c (Or.inr e), ?_, ?_⟩
  · rw [← q0]
    unfold minU64
    split
    · exact Nat.le_refl _
    · rename_i hlt
      exact Nat.le_of_not_lt hlt
  · rw [← q1]
    unfold minU64
    split
    · rename_i hlt
      exact Nat.le_of_lt hlt
    · exact Nat.le_refl _

/-- Withdrawing `L` LP right after a deposit of `x` that minted
`L ≤ floor(x * T / r)` returns at most `x`. -/
theorem remove_share_le (L x r T : Nat) (hr : 0 < r) (hL : L ≤ x * T / r) :
    L * (r + x) / (T + L) ≤ x := by
  have h1 : L * r ≤ x * T := (Nat.le_div_iff_mul_le hr).1 hL
  apply Nat.div_le_of_le_mul
  have e1 : L * (r + x) = L * r + L * x := Nat.mul_add _ _ _
  have e2 : (T + L) * x = T * x + L * x := Nat.add_mul _ _ _
  have e3 : x * T = T * x := Nat.mul_comm _ _
  omega

/-- C37: adding then removing liquidity is never profitable. For every stored
pool with either `total_lp = 0` and both reserves zero, or `total_lp > 0` and
both reserves non-zero: if `add_liquidity` with pool-oriented amounts `(x, y)`
succeeds minting `L`, then every successful `remove_liquidity` of `L` LP on
the same pair by the same caller right after it pays pool-oriented outputs
`out0 = floor(L * (reserve0 + x) / (total_lp + L)) ≤ x` and
`out1 = floor(L * (reserve1 + y) / (total_lp + L)) ≤ y`. -/
theorem add_then_remove_not_profitable (a : AddLiquidity) (b : RemoveLiquidity)
    (mu s s2 : Store) (ts ts2 : I64) (actor : Address) (tx tx2 : ID) (r : AddLiquidityResult)
    (r2 : RemoveLiquidityResult) (pool : Pool)
    (hpool : GetPool mu a.Asset0 a.Asset1 = .ok pool)
    (hstate : (pool.TotalLP = 0 ∧ pool.Reserve0 = 0 ∧ pool.Reserve1 = 0)
      ∨ (pool.TotalLP ≠ 0 ∧ pool.Reserve0 ≠ 0 ∧ pool.Reserve1 ≠ 0))
    (hadd : a.Execute mu ts actor tx = .ok (s, r))
    (hpair : PoolKey b.Asset0 b.Asset1 = PoolKey a.Asset0 a.Asset1)
    (hL : b.LPAmount = r.MintedLP)
    (hrem : b.Execute s ts2 actor tx2 = .ok (s2, r2)) :
    ∃ (x y out0 out1 : U64) (pool2 : Pool),
      mapPairAmounts a.Asset0 a.Asset1 a.Amount0 a.Amount1 pool = .ok (x, y)
        ∧ GetPool s b.Asset0 b.Asset1 = .ok pool2
        ∧ pool2.Reserve0.val = pool.Reserve0.val + x.val
        ∧ pool2.Reserve1.val = pool.Reserve1.val + y.val
        ∧ pool2.TotalLP.val = pool.TotalLP.val + r.MintedLP.val
        ∧ out0.val = r.MintedLP.val * pool2.Reserve0.val / pool2.TotalLP.val
        ∧ out1.val = r.MintedLP.val * pool2.Reserve1.val / pool2.TotalLP.val
        ∧ mapPoolAmountsToPair pool2 b.Asset0 b.Asset1 out0 out1
            = .ok (r2.Amount0Out, r2.Amount1Out)
        ∧ out0.val ≤ x.val ∧ out1.val ≤ y.val := by
  obtain ⟨pool0, x, y, mu2, L, nr0, nr1, nT, lpb, hv, hpool0, hmap, _, hmint, hL0, _, hr0, hr1,
    hT, hlp, hr⟩ := AddLiquidity_Execute_inv hadd
  rw [hpool] at hpool0
  cases hpool0
  obtain ⟨_, _, _, _, _, hs⟩ := (AddLPBalance_ok_iff _ _ _ _ _ _ _).1 hlp
  obtain ⟨hk, _⟩ := mapPairAmounts_keys hmap actor
  have hkey : PoolKey b.Asset0 b.Asset1 = PoolKey pool.Asset0 pool.Asset1 := by
    rw [hpair, hk]
  have hget : GetPool s b.Asset0 b.Asset1
      = GetPool (PutPool mu2 { pool with Reserve0 := nr0, Reserve1 := nr1, TotalLP := nT })
          pool.Asset0 pool.Asset1 := by
    unfold GetPool
    rw [hkey, hs, Store.insert_other _ _ _ _ (PoolKey_ne_lp _ _ _ _ _)]
  have hpool2 := hget.trans
    (parsePool_PutPool mu2 { pool with Reserve0 := nr0, Reserve1 := nr1, TotalLP := nT })
  obtain ⟨_, out0, out1, _, _, _, _, _, _, hm0, hm1, _, _, _, hset⟩ :=
    RemoveLiquidity_Execute_inv hpool2 hrem
  simp only at hm0 hm1
  obtain ⟨_, _, _, _, _, _, _, _, o0, o1, _, _, _, _, _, _, hback, hr2⟩ :=
    RemoveLiquidity_settle_inv hset
  obtain ⟨h0lt, h0e⟩ := (smathAdd_ok_iff _ _ _).1 hr0
  obtain ⟨h1lt, h1e⟩ := (smathAdd_ok_iff _ _ _).1 hr1
  obtain ⟨hTlt, hTe⟩ := (smathAdd_ok_iff _ _ _).1 hT
  have v0 : nr0.val = pool.Reserve0.val + x.val := by rw [h0e]; exact U64_add_val _ _ h0lt
  have v1 : nr1.val = pool.Reserve1.val + y.val := by rw [h1e]; exact U64_add_val _ _ h1lt
  have vT : nT.val = pool.TotalLP.val + L.val := by rw [hTe]; exact U64_add_val _ _ hTlt
  have hLr : r.MintedLP = L := by rw [hr]
  rw [hL, hLr] at hm0 hm1
  obtain ⟨_, _, q0⟩ := (mulDiv_ok_iff _ _ _ _).1 hm0
  obtain ⟨_, _, q1⟩ := (mulDiv_ok_iff _ _ _ _).1 hm1
  have hLpos : 0 < L.val := Nat.pos_of_ne_zero (fun e => hL0 (Fin.ext e))
  have hb : mapPoolAmountsToPair
      ⟨(sortedAssetPair pool.Asset0 pool.Asset1).1, (sortedAssetPair pool.Asset0 pool.Asset1).2,
        pool.FeeBips, nr0, nr1, nT⟩ b.Asset0 b.Asset1 out0 out1
        = .ok (r2.Amount0Out, r2.Amount1Out) := by
    rw [hr2]
    exact hback
  refine ⟨x, y, out0, out1, _, hmap, hpool2, v0, v1, ?_, ?_, ?_, hb, ?_, ?_⟩
  · rw [hLr]
    exact vT
  · rw [hLr]
    exact q0
  · rw [hLr]
    exact q1
  · rw [q0, v0, vT]
    rcases hstate with ⟨z, z0, _⟩ | ⟨z, z0, _⟩
    · rw [z, z0]
      have e0 : ((0 : U64)).val = 0 := rfl
      rw [e0, Nat.zero_add, Nat.zero_add, Nat.mul_div_cancel_left _ hLpos]
    · obtain ⟨_, _, b0, _⟩ := AddLiquidity_minted_le hmint z
      exact remove_share_le _ _ _ _ (Nat.pos_of_ne_zero (fun e => z0 (Fin.ext e))) b0
  · rw [q1, v1, vT]
    rcases hstate with ⟨z, _, z1⟩ | ⟨z, _, z1⟩
    · rw [z, z1]
      have e0 : ((0 : U64)).val = 0 := rfl
      rw [e0, Nat.zero_add, Nat.zero_add, Nat.mul_div_cancel_left _ hLpos]
    · obtain ⟨_, _, _, b1⟩ := AddLiquidity_minted_le hmint z
      exact remove_share_le _ _ _ _ (Nat.pos_of_ne_zero (fun e => z1 (Fin.ext e))) b1

/-- C37 (witness): depositing `(500, 600)` into reserves `(10000, 10000)` with
10000 LP mints 500 LP; removing them right away pays out at most `(500, 600)`. -/
theorem add_then_remove_not_profitable_witness :
    ∃ out0 out1 : U64, out0.val ≤ 500 ∧ out1.val ≤ 600 := by
  obtain ⟨x, y, out0, out1, pool2, hmap, _, _, _, _, _, _, _, h0, h1⟩ :=
    add_then_remove_not_profitable Scenario.secondDeposit Scenario.roundTripRemoval
      Scenario.afterDeposit Scenario.afterSecondDeposit
      (okValue (Scenario.roundTripRemoval.Execute Scenario.afterSecondDeposit ⟨0⟩
        Scenario.trader Scenario.txID) (Store.empty, ⟨0, 0, 0, 0, 0, 0⟩)).1
      ⟨0⟩ ⟨0⟩ Scenario.trader Scenario.txID Scenario.txID _ _
      ⟨0, 1, 30, 10000, 10000, 10000⟩ (by decide!)
      (Or.inr ⟨by decide, by decide, by decide⟩)
      (eq_ok_pair_of_succeeded _ (Store.empty, Scenario.noAddResult) (by decide!))
      rfl (by decide!)
      (eq_ok_pair_of_succeeded _ (Store.empty, ⟨0, 0, 0, 0, 0, 0⟩) (by decide!))
  have hx : x = 500 ∧ y = 600 := by
    have : mapPairAmounts Scenario.secondDeposit.Asset0 Scenario.secondDeposit.Asset1
        Scenario.secondDeposit.Amount0 Scenario.secondDeposit.Amount1
        ⟨0, 1, 30, 10000, 10000, 10000⟩ = .ok (500, 600) := by decide
    rw [this] at hmap
    cases hmap
    exact ⟨rfl, rfl⟩
  rw [hx.1] at h0
  rw [hx.2] at h1
  exact ⟨out0, out1, h0, h1⟩

/-! ## LP supply accounting: keys and sums -/

theorem PoolKey_eq_iff (a0 a1 b0 b1 : Byte) :
    PoolKey a0 a1 = PoolKey b0 b1 ↔ sortedAssetPair a0 a1 = sortedAssetPair b0 b1 := by
  constructor
  · intro h
    unfold PoolKey at h
    simp only [List.cons_append, List.nil_append, List.cons.injEq, true_and] at h
    exact Prod.ext h.1 h.2.1
  · intro h
    unfold PoolKey
    rw [h]

theorem LPBalanceKey_eq_iff (a0 a1 b0 b1 : Byte) (x y : Address) :
    LPBalanceKey a0 a1 x = LPBalanceKey b0 b1 y ↔
      sortedAssetPair a0 a1 = sortedAssetPair b0 b1 ∧ x = y := by
  constructor
  · intro h
    unfold LPBalanceKey at h
    simp only [List.cons_append, List.nil_append, List.cons.injEq, true_and] at h
    obtain ⟨h1, h2, h3⟩ := h
    have h4 : x.val = y.val := by
      have hl : x.val.length = y.val.length := by rw [x.property, y.property]
      exact (List.append_inj h3 hl).1
    exact ⟨Prod.ext h1 h2, Subtype.ext h4⟩
  · rintro ⟨h1, h2⟩
    unfold LPBalanceKey
    rw [h1, h2]

/-- The LP balances of a pair depend on its sorted form only. -/
theorem lpOf_sorted {a0 a1 b0 b1 : Byte}
    (h : sortedAssetPair a0 a1 = sortedAssetPair b0 b1) (mu : Store) (addr : Address) :
    lpOf mu a0 a1 addr = lpOf mu b0 b1 addr := by
  unfold lpOf getLPBalance
  rw [(LPBalanceKey_eq_iff a0 a1 b0 b1 addr addr).2 ⟨h, rfl⟩]

theorem lpSupply_sorted {a0 a1 b0 b1 : Byte}
    (h : sortedAssetPair a0 a1 = sortedAssetPair b0 b1) (mu : Store) :
    lpSupply mu a0 a1 = lpSupply mu b0 b1 := by
  unfold lpSupply
  exact Finset.sum_congr rfl (fun addr _ => lpOf_sorted h mu addr)

/-- A balance read depends on the row only. -/
theorem lpOf_congr {mu s : Store} {a0 a1 : Byte} {addr : Address}
    (h : s (LPBalanceKey a0 a1 addr) = mu (LPBalanceKey a0 a1 addr)) :
    lpOf s a0 a1 addr = lpOf mu a0 a1 addr := by
  unfold lpOf getLPBalance
  simp only
  rw [h]

/-- One holder's balance is at most the supply. -/
theorem lpOf_le_lpSupply (mu : Store) (a0 a1 : Byte) (addr : Address) :
    lpOf mu a0 a1 addr ≤ lpSupply mu a0 a1 := by
  unfold lpSupply
  exact Finset.single_le_sum (f := fun x => lpOf mu a0 a1 x) (fun _ _ => Nat.zero_le _)
    (Finset.mem_univ addr)

/-- Changing one holder's balance changes the supply by the same amount. -/
theorem lpSupply_update {mu s : Store} {a0 a1 : Byte} (actor : Address)
    (h : ∀ addr, addr ≠ actor → lpOf s a0 a1 addr = lpOf mu a0 a1 addr) :
    lpSupply s a0 a1 + lpOf mu a0 a1 actor = lpSupply mu a0 a1 + lpOf s a0 a1 actor := by
  unfold lpSupply
  have e1 := Finset.add_sum_erase Finset.univ (fun x => lpOf s a0 a1 x) (Finset.mem_univ actor)
  have e2 := Finset.add_sum_erase Finset.univ (fun x => lpOf mu a0 a1 x) (Finset.mem_univ actor)
  have e3 : Finset.sum (Finset.univ.erase actor) (fun x => lpOf s a0 a1 x)
      = Finset.sum (Finset.univ.erase actor) (fun x => lpOf mu a0 a1 x) :=
    Finset.sum_congr rfl (fun x hx => h x (Finset.ne_of_mem_erase hx))
  simp only at e1 e2
  omega

/-- The supply is unchanged when no LP row of the pair changes. -/
theorem lpSupply_congr {mu s : Store} {a0 a1 : Byte}
    (h : ∀ addr, s (LPBalanceKey a0 a1 addr) = mu (LPBalanceKey a0 a1 addr)) :
    lpSupply s a0 a1 = lpSupply mu a0 a1 := by
  unfold lpSupply
  exact Finset.sum_congr rfl (fun addr _ => lpOf_congr (h addr))

/-- The LP accounting property depends on the pool rows and LP rows only. -/
theorem LPAccounting_congr {mu s : Store}
    (hp : ∀ q : Bytes, q.head? = some poolPrefix → s q = mu q)
    (hl : ∀ q : Bytes, q.head? = some lpBalancePrefix → s q = mu q)
    (hinv : LPAccounting mu) : LPAccounting s := by
  intro a0 a1
  have hrow : s (PoolKey a0 a1) = mu (PoolKey a0 a1) := hp _ (PoolKey_head a0 a1)
  have hsup : lpSupply s a0 a1 = lpSupply mu a0 a1 :=
    lpSupply_congr (fun addr => hl _ (LPBalanceKey_head a0 a1 addr))
  rw [hrow, hsup, GetPool_congr a0 a1 hrow]
  exact hinv a0 a1

/-- The LP accounting property survives a write of one pool row together with
a change of one holder's LP balance of that pair, when the new `total_lp`
accounts for the change. -/
theorem LPAccounting_update {mu s : Store} (pool1 : Pool) (actor : Address)
    (hinv : LPAccounting mu)
    (hp : ∀ q : Bytes, q.head? = some poolPrefix → s q = PutPool mu pool1 q)
    (hl : ∀ q : Bytes, q.head? = some lpBalancePrefix →
      q ≠ LPBalanceKey pool1.Asset0 pool1.Asset1 actor → s q = mu q)
    (hT : pool1.TotalLP.val + lpOf mu pool1.Asset0 pool1.Asset1 actor
      = lpSupply mu pool1.Asset0 pool1.Asset1 + lpOf s pool1.Asset0 pool1.Asset1 actor) :
    LPAccounting s := by
  intro a0 a1
  have hrow : s (PoolKey a0 a1) = PutPool mu pool1 (PoolKey a0 a1) := hp _ (PoolKey_head a0 a1)
  by_cases hk : PoolKey a0 a1 = PoolKey pool1.Asset0 pool1.Asset1
  · have hsort := (PoolKey_eq_iff _ _ _ _).1 hk
    have hget : GetPool s a0 a1 = GetPool (PutPool mu pool1) pool1.Asset0 pool1.Asset1 := by
      unfold GetPool
      rw [hrow, hk]
    rw [parsePool_PutPool] at hget
    constructor
    · intro hn
      unfold GetPool at hget
      rw [hn] at hget
      cases hget
    · intro pool hpool
      rw [hget] at hpool
      cases hpool
      simp only
      rw [lpSupply_sorted hsort]
      have hupd := @lpSupply_update mu s pool1.Asset0 pool1.Asset1 actor (by
        intro addr hne
        apply lpOf_congr
        apply hl _ (LPBalanceKey_head _ _ _)
        intro e
        exact hne ((LPBalanceKey_eq_iff _ _ _ _ _ _).1 e).2)
      omega
  · have hrow2 : s (PoolKey a0 a1) = mu (PoolKey a0 a1) := by
      rw [hrow]
      exact PutPool_other _ _ _ hk
    have hsup : lpSupply s a0 a1 = lpSupply mu a0 a1 := by
      apply lpSupply_congr
      intro addr
      apply hl _ (LPBalanceKey_head _ _ _)
      intro e
      exact hk ((PoolKey_eq_iff _ _ _ _).2 ((LPBalanceKey_eq_iff _ _ _ _ _ _).1 e).1)
    rw [hrow2, hsup, GetPool_congr a0 a1 hrow2]
    exact hinv a0 a1

/-- A store without pool rows and without LP rows has the LP accounting
property. -/
theorem LPAccounting_of_no_rows {mu : Store}
    (hp : ∀ q : Bytes, q.head? = some poolPrefix → mu q = none)
    (hl : ∀ q : Bytes, q.head? = some lpBalancePrefix → mu q = none) : LPAccounting mu := by
  intro a0 a1
  have hsup : lpSupply mu a0 a1 = 0 := by
    unfold lpSupply
    apply Finset.sum_eq_zero
    intro addr _
    unfold lpOf getLPBalance
    simp only
    rw [hl _ (LPBalanceKey_head a0 a1 addr)]
    rfl
  constructor
  · intro _
    exact hsup
  · intro pool hpool
    unfold GetPool at hpool
    rw [hp _ (PoolKey_head a0 a1)] at hpool
    cases hpool

/-- Creating a pool keeps the LP accounting property: the new pool has
`total_lp = 0` and the pair had no LP balances. -/
theorem LPAccounting_CreatePool {a : CreatePool} {mu s : Store} {ts : I64} {actor : Address}
    {tx : ID} {r : CreatePoolResult} (h : a.Execute mu ts actor tx = .ok (s, r))
    (hinv : LPAccounting mu) :
    LPAccounting s ∧ ∃ pool, GetPool s a.Asset0 a.Asset1 = .ok pool ∧ pool.TotalLP = 0
      ∧ lpSupply s a.Asset0 a.Asset1 = 0 := by
  obtain ⟨_, _, _, hnone, hs, _⟩ := (CreatePool_ok_iff a mu s ts actor tx r).1 h
  have hsp : sortedPair a.Asset0 a.Asset1 = sortedAssetPair a.Asset0 a.Asset1 := rfl
  rw [hsp] at hs
  have hkey : PoolKey (sortedAssetPair a.Asset0 a.Asset1).1 (sortedAssetPair a.Asset0 a.Asset1).2
      = PoolKey a.Asset0 a.Asset1 := (PoolKey_eq_iff _ _ _ _).2 (sortedAssetPair_idem _ _)
  have hl : ∀ q : Bytes, q.head? = some lpBalancePrefix → s q = mu q := by
    intro q hq
    rw [hs]
    exact PutPool_other _ _ _ (ne_of_head (PoolKey_head _ _) hq (by decide))
  have hzero : lpSupply mu (sortedAssetPair a.Asset0 a.Asset1).1
      (sortedAssetPair a.Asset0 a.Asset1).2 = 0 := by
    apply (hinv _ _).1
    rw [hkey]
    exact hnone
  have hacc : LPAccounting s := by
    apply LPAccounting_update
      ⟨(sortedAssetPair a.Asset0 a.Asset1).1, (sortedAssetPair a.Asset0 a.Asset1).2, a.FeeBips,
        0, 0, 0⟩ actor hinv
    · intro q _
      rw [hs]
    · intro q hq _
      exact hl q hq
    · simp only
      rw [hzero, lpOf_congr (hl _ (LPBalanceKey_head _ _ actor))]
      have : ((0 : U64)).val = 0 := rfl
      omega
  refine ⟨hacc, ?_⟩
  have hget : GetPool s a.Asset0 a.Asset1
      = GetPool (PutPool mu ⟨(sortedAssetPair a.Asset0 a.Asset1).1,
          (sortedAssetPair a.Asset0 a.Asset1).2, a.FeeBips, 0, 0, 0⟩)
          (sortedAssetPair a.Asset0 a.Asset1).1 (sortedAssetPair a.Asset0 a.Asset1).2 := by
    unfold GetPool
    rw [hkey, hs]
  rw [parsePool_PutPool] at hget
  refine ⟨_, hget, rfl, ?_⟩
  have := (hacc a.Asset0 a.Asset1).2 _ hget
  simp only at this
  rw [← this]
  rfl

/-- Adding liquidity keeps the LP accounting property: `total_lp` and the
caller's LP balance both grow by the minted amount. -/
theorem LPAccounting_AddLiquidity {a : AddLiquidity} {mu s : Store} {ts : I64}
    {actor : Address} {tx : ID} {r : AddLiquidityResult}
    (h : a.Execute mu ts actor tx = .ok (s, r)) (hinv : LPAccounting mu) :
    LPAccounting s := by
  obtain ⟨pool, x, y, mu2, L, nr0, nr1, nT, lpb, _, hpool, hmap, hfr, _, _, _, _, _, hT, hlp,
    _⟩ := AddLiquidity_Execute_inv h
  obtain ⟨bal, ok, hrow, hlt, hnb, hs⟩ := (AddLPBalance_ok_iff _ _ _ _ _ _ _).1 hlp
  obtain ⟨hk, _⟩ := mapPairAmounts_keys hmap actor
  obtain ⟨hTlt, hTe⟩ := (smathAdd_ok_iff _ _ _).1 hT
  have hmu2 : ∀ q : Bytes, q.head? = some lpBalancePrefix → mu2 q = mu q := by
    intro q hq
    apply hfr q
    intro p hp hqp
    rw [hq] at hqp
    cases hqp
    exact absurd hp (by decide)
  have hrow2 : innerGetBalance (mu (LPBalanceKey pool.Asset0 pool.Asset1 actor))
      = (bal, ok, none) := by
    rw [← hrow, PutPool_other _ _ _ (PoolKey_ne_lp _ _ _ _ _).symm,
      hmu2 _ (LPBalanceKey_head _ _ _)]
  apply LPAccounting_update { pool with Reserve0 := nr0, Reserve1 := nr1, TotalLP := nT } actor
    hinv
  · intro q hq
    rw [hs, Store.insert_other _ _ _ _ (ne_of_head (LPBalanceKey_head _ _ _) hq (by decide))]
    have := @agreeOutside_PutPool_both [ balancePrefix, vaiBalancePrefix] mu mu2
      { pool with Reserve0 := nr0, Reserve1 := nr1, TotalLP := nT } hfr
    apply this q
    intro p hp hqp
    rw [hq] at hqp
    cases hqp
    exact absurd hp (by decide)
  · intro q hq hne
    rw [hs, Store.insert_other _ _ _ _ hne,
      PutPool_other _ _ _ (ne_of_head (PoolKey_head _ _) hq (by decide))]
    exact hmu2 q hq
  · simp only
    have h1 : lpOf mu pool.Asset0 pool.Asset1 actor = bal.val := by
      unfold lpOf getLPBalance
      simp only
      rw [hrow2]
    have h2 : lpOf s pool.Asset0 pool.Asset1 actor = lpb.val := by
      unfold lpOf getLPBalance
      simp only
      rw [hs, innerGetBalance_insert]
    have h3 : pool.TotalLP.val = lpSupply mu pool.Asset0 pool.Asset1 := by
      rw [lpSupply_sorted ((PoolKey_eq_iff _ _ _ _).1 hk)]
      exact (hinv _ _).2 pool hpool
    rw [h1, h2, hnb, U64_add_val _ _ hlt, hTe, U64_add_val _ _ hTlt]
    omega

/-- Removing liquidity keeps the LP accounting property: `total_lp` and the
caller's LP balance both fall by `lp_amount`. -/
theorem LPAccounting_RemoveLiquidity {a : RemoveLiquidity} {mu s : Store} {ts : I64}
    {actor : Address} {tx : ID} {r : RemoveLiquidityResult}
    (h : a.Execute mu ts actor tx = .ok (s, r)) (hinv : LPAccounting mu) :
    LPAccounting s := by
  obtain ⟨pool, _, hpool, _, _⟩ := RemoveLiquidity_pool_rows h
  obtain ⟨lpb, out0, out1, m0, m1, _, _, _, _, _, _, hmap, _, _, hset⟩ :=
    RemoveLiquidity_Execute_inv hpool h
  obtain ⟨nr0, nr1, nT, nlp, mu2, nb0, mu3, nb1, o0, o1, _, _, hT, hsub, hadd0, hadd1, _, _⟩ :=
    RemoveLiquidity_settle_inv hset
  obtain ⟨bal, hrow, hle, hnlp, hmu2⟩ := (SubLPBalance_ok_iff _ _ _ _ _ _ _).1 hsub
  obtain ⟨hk, _⟩ := mapPairAmounts_keys hmap actor
  obtain ⟨hTle, hTe⟩ := (smathSub_ok_iff _ _ _).1 hT
  have f1 : agreeOutside [ balancePrefix, vaiBalancePrefix] mu2 mu3 :=
    addAssetBalance_frame (by simp) (by simp) (agreeOutside_refl _ _) hadd0
  have f2 : agreeOutside [ balancePrefix, vaiBalancePrefix] mu2 s :=
    addAssetBalance_frame (by simp) (by simp) f1 hadd1
  have hs2 : ∀ (q : Bytes) (p : Byte), q.head? = some p → p ≠ balancePrefix →
      p ≠ vaiBalancePrefix → s q = mu2 q := by
    intro q p hq h1 h2
    apply f2 q
    intro p1 hp1 hqp
    rw [hq] at hqp
    cases hqp
    simp only [List.mem_cons, List.mem_singleton, List.not_mem_nil, or_false] at hp1
    rcases hp1 with e | e
    · exact h1 e
    · exact h2 e
  have hrow2 : innerGetBalance (mu (LPBalanceKey pool.Asset0 pool.Asset1 actor))
      = (bal, true, none) := by
    rw [← hrow, PutPool_other _ _ _ (PoolKey_ne_lp _ _ _ _ _).symm]
  apply LPAccounting_update { pool with Reserve0 := nr0, Reserve1 := nr1, TotalLP := nT } actor
    hinv
  · intro q hq
    rw [hs2 q _ hq (by decide) (by decide), hmu2]
    exact writeSub_other _ _ _ _ (ne_of_head (LPBalanceKey_head _ _ _) hq (by decide))
  · intro q hq hne
    rw [hs2 q _ hq (by decide) (by decide), hmu2, writeSub_other _ _ _ _ hne]
    exact PutPool_other _ _ _ (ne_of_head (PoolKey_head _ _) hq (by decide))
  · simp only
    have h1 : lpOf mu pool.Asset0 pool.Asset1 actor = bal.val := by
      unfold lpOf getLPBalance
      simp only
      rw [hrow2]
    have h2 : lpOf s pool.Asset0 pool.Asset1 actor = nlp.val := by
      obtain ⟨ok, hw⟩ := innerGetBalance_writeSub
        (PutPool mu { pool with Reserve0 := nr0, Reserve1 := nr1, TotalLP := nT })
        (LPBalanceKey pool.Asset0 pool.Asset1 actor) nlp
      unfold lpOf getLPBalance
      simp only
      rw [hs2 _ _ (LPBalanceKey_head _ _ _) (by decide) (by decide), hmu2, hw]
    have h3 : pool.TotalLP.val = lpSupply mu pool.Asset0 pool.Asset1 := by
      rw [lpSupply_sorted ((PoolKey_eq_iff _ _ _ _).1 hk)]
      exact (hinv _ _).2 pool hpool
    rw [h1, h2, hnlp, U64_sub_val _ _ hle, hTe, U64_sub_val _ _ hTle]
    omega

/-- A swap keeps the LP accounting property: it changes reserves only. -/
theorem LPAccounting_SwapExactIn {a : SwapExactIn} {mu s : Store} {ts : I64}
    {actor : Address} {tx : ID} {r : SwapExactInResult}
    (h : a.Execute mu ts actor tx = .ok (s, r)) (hinv : LPAccounting mu) :
    LPAccounting s := by
  obtain ⟨pool, _, hpool, _, _⟩ := SwapExactIn_pool_rows h
  rcases SwapExactIn_Execute_shape a mu ts actor tx pool hpool with
    ⟨e, he, _⟩ | ⟨_, _, inIs0, rin, rout, hex, hor⟩
  · rw [he] at h
    cases h
  rw [hex] at h
  have hkey : PoolKey pool.Asset0 pool.Asset1 = PoolKey a.AssetIn a.AssetOut := by
    rcases hor with ⟨_, _, _, c1, c2⟩ | ⟨_, _, _, c1, c2⟩
    · rw [c1, c2]
    · rw [c1, c2]
      exact PoolKey_comm _ _
  obtain ⟨b1, mu1, f, den, out, pool1, rb, _, _, hsub, _, _, _, _, _, _, _, hnext, hadd, _⟩ :=
    SwapExactIn_swap_inv h
  obtain ⟨hA0, hA1, _, hTL, _, _⟩ := nextPool_inv hnext
  have f1 : agreeOutside [ balancePrefix, vaiBalancePrefix] mu mu1 :=
    subAssetBalance_frame (by simp) (by simp) (agreeOutside_refl _ _) hsub
  have f2 : agreeOutside [ balancePrefix, vaiBalancePrefix] (PutPool mu pool1) s :=
    addAssetBalance_frame (by simp) (by simp) (agreeOutside_PutPool_both pool1 f1) hadd
  have hs2 : ∀ (q : Bytes) (p : Byte), q.head? = some p → p ≠ balancePrefix →
      p ≠ vaiBalancePrefix → s q = PutPool mu pool1 q := by
    intro q p hq h1 h2
    apply f2 q
    intro p1 hp1 hqp
    rw [hq] at hqp
    cases hqp
    simp only [List.mem_cons, List.mem_singleton, List.not_mem_nil, or_false] at hp1
    rcases hp1 with e | e
    · exact h1 e
    · exact h2 e
  have hl : ∀ q : Bytes, q.head? = some lpBalancePrefix → s q = mu q := by
    intro q hq
    rw [hs2 q _ hq (by decide) (by decide)]
    exact PutPool_other _ _ _ (ne_of_head (PoolKey_head _ _) hq (by decide))
  apply LPAccounting_update pool1 actor hinv
  · intro q hq
    exact hs2 q _ hq (by decide) (by decide)
  · intro q hq _
    exact hl q hq
  · rw [lpOf_congr (hl _ (LPBalanceKey_head _ _ actor)), hTL, hA0, hA1]
    have h3 : pool.TotalLP.val = lpSupply mu pool.Asset0 pool.Asset1 := by
      rw [lpSupply_sorted ((PoolKey_eq_iff _ _ _ _).1 hkey)]
      exact (hinv _ _).2 pool hpool
    omega

/-- Every successful action keeps the LP accounting property. -/
theorem LPAccounting_step {env : Env} {act : Action} {mu s : Store} {ts : I64}
    {actor : Address} {tx : ID} (h : act.execute env mu ts actor tx = .ok s)
    (hinv : LPAccounting mu) : LPAccounting s := by
  by_cases hw : poolPrefix ∈ act.writePrefixes
  · cases act <;> simp only [Action.writePrefixes] at hw <;>
      try (exact absurd hw (by decide))
    · rename_i a
      simp only [Action.execute] at h
      cases hx : a.Execute mu ts actor tx with
      | error e =>
        rw [hx] at h
        cases h
      | ok p =>
        rw [hx] at h
        cases h
        exact (LPAccounting_CreatePool hx hinv).1
    · rename_i a
      simp only [Action.execute] at h
      cases hx : a.Execute mu ts actor tx with
      | error e =>
        rw [hx] at h
        cases h
      | ok p =>
        rw [hx] at h
        cases h
        exact LPAccounting_AddLiquidity hx hinv
    · rename_i a
      simp only [Action.execute] at h
      cases hx : a.Execute mu ts actor tx with
      | error e =>
        rw [hx] at h
        cases h
      | ok p =>
        rw [hx] at h
        cases h
        exact LPAccounting_RemoveLiquidity hx hinv
    · rename_i a
      simp only [Action.execute] at h
      cases hx : a.Execute mu ts actor tx with
      | error e =>
        rw [hx] at h
        cases h
      | ok p =>
        rw [hx] at h
        cases h
        exact LPAccounting_SwapExactIn hx hinv
  · have hw2 : lpBalancePrefix ∉ act.writePrefixes := by
      cases act <;> simp only [Action.writePrefixes] at hw ⊢ <;>
        first
          | (exact absurd (by decide) hw)
          | decide
    exact LPAccounting_congr
      (fun q hq => row_unchanged_of_not_written h q _ hq hw)
      (fun q hq => row_unchanged_of_not_written h q _ hq hw2) hinv

/-- The LP accounting property holds in every state reached from a state that
has it. -/
theorem LPAccounting_run (steps : List Step) (mu : Store) (hinv : LPAccounting mu) :
    LPAccounting (run steps mu) := by
  induction steps generalizing mu with
  | nil => exact hinv
  | cons st rest ih =>
    unfold run
    rw [List.foldl_cons]
    apply ih
    unfold Step.apply
    split
    · rename_i s hs
      exact LPAccounting_step hs hinv
    · exact hinv

/-! ## Consequences of the LP accounting property for `remove_liquidity` -/

/-- What the LP accounting property gives `remove_liquidity` once the pool is
read, the caller's LP balance covers `lp_amount` and the outputs are computed:
`lp_amount ≤ total_lp`, each output is at most its reserve, and the three
subtractions succeed. -/
theorem RemoveLiquidity_bounds {mu : Store} (hinv : LPAccounting mu) {b : RemoveLiquidity}
    {actor : Address} {pool : Pool} {lpb out0 out1 : U64}
    (hpool : GetPool mu b.Asset0 b.Asset1 = .ok pool)
    (hk : PoolKey pool.Asset0 pool.Asset1 = PoolKey b.Asset0 b.Asset1)
    (hlp : GetLPBalance mu pool.Asset0 pool.Asset1 actor = .ok lpb)
    (hle : b.LPAmount.val ≤ lpb.val)
    (h0 : mulDiv b.LPAmount pool.Reserve0 pool.TotalLP = .ok out0)
    (h1 : mulDiv b.LPAmount pool.Reserve1 pool.TotalLP = .ok out1) :
    b.LPAmount.val ≤ pool.TotalLP.val
      ∧ out0.val ≤ pool.Reserve0.val ∧ out1.val ≤ pool.Reserve1.val
      ∧ smathSub pool.Reserve0 out0 = .ok (pool.Reserve0 - out0)
      ∧ smathSub pool.Reserve1 out1 = .ok (pool.Reserve1 - out1)
      ∧ smathSub pool.TotalLP b.LPAmount = .ok (pool.TotalLP - b.LPAmount) := by
  obtain ⟨ok, hrow⟩ := (GetLPBalance_ok_iff _ _ _ _ _).1 hlp
  have hlpOf : lpOf mu pool.Asset0 pool.Asset1 actor = lpb.val := by
    unfold lpOf getLPBalance
    simp only
    rw [hrow]
  have hT : pool.TotalLP.val = lpSupply mu pool.Asset0 pool.Asset1 := by
    rw [lpSupply_sorted ((PoolKey_eq_iff _ _ _ _).1 hk)]
    exact (hinv _ _).2 pool hpool
  have hsum := lpOf_le_lpSupply mu pool.Asset0 pool.Asset1 actor
  have hLT : b.LPAmount.val ≤ pool.TotalLP.val := by omega
  obtain ⟨_, _, q0⟩ := (mulDiv_ok_iff _ _ _ _).1 h0
  obtain ⟨_, _, q1⟩ := (mulDiv_ok_iff _ _ _ _).1 h1
  have b0 : out0.val ≤ pool.Reserve0.val := by
    rw [q0]
    apply Nat.div_le_of_le_mul
    exact Nat.mul_le_mul_right _ hLT
  have b1 : out1.val ≤ pool.Reserve1.val := by
    rw [q1]
    apply Nat.div_le_of_le_mul
    exact Nat.mul_le_mul_right _ hLT
  exact ⟨hLT, b0, b1, (smathSub_ok_iff _ _ _).2 ⟨b0, rfl⟩, (smathSub_ok_iff _ _ _).2 ⟨b1, rfl⟩,
    (smathSub_ok_iff _ _ _).2 ⟨hLT, rfl⟩⟩

/-- The errors of `GetPool`. -/
theorem GetPool_error {mu : Store} {a b : Byte} {e : Err} (h : GetPool mu a b = .error e) :
    e = ErrPoolNotFound ∨ ∃ msg, e = .text msg := by
  unfold GetPool at h
  split at h
  · cases h
    exact Or.inl rfl
  · unfold parsePool at h
    split at h
    · cases h
      exact Or.inr ⟨_, rfl⟩
    · cases h

/-- The only error of `GetLPBalance` is the size error of a malformed row. -/
theorem GetLPBalance_error {mu : Store} {a0 a1 : Byte} {addr : Address} {e : Err}
    (h : GetLPBalance mu a0 a1 addr = .error e) : e = ErrWrongSize := by
  unfold GetLPBalance getLPBalance at h
  simp only at h
  have hi := innerGetBalance_error (mu (LPBalanceKey a0 a1 addr))
  generalize innerGetBalance (mu (LPBalanceKey a0 a1 addr)) = t at h hi
  obtain ⟨bal, ok, e0⟩ := t
  cases e0 with
  | none =>
    simp only at h
    cases h
  | some e0 =>
    simp only at h
    cases h
    exact hi _ _ _ rfl

/-- The errors of `SubLPBalance`. -/
theorem SubLPBalance_error {mu : Store} {a0 a1 : Byte} {addr : Address} {x : U64} {e : Err}
    (h : SubLPBalance mu a0 a1 addr x = .error e) :
    e = ErrInsufficientLPBalance ∨ e = ErrWrongSize := by
  unfold SubLPBalance getLPBalance at h
  rcases sub_row_error mu (LPBalanceKey a0 a1 addr) x e _ _ setLPBalance h with h1 | h1 | h1
  · exact Or.inl h1
  · exact Or.inl h1
  · exact Or.inr h1

/-- A failing `RemoveLiquidity.settle` whose subtractions are covered never
reports `ErrUnderflow`. -/
theorem RemoveLiquidity_settle_error {a : RemoveLiquidity} {mu : Store} {actor : Address}
    {pool : Pool} {out0 out1 : U64} {e : Err}
    (b0 : out0.val ≤ pool.Reserve0.val) (b1 : out1.val ≤ pool.Reserve1.val)
    (bT : a.LPAmount.val ≤ pool.TotalLP.val)
    (h : RemoveLiquidity.settle a mu actor pool out0 out1 = .error e) : e ≠ ErrUnderflow := by
  unfold RemoveLiquidity.settle at h
  rw [(smathSub_ok_iff _ _ _).2 ⟨b0, rfl⟩] at h
  simp only at h
  rw [(smathSub_ok_iff _ _ _).2 ⟨b1, rfl⟩] at h
  simp only at h
  rw [(smathSub_ok_iff _ _ _).2 ⟨bT, rfl⟩] at h
  simp only at h
  split at h
  · rename_i e1 he
    cases h
    rcases SubLPBalance_error he with z | z
    · rw [z]
      decide
    · rw [z]
      decide
  split at h
  · rename_i e1 he
    cases h
    exact (balance_error_ne (addAssetBalance_error he)).1
  split at h
  · rename_i e1 he
    cases h
    exact (balance_error_ne (addAssetBalance_error he)).1
  split at h
  · rename_i e1 he
    cases h
    unfold mapPoolAmountsToPair at he
    split at he
    · cases he
    split at he
    · cases he
    · cases he
      decide
  · cases h

/-- In a state with the LP accounting property a failing `remove_liquidity`
never reports `ErrUnderflow`: the reserve and `total_lp` subtractions are
always covered. -/
theorem RemoveLiquidity_no_underflow {mu : Store} (hinv : LPAccounting mu)
    {b : RemoveLiquidity} {ts : I64} {actor : Address} {tx : ID} {e : Err}
    (h : b.Execute mu ts actor tx = .error e) : e ≠ ErrUnderflow := by
  unfold RemoveLiquidity.Execute at h
  split at h
  · rename_i e1 hv
    cases h
    unfold validateAssetPair at hv
    split at hv
    · cases hv
      decide
    split at hv
    · cases hv
      decide
    · cases hv
  split at h
  · cases h
    decide
  split at h
  · rename_i e1 he
    cases h
    rcases GetPool_error he with z | ⟨msg, z⟩
    · rw [z]
      decide
    · rw [z]
      intro c
      cases c
  rename_i pool hpool
  split at h
  · cases h
    decide
  split at h
  · rename_i e1 he
    cases h
    rw [GetLPBalance_error he]
    decide
  rename_i lpb hlpb
  split at h
  · cases h
    decide
  rename_i hge
  split at h
  · rename_i e1 he
    cases h
    obtain ⟨msg, z⟩ := mulDiv_error he
    rw [z]
    intro c
    cases c
  rename_i out0 ho0
  split at h
  · rename_i e1 he
    cases h
    obtain ⟨msg, z⟩ := mulDiv_error he
    rw [z]
    intro c
    cases c
  rename_i out1 ho1
  split at h
  · cases h
    decide
  split at h
  · rename_i e1 he
    cases h
    unfold mapPairAmounts at he
    split at he
    · cases he
    split at he
    · cases he
    · cases he
      decide
  rename_i m0 m1 hmap
  split at h
  · cases h
    decide
  obtain ⟨hk, _⟩ := mapPairAmounts_keys hmap actor
  obtain ⟨bT, b0, b1, _⟩ := RemoveLiquidity_bounds hinv hpool hk hlpb (Nat.le_of_not_lt hge)
    ho0 ho1
  exact RemoveLiquidity_settle_error b0 b1 bT h

/-- The empty store has the LP accounting property. -/
theorem LPAccounting_empty : LPAccounting Store.empty :=
  LPAccounting_of_no_rows (fun _ _ => rfl) (fun _ _ => rfl)

/-- Writing a row that is neither a pool row nor an LP row keeps the LP
accounting property. -/
theorem LPAccounting_insert {mu : Store} (k v : Bytes) (p : Byte) (hk : k.head? = some p)
    (h1 : p ≠ poolPrefix) (h2 : p ≠ lpBalancePrefix) (hinv : LPAccounting mu) :
    LPAccounting (Store.insert mu k v) :=
  LPAccounting_congr
    (fun _ hq => Store.insert_other _ _ _ _ (ne_of_head hk hq (fun e => h1 e.symm)))
    (fun _ hq => Store.insert_other _ _ _ _ (ne_of_head hk hq (fun e => h2 e.symm))) hinv

/-- C38: LP supply accounting. In a state where every stored pool has
`total_lp` equal to the sum of `LPBalance[pair, addr]` over all addresses (and
pairs without a pool have no LP balances, as at genesis), the property holds
after `create_pool`, is kept by every successful action, and so holds in
every state reached from it. Consequently, in those states, whenever
`remove_liquidity` reaches its subtractions (the caller's LP balance covers
`lp_amount` and the outputs are computed), `lp_amount ≤ total_lp`, each
output is at most its reserve, the reserve and `total_lp` subtractions
succeed, and a failing `remove_liquidity` never reports `ErrUnderflow`. -/
theorem lp_supply_accounting (mu : Store) (hinv : LPAccounting mu) :
    (∀ (a : CreatePool) (ts : I64) (actor : Address) (tx : ID) (s : Store)
        (r : CreatePoolResult), a.Execute mu ts actor tx = .ok (s, r) →
        ∃ pool, GetPool s a.Asset0 a.Asset1 = .ok pool
          ∧ pool.TotalLP.val = lpSupply s a.Asset0 a.Asset1 ∧ LPAccounting s)
      ∧ (∀ (env : Env) (act : Action) (ts : I64) (actor : Address) (tx : ID) (s : Store),
          act.execute env mu ts actor tx = .ok s → LPAccounting s)
      ∧ (∀ (steps : List Step) (a0 a1 : Byte) (pool : Pool),
          GetPool (run steps mu) a0 a1 = .ok pool →
          pool.TotalLP.val = lpSupply (run steps mu) a0 a1)
      ∧ (∀ (steps : List Step) (b : RemoveLiquidity) (ts : I64) (actor : Address) (tx : ID),
          (∀ e, b.Execute (run steps mu) ts actor tx = .error e → e ≠ ErrUnderflow)
            ∧ (∀ (pool : Pool) (lpb out0 out1 m0 m1 : U64),
                GetPool (run steps mu) b.Asset0 b.Asset1 = .ok pool →
                GetLPBalance (run steps mu) pool.Asset0 pool.Asset1 actor = .ok lpb →
                b.LPAmount.val ≤ lpb.val →
                mulDiv b.LPAmount pool.Reserve0 pool.TotalLP = .ok out0 →
                mulDiv b.LPAmount pool.Reserve1 pool.TotalLP = .ok out1 →
                mapPairAmounts b.Asset0 b.Asset1 b.MinAmount0 b.MinAmount1 pool
                  = .ok (m0, m1) →
                b.LPAmount.val ≤ pool.TotalLP.val
                  ∧ out0.val ≤ pool.Reserve0.val ∧ out1.val ≤ pool.Reserve1.val
                  ∧ smathSub pool.Reserve0 out0 = .ok (pool.Reserve0 - out0)
                  ∧ smathSub pool.Reserve1 out1 = .ok (pool.Reserve1 - out1)
                  ∧ smathSub pool.TotalLP b.LPAmount = .ok (pool.TotalLP - b.LPAmount))) := by
  refine ⟨?_, ?_, ?_, ?_⟩
  · intro a ts actor tx s r h
    obtain ⟨hacc, pool, hget, _, _⟩ := LPAccounting_CreatePool h hinv
    exact ⟨pool, hget, (hacc _ _).2 pool hget, hacc⟩
  · intro env act ts actor tx s h
    exact LPAccounting_step h hinv
  · intro steps a0 a1 pool hget
    exact (LPAccounting_run steps mu hinv a0 a1).2 pool hget
  · intro steps b ts actor tx
    have hr := LPAccounting_run steps mu hinv
    refine ⟨fun e he => RemoveLiquidity_no_underflow hr he, ?_⟩
    intro pool lpb out0 out1 m0 m1 hpool hlp hle h0 h1 hmap
    obtain ⟨hk, _⟩ := mapPairAmounts_keys hmap actor
    exact RemoveLiquidity_bounds hr hpool hk hlp hle h0 h1

/-- C38 (witness): starting without pools, after `create_pool`, a deposit of
`(10000, 10000)`, a removal of 1000 LP and a swap, the pool's `total_lp` of
9000 is the sum of all LP balances of the pair. -/
theorem lp_supply_accounting_witness :
    lpSupply (run Scenario.ammSteps Scenario.ammFunded) AssetVEIL AssetVAI = 9000 :=
  ((lp_supply_accounting Scenario.ammFunded
    (LPAccounting_insert _ _ _ rfl (by decide) (by decide)
      (LPAccounting_insert _ _ _ rfl (by decide) (by decide)
        (LPAccounting_insert _ _ _ rfl (by decide) (by decide) LPAccounting_empty)))).2.2.1
    Scenario.ammSteps AssetVEIL AssetVAI ⟨0, 1, 30, 9100, 8903, 9000⟩ (by decide!)).symm

/-- C22, the code at the failing input. With `mint_epoch_seconds = 2^63 - 1`,
a value genesis validation accepts, the `int64` product
`mint_epoch_seconds * 1000` wraps to `-1000`: after a first mint of 500 at
`t = 1000` with `epoch_mint_limit = 500`, a second mint of 500 at `t = 1001`
resets the epoch and succeeds, although `1001 < 1000 + (2^63 - 1) * 1000`, so
the rule of the claim keeps the counter and gives `epoch_minted = 1000`,
above the limit. With an epoch of 3600 seconds the same second mint fails
with `ErrVAIEpochMintLimitExceeded`. -/
theorem mint_epoch_product_wraps :
    validateTokenomics [] (some Scenario.longMintEpochTokenomics) = none
      ∧ GetVAIConfig Scenario.longMintEpochGenesis
        = .ok ⟨Scenario.minter, 2000000, 500, ⟨9223372036854775807⟩⟩
      ∧ GetVAIState Scenario.longMintEpochGenesis = .ok ⟨0, ⟨0⟩, 0⟩
      ∧ succeeded ((⟨Scenario.trader, 500⟩ : MintVAI).Execute Scenario.longMintEpochGenesis
        ⟨1000⟩ Scenario.minter Scenario.txID) = true
      ∧ GetVAIState Scenario.afterLongEpochMint = .ok ⟨500, ⟨1000⟩, 500⟩
      ∧ succeeded ((⟨Scenario.trader, 500⟩ : MintVAI).Execute Scenario.afterLongEpochMint
        ⟨1001⟩ Scenario.minter Scenario.txID) = true
      ∧ GetVAIState Scenario.afterSecondLongEpochMint = .ok ⟨1000, ⟨1001⟩, 500⟩
      ∧ GetVAIBalance Scenario.afterSecondLongEpochMint Scenario.trader = .ok 1000
      ∧ ¬ ((1000 : Int) + 9223372036854775807 * 1000 ≤ 1001)
      ∧ ¬ (500 + 500 ≤ 500)
      ∧ (I64.mul ⟨9223372036854775807⟩ (I64.ofInt 1000)).toInt = -1000
      ∧ (I64.add ⟨1000⟩ (I64.mul ⟨9223372036854775807⟩ (I64.ofInt 1000))).toInt = 0
      ∧ GetVAIState Scenario.afterHourEpochMint = .ok ⟨500, ⟨1000⟩, 500⟩
      ∧ errorOf ((⟨Scenario.trader, 500⟩ : MintVAI).Execute Scenario.afterHourEpochMint
        ⟨1001⟩ Scenario.minter Scenario.txID) = some ErrVAIEpochMintLimitExceeded := by
  decide!

end VeilVM
